import Mathlib

/-! # GenICam camera wrapper: acquisition lifecycle

A shallow embedding of `GenICamCamera.cpp` (connection, parameter access,
start/stop of streaming, buffer ring) and theorems about it.

Conventions of the embedding
* A C++ member function becomes a state transformer returning the outcome
  together with the state reached, so that mutations made before an exception
  is thrown stay visible to the handlers and to the caller.
* Transport-layer (GenTL) entry points are answered by an oracle indexed by the
  position of the call in the trace of issued calls; every call is logged.
* Handles are natural numbers, `0` is `nullptr`; a successful call that
  returns a handle returns a non-null one.
* `double` values are rationals (no NaN, no infinities, exact arithmetic).
-/

namespace GenICamWrapper

/-! ## Errors -/

/-- The enumeration `ErrorType` of `GenICamException.h`. -/
inductive ErrorType where
  | GenApiError
  | GenTLError
  | ConnectionError
  | AcquisitionError
  | ParameterError
  | TimeoutError
  | BufferError
  | InvalidOperation
  | ChunkDataError
  | Unknown
  deriving DecidableEq, Repr

/-- What can be thrown.  `genicam t code` is `GenICamException` (derived from
`std::exception`), `generic` is the GenApi library's `GenericException`
(matched only by its own handlers and by `catch (...)`), `stdExn` is any other
`std::exception` (for instance `std::invalid_argument` from `std::stoull`),
`foreign` is a thrown object that is not a `std::exception` (a listener may
throw one), and `nullDeref` stands for dereferencing a null `m_pNodeMap`, which
no handler intercepts. -/
inductive Exn where
  | genicam (t : ErrorType) (code : Nat)
  | generic
  | stdExn
  | foreign
  | nullDeref
  deriving DecidableEq, Repr

/-- Whether `catch (const std::exception&)` matches. -/
def Exn.isStd : Exn → Bool
  | .genicam _ _ => true
  | .stdExn => true
  | _ => false

/-- Whether `catch (const GenICamException&)` matches. -/
def Exn.isGenICam : Exn → Bool
  | .genicam _ _ => true
  | _ => false

/-- Whether `catch (const GENICAM_NAMESPACE::GenericException&)` matches. -/
def Exn.isGeneric : Exn → Bool
  | .generic => true
  | _ => false

/-- Whether `catch (...)` matches: everything that is a C++ exception. -/
def Exn.isCatchable : Exn → Bool
  | .nullDeref => false
  | _ => true

/-! ## The state-and-exception monad -/

/-- A computation over a state `σ` that returns a value or throws; the state
reached is kept in both cases. -/
def M (σ : Type) (α : Type) : Type := σ → Except Exn α × σ

/-- Return without touching the state. -/
def M.ret {σ α : Type} (a : α) : M σ α := fun s => (.ok a, s)

/-- Sequencing: an exception of the first part skips the second. -/
def M.andThen {σ α β : Type} (m : M σ α) (f : α → M σ β) : M σ β := fun s =>
  match m s with
  | (.ok a, s1) => f a s1
  | (.error e, s1) => (.error e, s1)

instance (σ : Type) : Monad (M σ) where
  pure := M.ret
  bind := M.andThen

/-- The C++ `throw`. -/
def raise {σ α : Type} (e : Exn) : M σ α := fun s => (.error e, s)

/-- A handler guarded by a predicate on the thrown object:
`try { m } catch (T& e) { h e }`. An exception raised by the handler itself
propagates. -/
def tryCatchIf {σ α : Type} (sel : Exn → Bool) (m : M σ α) (h : Exn → M σ α) : M σ α := fun s =>
  match m s with
  | (.ok a, s1) => (.ok a, s1)
  | (.error e, s1) => if sel e then h e s1 else (.error e, s1)

/-- Read the state. -/
def getS {σ : Type} : M σ σ := fun s => (.ok s, s)

/-- Update the state. -/
def modS {σ : Type} (f : σ → σ) : M σ Unit := fun s => (.ok (), f s)

/-- Equality of outcomes is decidable. -/
instance exceptDecEq {α : Type} [DecidableEq α] : DecidableEq (Except Exn α)
  | .ok a, .ok b =>
    if h : a = b then isTrue (by rw [h]) else isFalse (by intro h1; cases h1; exact h rfl)
  | .error a, .error b =>
    if h : a = b then isTrue (by rw [h]) else isFalse (by intro h1; cases h1; exact h rfl)
  | .ok _, .error _ => isFalse (by intro h; cases h)
  | .error _, .ok _ => isFalse (by intro h; cases h)

/-! ## Library string conversions -/

/-- The C `isspace` on the characters that matter here. -/
def isSpaceChar (c : Char) : Bool :=
  c = ' ' || c = '\t' || c = '\n' || c = '\r' || c.toNat = 11 || c.toNat = 12

/-- Value of a digit in the given base, if it is one. -/
def digitVal (base : Nat) (c : Char) : Option Nat :=
  let v : Option Nat :=
    if '0' ≤ c ∧ c ≤ '9' then some (c.toNat - '0'.toNat)
    else if 'a' ≤ c ∧ c ≤ 'z' then some (c.toNat - 'a'.toNat + 10)
    else if 'A' ≤ c ∧ c ≤ 'Z' then some (c.toNat - 'A'.toNat + 10)
    else none
  match v with
  | some d => if d < base then some d else none
  | none => none

/-- Consume the longest run of digits, accumulating the value; returns the
value and the number of digits read. -/
def readDigits (base : Nat) : List Char → Nat → Nat → Nat × Nat
  | [], acc, n => (acc, n)
  | c :: cs, acc, n =>
    match digitVal base c with
    | some d => readDigits base cs (acc * base + d) (n + 1)
    | none => (acc, n)

/-- Drop leading white space. -/
def skipSpaces : List Char → List Char
  | [] => []
  | c :: cs => if isSpaceChar c then skipSpaces cs else c :: cs

/-- Split off an optional sign; `true` means negative. -/
def readSign : List Char → Bool × List Char
  | '-' :: cs => (true, cs)
  | '+' :: cs => (false, cs)
  | cs => (false, cs)

/-- The call `std::stoull(str, nullptr, 16)`: `none` when it throws
(`std::invalid_argument` without a digit, `std::out_of_range` above 64 bits).
A leading minus sign negates modulo `2^64`, as `strtoull` does. -/
def stoull16 (str : List Char) : Option Nat :=
  let (neg, rest) := readSign (skipSpaces str)
  let body : List Char :=
    match rest with
    | '0' :: x :: d :: cs =>
      if (x = 'x' || x = 'X') && (digitVal 16 d).isSome then d :: cs else rest
    | _ => rest
  let (v, n) := readDigits 16 body 0 0
  if n = 0 then none
  else if 2 ^ 64 ≤ v then none
  else some (if neg then (2 ^ 64 - v) % 2 ^ 64 else v)

/-- The call `std::stoll(str)`: `none` when it throws. -/
def stoll (str : String) : Option Int :=
  let (neg, rest) := readSign (skipSpaces str.data)
  let (v, n) := readDigits 10 rest 0 0
  if n = 0 then none
  else
    let r : Int := if neg then - (v : Int) else (v : Int)
    if r < - (2 ^ 63 : Int) ∨ (2 ^ 63 : Int) ≤ r then none else some r

/-- The call `std::to_string` on an integer. -/
def intToString (i : Int) : String :=
  if i < 0 then "-" ++ toString i.natAbs else toString i.natAbs

/-- Left-pad a decimal numeral with zeros to six places. -/
def padSix (s : String) : String :=
  String.mk (List.replicate (6 - s.length) '0') ++ s

/-- Rounding to the nearest integer, ties to the even one: the rounding of
`printf` in the default floating-point environment. -/
def roundHalfEven (x : ℚ) : Int :=
  if x - ⌊x⌋ < 1 / 2 then ⌊x⌋
  else if 1 / 2 < x - ⌊x⌋ then ⌊x⌋ + 1
  else if ⌊x⌋ % 2 = 0 then ⌊x⌋ else ⌊x⌋ + 1

/-- The call `std::to_string` on a `double`: fixed notation with six decimals.
-/
def doubleToString (x : ℚ) : String :=
  let scaled : Nat := (roundHalfEven (|x| * 1000000)).natAbs
  let body := toString (scaled / 1000000) ++ "." ++ padSix (toString (scaled % 1000000))
  if x < 0 then "-" ++ body else body

/-- The call `std::stod(str)` on plain decimal numerals
(`[sign]digits[.digits]`); `none` when it throws. -/
def stod (str : String) : Option ℚ :=
  let (neg, rest) := readSign (skipSpaces str.data)
  let (ip, n1) := readDigits 10 rest 0 0
  let afterInt := rest.drop n1
  let (fp, n2) : Nat × Nat :=
    match afterInt with
    | '.' :: cs => readDigits 10 cs 0 0
    | _ => (0, 0)
  if n1 = 0 ∧ n2 = 0 then none
  else
    let v : ℚ := (ip : ℚ) + (fp : ℚ) / (10 : ℚ) ^ n2
    some (if neg then - v else v)

/-- The C `round`: to the nearest integer, halves away from zero. -/
def roundHalfAway (x : ℚ) : Int :=
  if 0 ≤ x then ⌊x + 1 / 2⌋ else - ⌊- x + 1 / 2⌋

/-! ## The feature tree (GenApi NodeMap) -/

/-- The principal interface of a node (`GenApi::EInterfaceType`). -/
inductive EInterfaceType where
  | intfIValue
  | intfIBase
  | intfIInteger
  | intfIBoolean
  | intfICommand
  | intfIFloat
  | intfIString
  | intfIRegister
  | intfICategory
  | intfIEnumeration
  | intfIEnumEntry
  | intfIPort
  deriving DecidableEq, Repr

/-- The access mode of a node (`GenApi::EAccessMode`). -/
inductive EAccessMode where
  | NI
  | NA
  | WO
  | RO
  | RW
  deriving DecidableEq, Repr

/-- An entry of an enumeration node. -/
structure EnumEntry where
  symbolic : String
  value : Int
  deriving DecidableEq, Repr

/-- A node of the feature tree together with the part of the device it maps.
A node implements exactly its principal interface.  `ioFails` makes every
register access behind the node throw `GenericException`. -/
structure Node where
  name : String
  intf : EInterfaceType
  access : EAccessMode
  ival : Int := 0
  fval : ℚ := 0
  sval : String := ""
  fmin : ℚ := 0
  fmax : ℚ := 0
  hasInc : Bool := false
  finc : ℚ := 0
  imin : Int := 0
  imax : Int := 0
  iinc : Int := 1
  entries : List EnumEntry := []
  ioFails : Bool := false
  deriving DecidableEq, Repr

/-- The GenApi predicate `IsReadable`. -/
def Node.isReadable (n : Node) : Bool := n.access = .RO || n.access = .RW

/-- The GenApi predicate `IsWritable`. -/
def Node.isWritable (n : Node) : Bool := n.access = .WO || n.access = .RW

/-- The GenApi predicate `IsImplemented`. -/
def Node.isImplemented (n : Node) : Bool := n.access ≠ .NI

/-- The GenApi predicate `IsAvailable`. -/
def Node.isAvailable (n : Node) : Bool := n.access ≠ .NI && n.access ≠ .NA

/-- A `CNodeMapRef`: `nodes = none` until a description has been loaded. -/
structure NodeMapRef where
  nodes : Option (List Node)
  deriving DecidableEq, Repr

/-- Look a node up by name in a loaded description. -/
def findNode (name : String) : List Node → Option Node
  | [] => none
  | n :: ns => if n.name = name then some n else findNode name ns

/-- Replace the node of the given name. -/
def updateNode (name : String) (f : Node → Node) : List Node → List Node
  | [] => []
  | n :: ns => if n.name = name then f n :: ns else n :: updateNode name f ns

/-- One entry of `m_parameterCache`: value and time stamp (ms). -/
structure CacheEntry where
  key : String
  value : String
  stamp : Nat
  deriving DecidableEq, Repr

/-- A write or command that reached a node: the calls `SetValue`,
`FromString`, `SetIntValue` and `Execute`, in the order they were issued. -/
inductive NodeOp where
  | setInt (name : String) (v : Int)
  | setFloat (name : String) (v : ℚ)
  | setString (name : String) (v : String)
  | setBool (name : String) (v : Bool)
  | setEnum (name : String) (v : String)
  | setEnumInt (name : String) (v : Int)
  | execute (name : String)
  deriving DecidableEq, Repr

/-- The part of the session the parameter layer works on: `m_pNodeMap`,
`m_pCameraPort`, `m_nodeMapValid`, `m_lastNodeMapRefresh`, `m_parameterCache`,
the reading of `steady_clock` (milliseconds), which the program only reads,
and the record `nodeOps` of the writes and commands issued to nodes (newest
last), which the program never reads. -/
structure PState where
  pNodeMap : Option NodeMapRef := none
  hasCameraPort : Bool := false
  nodeMapValid : Bool := false
  lastNodeMapRefresh : Nat := 0
  parameterCache : List CacheEntry := []
  now : Nat := 0
  nodeOps : List NodeOp := []
  deriving DecidableEq, Repr

/-- Parameter-layer computations. -/
abbrev PM (α : Type) : Type := M PState α

/-- The constant `NODEMAP_REFRESH_INTERVAL` (30 s), in seconds. -/
def NODEMAP_REFRESH_INTERVAL : Nat := 30

/-- The constant `CACHE_TIMEOUT` (100 ms). -/
def CACHE_TIMEOUT : Nat := 100

/-- The call `m_pNodeMap->_GetNode(name)`: dereferences `m_pNodeMap`; throws
`GenericException` on a reference without a loaded description; a missing
node is a null pointer. -/
def nmGetNode (name : String) : PM (Option Node) := fun p =>
  match p.pNodeMap with
  | none => (.error .nullDeref, p)
  | some r =>
    match r.nodes with
    | none => (.error .generic, p)
    | some ns => (.ok (findNode name ns), p)

/-- Write back a node of the loaded description. -/
def nmUpdate (name : String) (f : Node → Node) : PM Unit := modS fun p =>
  { p with pNodeMap := p.pNodeMap.map fun r => { r with nodes := r.nodes.map (updateNode name f) } }

/-- The method `isNodeMapStale`: whole seconds since the last refresh exceed
the interval. -/
def isNodeMapStale (p : PState) : Bool :=
  decide ((p.now - p.lastNodeMapRefresh) / 1000 > NODEMAP_REFRESH_INTERVAL)

/-- The call `pRoot->InvalidateNode()`. -/
def invalidateNode (n : Node) : PM Unit :=
  if n.ioFails then raise .generic else pure ()

/-- The method `refreshNodeMap`. -/
def refreshNodeMap : PM Unit := fun p =>
  if p.pNodeMap.isNone || !p.hasCameraPort then (.ok (), p)
  else
    (tryCatchIf Exn.isGeneric
      (do
        modS fun q => { q with parameterCache := [] }
        let pRoot ← nmGetNode "Root"
        let pRoot ← (match pRoot with
          | some n => pure (some n)
          | none => nmGetNode "Device")
        match pRoot with
        | some n => invalidateNode n
        | none => pure ()
        modS fun q => { q with lastNodeMapRefresh := q.now, nodeMapValid := true })
      (fun _ => modS fun q => { q with nodeMapValid := false })) p

/-- The method `validateNodeMap`. -/
def validateNodeMap : PM Unit := fun p =>
  if !p.nodeMapValid || p.pNodeMap.isNone then
    (.error (.genicam .GenApiError 0), p)
  else if isNodeMapStale p then refreshNodeMap p
  else (.ok (), p)

/-- The method `getNode`. -/
def getNode (nodeName : String) : PM Node := do
  validateNodeMap
  let p ← getS
  if p.pNodeMap.isNone then raise (.genicam .ConnectionError 0)
  else
    let node ← nmGetNode nodeName
    match node with
    | none => raise (.genicam .ParameterError 0)
    | some n => pure n

/-- The typed helpers `getFloatNode`, `getIntegerNode`, `getEnumerationNode`,
`getCommandNode`, `getBooleanNode`, `getStringNode` share this body. -/
def getTypedNode (intf : EInterfaceType) (nodeName : String) : PM Node := do
  validateNodeMap
  let node ← getNode nodeName
  if node.intf = intf then pure node else raise (.genicam .ParameterError 0)

/-- The method `getFloatNode`. -/
def getFloatNode (nodeName : String) : PM Node := getTypedNode .intfIFloat nodeName

/-- The method `getIntegerNode`. -/
def getIntegerNode (nodeName : String) : PM Node := getTypedNode .intfIInteger nodeName

/-- The method `getEnumerationNode`. -/
def getEnumerationNode (nodeName : String) : PM Node := getTypedNode .intfIEnumeration nodeName

/-- The method `getCommandNode`. -/
def getCommandNode (nodeName : String) : PM Node := getTypedNode .intfICommand nodeName

/-- The method `getBooleanNode`. -/
def getBooleanNode (nodeName : String) : PM Node := getTypedNode .intfIBoolean nodeName

/-- The method `getStringNode`. -/
def getStringNode (nodeName : String) : PM Node := getTypedNode .intfIString nodeName

/-! ### GenApi value access

Reads need a readable node, writes a writable one and a value inside the
declared range; a failing register access or a refused value throws
`GenericException`.  Every write or command is recorded in `nodeOps` before it
is checked. -/

/-- Record a node operation. -/
def logOp (op : NodeOp) : PM Unit := modS fun p => { p with nodeOps := p.nodeOps ++ [op] }

/-- The call `IInteger::GetValue`. -/
def intGetValue (n : Node) : PM Int :=
  if n.isReadable && !n.ioFails then pure n.ival else raise .generic

/-- The call `IInteger::SetValue`. -/
def intSetValue (n : Node) (v : Int) : PM Unit := do
  logOp (.setInt n.name v)
  if n.isWritable && !n.ioFails && decide (n.imin ≤ v) && decide (v ≤ n.imax) then
    nmUpdate n.name fun m => { m with ival := v }
  else raise .generic

/-- The call `IFloat::GetValue`. -/
def floatGetValue (n : Node) : PM ℚ :=
  if n.isReadable && !n.ioFails then pure n.fval else raise .generic

/-- The call `IFloat::SetValue`. -/
def floatSetValue (n : Node) (v : ℚ) : PM Unit := do
  logOp (.setFloat n.name v)
  if n.isWritable && !n.ioFails && decide (n.fmin ≤ v) && decide (v ≤ n.fmax) then
    nmUpdate n.name fun m => { m with fval := v }
  else raise .generic

/-- The call `IString::GetValue`. -/
def stringGetValue (n : Node) : PM String :=
  if n.isReadable && !n.ioFails then pure n.sval else raise .generic

/-- The call `IString::SetValue`. -/
def stringSetValue (n : Node) (v : String) : PM Unit := do
  logOp (.setString n.name v)
  if n.isWritable && !n.ioFails then nmUpdate n.name fun m => { m with sval := v }
  else raise .generic

/-- The call `IBoolean::GetValue`. -/
def boolGetValue (n : Node) : PM Bool :=
  if n.isReadable && !n.ioFails then pure (decide (n.ival ≠ 0)) else raise .generic

/-- The call `IBoolean::SetValue`. -/
def boolSetValue (n : Node) (v : Bool) : PM Unit := do
  logOp (.setBool n.name v)
  if n.isWritable && !n.ioFails then
    nmUpdate n.name fun m => { m with ival := if v then 1 else 0 }
  else raise .generic

/-- The call `IEnumeration::GetEntryByName`. -/
def enumEntryByName (n : Node) (sym : String) : Option EnumEntry :=
  n.entries.find? fun e => e.symbolic = sym

/-- The call `IEnumeration::GetCurrentEntry`. -/
def enumCurrentEntry (n : Node) : PM (Option EnumEntry) :=
  if n.isReadable && !n.ioFails then pure (n.entries.find? fun e => e.value = n.ival)
  else raise .generic

/-- The call `IEnumeration::ToString`. -/
def enumToString (n : Node) : PM String := do
  let e ← enumCurrentEntry n
  match e with
  | some e => pure e.symbolic
  | none => raise .generic

/-- The call `IEnumeration::FromString` (also `operator=`). -/
def enumFromString (n : Node) (sym : String) : PM Unit := do
  logOp (.setEnum n.name sym)
  match enumEntryByName n sym with
  | some e =>
    if n.isWritable && !n.ioFails then nmUpdate n.name fun m => { m with ival := e.value }
    else raise .generic
  | none => raise .generic

/-- The call `IEnumeration::SetIntValue`. -/
def enumSetIntValue (n : Node) (v : Int) : PM Unit := do
  logOp (.setEnumInt n.name v)
  if n.isWritable && !n.ioFails && (n.entries.any fun e => e.value = v) then
    nmUpdate n.name fun m => { m with ival := v }
  else raise .generic

/-- The call `ICommand::Execute`; the command is done as soon as it returns,
so that the loops polling `IsDone` end at once. -/
def commandExecute (n : Node) : PM Unit := do
  logOp (.execute n.name)
  if n.isWritable && !n.ioFails then pure () else raise .generic

/-! ### Generic parameter access -/

/-- The method `notifyParameterChanged`: the call of the listener is commented
out in the source, nothing happens. -/
def notifyParameterChanged (_parameterName _value : String) : PM Unit := pure ()

/-- Body shared by `isParameterAvailable`, `isParameterReadable` and
`isParameterWritable`, which differ in the predicate applied to the node. -/
def probeParameter (test : Node → Bool) (parameterName : String) : PM Bool := fun p =>
  if p.pNodeMap.isNone then (.ok false, p)
  else
    (tryCatchIf Exn.isCatchable
      (do
        let node ← nmGetNode parameterName
        match node with
        | some n => pure (test n)
        | none => pure false)
      (fun _ => pure false)) p

/-- The method `isParameterAvailable`. -/
def isParameterAvailable (parameterName : String) : PM Bool :=
  probeParameter Node.isImplemented parameterName

/-- The method `isParameterReadable`. -/
def isParameterReadable (parameterName : String) : PM Bool :=
  probeParameter Node.isReadable parameterName

/-- The method `isParameterWritable`. -/
def isParameterWritable (parameterName : String) : PM Bool :=
  probeParameter Node.isWritable parameterName

/-- The `try` block of `getParameter`. -/
def getParameterBody (parameterName : String) : PM String := do
  let pNode ← getNode parameterName
  if !pNode.isReadable then raise (.genicam .ParameterError 0)
  else
    match pNode.intf with
    | .intfIInteger => do
      let v ← intGetValue pNode
      pure (intToString v)
    | .intfIFloat => do
      let v ← floatGetValue pNode
      pure (doubleToString v)
    | .intfIString => stringGetValue pNode
    | .intfIEnumeration => enumToString pNode
    | .intfIBoolean => do
      let v ← boolGetValue pNode
      pure (if v then "true" else "false")
    | _ => raise (.genicam .ParameterError 0)

/-- The method `getParameter`: only `GenericException` is translated (to
`GenApiError`); a `GenICamException` of the body propagates as it is. -/
def getParameter (parameterName : String) : PM String :=
  tryCatchIf Exn.isGeneric (getParameterBody parameterName)
    (fun _ => raise (.genicam .GenApiError 0))

/-- The `try` block of `setParameter`. -/
def setParameterBody (parameterName value : String) : PM Unit := do
  let pNode ← getNode parameterName
  if !pNode.isWritable then raise (.genicam .ParameterError 0)
  else
    match pNode.intf with
    | .intfIInteger =>
      match stoll value with
      | none => raise .stdExn
      | some intValue => do
        intSetValue pNode intValue
        notifyParameterChanged parameterName value
    | .intfIFloat =>
      match stod value with
      | none => raise .stdExn
      | some floatValue => do
        floatSetValue pNode floatValue
        notifyParameterChanged parameterName value
    | .intfIString => do
      stringSetValue pNode value
      notifyParameterChanged parameterName value
    | .intfIEnumeration =>
      match enumEntryByName pNode value with
      | some _ => do
        enumFromString pNode value
        notifyParameterChanged parameterName value
      | none =>
        tryCatchIf Exn.isCatchable
          (match stoll value with
            | none => raise .stdExn
            | some enumValue => do
              enumSetIntValue pNode enumValue
              notifyParameterChanged parameterName value)
          (fun _ => raise (.genicam .ParameterError 0))
    | .intfIBoolean => do
      boolSetValue pNode (value = "true" || value = "1" || value = "True" || value = "TRUE")
      notifyParameterChanged parameterName value
    | .intfICommand => do
      commandExecute pNode
      notifyParameterChanged parameterName "Executed"
    | _ => raise (.genicam .ParameterError 0)

/-- The method `setParameter`: its two handlers belong to one `try`, the first
matching one runs: `GenericException` becomes `GenApiError`, any
`std::exception` (a `GenICamException` of the body included) becomes
`ParameterError`. -/
def setParameter (parameterName value : String) : PM Unit :=
  tryCatchIf (fun e => e.isGeneric || e.isStd) (setParameterBody parameterName value)
    (fun e => if e.isGeneric then raise (.genicam .GenApiError 0)
      else raise (.genicam .ParameterError 0))

/-! ### Transport-layer preparation and lock -/

/-- The calls `GetMin`, `GetMax`, `GetInc` of an integer node. -/
def intGetMin (n : Node) : PM Int := if n.ioFails then raise .generic else pure n.imin

/-- See `intGetMin`. -/
def intGetMax (n : Node) : PM Int := if n.ioFails then raise .generic else pure n.imax

/-- See `intGetMin`. -/
def intGetInc (n : Node) : PM Int := if n.ioFails then raise .generic else pure n.iinc

/-- The calls `GetMin`, `GetMax`, `GetInc` of a float node. -/
def floatGetMin (n : Node) : PM ℚ := if n.ioFails then raise .generic else pure n.fmin

/-- See `floatGetMin`. -/
def floatGetMax (n : Node) : PM ℚ := if n.ioFails then raise .generic else pure n.fmax

/-- See `floatGetMin`. -/
def floatGetInc (n : Node) : PM ℚ := if n.ioFails then raise .generic else pure n.finc

/-- The method `getOptimalPacketSize`. -/
def getOptimalPacketSize : PM Int :=
  tryCatchIf Exn.isCatchable
    (do
      let avail ← isParameterAvailable "GevSCPSPacketSize"
      if avail then do
        let pPacketSize ← getIntegerNode "GevSCPSPacketSize"
        let max ← intGetMax pPacketSize
        if max ≥ 9000 then pure 8192 else pure 1500
      else pure 1500)
    (fun _ => pure 1500)

/-- Conversion of a `double` to `int64_t`: truncation toward zero. -/
def truncToInt (x : ℚ) : Int := if 0 ≤ x then ⌊x⌋ else ⌈x⌉

/-- The method `calculateOptimalInterPacketDelay`. -/
def calculateOptimalInterPacketDelay : PM Int :=
  tryCatchIf Exn.isCatchable
    (do
      let a ← isParameterAvailable "GevSCPSPacketSize"
      let b ← (if a then isParameterAvailable "DeviceLinkSpeed" else pure false)
      if b then do
        let ps ← getParameter "GevSCPSPacketSize"
        match stoll ps with
        | none => raise .stdExn
        | some packetSize => do
          let ls ← getParameter "DeviceLinkSpeed"
          match stoll ls with
          | none => raise .stdExn
          | some linkSpeed =>
            let delay : Int := truncToInt (((packetSize : ℚ) * 8) / ((linkSpeed : ℚ) * (7 / 10)))
            pure (max 0 delay)
      else pure 1000)
    (fun _ => pure 1000)

/-- The table of `configureTimeouts`. -/
def timeoutTable : List (String × Int) :=
  [("GevSCFTD", 5000000), ("GevSCPHostReceiveTimeout", 1000000),
   ("TransferTimeout", 5000000), ("AcquisitionStatusTimeout", 10000000)]

/-- The loop of `configureTimeouts`. -/
def configureTimeoutsLoop : List (String × Int) → PM Unit
  | [] => pure ()
  | (param, value) :: rest => do
    let a ← isParameterAvailable param
    let w ← (if a then isParameterWritable param else pure false)
    (if w then
      tryCatchIf Exn.isCatchable (setParameter param (intToString value)) (fun _ => pure ())
    else pure ())
    configureTimeoutsLoop rest

/-- The method `configureTimeouts`. -/
def configureTimeouts : PM Unit := configureTimeoutsLoop timeoutTable

/-- The method `prepareTransportLayerForAcquisition`. -/
def prepareTransportLayerForAcquisition : PM Unit := do
  let a1 ← isParameterAvailable "GevSCPSPacketSize"
  (if a1 then
    tryCatchIf Exn.isCatchable
      (do
        let optimalPacketSize ← getOptimalPacketSize
        let pPacketSize ← getIntegerNode "GevSCPSPacketSize"
        if pPacketSize.isWritable then do
          let min ← intGetMin pPacketSize
          let max ← intGetMax pPacketSize
          let inc ← intGetInc pPacketSize
          let clamped : Int := Max.max min (Min.min optimalPacketSize max)
          let aligned : Int := if inc > 1 then (Int.tdiv clamped inc) * inc else clamped
          intSetValue pPacketSize aligned
        else pure ())
      (fun _ => pure ())
  else pure ())
  let a2 ← isParameterAvailable "GevSCPD"
  (if a2 then
    tryCatchIf Exn.isCatchable
      (do
        let optimalDelay ← calculateOptimalInterPacketDelay
        setParameter "GevSCPD" (intToString optimalDelay))
      (fun _ => pure ())
  else pure ())
  let a3 ← isParameterAvailable "StreamBufferHandlingMode"
  (if a3 then
    tryCatchIf Exn.isCatchable (setParameter "StreamBufferHandlingMode" "NewestOnly")
      (fun _ =>
        tryCatchIf Exn.isCatchable (setParameter "StreamBufferHandlingMode" "OldestFirst")
          (fun _ => pure ()))
  else pure ())
  configureTimeouts
  let a5 ← isParameterAvailable "EventNotification"
  (if a5 then
    tryCatchIf Exn.isCatchable (setParameter "EventNotification" "On") (fun _ => pure ())
  else pure ())

/-- The table `lockParams` of `setTransportLayerLock`. -/
def lockParams (lock : Bool) : List (String × String) :=
  [("TLParamsLocked", "1"),
   ("StreamEnable", if lock then "true" else "false"),
   ("AcquisitionEnable", if lock then "true" else "false"),
   ("GevStreamChannelSelector", "0"),
   ("StreamChannelEnable", if lock then "true" else "false")]

/-- One iteration of the loop of `setTransportLayerLock`; the result tells
whether the loop is left (`break`). -/
def lockStep (lock : Bool) (paramName lockValue : String) : PM Bool :=
  tryCatchIf Exn.isStd
    (do
      let avail ← isParameterAvailable paramName
      if !avail then pure false
      else if paramName = "GevStreamChannelSelector" then do
        setParameter paramName "0"
        pure false
      else do
        let writable ← isParameterWritable paramName
        if !writable then pure false
        else do
          let setValue : String :=
            if paramName = "TLParamsLocked" then (if lock then "1" else "0")
            else (if lock then lockValue else (if lockValue = "true" then "false" else "0"))
          setParameter paramName setValue
          let readable ← isParameterReadable paramName
          if readable then do
            let readback ← getParameter paramName
            pure (decide (readback = setValue))
          else pure false)
    (fun _ => pure false)

/-- The loop of `setTransportLayerLock`. -/
def lockLoop (lock : Bool) : List (String × String) → PM Bool
  | [] => pure false
  | (paramName, lockValue) :: rest => do
    let found ← lockStep lock paramName lockValue
    if found then pure true else lockLoop lock rest

/-- The part of `setTransportLayerLock` that works on the feature tree. -/
def setTransportLayerLockP (lock : Bool) : PM Bool := do
  let _paramFound ← lockLoop lock (lockParams lock)
  pure true

/-! ### ROI and pixel format -/

/-- The structure `ROI` (32-bit unsigned fields). -/
structure ROI where
  x : Nat := 0
  y : Nat := 0
  width : Nat := 0
  height : Nat := 0
  deriving DecidableEq, Repr

/-- Conversion of an `int64_t` to `uint32_t`. -/
def toU32 (i : Int) : Nat := (i % 2 ^ 32).toNat

/-- Conversion of an `int64_t` to `uint64_t` or `size_t`. -/
def toU64 (i : Int) : Nat := (i % 2 ^ 64).toNat

/-- The method `getROI`. -/
def getROI : PM ROI :=
  tryCatchIf Exn.isGeneric
    (do
      let pOffsetX ← getIntegerNode "OffsetX"
      let pOffsetY ← getIntegerNode "OffsetY"
      let pWidth ← getIntegerNode "Width"
      let pHeight ← getIntegerNode "Height"
      let x ← intGetValue pOffsetX
      let y ← intGetValue pOffsetY
      let w ← intGetValue pWidth
      let h ← intGetValue pHeight
      pure { x := toU32 x, y := toU32 y, width := toU32 w, height := toU32 h })
    (fun _ => raise (.genicam .GenApiError 0))

/-- The enumeration `PixelFormat` of `ImageTypes.h`. -/
inductive PixelFormat where
  | Mono8 | Mono10 | Mono12 | Mono14 | Mono16
  | Mono10Packed | Mono12Packed
  | RGB8 | BGR8 | RGBa8 | BGRa8
  | RGB10 | BGR10 | RGB12 | BGR12 | RGB16 | BGR16
  | BayerGR8 | BayerRG8 | BayerGB8 | BayerBG8
  | BayerGR10 | BayerRG10 | BayerGB10 | BayerBG10
  | BayerGR12 | BayerRG12 | BayerGB12 | BayerBG12
  | BayerGR16 | BayerRG16 | BayerGB16 | BayerBG16
  | BayerGR10Packed | BayerRG10Packed | BayerGB10Packed | BayerBG10Packed
  | BayerGR12Packed | BayerRG12Packed | BayerGB12Packed | BayerBG12Packed
  | YUV422_8 | YUV422_8_UYVY | YUV422_8_YUYV | YUV444_8
  | Coord3D_ABC32f | Coord3D_ABC16 | Confidence8 | Confidence16
  | Undefined
  deriving DecidableEq, Repr

/-- The table of `convertFromGenICamPixelFormat` (PFNC code, format). -/
def pfncTable : List (Nat × PixelFormat) :=
  [(0x01080001, .Mono8), (0x01100003, .Mono10), (0x01100005, .Mono12),
   (0x01100009, .Mono14), (0x01100007, .Mono16),
   (0x010C0004, .Mono10Packed), (0x010C0006, .Mono12Packed),
   (0x02180014, .RGB8), (0x02180015, .BGR8), (0x02200016, .RGBa8), (0x02200017, .BGRa8),
   (0x02300018, .RGB10), (0x02300019, .BGR10), (0x0230001C, .RGB12), (0x0230001D, .BGR12),
   (0x02300033, .RGB16), (0x0230004B, .BGR16),
   (0x01080008, .BayerGR8), (0x01080009, .BayerRG8), (0x0108000A, .BayerGB8),
   (0x0108000B, .BayerBG8),
   (0x0110000C, .BayerGR10), (0x0110000D, .BayerRG10), (0x0110000E, .BayerGB10),
   (0x0110000F, .BayerBG10),
   (0x01100010, .BayerGR12), (0x01100011, .BayerRG12), (0x01100012, .BayerGB12),
   (0x01100013, .BayerBG12),
   (0x0110002E, .BayerGR16), (0x0110002F, .BayerRG16), (0x01100030, .BayerGB16),
   (0x01100031, .BayerBG16),
   (0x010C0026, .BayerGR10Packed), (0x010C0027, .BayerRG10Packed),
   (0x010C0028, .BayerGB10Packed), (0x010C0029, .BayerBG10Packed),
   (0x010C002A, .BayerGR12Packed), (0x010C002B, .BayerRG12Packed),
   (0x010C002C, .BayerGB12Packed), (0x010C002D, .BayerBG12Packed),
   (0x02100032, .YUV422_8), (0x0210001F, .YUV422_8_UYVY), (0x02100022, .YUV422_8_YUYV),
   (0x02180020, .YUV444_8),
   (0x023000C0, .Coord3D_ABC32f), (0x023000C1, .Coord3D_ABC16),
   (0x010800C4, .Confidence8), (0x011000C5, .Confidence16)]

/-- The method `convertFromGenICamPixelFormat`: the `switch` as a table
look-up, `Undefined` by default. -/
def convertFromGenICamPixelFormat (genICamFormat : Nat) : PixelFormat :=
  match pfncTable.find? fun e => e.1 = genICamFormat with
  | some e => e.2
  | none => .Undefined

/-- The method `getPixelFormat`.  When the PFNC value is not recognised the
source throws in both branches of the test on the symbolic name, so the name
look-up does not change the outcome. -/
def getPixelFormat : PM PixelFormat :=
  tryCatchIf (fun e => e.isGeneric || e.isStd)
    (do
      let pixelFormatNode ← getEnumerationNode "PixelFormat"
      let _format ← enumToString pixelFormatNode
      if !pixelFormatNode.isReadable then raise (.genicam .GenApiError 0)
      else do
        let currentEntry ← enumCurrentEntry pixelFormatNode
        match currentEntry with
        | none => raise (.genicam .GenApiError 0)
        | some entry =>
          let pixFormat := convertFromGenICamPixelFormat (toU64 entry.value)
          if pixFormat = .Undefined then raise (.genicam .GenApiError 0)
          else pure pixFormat)
    (fun _ => raise (.genicam .GenApiError 0))

/-- The `switch` on the pixel format in `startAcquisition` and
`grabSingleFrame`. -/
def bytesPerPixel : PixelFormat → Nat
  | .Mono8 | .BayerRG8 | .BayerGB8 | .BayerGR8 | .BayerBG8 => 1
  | .Mono10 | .Mono12 | .Mono16 => 2
  | .RGB8 | .BGR8 => 3
  | _ => 1

/-- Payload size when the stream does not define one: the `PayloadSize` node
when it is a readable integer, otherwise ROI width times height times bytes
per pixel, in 32-bit unsigned arithmetic. -/
def payloadSizeFromNodes : PM Nat := do
  let node ← nmGetNode "PayloadSize"
  let pp : Option Node :=
    match node with
    | some n => if n.intf = .intfIInteger then some n else none
    | none => none
  match pp with
  | some n =>
    if n.isReadable then do
      let v ← intGetValue n
      pure (toU64 v)
    else do
      let roi ← getROI
      let pf ← getPixelFormat
      pure ((roi.width * roi.height * bytesPerPixel pf) % 2 ^ 32)
  | none => do
    let roi ← getROI
    let pf ← getPixelFormat
    pure ((roi.width * roi.height * bytesPerPixel pf) % 2 ^ 32)

/-! ## The session -/

/-- The enumeration `CameraState`. -/
inductive CameraState where
  | Disconnected
  | Connected
  | Acquiring
  | Error
  deriving DecidableEq, Repr

/-- Event types passed to `GCRegisterEvent` and `GCUnregisterEvent`. -/
inductive EventType where
  | EVENT_NEW_BUFFER
  | EVENT_FEATURE_INVALIDATE
  | EVENT_FEATURE_CHANGE
  deriving DecidableEq, Repr

/-- The information commands passed to `GCGetPortURLInfo`, `DSGetInfo` and
`DSGetBufferInfo`. -/
inductive InfoCmd where
  | URL_INFO_FILE_REGISTER_ADDRESS
  | URL_INFO_FILE_SIZE
  | STREAM_INFO_DEFINES_PAYLOADSIZE
  | STREAM_INFO_PAYLOAD_SIZE
  | STREAM_INFO_BUF_ALIGNMENT
  | STREAM_INFO_NUM_DELIVERED
  | STREAM_INFO_NUM_QUEUED
  | STREAM_INFO_NUM_STARTED
  | STREAM_INFO_IS_GRABBING
  | STREAM_INFO_NUM_ANNOUNCED
  | STREAM_INFO_NUM_AWAIT_DELIVERY
  | BUFFER_INFO_BASE
  | BUFFER_INFO_WIDTH
  | BUFFER_INFO_HEIGHT
  | BUFFER_INFO_PIXELFORMAT
  | BUFFER_INFO_FRAMEID
  | EVENT_EVENT_TYPE
  deriving DecidableEq, Repr

/-- The transport-layer entry points the session calls, with the handle
arguments that identify their target. -/
inductive TLCall where
  | TLUpdateInterfaceList
  | TLGetNumInterfaces
  | TLGetInterfaceID (i : Nat)
  | TLOpenInterface (id : String)
  | IFUpdateDeviceList (ifh : Nat)
  | IFGetNumDevices (ifh : Nat)
  | IFGetDeviceID (ifh : Nat) (j : Nat)
  | IFOpenDevice (ifh : Nat) (id : String)
  | IFClose (ifh : Nat)
  | DevGetInfo (dev : Nat)
  | DevClose (dev : Nat)
  | DevGetPort (dev : Nat)
  | GCGetPortURL (port : Nat)
  | GCGetPortURLInfo (port : Nat) (cmd : InfoCmd)
  | GCReadPort (port : Nat) (address : Nat) (size : Nat)
  | GCRegisterEvent (h : Nat) (ev : EventType)
  | GCUnregisterEvent (h : Nat) (ev : EventType)
  | DevGetNumDataStreams (dev : Nat)
  | DevGetDataStreamID (dev : Nat)
  | DevOpenDataStream (dev : Nat) (id : String)
  | DSGetInfo (ds : Nat) (cmd : InfoCmd)
  | DSAllocAndAnnounceBuffer (ds : Nat) (size : Nat)
  | DSAnnounceBuffer (ds : Nat) (size : Nat)
  | DSRevokeBuffer (ds : Nat) (buf : Nat)
  | DSQueueBuffer (ds : Nat) (buf : Nat)
  | DSStartAcquisition (ds : Nat)
  | DSStopAcquisition (ds : Nat)
  | DSFlushQueue (ds : Nat)
  | DSClose (ds : Nat)
  | EventGetData (ev : Nat) (timeoutMs : Nat)
  | DSGetBufferInfo (ds : Nat) (buf : Nat) (cmd : InfoCmd)
  | EventGetInfo (ev : Nat) (cmd : InfoCmd)
  | EventGetDataInfo (ev : Nat)
  deriving DecidableEq, Repr

/-- What is observed of a run: transport-layer calls, and the entries into
`setTransportLayerLock` and `freeBuffers`. -/
inductive Ev where
  | tl (c : TLCall)
  | lockCall (lock : Bool)
  | freeBuffersCall
  deriving DecidableEq, Repr

/-- The world outside the session.  The call issued as the `k`-th event of the
trace gets the error code `err k` (`0` is `GC_ERR_SUCCESS`) and, when it
succeeds, the outputs `num k`, `str k`, `bytes k`.  The three `xml` fields are
the GenApi loaders (`none`: the loader throws), `connectPortFails` makes
`_Connect` throw, `mallocFails k` makes the aligned allocation attempted at
trace position `k` return null. -/
structure TLEnv where
  err : Nat → Nat
  num : Nat → Nat
  str : Nat → String
  bytes : Nat → List Nat
  xmlZip : List Nat → Option (List Node)
  xmlString : List Nat → Option (List Node)
  xmlFile : String → Option (List Node)
  connectPortFails : Bool
  mallocFails : Nat → Bool

/-- A registered `CameraEventListener`: what its callbacks
`OnAcquisitionStarted`, `OnAcquisitionStopped`, `OnParameterChanged`,
`OnFrameReady` and `OnError` throw, if anything. -/
structure Listener where
  onAcquisitionStarted : Option Exn := none
  onAcquisitionStopped : Option Exn := none
  onParameterChanged : Option Exn := none
  onFrameReady : Option Exn := none
  onError : Option Exn := none
  deriving DecidableEq, Repr

/-- A manually allocated acquisition buffer owned by the ring. -/
structure AlignedBuffer where
  size : Nat
  alignment : Nat
  zeroed : Bool
  deriving DecidableEq, Repr

/-- The members of `GenICamCamera` the lifecycle works on, and the trace. -/
structure St where
  p : PState := {}
  tlHandle : Nat := 1
  ifHandle : Nat := 0
  devHandle : Nat := 0
  dsHandle : Nat := 0
  portHandle : Nat := 0
  eventHandle : Nat := 0
  featureEventHandle : Nat := 0
  bufferSize : Nat := 0
  state : CameraState := .Disconnected
  isAcquiring : Bool := false
  stopAcquisition : Bool := false
  eventListener : Option Listener := none
  cameraID : String := ""
  bufferHandles : List Nat := []
  alignedBuffers : List AlignedBuffer := []
  threadJoinable : Bool := false
  trace : List Ev := []
  deriving DecidableEq, Repr

/-- Session-level computations. -/
abbrev SM (α : Type) : Type := M St α

/-- Run a parameter-layer computation on the session. -/
def liftP {α : Type} (m : PM α) : SM α := fun s =>
  match m s.p with
  | (r, p1) => (r, { s with p := p1 })

/-- The result of a transport-layer call. -/
structure TLOut where
  err : Nat
  num : Nat
  str : String
  bytes : List Nat

/-- Issue a transport-layer call: it is appended to the trace and answered by
the oracle at its position. -/
def tlCall (env : TLEnv) (c : TLCall) : SM TLOut := fun s =>
  let k := s.trace.length
  (.ok { err := env.err k, num := env.num k, str := env.str k, bytes := env.bytes k },
    { s with trace := s.trace ++ [.tl c] })

/-- Append a marker to the trace. -/
def logEv (e : Ev) : SM Unit := modS fun s => { s with trace := s.trace ++ [e] }

/-- The method `isConnected`. -/
def isConnected (s : St) : Bool := s.state = .Connected || s.state = .Acquiring

/-- The method `getState`. -/
def getState (s : St) : CameraState := s.state

/-- The method `setTransportLayerLock`. -/
def setTransportLayerLock (lock : Bool) : SM Bool := do
  logEv (.lockCall lock)
  liftP (setTransportLayerLockP lock)

/-! ### Connection -/

/-- The method `registerFeatureInvalidationEvents`: the handle of the
invalidation event is stored in `m_eventHandle`. -/
def registerFeatureInvalidationEvents (env : TLEnv) : SM Unit := do
  let s ← getS
  if s.devHandle = 0 then pure ()
  else do
    let r1 ← tlCall env (.GCRegisterEvent s.devHandle .EVENT_FEATURE_INVALIDATE)
    (if r1.err = 0 then modS fun t => { t with eventHandle := r1.num + 1 } else pure ())
    let _r2 ← tlCall env (.GCRegisterEvent s.devHandle .EVENT_FEATURE_CHANGE)
    pure ()

/-- The method `unregisterFeatureInvalidationEvents`. -/
def unregisterFeatureInvalidationEvents (env : TLEnv) : SM Unit := do
  let s ← getS
  if s.devHandle = 0 then pure ()
  else do
    let _ ← tlCall env (.GCUnregisterEvent s.devHandle .EVENT_FEATURE_INVALIDATE)
    let _ ← tlCall env (.GCUnregisterEvent s.devHandle .EVENT_FEATURE_CHANGE)
    pure ()

/-- The call `std::string::find(c, from)`. -/
def findChar (c : Char) : Nat → List Char → Option Nat
  | _, [] => none
  | 0, d :: ds => if d = c then some 0 else (findChar c 0 ds).map (· + 1)
  | k + 1, _ :: ds => (findChar c k ds).map (· + 1)

/-- Whether `needle` occurs in `hay` (`find(needle) != npos`). -/
def containsSub (needle : List Char) : List Char → Bool
  | [] => needle.isEmpty
  | c :: cs => needle.isPrefixOf (c :: cs) || containsSub needle cs

/-- The call `substr(pos, len)`. -/
def substr (str : List Char) (pos len : Nat) : List Char := (str.drop pos).take len

/-- The fields of a register URL once its scheme is removed:
`name;address;size[?...]`.  Without two semicolons address and size stay `0`;
a field that is not a hexadecimal numeral makes `std::stoull` throw. -/
def parseRegisterURL (data : List Char) : Except Exn (Nat × Nat) :=
  let pos1 := findChar ';' 0 data
  let pos2 := findChar ';' (match pos1 with | some i => i + 1 | none => 0) data
  let pos3 := findChar '?' 0 data
  match pos1, pos2 with
  | some p1, some p2 =>
    let addressStr := substr data (p1 + 1) (p2 - p1 - 1)
    let sizeStr :=
      match pos3 with
      | some p3 => if p2 + 1 ≤ p3 then substr data (p2 + 1) (p3 - p2 - 1) else data.drop (p2 + 1)
      | none => data.drop (p2 + 1)
    match stoull16 addressStr with
    | none => .error .stdExn
    | some xmlAddress =>
      match stoull16 sizeStr with
      | none => .error .stdExn
      | some xmlSize => .ok (xmlAddress, xmlSize)
  | _, _ => .ok (0, 0)

/-- The statement `m_pNodeMap = std::make_unique<GenApi::CNodeMapRef>()`. -/
def newNodeMap : PM Unit := modS fun p => { p with pNodeMap := some { nodes := none } }

/-- A GenApi loader (`_LoadXMLFromZIPData`, `_LoadXMLFromString`,
`_LoadXMLFromFile`) applied to `m_pNodeMap`, given what it produces. -/
def loadXML (parsed : Option (List Node)) : PM Unit := fun p =>
  match p.pNodeMap with
  | none => (.error .nullDeref, p)
  | some _ =>
    match parsed with
    | none => (.error .generic, p)
    | some ns => (.ok (), { p with pNodeMap := some { nodes := some ns } })

/-- The call `m_pNodeMap->_Connect(m_pCameraPort.get(), "Device")`. -/
def connectPort (env : TLEnv) : PM Unit := fun p =>
  match p.pNodeMap with
  | none => (.error .nullDeref, p)
  | some _ => if env.connectPortFails then (.error .generic, p) else (.ok (), p)

/-- The bytes of a buffer of `size` bytes after a port read that delivered
`got`. -/
def readBuffer (size : Nat) (got : List Nat) : List Nat :=
  (got ++ List.replicate size 0).take size

/-- Whether the data start with the ZIP magic `PK\x03\x04`. -/
def isZipData (zipData : List Nat) : Bool :=
  match zipData with
  | a :: b :: c :: d :: _ => a = 'P'.toNat && b = 'K'.toNat && c = 3 && d = 4
  | _ => false

/-- The first size the constructor `std::vector<uint8_t>(n)` refuses: above
`PTRDIFF_MAX` it throws `std::length_error` before anything is allocated.
Failure for lack of memory at smaller sizes is not modelled. -/
def vectorSizeLimit : Nat := 2 ^ 63

/-- The method `parseAndLoadXMLFromURL`.  The buffer `zipData(xmlSize)` is
constructed before the port is read. -/
def parseAndLoadXMLFromURL (env : TLEnv) (urlString : List Char) : SM Unit := do
  let parsed : Except Exn (Nat × Nat) :=
    if "local:///".data.isPrefixOf urlString then parseRegisterURL (urlString.drop 9)
    else if "Local:".data.isPrefixOf urlString then parseRegisterURL (urlString.drop 6)
    else .error (.genicam .GenApiError 0)
  match parsed with
  | .error e => raise e
  | .ok (xmlAddress, xmlSize) =>
    if xmlAddress = 0 ∨ xmlSize = 0 then raise (.genicam .GenApiError 0)
    else if xmlSize ≥ vectorSizeLimit then raise .stdExn
    else do
      let s ← getS
      let r ← tlCall env (.GCReadPort s.portHandle xmlAddress xmlSize)
      if r.err ≠ 0 then raise (.genicam .GenTLError r.err)
      else do
        let zipData := readBuffer xmlSize r.bytes
        liftP newNodeMap
        tryCatchIf Exn.isGeneric
          (do
            (if isZipData zipData then liftP (loadXML (env.xmlZip zipData))
            else if containsSub "<?xml".data ((zipData.take 10).map Char.ofNat) then
              liftP (loadXML (env.xmlString zipData))
            else raise (.genicam .GenApiError 0))
            liftP (connectPort env))
          (fun _ => raise (.genicam .GenApiError 0))

/-- The method `loadXMLFromDevice`. -/
def loadXMLFromDevice (env : TLEnv) : SM Unit := do
  let s ← getS
  let r1 ← tlCall env (.GCGetPortURLInfo s.portHandle .URL_INFO_FILE_REGISTER_ADDRESS)
  let xmlAddress := if r1.err = 0 then r1.num else 0
  let r2 ← (if r1.err = 0 then tlCall env (.GCGetPortURLInfo s.portHandle .URL_INFO_FILE_SIZE) else pure r1)
  let xmlSize := if r1.err = 0 ∧ r2.err = 0 then r2.num else 0
  if r2.err = 0 ∧ xmlSize > 0 then
    if xmlSize ≥ vectorSizeLimit then raise .stdExn
    else do
      let r3 ← tlCall env (.GCReadPort s.portHandle xmlAddress xmlSize)
      if r3.err = 0 then do
        liftP newNodeMap
        liftP (loadXML (env.xmlString (readBuffer xmlSize r3.bytes)))
        liftP (connectPort env)
      else pure ()
  else pure ()

/-- The inner loop of `connect` over the devices `j, j+1, ...` of the opened
interface `tempIF` (`n` of them are left); the result is `deviceFound`. -/
def deviceLoop (env : TLEnv) (cameraID : String) (tempIF : Nat) : Nat → Nat → SM Bool
  | 0, _ => pure false
  | n + 1, j => do
    let r ← tlCall env (.IFGetDeviceID tempIF j)
    if r.err = 0 then do
      modS fun s => { s with ifHandle := tempIF }
      let ro ← tlCall env (.IFOpenDevice tempIF r.str)
      if ro.err ≠ 0 then do
        let _ ← tlCall env (.IFClose tempIF)
        modS fun s => { s with ifHandle := 0 }
        raise (.genicam .ConnectionError ro.err)
      else do
        modS fun s => { s with devHandle := ro.num + 1 }
        let ri ← tlCall env (.DevGetInfo (ro.num + 1))
        let camUserID : String := if ri.err = 0 then ri.str else ""
        if camUserID = cameraID then do
          modS fun s => { s with cameraID := r.str }
          pure true
        else do
          let _ ← tlCall env (.DevClose (ro.num + 1))
          modS fun s => { s with devHandle := 0 }
          deviceLoop env cameraID tempIF n (j + 1)
    else deviceLoop env cameraID tempIF n (j + 1)

/-- The outer loop of `connect` over the interfaces `i, i+1, ...` (`n` of them
are left); the result is `deviceFound`. -/
def interfaceLoop (env : TLEnv) (cameraID : String) : Nat → Nat → SM Bool
  | 0, _ => pure false
  | n + 1, i => do
    let r ← tlCall env (.TLGetInterfaceID i)
    if r.err ≠ 0 then interfaceLoop env cameraID n (i + 1)
    else do
      let ro ← tlCall env (.TLOpenInterface r.str)
      if ro.err ≠ 0 then interfaceLoop env cameraID n (i + 1)
      else do
        let tempIF := ro.num + 1
        let ru ← tlCall env (.IFUpdateDeviceList tempIF)
        let deviceFound ← (if ru.err = 0 then do
            let rn ← tlCall env (.IFGetNumDevices tempIF)
            deviceLoop env cameraID tempIF (if rn.err = 0 then rn.num else 0) 0
          else pure false)
        if deviceFound then pure true
        else do
          let _ ← tlCall env (.IFClose tempIF)
          interfaceLoop env cameraID n (i + 1)

/-- The validation block of `connect` (probe of the root and vendor nodes). -/
def validateAtConnect : PM Unit :=
  tryCatchIf Exn.isGeneric
    (do
      let pRoot ← nmGetNode "Root"
      let pRoot ← (match pRoot with
        | some n => pure (some n)
        | none => nmGetNode "Device")
      match pRoot with
      | none => raise (.genicam .GenApiError 0)
      | some _ => do
        let pVendor ← nmGetNode "DeviceVendorName"
        (match pVendor with
          | some v =>
            if v.intf = .intfIString && v.isReadable then do
              let _ ← stringGetValue v
              pure ()
            else pure ()
          | none => pure ())
        modS fun q => { q with nodeMapValid := true, lastNodeMapRefresh := q.now })
    (fun _ => do
      modS fun q => { q with nodeMapValid := false }
      raise (.genicam .GenApiError 0))

/-- The inner `try` block of `connect`: port object, description source,
validation, event registration. -/
def connectGenApi (env : TLEnv) : SM Unit := do
  liftP (modS fun q => { q with hasCameraPort := true })
  let s ← getS
  let ru ← tlCall env (.GCGetPortURL s.portHandle)
  let xmlURL : String := if ru.err = 0 then ru.str else ""
  (if ru.err = 0 ∧ xmlURL.length > 0 then
    let urlString := xmlURL.data
    if ("local:///".data.isPrefixOf urlString || "Local:".data.isPrefixOf urlString)
        && containsSub ".zip".data urlString then
      parseAndLoadXMLFromURL env urlString
    else if "file://".data.isPrefixOf urlString then do
      liftP newNodeMap
      liftP (loadXML (env.xmlFile (String.mk (urlString.drop 7))))
      liftP (connectPort env)
    else if "http://".data.isPrefixOf urlString then raise (.genicam .GenApiError 0)
    else do
      liftP newNodeMap
      liftP (loadXML (env.xmlFile xmlURL))
      liftP (connectPort env)
  else loadXMLFromDevice env)
  liftP validateAtConnect
  registerFeatureInvalidationEvents env

/-- The outer `try` block of `connect`. -/
def connectBody (env : TLEnv) (cameraID : String) : SM Unit := do
  let r ← tlCall env .TLUpdateInterfaceList
  if r.err ≠ 0 then raise (.genicam .GenTLError r.err)
  else do
    let rn ← tlCall env .TLGetNumInterfaces
    let deviceFound ← interfaceLoop env cameraID (if rn.err = 0 then rn.num else 0) 0
    if !deviceFound then raise (.genicam .ConnectionError 0)
    else do
      let s ← getS
      let rp ← tlCall env (.DevGetPort s.devHandle)
      if rp.err ≠ 0 then raise (.genicam .GenTLError rp.err)
      else do
        modS fun t => { t with portHandle := rp.num + 1 }
        tryCatchIf Exn.isGeneric (connectGenApi env) (fun _ => raise (.genicam .GenApiError 0))
        modS fun t => { t with state := .Connected }

/-- The handler `catch (const GenICamException&)` of `connect`. -/
def connectRollback (env : TLEnv) (e : Exn) : SM Unit := do
  let s ← getS
  (if s.devHandle ≠ 0 then do
    let _ ← tlCall env (.DevClose s.devHandle)
    modS fun t => { t with devHandle := 0 }
  else pure ())
  let s ← getS
  (if s.ifHandle ≠ 0 then do
    let _ ← tlCall env (.IFClose s.ifHandle)
    modS fun t => { t with ifHandle := 0 }
  else pure ())
  modS fun t => { t with state := .Disconnected }
  raise e

/-- The method `connect`. -/
def connect (env : TLEnv) (cameraID : String) : SM Unit := do
  let s ← getS
  if s.state ≠ .Disconnected then raise (.genicam .ConnectionError 0)
  else tryCatchIf Exn.isGenICam (connectBody env cameraID) (connectRollback env)

/-! ### Buffer ring -/

/-- The loop of `freeBuffers`: a handle is revoked only when it and the stream
handle are both non-null. -/
def revokeLoop (env : TLEnv) : List Nat → SM Unit
  | [] => pure ()
  | hBuffer :: rest => do
    let s ← getS
    (if hBuffer ≠ 0 ∧ s.dsHandle ≠ 0 then do
      let _ ← tlCall env (.DSRevokeBuffer s.dsHandle hBuffer)
      pure ()
    else pure ())
    revokeLoop env rest

/-- The method `freeBuffers`. -/
def freeBuffers (env : TLEnv) : SM Unit := do
  logEv .freeBuffersCall
  let s ← getS
  revokeLoop env s.bufferHandles
  modS fun t => { t with bufferHandles := [], alignedBuffers := [] }

/-- The clean-up loop of the producer allocation: every handle obtained so far
is revoked, without any test. -/
def revokeProducerLoop (env : TLEnv) : List Nat → SM Unit
  | [] => pure ()
  | handle :: rest => do
    let s ← getS
    let _ ← tlCall env (.DSRevokeBuffer s.dsHandle handle)
    revokeProducerLoop env rest

/-- The first loop of `allocateBuffers` (`n` buffers left); the result is
`useProducerAllocation`. -/
def producerLoop (env : TLEnv) (alignedBufferSize : Nat) : Nat → SM Bool
  | 0 => pure true
  | n + 1 => do
    let s ← getS
    let r ← tlCall env (.DSAllocAndAnnounceBuffer s.dsHandle alignedBufferSize)
    if r.err = 0 then do
      modS fun t => { t with bufferHandles := t.bufferHandles ++ [r.num + 1] }
      producerLoop env alignedBufferSize n
    else do
      let t ← getS
      revokeProducerLoop env t.bufferHandles
      modS fun t => { t with bufferHandles := [] }
      pure false

/-- The loop `while (powerOf2 < alignment) powerOf2 <<= 1`, at most 64 times.
-/
def pow2Loop : Nat → Nat → Nat → Nat
  | 0, powerOf2, _ => powerOf2
  | fuel + 1, powerOf2, alignment =>
    if powerOf2 < alignment then pow2Loop fuel (powerOf2 * 2) alignment else powerOf2

/-- The alignment handed to `aligned_alloc`: the next power of two when the
alignment is not one (`alignment & (alignment - 1)` is non-zero). -/
def fixAlignment (alignment : Nat) : Nat :=
  if Nat.land alignment (alignment - 1) ≠ 0 then pow2Loop 64 1 alignment else alignment

/-- The second loop of `allocateBuffers` (`n` buffers left), in the branch
compiled outside Windows. -/
def manualLoop (env : TLEnv) (alignedBufferSize : Nat) : Nat → Nat → SM Unit
  | 0, _ => pure ()
  | n + 1, alignment => do
    let alignment := fixAlignment alignment
    let s ← getS
    if env.mallocFails s.trace.length then do
      freeBuffers env
      raise (.genicam .BufferError 0)
    else do
      modS fun t => { t with alignedBuffers := t.alignedBuffers ++
        [{ size := alignedBufferSize, alignment := alignment, zeroed := true }] }
      let r ← tlCall env (.DSAnnounceBuffer s.dsHandle alignedBufferSize)
      if r.err ≠ 0 then do
        freeBuffers env
        raise (.genicam .BufferError r.err)
      else do
        modS fun t => { t with bufferHandles := t.bufferHandles ++ [r.num + 1] }
        manualLoop env alignedBufferSize n alignment

/-- The buffer size rounded up to the alignment, in `size_t` arithmetic. -/
def alignSize (bufferSize alignment : Nat) : Nat :=
  (((bufferSize + alignment - 1) % 2 ^ 64) / alignment * alignment) % 2 ^ 64

/-- The method `allocateBuffers`. -/
def allocateBuffers (env : TLEnv) (count : Nat) : SM Unit := do
  if count = 0 then raise (.genicam .BufferError 0)
  else do
    freeBuffers env
    modS fun t => { t with bufferHandles := [], alignedBuffers := [] }
    let s ← getS
    let ra ← tlCall env (.DSGetInfo s.dsHandle .STREAM_INFO_BUF_ALIGNMENT)
    let alignment : Nat := if ra.err ≠ 0 ∨ ra.num = 0 then 64 else ra.num
    let alignedBufferSize := alignSize s.bufferSize alignment
    let useProducerAllocation ← producerLoop env alignedBufferSize count
    if useProducerAllocation then pure ()
    else manualLoop env alignedBufferSize count alignment

/-! ### Continuous acquisition -/

/-- The pattern `p = getCommandNode(name); if (p.IsValid() && IsWritable(p))
p->Execute();` used for `AcquisitionStart` and `AcquisitionStop`. -/
def executeIfWritable (name : String) : PM Unit := do
  let pCommand ← getCommandNode name
  if pCommand.isWritable then commandExecute pCommand else pure ()

/-- The loop of `startAcquisition` that queues every buffer of the ring. -/
def queueLoop (env : TLEnv) : List Nat → SM Unit
  | [] => pure ()
  | hBuffer :: rest => do
    let s ← getS
    let r ← tlCall env (.DSQueueBuffer s.dsHandle hBuffer)
    if r.err ≠ 0 then raise (.genicam .BufferError r.err)
    else queueLoop env rest

/-- Step 4 of `startAcquisition`: the payload size goes to `m_bufferSize`. -/
def determinePayloadSize (env : TLEnv) : SM Unit := do
  let s ← getS
  let r4 ← tlCall env (.DSGetInfo s.dsHandle .STREAM_INFO_DEFINES_PAYLOADSIZE)
  let definesPayloadSize : Bool := decide (r4.err = 0 ∧ r4.num ≠ 0)
  if definesPayloadSize then do
    let r5 ← tlCall env (.DSGetInfo s.dsHandle .STREAM_INFO_PAYLOAD_SIZE)
    if r5.err ≠ 0 then raise (.genicam .BufferError r5.err)
    else modS fun t => { t with bufferSize := r5.num }
  else do
    let size ← liftP payloadSizeFromNodes
    modS fun t => { t with bufferSize := size }

/-- The device command of `startAcquisition`: `AcquisitionStart` is looked up
with `getCommandNode` and executed when writable; only `GenericException` is
translated. -/
def issueAcquisitionStart : SM Unit :=
  tryCatchIf Exn.isGeneric (liftP (executeIfWritable "AcquisitionStart"))
    (fun _ => raise (.genicam .GenApiError 0))

/-- Step 3 of `startAcquisition`: the first data stream of the device is
opened. -/
def openDataStream (env : TLEnv) : SM Unit := do
  let s ← getS
  let r1 ← tlCall env (.DevGetNumDataStreams s.devHandle)
  if r1.err ≠ 0 ∨ r1.num = 0 then raise (.genicam .GenTLError r1.err)
  else do
    let r2 ← tlCall env (.DevGetDataStreamID s.devHandle)
    if r2.err ≠ 0 then raise (.genicam .GenTLError r2.err)
    else do
      let r3 ← tlCall env (.DevOpenDataStream s.devHandle r2.str)
      if r3.err ≠ 0 then raise (.genicam .GenTLError r3.err)
      else modS fun t => { t with dsHandle := r3.num + 1 }

/-- Step 5, second half: every buffer of the ring is queued. -/
def queueAllBuffers (env : TLEnv) : SM Unit := do
  let t ← getS
  queueLoop env t.bufferHandles

/-- Step 6 of `startAcquisition`: the new-buffer event is registered. -/
def registerNewBufferEvent (env : TLEnv) : SM Unit := do
  let t ← getS
  let r6 ← tlCall env (.GCRegisterEvent t.dsHandle .EVENT_NEW_BUFFER)
  if r6.err ≠ 0 then raise (.genicam .GenTLError r6.err)
  else modS fun u => { u with eventHandle := r6.num + 1 }

/-- Step 7, first half: the stream-level acquisition is started. -/
def startStream (env : TLEnv) : SM Unit := do
  let t ← getS
  let r7 ← tlCall env (.DSStartAcquisition t.dsHandle)
  if r7.err ≠ 0 then raise (.genicam .AcquisitionError r7.err)
  else pure ()

/-- Steps 4 to 7 of `startAcquisition`, run on the open stream: payload size,
allocation, queueing, event registration, start of the stream, start of the
device. -/
def startAcquisitionFill (env : TLEnv) (bufferCount : Nat) : SM Unit := do
  determinePayloadSize env
  allocateBuffers env bufferCount
  queueAllBuffers env
  registerNewBufferEvent env
  startStream env
  issueAcquisitionStart

/-- The `try` block of `startAcquisition` up to and including the
`AcquisitionStart` command: prepare, lock, open the stream, size, allocate,
queue, register the event, start the stream, start the device.  A step that
throws ends the block. -/
def startAcquisitionSteps (env : TLEnv) (bufferCount : Nat) : SM Unit := do
  liftP prepareTransportLayerForAcquisition
  let _ ← setTransportLayerLock true
  openDataStream env
  startAcquisitionFill env bufferCount

/-- The end of the `try` block of `startAcquisition`: the flags and the state
are set, the listener is told, the delivery thread is created. -/
def startAcquisitionCommit : SM Unit := do
  modS fun t => { t with isAcquiring := true, stopAcquisition := false, state := .Acquiring }
  let s ← getS
  (match s.eventListener with
    | some l =>
      match l.onAcquisitionStarted with
      | some e => raise e
      | none => pure ()
    | none => pure ())
  modS fun t => { t with threadJoinable := true }

/-- The handler `catch (...)` of `startAcquisition`. -/
def startAcquisitionRollback (env : TLEnv) (e : Exn) : SM Unit := do
  let _ ← setTransportLayerLock false
  let s ← getS
  (if s.eventHandle ≠ 0 then do
    let _ ← tlCall env (.GCUnregisterEvent s.dsHandle .EVENT_NEW_BUFFER)
    modS fun t => { t with eventHandle := 0 }
  else pure ())
  let s ← getS
  (if s.dsHandle ≠ 0 then do
    let _ ← tlCall env (.DSClose s.dsHandle)
    modS fun t => { t with dsHandle := 0 }
  else pure ())
  freeBuffers env
  raise e

/-- The method `startAcquisition`. -/
def startAcquisition (env : TLEnv) (bufferCount : Nat) : SM Unit := do
  let s ← getS
  if !isConnected s then raise (.genicam .ConnectionError 0)
  else if s.isAcquiring then raise (.genicam .AcquisitionError 0)
  else
    tryCatchIf Exn.isCatchable
      (do
        startAcquisitionSteps env bufferCount
        startAcquisitionCommit)
      (startAcquisitionRollback env)

/-- Step 1 of `stopAcquisition`: the device command `AcquisitionStop`, every
failure ignored. -/
def issueAcquisitionStop : SM Unit :=
  tryCatchIf Exn.isCatchable (liftP (executeIfWritable "AcquisitionStop")) (fun _ => pure ())

/-- The `try` block of `stopAcquisition`.  Joining the delivery thread is
taken to return. -/
def stopAcquisitionBody (env : TLEnv) : SM Unit := do
  issueAcquisitionStop
  let s ← getS
  (if s.dsHandle ≠ 0 then do
    let _ ← tlCall env (.DSStopAcquisition s.dsHandle)
    let _ ← tlCall env (.DSFlushQueue s.dsHandle)
    pure ()
  else pure ())
  modS fun t => { t with threadJoinable := false }
  let s ← getS
  (if s.eventHandle ≠ 0 then do
    let _ ← tlCall env (.GCUnregisterEvent s.dsHandle .EVENT_NEW_BUFFER)
    modS fun t => { t with eventHandle := 0 }
  else pure ())
  let s ← getS
  (if s.dsHandle ≠ 0 then do
    let _ ← tlCall env (.DSClose s.dsHandle)
    modS fun t => { t with dsHandle := 0 }
  else pure ())
  let _ ← setTransportLayerLock false
  freeBuffers env
  modS fun t => { t with isAcquiring := false, state := .Connected }
  let s ← getS
  match s.eventListener with
  | some l =>
    match l.onAcquisitionStopped with
    | some e => raise e
    | none => pure ()
  | none => pure ()

/-- The method `stopAcquisition`. -/
def stopAcquisition (env : TLEnv) : SM Unit := do
  modS fun t => { t with stopAcquisition := true }
  let s ← getS
  if !s.isAcquiring then pure ()
  else
    tryCatchIf Exn.isStd (stopAcquisitionBody env)
      (fun _ => do
        let _ ← setTransportLayerLock false
        modS fun t => { t with state := .Error }
        raise (.genicam .AcquisitionError 0))

/-- The method `disconnect`. -/
def disconnect (env : TLEnv) : SM Unit := do
  liftP (notifyParameterChanged "Disconnected" "")
  let s ← getS
  if s.state = .Disconnected then pure ()
  else
    tryCatchIf Exn.isCatchable
      (do
        (if s.isAcquiring then stopAcquisition env else pure ())
        unregisterFeatureInvalidationEvents env
        liftP (modS fun q => { q with nodeMapValid := false, pNodeMap := none, hasCameraPort := false })
        let t ← getS
        (if t.devHandle ≠ 0 then do
          let _ ← tlCall env (.DevClose t.devHandle)
          modS fun u => { u with devHandle := 0 }
        else pure ())
        let t ← getS
        (if t.ifHandle ≠ 0 then do
          let _ ← tlCall env (.IFClose t.ifHandle)
          modS fun u => { u with ifHandle := 0 }
        else pure ())
        modS fun u => { u with portHandle := 0, state := .Disconnected, cameraID := "" }
        liftP (modS fun q => { q with parameterCache := [] }))
      (fun e => do
        modS fun u => { u with state := .Error }
        raise e)


/-! ### Exposure -/

/-- The enumeration `ExposureMode`. -/
inductive ExposureMode where
  | Off
  | Timed
  | TriggerWidth
  | TriggerControlled
  deriving DecidableEq, Repr

/-- The method `getExposureMode`. -/
def getExposureMode : PM ExposureMode :=
  tryCatchIf Exn.isCatchable
    (do
      let avail ← isParameterAvailable "ExposureMode"
      if !avail then pure .Timed
      else do
        let pExposureMode ← getEnumerationNode "ExposureMode"
        let mode ← enumToString pExposureMode
        if mode = "Off" then pure .Off
        else if mode = "Timed" then pure .Timed
        else if mode = "TriggerWidth" then pure .TriggerWidth
        else if mode = "TriggerControlled" then pure .TriggerControlled
        else pure .Timed)
    (fun _ => pure .Timed)

/-- The `switch` of `setExposureMode`. -/
def exposureModeString : ExposureMode → String
  | .Off => "Off"
  | .Timed => "Timed"
  | .TriggerWidth => "TriggerWidth"
  | .TriggerControlled => "TriggerControlled"

/-- The method `setExposureMode`. -/
def setExposureMode (mode : ExposureMode) : PM Unit :=
  tryCatchIf Exn.isGeneric
    (do
      let pExposureMode ← getEnumerationNode "ExposureMode"
      if !pExposureMode.isWritable then raise (.genicam .ParameterError 0)
      else do
        enumFromString pExposureMode (exposureModeString mode)
        notifyParameterChanged "ExposureMode" (exposureModeString mode))
    (fun _ => raise (.genicam .GenApiError 0))

/-- The candidate names of the exposure node, in the order they are tried. -/
def exposureNames : List String := ["ExposureTime", "ExposureTimeAbs", "ExposureTimeRaw"]

/-- The search loop of `setExposureTime`: the first name that resolves to a
writable float node; every failure of a look-up is skipped. -/
def findWritableExposure : List String → PM (Option Node)
  | [] => pure none
  | name :: rest => do
    let r ← tryCatchIf Exn.isCatchable
      (do
        let pExposure ← getFloatNode name
        if pExposure.isWritable then pure (some pExposure) else pure none)
      (fun _ => pure none)
    match r with
    | some n => pure (some n)
    | none => findWritableExposure rest

/-- The start of `setExposureTime`: `ExposureMode` is forced to `Timed` when
the feature exists, the selector is probed, the exposure node is searched. -/
def locateExposureNode : PM (Option Node) := do
  let hasMode ← isParameterAvailable "ExposureMode"
  (if hasMode then do
    let mode ← getExposureMode
    if mode ≠ .Timed then setExposureMode .Timed else pure ()
  else pure ())
  let _hasSelector ← isParameterAvailable "ExposureTimeSelector"
  findWritableExposure exposureNames

/-- The end of `setExposureTime` once the node is found: range test, rounding
to the increment, write, cache eviction, notification. -/
def writeExposure (pExposure : Node) (microseconds : ℚ) : PM Unit := do
  let min ← floatGetMin pExposure
  let max ← floatGetMax pExposure
  if microseconds < min ∨ microseconds > max then raise (.genicam .ParameterError 0)
  else do
    let value ← (if pExposure.hasInc then do
        let inc ← floatGetInc pExposure
        pure (((roundHalfAway (microseconds / inc) : Int) : ℚ) * inc)
      else pure microseconds)
    floatSetValue pExposure value
    modS fun q => { q with parameterCache := q.parameterCache.filter fun c => c.key ≠ "ExposureTime" }
    notifyParameterChanged "ExposureTime" (doubleToString value)

/-- The method `setExposureTime`. -/
def setExposureTime (microseconds : ℚ) : PM Unit :=
  tryCatchIf Exn.isGeneric
    (do
      let found ← locateExposureNode
      match found with
      | none => raise (.genicam .ParameterError 0)
      | some pExposure => writeExposure pExposure microseconds)
    (fun _ => raise (.genicam .GenApiError 0))

/-! ## Concrete sessions used in the examples below -/

/-- A session as the constructor leaves it. -/
def initialSt : St := {}

/-- A transport layer in which every call succeeds and returns `1`, no
description can be loaded and no allocation fails. -/
def quietEnv : TLEnv where
  err := fun _ => 0
  num := fun _ => 1
  str := fun _ => "cam"
  bytes := fun _ => []
  xmlZip := fun _ => none
  xmlString := fun _ => none
  xmlFile := fun _ => none
  connectPortFails := false
  mallocFails := fun _ => false

/-- A feature tree with one writable float node `ExposureTime`, bounds
`[10, 1000]`, value `100`, no increment. -/
def exposureNodes : List Node :=
  [{ name := "ExposureTime", intf := .intfIFloat, access := .RW,
     fval := 100, fmin := 10, fmax := 1000 }]

/-- The parameter-layer state of a connected session over `exposureNodes`. -/
def exposurePState : PState :=
  { pNodeMap := some { nodes := some exposureNodes }, hasCameraPort := true,
    nodeMapValid := true }

/-! ## Specification vocabulary -/

/-- Every exception the computation can raise satisfies `P`. -/
def Raises {σ α : Type} (P : Exn → Bool) (m : M σ α) : Prop :=
  ∀ s e s1, m s = (.error e, s1) → P e = true

/-- The computation never raises. -/
def NeverRaises {σ α : Type} (m : M σ α) : Prop :=
  ∀ s, ∃ a, (m s).1 = .ok a

/-- Every run of the computation relates the state before to the state after
by `R`, whatever the outcome. -/
def Preserves {σ α : Type} (R : σ → σ → Prop) (m : M σ α) : Prop :=
  ∀ s, R s (m s).2

/-- Exceptions of the GenApi library or of the standard library. -/
def Exn.isLib (e : Exn) : Bool := e.isGeneric || e.isStd

/-- What no parameter-layer computation changes: whether `m_pNodeMap` and
`m_pCameraPort` are set, and the clock. -/
def KeepsMap (p q : PState) : Prop :=
  q.pNodeMap.isSome = p.pNodeMap.isSome ∧ q.hasCameraPort = p.hasCameraPort ∧ q.now = p.now

/-- A relation between states that composes along a run. -/
structure Stable {σ : Type} (R : σ → σ → Prop) : Prop where
  refl : ∀ s, R s s
  trans : ∀ s t u, R s t → R t u → R s u

/-- The members no step of starting or stopping the stream changes before the
commit: connection state, flags, listener, thread, and the handles of the
connection. -/
def SameSession (s t : St) : Prop :=
  t.state = s.state ∧ t.isAcquiring = s.isAcquiring ∧ t.stopAcquisition = s.stopAcquisition ∧
  t.eventListener = s.eventListener ∧ t.threadJoinable = s.threadJoinable ∧
  t.tlHandle = s.tlHandle ∧ t.ifHandle = s.ifHandle ∧ t.devHandle = s.devHandle ∧
  t.portHandle = s.portHandle ∧ t.featureEventHandle = s.featureEventHandle ∧
  t.cameraID = s.cameraID

/-- `SameSession`, and the stream and event handles are unchanged too. -/
def SameHandles (s t : St) : Prop :=
  SameSession s t ∧ t.dsHandle = s.dsHandle ∧ t.eventHandle = s.eventHandle

/-- `SameHandles`, and the buffer ring and the feature tree are unchanged too:
only the trace may grow. -/
def SameButTrace (s t : St) : Prop :=
  SameHandles s t ∧ t.bufferHandles = s.bufferHandles ∧ t.alignedBuffers = s.alignedBuffers ∧
  t.bufferSize = s.bufferSize ∧ t.p = s.p

/-- A feature tree with only the root category. -/
def demoNodes : List Node := [{ name := "Root", intf := .intfICategory, access := .RO }]

/-- A transport layer in which every call succeeds, with one interface and a
device whose user-defined name is `cam`; the port URL names a local file whose
description is `demoNodes`. -/
def demoEnv : TLEnv where
  err := fun _ => 0
  num := fun _ => 1
  str := fun k => if k = 10 then "file://cam.xml" else "cam"
  bytes := fun _ => []
  xmlZip := fun _ => none
  xmlString := fun _ => none
  xmlFile := fun _ => some demoNodes
  connectPortFails := false
  mallocFails := fun _ => false

/-- The session after `connect("cam")` on `demoEnv`. -/
def demoConnected : St := (connect demoEnv "cam" initialSt).2

/-- A transport-layer call other than opening or closing a data stream. -/
def TLCall.isQuiet : TLCall → Bool
  | .DevOpenDataStream _ _ => false
  | .DSClose _ => false
  | _ => true

/-- A relation between session states that holds across the building blocks
of the acquisition code: parameter-layer runs, transport-layer calls other
than opening or closing a stream, updates of the ring and of the buffer size,
and entering `freeBuffers`. -/
structure Respects (env : TLEnv) (R : St → St → Prop) : Prop where
  stable : Stable R
  param : ∀ (s : St) (q : PState), R s { s with p := q }
  call : ∀ (s : St) (c : TLCall), c.isQuiet = true → R s { s with trace := s.trace ++ [.tl c] }
  ring : ∀ (s : St) (bh : List Nat) (ab : List AlignedBuffer) (bs : Nat),
    R s { s with bufferHandles := bh, alignedBuffers := ab, bufferSize := bs }
  free : ∀ (s : St), R s { s with trace := s.trace ++ [.freeBuffersCall] }

/-- The events that delimit the locked section: calls of
`setTransportLayerLock`, opening and closing of a data stream. -/
def Ev.isKey : Ev → Bool
  | .lockCall _ => true
  | .tl (.DevOpenDataStream _ _) => true
  | .tl (.DSClose _) => true
  | _ => false

/-- The trace grows by events that do not delimit the locked section. -/
def NoKey (s t : St) : Prop :=
  ∃ l, t.trace = s.trace ++ l ∧ ∀ e ∈ l, e.isKey = false

/-- The stream handle is unchanged. -/
def SameStream (s t : St) : Prop := t.dsHandle = s.dsHandle

/-- What `stopAcquisition` appends to the trace when it runs to the end of its
`try` block from the session `s`. -/
def stopTrace (s : St) : List Ev :=
  (if s.dsHandle ≠ 0 then [.tl (.DSStopAcquisition s.dsHandle), .tl (.DSFlushQueue s.dsHandle)]
    else []) ++
  (if s.eventHandle ≠ 0 then [.tl (.GCUnregisterEvent s.dsHandle .EVENT_NEW_BUFFER)] else []) ++
  (if s.dsHandle ≠ 0 then [.tl (.DSClose s.dsHandle)] else []) ++
  [.lockCall false, .freeBuffersCall]

/-- What the listener does when told that the acquisition stopped. -/
def stoppedOutcome (s : St) : Except Exn Unit :=
  match s.eventListener with
  | some l =>
    match l.onAcquisitionStopped with
    | some e => .error e
    | none => .ok ()
  | none => .ok ()

/-- The feature tree and cache at the end of the `try` block of
`stopAcquisition`: the stop command and the unlock have run on them. -/
def stoppedPState (s : St) : PState :=
  (setTransportLayerLockP false (executeIfWritable "AcquisitionStop" s.p).2).2

/-- The session at the end of the `try` block of `stopAcquisition`. -/
def stoppedSession (s : St) : St :=
  { s with p := stoppedPState s, threadJoinable := false, eventHandle := 0, dsHandle := 0,
           bufferHandles := [], alignedBuffers := [], isAcquiring := false,
           state := .Connected, trace := s.trace ++ stopTrace s }

/-- The stream handle is unchanged and the trace grows by events that do not
delimit the locked section. -/
def QuietStream (s t : St) : Prop := NoKey s t ∧ SameStream s t

/-- A feature tree with the root category and the two acquisition commands. -/
def streamNodes : List Node :=
  [{ name := "Root", intf := .intfICategory, access := .RO },
   { name := "AcquisitionStart", intf := .intfICommand, access := .WO },
   { name := "AcquisitionStop", intf := .intfICommand, access := .WO }]

/-- The transport layer `demoEnv` with the description `streamNodes`; the
numbers and handles it returns differ from call to call. -/
def streamEnv : TLEnv :=
  { demoEnv with xmlFile := fun _ => some streamNodes, num := fun k => k + 1 }

/-- The session after `connect("cam")` on `streamEnv`. -/
def streamConnected : St := (connect streamEnv "cam" initialSt).2

/-- The session after `startAcquisition(2)` on `streamConnected`. -/
def streamAcquiring : St := (startAcquisition streamEnv 2 streamConnected).2

/-- The session after `stopAcquisition()` on `streamAcquiring`. -/
def streamStopped : St := (stopAcquisition streamEnv streamAcquiring).2

/-- Whether the event announces a buffer to a stream. -/
def Ev.isAnnounce : Ev → Bool
  | .tl (.DSAllocAndAnnounceBuffer _ _) => true
  | .tl (.DSAnnounceBuffer _ _) => true
  | _ => false

/-- Whether the event revokes a buffer from a stream. -/
def Ev.isRevoke : Ev → Bool
  | .tl (.DSRevokeBuffer _ _) => true
  | _ => false

/-- The events a run added to the trace. -/
def newEvents (before after : St) : List Ev := after.trace.drop before.trace.length

/-- The transport layer `demoEnv`, except that the port URL is a register URL
whose address field `zz` is not a hexadecimal numeral. -/
def badUrlEnv : TLEnv :=
  { demoEnv with str := fun k => if k = 10 then "local:///cam.zip;zz;10" else "cam" }

/-- The transport layer `demoEnv`, except that the description loaded has
neither a `Root` nor a `Device` node. -/
def noRootEnv : TLEnv := { demoEnv with xmlFile := fun _ => some [] }

/-- Whether the event closes a device or an interface. -/
def Ev.isRelease : Ev → Bool
  | .tl (.DevClose _) => true
  | .tl (.IFClose _) => true
  | _ => false

/-! ### Single-frame acquisition -/

/-- The enumeration `AcquisitionMode`. -/
inductive AcquisitionMode where
  | SingleFrame
  | MultiFrame
  | Continuous
  deriving DecidableEq, Repr

/-- The enumeration `TriggerMode`. -/
inductive TriggerMode where
  | Off
  | On
  deriving DecidableEq, Repr

/-- The enumeration `TriggerSource`. -/
inductive TriggerSource where
  | Software
  | Line0 | Line1 | Line2 | Line3 | Line4 | Line5 | Line6 | Line7
  | Counter0End | Counter1End | Counter2End
  | Timer0End | Timer1End | Timer2End
  | UserOutput0 | UserOutput1 | UserOutput2 | UserOutput3
  | Action0 | Action1
  | Encoder0 | Encoder1
  | FrameTriggerWait
  | ExposureActive
  deriving DecidableEq, Repr

/-- A decoded image (`cv::Mat`), of which only emptiness is kept. -/
structure Mat where
  empty : Bool := true
  deriving DecidableEq, Repr

/-- The collaborators of `grabSingleFrame` that are taken as given: the two
name mappings of the trigger source (`triggerSourceToString` may consult the
feature tree) and the pixel decoder `convertBufferToMat` (buffer size, width,
height, format), which returns an image or throws. -/
structure Helpers where
  triggerSourceToString : TriggerSource → PM String
  stringToTriggerSource : String → TriggerSource
  convertBufferToMat : Nat → Nat → Nat → PixelFormat → Except Exn Mat

/-- The methods `isAcquisitionModeAvailable` and `isTriggerModeAvailable`:
the feature tree is dereferenced without a null test. -/
def isFeatureImplemented (name : String) : PM Bool :=
  tryCatchIf Exn.isCatchable
    (do
      let node ← nmGetNode name
      match node with
      | some n => pure n.isImplemented
      | none => pure false)
    (fun _ => pure false)

/-- The method `isAcquisitionModeAvailable`. -/
def isAcquisitionModeAvailable : PM Bool := isFeatureImplemented "AcquisitionMode"

/-- The method `isTriggerModeAvailable`. -/
def isTriggerModeAvailable : PM Bool := isFeatureImplemented "TriggerMode"

/-- The `switch` of `setAcquisitionMode`. -/
def acquisitionModeString : AcquisitionMode → String
  | .SingleFrame => "SingleFrame"
  | .MultiFrame => "MultiFrame"
  | .Continuous => "Continuous"

/-- The method `setAcquisitionMode`; `isAcquiring` is the flag `m_isAcquiring`
at the time of the call. -/
def setAcquisitionMode (isAcquiring : Bool) (mode : AcquisitionMode) : PM Unit :=
  if isAcquiring then raise (.genicam .AcquisitionError 0)
  else
    tryCatchIf Exn.isGeneric
      (do
        let pAcqMode ← getEnumerationNode "AcquisitionMode"
        if !pAcqMode.isWritable then raise (.genicam .ParameterError 0)
        else do
          enumFromString pAcqMode (acquisitionModeString mode)
          notifyParameterChanged "AcquisitionMode" (acquisitionModeString mode)
          if mode = .MultiFrame then
            tryCatchIf Exn.isCatchable
              (do
                let a ← isParameterAvailable "AcquisitionFrameCount"
                let w ← (if a then isParameterWritable "AcquisitionFrameCount" else pure false)
                if w then do
                  let pFrameCount ← getIntegerNode "AcquisitionFrameCount"
                  let v ← intGetValue pFrameCount
                  if v = 0 then intSetValue pFrameCount 10 else pure ()
                else pure ())
              (fun _ => pure ())
          else pure ())
      (fun _ => raise (.genicam .GenApiError 0))

/-- The method `setTriggerMode`. -/
def setTriggerMode (isAcquiring : Bool) (mode : TriggerMode) : PM Unit :=
  if isAcquiring then raise (.genicam .AcquisitionError 0)
  else
    tryCatchIf Exn.isGeneric
      (do
        let pTriggerMode ← getEnumerationNode "TriggerMode"
        if !pTriggerMode.isWritable then raise (.genicam .ParameterError 0)
        else do
          enumFromString pTriggerMode (if mode = .On then "On" else "Off")
          notifyParameterChanged "TriggerMode" (if mode = .On then "On" else "Off"))
      (fun _ => raise (.genicam .GenApiError 0))

/-- The method `getTriggerMode`. -/
def getTriggerMode : PM TriggerMode :=
  tryCatchIf Exn.isCatchable
    (do
      let pTriggerMode ← getEnumerationNode "TriggerMode"
      let value ← enumToString pTriggerMode
      pure (if value = "On" then .On else .Off))
    (fun _ => pure .Off)

/-- The method `getTriggerSource`. -/
def getTriggerSource (h : Helpers) : PM TriggerSource :=
  tryCatchIf Exn.isCatchable
    (do
      let pTriggerSource ← getEnumerationNode "TriggerSource"
      let value ← enumToString pTriggerSource
      pure (h.stringToTriggerSource value))
    (fun _ => pure .Software)

/-- The method `setTriggerSource`; the entries an enumeration lists are the
available ones.  A `GenICamException` is rethrown as it is. -/
def setTriggerSource (h : Helpers) (source : TriggerSource) : PM Unit :=
  tryCatchIf Exn.isGeneric
    (do
      let pTriggerSource ← getEnumerationNode "TriggerSource"
      if !pTriggerSource.isWritable then raise (.genicam .ParameterError 0)
      else do
        let sourceStr ← h.triggerSourceToString source
        match enumEntryByName pTriggerSource sourceStr with
        | none => raise (.genicam .ParameterError 0)
        | some _ => do
          enumFromString pTriggerSource sourceStr
          notifyParameterChanged "TriggerSource" sourceStr)
    (fun _ => raise (.genicam .GenApiError 0))

/-- The command names tried by `executeTriggerSoftware`. -/
def triggerCommandNames : List String :=
  ["TriggerSoftware", "TriggerSoftwareExecute", "SoftwareTrigger", "TriggerCmd"]

/-- The loop of `executeTriggerSoftware`; the result is `executed`. -/
def triggerCommandLoop : List String → PM Bool
  | [] => pure false
  | cmdName :: rest => do
    let done ← tryCatchIf Exn.isCatchable
      (do
        let pTriggerCmd ← getCommandNode cmdName
        if pTriggerCmd.isWritable then do
          commandExecute pTriggerCmd
          pure true
        else pure false)
      (fun _ => pure false)
    if done then pure true else triggerCommandLoop rest

/-- The method `executeTriggerSoftware`. -/
def executeTriggerSoftware (h : Helpers) (isAcquiring : Bool) : PM Unit :=
  if !isAcquiring then raise (.genicam .AcquisitionError 0)
  else
    tryCatchIf Exn.isGeneric
      (do
        let mode ← getTriggerMode
        if mode ≠ .On then raise (.genicam .InvalidOperation 0)
        else do
          let source ← getTriggerSource h
          if source ≠ .Software then raise (.genicam .InvalidOperation 0)
          else do
            let executed ← triggerCommandLoop triggerCommandNames
            if !executed then raise (.genicam .ParameterError 0) else pure ())
      (fun _ => raise (.genicam .GenApiError 0))

/-- One of the probes of `debugAcquisitionStart`: the value is read when the
feature is available, and only printed. -/
def debugProbe (name : String) : PM Unit := do
  let a ← isParameterAvailable name
  if a then do
    let _ ← getParameter name
    pure ()
  else pure ()

/-- The method `debugAcquisitionStart`: apart from printing, it looks the
`AcquisitionStart` node up without a null test and, when the node is not
writable, reads five related features; only `std::exception` is caught. -/
def debugAcquisitionStart : PM Unit :=
  tryCatchIf Exn.isStd
    (do
      let node ← nmGetNode "AcquisitionStart"
      match node with
      | none => pure ()
      | some n =>
        if n.intf ≠ .intfICommand then pure ()
        else if !n.isWritable then do
          debugProbe "AcquisitionMode"
          debugProbe "TriggerMode"
          debugProbe "AcquisitionStatus"
          debugProbe "GevCCP"
          debugProbe "StreamIsGrabbing"
        else pure ())
    (fun _ => pure ())

/-- The configuration of `grabSingleFrame` made before the lock: continuous
mode, trigger on, software source. -/
def configureSingleFrame (h : Helpers) : SM Unit := do
  let a ← liftP isAcquisitionModeAvailable
  (if a then do
    let s ← getS
    liftP (setAcquisitionMode s.isAcquiring .Continuous)
  else pure ())
  let t ← liftP isTriggerModeAvailable
  if t then do
    let s ← getS
    liftP (setTriggerMode s.isAcquiring .On)
    let mode ← liftP getTriggerMode
    if mode = .On then liftP (setTriggerSource h .Software) else pure ()
  else pure ()

/-- The device command of `grabSingleFrame`: the node `AcquisitionStart` is
looked up directly, the feature tree is refreshed, and when the node is a
command it is executed and the flags are set; a `GenericException` is ignored.
-/
def issueAcquisitionStartSingle : SM Unit :=
  tryCatchIf Exn.isGeneric
    (do
      let node ← liftP (nmGetNode "AcquisitionStart")
      liftP refreshNodeMap
      match node with
      | some n =>
        if n.intf = .intfICommand then do
          liftP (commandExecute n)
          modS fun t => { t with isAcquiring := true, stopAcquisition := false }
        else pure ()
      | none => pure ())
    (fun _ => pure ())

/-- The diagnostic queries `grabSingleFrame` makes when no frame arrived. -/
def reportStreamCounters (env : TLEnv) : SM Unit := do
  let s ← getS
  let _ ← tlCall env (.DSGetInfo s.dsHandle .STREAM_INFO_NUM_DELIVERED)
  let _ ← tlCall env (.DSGetInfo s.dsHandle .STREAM_INFO_NUM_QUEUED)
  let _ ← tlCall env (.DSGetInfo s.dsHandle .STREAM_INFO_NUM_STARTED)
  let _ ← tlCall env (.DSGetInfo s.dsHandle .STREAM_INFO_IS_GRABBING)
  let _ ← tlCall env (.DSGetInfo s.dsHandle .STREAM_INFO_NUM_ANNOUNCED)
  let _ ← tlCall env (.DSGetInfo s.dsHandle .STREAM_INFO_NUM_AWAIT_DELIVERY)
  pure ()

/-- The wait for the frame and its decoding in `grabSingleFrame`. -/
def waitAndDecode (env : TLEnv) (h : Helpers) (timeoutMs : Nat) : SM Mat := do
  let s ← getS
  let r ← tlCall env (.EventGetData s.eventHandle timeoutMs)
  if r.err ≠ 0 then do
    reportStreamCounters env
    raise (.genicam .TimeoutError r.err)
  else
    let hBuffer := r.num
    if hBuffer ≠ 0 then do
      let rb ← tlCall env (.DSGetBufferInfo s.dsHandle hBuffer .BUFFER_INFO_BASE)
      if rb.err = 0 ∧ rb.num ≠ 0 then do
        let rw ← tlCall env (.DSGetBufferInfo s.dsHandle hBuffer .BUFFER_INFO_WIDTH)
        let rh ← tlCall env (.DSGetBufferInfo s.dsHandle hBuffer .BUFFER_INFO_HEIGHT)
        let rf ← tlCall env (.DSGetBufferInfo s.dsHandle hBuffer .BUFFER_INFO_PIXELFORMAT)
        let width := if rw.err = 0 then rw.num else 0
        let height := if rh.err = 0 then rh.num else 0
        let pixelFormat := if rf.err = 0 then rf.num else 0
        let t ← getS
        match h.convertBufferToMat t.bufferSize width height
            (convertFromGenICamPixelFormat pixelFormat) with
        | .ok m => pure m
        | .error e => raise e
      else pure {}
    else pure {}

/-- The unwinding at the end of the `try` block of `grabSingleFrame`. -/
def unwindSingleFrame (env : TLEnv) : SM Unit := do
  tryCatchIf Exn.isCatchable
    (do
      liftP (executeIfWritable "AcquisitionStop")
      modS fun t => { t with isAcquiring := false, stopAcquisition := true })
    (fun _ => pure ())
  let s ← getS
  (if s.eventHandle ≠ 0 then do
    modS fun t => { t with isAcquiring := false, stopAcquisition := true }
    let _ ← tlCall env (.GCUnregisterEvent s.dsHandle .EVENT_NEW_BUFFER)
    modS fun t => { t with eventHandle := 0 }
  else pure ())
  let s ← getS
  (if s.dsHandle ≠ 0 then do
    let _ ← tlCall env (.DSStopAcquisition s.dsHandle)
    let _ ← tlCall env (.DSFlushQueue s.dsHandle)
    let _ ← tlCall env (.DSClose s.dsHandle)
    modS fun t => { t with dsHandle := 0 }
  else pure ())
  let _ ← setTransportLayerLock false
  let s ← getS
  liftP (setTriggerMode s.isAcquiring .Off)
  freeBuffers env

/-- The `try` block of `grabSingleFrame`. -/
def grabSingleFrameBody (env : TLEnv) (h : Helpers) (timeoutMs : Nat) : SM Mat := do
  liftP debugAcquisitionStart
  liftP prepareTransportLayerForAcquisition
  let _ ← setTransportLayerLock false
  configureSingleFrame h
  let _ ← setTransportLayerLock true
  openDataStream env
  determinePayloadSize env
  allocateBuffers env 1
  queueAllBuffers env
  registerNewBufferEvent env
  let s ← getS
  let _ ← tlCall env (.DSGetInfo s.dsHandle .STREAM_INFO_NUM_QUEUED)
  startStream env
  issueAcquisitionStartSingle
  let mode ← liftP getTriggerMode
  (if mode = .On then do
    let s ← getS
    liftP (executeTriggerSoftware h s.isAcquiring)
  else pure ())
  let result ← waitAndDecode env h timeoutMs
  unwindSingleFrame env
  pure result

/-- The handler `catch (...)` of `grabSingleFrame`. -/
def grabSingleFrameCleanup (env : TLEnv) (e : Exn) : SM Mat := do
  let s ← getS
  (if s.eventHandle ≠ 0 then do
    let _ ← tlCall env (.GCUnregisterEvent s.dsHandle .EVENT_NEW_BUFFER)
    modS fun t => { t with eventHandle := 0 }
  else pure ())
  let s ← getS
  (if s.dsHandle ≠ 0 then do
    let _ ← tlCall env (.DSStopAcquisition s.dsHandle)
    let _ ← tlCall env (.DSClose s.dsHandle)
    modS fun t => { t with dsHandle := 0 }
  else pure ())
  freeBuffers env
  raise e

/-- The method `grabSingleFrame`. -/
def grabSingleFrame (env : TLEnv) (h : Helpers) (timeoutMs : Nat) : SM Mat := do
  let s ← getS
  if !isConnected s then raise (.genicam .ConnectionError 0)
  else if s.isAcquiring then raise (.genicam .AcquisitionError 0)
  else
    tryCatchIf Exn.isCatchable (grabSingleFrameBody env h timeoutMs)
      (grabSingleFrameCleanup env)

/-! ### Reachable sessions -/

/-- The method `setEventListener`. -/
def setEventListener (l : Option Listener) (s : St) : St := { s with eventListener := l }

/-- The steady clock moves on by `d` milliseconds. -/
def advanceClock (d : Nat) (s : St) : St := { s with p := { s.p with now := s.p.now + d } }

/-- The feature tree passes the test of `validateNodeMap`: the flag
`m_nodeMapValid` is set and `m_pNodeMap` is not null. -/
def featureTreeValid (p : PState) : Bool := p.nodeMapValid && p.pNodeMap.isSome

/-- The sessions an application can reach from a fresh object: by the
lifecycle calls, successful or not, on any transport layer and with any
listener; by generic parameter access, whose `validateNodeMap` refreshes a
stale tree; by the refresh the delivery loop makes while the session is
`Acquiring`; and by the passing of time. -/
inductive Reachable : St → Prop where
  | fresh : Reachable initialSt
  | connect (env : TLEnv) (cameraID : String) {s : St} :
      Reachable s → Reachable (connect env cameraID s).2
  | disconnect (env : TLEnv) {s : St} : Reachable s → Reachable (disconnect env s).2
  | startAcquisition (env : TLEnv) (bufferCount : Nat) {s : St} :
      Reachable s → Reachable (startAcquisition env bufferCount s).2
  | stopAcquisition (env : TLEnv) {s : St} : Reachable s → Reachable (stopAcquisition env s).2
  | grabSingleFrame (env : TLEnv) (h : Helpers) (timeoutMs : Nat) {s : St} :
      Reachable s → Reachable (grabSingleFrame env h timeoutMs s).2
  | setEventListener (l : Option Listener) {s : St} :
      Reachable s → Reachable (setEventListener l s)
  | advanceClock (d : Nat) {s : St} : Reachable s → Reachable (advanceClock d s)
  | validateNodeMap {s : St} : Reachable s → Reachable (liftP validateNodeMap s).2
  | getParameter (parameterName : String) {s : St} :
      Reachable s → Reachable (liftP (getParameter parameterName) s).2
  | setParameter (parameterName value : String) {s : St} :
      Reachable s → Reachable (liftP (setParameter parameterName value) s).2
  | deliveryRefresh {s : St} :
      Reachable s → s.state = .Acquiring → Reachable (liftP refreshNodeMap s).2

/-- The state never becomes `Disconnected` along the run. -/
def StaysConnected (s t : St) : Prop := t.state = .Disconnected → s.state = .Disconnected

/-- The flag `m_nodeMapValid` and the flag `m_isAcquiring` are unchanged. -/
def KeepsFlags (s t : St) : Prop :=
  t.p.nodeMapValid = s.p.nodeMapValid ∧ t.isAcquiring = s.isAcquiring

/-- A session that is `Disconnected` has its feature tree flagged invalid and
is not acquiring. -/
def DisconnectedClean (s : St) : Prop :=
  s.state = .Disconnected → s.p.nodeMapValid = false ∧ s.isAcquiring = false

/-- From a state satisfying `P` the computation ends in a state satisfying `Q`
when it returns and `E` when it throws. -/
def Triple {σ α : Type} (P : σ → Prop) (m : M σ α) (Q : α → σ → Prop) (E : Exn → σ → Prop) :
    Prop :=
  ∀ s, P s → (∀ a t, m s = (.ok a, t) → Q a t) ∧ (∀ e t, m s = (.error e, t) → E e t)

/-- A listener whose `OnAcquisitionStopped` throws a `std::exception`. -/
def failingListener : Listener := { onAcquisitionStopped := some .stdExn }

/-- The session after `setEventListener(failingListener)`, `connect("cam")`,
`startAcquisition(2)` and `stopAcquisition()` on `streamEnv`. -/
def listenerSession : St :=
  (stopAcquisition streamEnv
    (startAcquisition streamEnv 2
      (connect streamEnv "cam" (setEventListener (some failingListener) initialSt)).2).2).2

/-- A feature tree whose root cannot be invalidated: `InvalidateNode` throws. -/
def staleNodes : List Node :=
  [{ name := "Root", intf := .intfICategory, access := .RO, ioFails := true }]

/-- The transport layer `demoEnv` with the description `staleNodes`. -/
def staleEnv : TLEnv := { demoEnv with xmlFile := fun _ => some staleNodes }

/-- The session after `connect("cam")` on `staleEnv`, 31 seconds, and a
`validateNodeMap`. -/
def staleSession : St :=
  (liftP validateNodeMap (advanceClock 31000 (connect staleEnv "cam" initialSt).2)).2

/-- The session after `connect("cam")` and `disconnect()` on `demoEnv`. -/
def demoDisconnected : St := (disconnect demoEnv demoConnected).2

/-- The flag `m_nodeMapValid` is unchanged. -/
def SameValid (p q : PState) : Prop := q.nodeMapValid = p.nodeMapValid

/-- The precondition of the body of `connect` in a consistent session: the
feature tree is flagged invalid and no acquisition is running. -/
def Idle (s : St) : Prop := s.p.nodeMapValid = false ∧ s.isAcquiring = false

/-! ### Cached readers: exposure time and gain -/

/-- The look-up `m_parameterCache.find(key)`. -/
def cacheFind (key : String) (cache : List CacheEntry) : Option CacheEntry :=
  cache.find? fun c => c.key = key

/-- The test at the head of `getExposureTime` and `getGain`: the cached text
when there is an entry younger than `CACHE_TIMEOUT`. -/
def cachedValue (key : String) (p : PState) : Option String :=
  match cacheFind key p.parameterCache with
  | some c => if p.now - c.stamp < CACHE_TIMEOUT then some c.value else none
  | none => none

/-- The assignment `m_parameterCache[key] = { value, steady_clock::now() }`. -/
def cachePut (key value : String) : PM Unit := modS fun q =>
  { q with parameterCache :=
      (q.parameterCache.filter fun c => c.key ≠ key) ++ [{ key := key, value := value, stamp := q.now }] }

/-- The statement `return std::stod(it->second.first)`. -/
def returnCached (str : String) : PM ℚ :=
  match stod str with
  | some v => pure v
  | none => raise .stdExn

/-- One iteration of the loop of `getExposureTime`: the value of the node
`name` when it is a readable float node, multiplied by `ExposureTimeBaseAbs`
for `ExposureTimeRaw`; the value is stored in the cache.  Every failure is
swallowed and gives `none`. -/
def readExposureNode (name : String) : PM (Option ℚ) :=
  tryCatchIf Exn.isCatchable
    (do
      let pExposure ← getFloatNode name
      if pExposure.isReadable then do
        let value ← floatGetValue pExposure
        let value ← (if name = "ExposureTimeRaw" then
            tryCatchIf Exn.isCatchable
              (do
                let pConvFactor ← getFloatNode "ExposureTimeBaseAbs"
                let factor ← floatGetValue pConvFactor
                pure (value * factor))
              (fun _ => pure value)
          else pure value)
        cachePut "ExposureTime" (doubleToString value)
        pure (some value)
      else pure none)
    (fun _ => pure none)

/-- The loop of `getExposureTime` over the candidate names. -/
def readExposure : List String → PM (Option ℚ)
  | [] => pure none
  | name :: rest => do
    let r ← readExposureNode name
    match r with
    | some v => pure (some v)
    | none => readExposure rest

/-- The part of `getExposureTime` after the cache test. -/
def fetchExposureTime : PM ℚ := do
  let r ← readExposure exposureNames
  match r with
  | some v => pure v
  | none => raise (.genicam .ParameterError 0)

/-- The method `getExposureTime`. -/
def getExposureTime : PM ℚ :=
  tryCatchIf Exn.isGeneric
    (do
      let p ← getS
      match cachedValue "ExposureTime" p with
      | some str => returnCached str
      | none => fetchExposureTime)
    (fun _ => raise (.genicam .GenApiError 0))

/-- The selectors `setupGainSelector` prefers, in order. -/
def preferredSelectors : List String :=
  ["All", "AnalogAll", "DigitalAll", "Tap1", "Red", "Sensor"]

/-- The first preferred selector for which some entry answers that name;
`entryName` is the result of `entry->GetName()`, which GenApi defines. -/
def firstPreferredSelector (entryName : EnumEntry → String) (entries : List EnumEntry) :
    List String → Option String
  | [] => none
  | selector :: rest =>
    if entries.any fun e => entryName e = selector then some selector
    else firstPreferredSelector entryName entries rest

/-- The method `setupGainSelector`; the entries an enumeration lists are the
available ones. -/
def setupGainSelector (entryName : EnumEntry → String) : PM Bool :=
  tryCatchIf Exn.isCatchable
    (do
      let pGainSelector ← getEnumerationNode "GainSelector"
      if pGainSelector.isWritable then
        match firstPreferredSelector entryName pGainSelector.entries preferredSelectors with
        | some selector => do
          enumFromString pGainSelector selector
          pure true
        | none =>
          match pGainSelector.entries with
          | e :: _ => do
            enumFromString pGainSelector (entryName e)
            pure true
          | [] => pure false
      else pure false)
    (fun _ => pure false)

/-- The candidate names of the gain node, in the order they are tried. -/
def gainNames : List String :=
  ["Gain", "GainRaw", "GainAbs", "AnalogGain", "DigitalGain", "Brightness"]

/-- The multiplication by `GainFactor` that `getGain` applies to `GainRaw`. -/
def applyGainFactor (gainName : String) (value : ℚ) : PM ℚ :=
  if gainName = "GainRaw" then
    tryCatchIf Exn.isCatchable
      (do
        let pGainFactor ← getFloatNode "GainFactor"
        if pGainFactor.isReadable then do
          let factor ← floatGetValue pGainFactor
          pure (value * factor)
        else pure value)
      (fun _ => pure value)
  else pure value

/-- The integer attempt of one iteration of `getGain`. -/
def readGainInteger (gainName : String) : PM (Option ℚ) := do
  let pGainInt ← getIntegerNode gainName
  if pGainInt.isReadable then do
    let raw ← intGetValue pGainInt
    let value ← applyGainFactor gainName (raw : ℚ)
    cachePut "Gain" (doubleToString value)
    pure (some value)
  else pure none

/-- The float attempt of one iteration of `getGain`. -/
def readGainFloat (gainName : String) : PM (Option ℚ) := do
  let pGain ← getFloatNode gainName
  if pGain.isReadable then do
    let value ← floatGetValue pGain
    cachePut "Gain" (doubleToString value)
    pure (some value)
  else pure none

/-- One iteration of the loop of `getGain`: the float attempt, and when it
throws the integer attempt, whose failures are swallowed. -/
def readGainNode (gainName : String) : PM (Option ℚ) :=
  tryCatchIf Exn.isCatchable (readGainFloat gainName)
    (fun _ => tryCatchIf Exn.isCatchable (readGainInteger gainName) (fun _ => pure none))

/-- The loop of `getGain` over the candidate names. -/
def readGain : List String → PM (Option ℚ)
  | [] => pure none
  | gainName :: rest => do
    let r ← readGainNode gainName
    match r with
    | some v => pure (some v)
    | none => readGain rest

/-- The part of `getGain` after the cache test. -/
def fetchGain (entryName : EnumEntry → String) : PM ℚ := do
  let _ ← setupGainSelector entryName
  let r ← readGain gainNames
  match r with
  | some v => pure v
  | none => raise (.genicam .ParameterError 0)

/-- The method `getGain`. -/
def getGain (entryName : EnumEntry → String) : PM ℚ :=
  tryCatchIf Exn.isGeneric
    (do
      let p ← getS
      match cachedValue "Gain" p with
      | some str => returnCached str
      | none => fetchGain entryName)
    (fun _ => raise (.genicam .GenApiError 0))

/-- The value `setGain` passes to `SetValue` on a float node: clamped to
`[min, max]`, then rounded to a multiple of the increment when there is one.
-/
def floatGainValue (min max inc gain : ℚ) : ℚ :=
  let gain := if gain < min then min else gain
  let gain := if gain > max then max else gain
  if inc > 0 then ((roundHalfAway (gain / inc) : Int) : ℚ) * inc else gain

/-- The value `setGain` passes to `SetValue` on an integer node: clamped to
`[min, max]`, then cut down to a multiple of the increment by the truncating
division of `int64_t`. -/
def intGainValue (min max inc intGain : Int) : Int :=
  let intGain := if intGain < min then min else intGain
  let intGain := if intGain > max then max else intGain
  if inc > 1 then (intGain.tdiv inc) * inc else intGain

/-- The float attempt of one iteration of `setGain`; the result is `gainSet`.
-/
def setGainFloat (gainName : String) (gain : ℚ) : PM Bool := do
  let pGain ← getFloatNode gainName
  if pGain.isWritable then do
    let min ← floatGetMin pGain
    let max ← floatGetMax pGain
    let inc ← tryCatchIf Exn.isCatchable
      (if pGain.hasInc then floatGetInc pGain else pure 0)
      (fun _ => pure 0)
    floatSetValue pGain (floatGainValue min max inc gain)
    notifyParameterChanged "Gain" (doubleToString (floatGainValue min max inc gain))
    pure true
  else pure false

/-- The division by `GainFactor` that `setGain` applies for `GainRaw`. -/
def rawGain (gainName : String) (gain : ℚ) : PM Int :=
  if gainName = "GainRaw" then
    tryCatchIf Exn.isCatchable
      (do
        let pGainFactor ← getFloatNode "GainFactor"
        if pGainFactor.isReadable then do
          let factor ← floatGetValue pGainFactor
          if factor ≠ 0 then pure (truncToInt (gain / factor)) else pure (truncToInt gain)
        else pure (truncToInt gain))
      (fun _ => pure (truncToInt gain))
  else pure (truncToInt gain)

/-- The integer attempt of one iteration of `setGain`. -/
def setGainInteger (gainName : String) (gain : ℚ) : PM Bool := do
  let pGainInt ← getIntegerNode gainName
  if pGainInt.isWritable then do
    let min ← intGetMin pGainInt
    let max ← intGetMax pGainInt
    let inc ← tryCatchIf Exn.isCatchable
      (if pGainInt.hasInc then intGetInc pGainInt else pure 1)
      (fun _ => pure 1)
    let intGain ← rawGain gainName gain
    intSetValue pGainInt (intGainValue min max inc intGain)
    notifyParameterChanged "Gain" (intToString (intGainValue min max inc intGain))
    pure true
  else pure false

/-- The loop of `setGain`; the result is `gainSet`.  The float attempt
overwrites its copy of `gain` only right before `SetValue`, which throws no
`std::exception`, so the integer attempt and the later names see the value
that was passed in. -/
def setGainLoop : List String → ℚ → PM Bool
  | [], _ => pure false
  | gainName :: rest, gain => do
    let gainSet ← tryCatchIf Exn.isStd (setGainFloat gainName gain)
      (fun _ => tryCatchIf Exn.isStd (setGainInteger gainName gain) (fun _ => pure false))
    if gainSet then pure true else setGainLoop rest gain

/-- The method `setGain`.  It does not touch `m_parameterCache`. -/
def setGain (entryName : EnumEntry → String) (gain : ℚ) : PM Unit :=
  tryCatchIf Exn.isGeneric
    (do
      let _ ← setupGainSelector entryName
      let gainSet ← setGainLoop gainNames gain
      if !gainSet then raise (.genicam .ParameterError 0) else pure ())
    (fun _ => raise (.genicam .GenApiError 0))

/-- A feature tree with a float `Gain` in `[0, 10]` with increment 4. -/
def floatGainNodes : List Node :=
  [{ name := "Root", intf := .intfICategory, access := .RO },
   { name := "Gain", intf := .intfIFloat, access := .RW, fval := 4, fmin := 0, fmax := 10,
     hasInc := true, finc := 4 }]

/-- A feature tree with an integer `Gain` in `[1, 9]` with increment 2. -/
def intGainNodes : List Node :=
  [{ name := "Root", intf := .intfICategory, access := .RO },
   { name := "Gain", intf := .intfIInteger, access := .RW, ival := 3, imin := 1, imax := 9,
     hasInc := true, iinc := 2 }]

/-- The parameter layer of a connected session with the given description,
validated at time 0. -/
def loadedPState (nodes : List Node) : PState :=
  { pNodeMap := some { nodes := some nodes }, hasCameraPort := true, nodeMapValid := true }

/-- A feature tree with a float `Gain` of value 5 in `[0, 10]`, increment 1/2.
-/
def halfStepGainNodes : List Node :=
  [{ name := "Root", intf := .intfICategory, access := .RO },
   { name := "Gain", intf := .intfIFloat, access := .RW, fval := 5, fmin := 0, fmax := 10,
     hasInc := true, finc := 1 / 2 }]

/-- The parameter layer after `getGain()` on `halfStepGainNodes`, then
`setGain(7)`. -/
def gainSetAfterRead : PState :=
  (setGain EnumEntry.symbolic 7
    (getGain EnumEntry.symbolic (loadedPState halfStepGainNodes)).2).2

/-- The parameter layer `p` with the clock `d` milliseconds later. -/
def PState.later (d : Nat) (p : PState) : PState := { p with now := p.now + d }

/-! ### What the readers deliver on a loaded feature tree -/

/-- The feature tree holds the description `ns`, is flagged valid and is not
due for a refresh. -/
def Loaded (ns : List Node) (p : PState) : Prop :=
  p.pNodeMap = some { nodes := some ns } ∧ p.nodeMapValid = true ∧ isNodeMapStale p = false

/-- The node `name` of the description when its interface is `intf`: what the
typed look-ups find. -/
def typedNode (intf : EInterfaceType) (ns : List Node) (name : String) : Option Node :=
  match findNode name ns with
  | some n => if n.intf = intf then some n else none
  | none => none

/-- What a float node delivers to `GetValue`: nothing when it is not readable
or the register access fails. -/
def Node.reading (n : Node) : Option ℚ :=
  if n.isReadable && !n.ioFails then some n.fval else none

/-- The factor `ExposureTimeBaseAbs` when that float node can be read,
otherwise 1. -/
def exposureBase (ns : List Node) : ℚ :=
  match (typedNode .intfIFloat ns "ExposureTimeBaseAbs").bind Node.reading with
  | some f => f
  | none => 1

/-- What one candidate name contributes: the reading of the float node of that
name, multiplied by `exposureBase` for `ExposureTimeRaw`. -/
def exposureOf (ns : List Node) (name : String) : Option ℚ :=
  match (typedNode .intfIFloat ns name).bind Node.reading with
  | some v => some (if name = "ExposureTimeRaw" then v * exposureBase ns else v)
  | none => none

/-- Stated from the claim: the contribution of the first name of the ordered
list that resolves to a float node that can be read. -/
def exposureReading (ns : List Node) : List String → Option ℚ
  | [] => none
  | name :: rest =>
    match exposureOf ns name with
    | some v => some v
    | none => exposureReading ns rest

/-- The state after `cachePut key value`. -/
def PState.cached (key value : String) (q : PState) : PState :=
  { q with parameterCache :=
      (q.parameterCache.filter fun c => c.key ≠ key) ++ [{ key := key, value := value, stamp := q.now }] }

/-- The cache holds for `key` the text `std::to_string` makes of `v`, stamped
with the current time. -/
def CachedNow (key : String) (v : ℚ) (q : PState) : Prop :=
  cacheFind key q.parameterCache =
    some { key := key, value := doubleToString v, stamp := q.now }

/-- What an integer node delivers to `GetValue`: nothing when it is not
readable or the register access fails. -/
def Node.intReading (n : Node) : Option Int :=
  if n.isReadable && !n.ioFails then some n.ival else none

/-- The factor `GainFactor` when that float node can be read, otherwise 1. -/
def gainFactor (ns : List Node) : ℚ :=
  match (typedNode .intfIFloat ns "GainFactor").bind Node.reading with
  | some f => f
  | none => 1

/-- What the integer attempt of `getGain` contributes for one name. -/
def gainOfInteger (ns : List Node) (name : String) : Option ℚ :=
  match (typedNode .intfIInteger ns name).bind Node.intReading with
  | some raw => some (if name = "GainRaw" then (raw : ℚ) * gainFactor ns else (raw : ℚ))
  | none => none

/-- What one candidate name contributes to `getGain`: the reading of the float
node of that name; the integer attempt when there is no such float node or its
read fails; nothing when the float node is not readable. -/
def gainOf (ns : List Node) (name : String) : Option ℚ :=
  match typedNode .intfIFloat ns name with
  | some n =>
    if n.isReadable then
      match n.reading with
      | some v => some v
      | none => gainOfInteger ns name
    else none
  | none => gainOfInteger ns name

/-- The contribution of the first name of the list that has one. -/
def gainReading (ns : List Node) : List String → Option ℚ
  | [] => none
  | name :: rest =>
    match gainOf ns name with
    | some v => some v
    | none => gainReading ns rest

/-- A feature tree whose `ExposureTime` and `Gain` hold `1025/1024`, a value
with ten binary and ten decimal places. -/
def fineNodes : List Node :=
  [{ name := "Root", intf := .intfICategory, access := .RO },
   { name := "ExposureTime", intf := .intfIFloat, access := .RW, fval := 1025 / 1024,
     fmin := 0, fmax := 10 },
   { name := "Gain", intf := .intfIFloat, access := .RW, fval := 1025 / 1024,
     fmin := 0, fmax := 10 }]

/-- The feature tree `fineNodes` after the device changed both values to 2. -/
def changedNodes : List Node :=
  [{ name := "Root", intf := .intfICategory, access := .RO },
   { name := "ExposureTime", intf := .intfIFloat, access := .RW, fval := 2,
     fmin := 0, fmax := 10 },
   { name := "Gain", intf := .intfIFloat, access := .RW, fval := 2,
     fmin := 0, fmax := 10 }]

/-- The parameter layer `p` after the device changed to `changedNodes` and `d`
milliseconds passed. -/
def changedAfter (d : Nat) (p : PState) : PState :=
  { p with pNodeMap := some { nodes := some changedNodes }, now := p.now + d }

/-- A feature tree without `ExposureTime` and `ExposureTimeAbs`, whose float
`ExposureTimeRaw` holds 100 and whose `ExposureTimeBaseAbs` holds 2. -/
def rawExposureNodes : List Node :=
  [{ name := "Root", intf := .intfICategory, access := .RO },
   { name := "ExposureTimeRaw", intf := .intfIFloat, access := .RO, fval := 100 },
   { name := "ExposureTimeBaseAbs", intf := .intfIFloat, access := .RO, fval := 2 }]

/-- A feature tree without `ExposureTime`, whose `ExposureTimeAbs` holds 250.
-/
def absExposureNodes : List Node :=
  [{ name := "Root", intf := .intfICategory, access := .RO },
   { name := "ExposureTimeAbs", intf := .intfIFloat, access := .RW, fval := 250,
     fmin := 10, fmax := 1000 }]

/-- The parameter layer after `getExposureTime()` on `fineNodes`. -/
def fineRead : PState := (getExposureTime (loadedPState fineNodes)).2

/-- The parameter layer after `getGain()` on `fineNodes`. -/
def fineGainRead : PState := (getGain EnumEntry.symbolic (loadedPState fineNodes)).2

/-! ### Trigger source names -/

/-- The table `sourceMap` of `triggerSourceToString`: the standard name first,
then the alternatives.  `UserOutput3` has no row. -/
def sourceMap : TriggerSource → Option (List String)
  | .Software => some ["Software", "SoftwareTrigger", "SW"]
  | .Line0 => some ["Line0", "Line_0", "Input0", "DI0", "TTL_IN0"]
  | .Line1 => some ["Line1", "Line_1", "Input1", "DI1", "TTL_IN1"]
  | .Line2 => some ["Line2", "Line_2", "Input2", "DI2", "TTL_IN2"]
  | .Line3 => some ["Line3", "Line_3", "Input3", "DI3", "TTL_IN3"]
  | .Line4 => some ["Line4", "Line_4", "Input4", "DI4"]
  | .Line5 => some ["Line5", "Line_5", "Input5", "DI5"]
  | .Line6 => some ["Line6", "Line_6", "Input6", "DI6"]
  | .Line7 => some ["Line7", "Line_7", "Input7", "DI7"]
  | .Counter0End => some ["Counter0End", "Counter0", "CounterEnd0"]
  | .Counter1End => some ["Counter1End", "Counter1", "CounterEnd1"]
  | .Counter2End => some ["Counter2End", "Counter2", "CounterEnd2"]
  | .Timer0End => some ["Timer0End", "Timer0", "TimerEnd0"]
  | .Timer1End => some ["Timer1End", "Timer1", "TimerEnd1"]
  | .Timer2End => some ["Timer2End", "Timer2", "TimerEnd2"]
  | .UserOutput0 => some ["UserOutput0", "Output0", "DO0"]
  | .UserOutput1 => some ["UserOutput1", "Output1", "DO1"]
  | .UserOutput2 => some ["UserOutput2", "Output2", "DO2"]
  | .UserOutput3 => none
  | .Action0 => some ["Action0", "ActionCommand0"]
  | .Action1 => some ["Action1", "ActionCommand1"]
  | .Encoder0 => some ["Encoder0", "EncoderA", "Encoder"]
  | .Encoder1 => some ["Encoder1", "EncoderB"]
  | .FrameTriggerWait => some ["FrameTriggerWait", "FrameTrigger", "ExternalTrigger"]
  | .ExposureActive => some ["ExposureActive", "ExposureOut", "FVAL"]

/-- The fallback of `triggerSourceToString`: the first name of the row, or
`Software`. -/
def defaultSourceName (source : TriggerSource) : String :=
  match sourceMap source with
  | some (name :: _) => name
  | _ => "Software"

/-- The `switch` of `triggerSourceToString` that builds the standard name. -/
def switchSourceName : TriggerSource → String
  | .Software => "Software"
  | .Line0 => "Line0"
  | .Line1 => "Line1"
  | .Line2 => "Line2"
  | .Line3 => "Line3"
  | _ => "Software"

/-- The first name of the row that some entry of the enumeration answers to.
-/
def firstSupportedName (entryName : EnumEntry → String) (entries : List EnumEntry) :
    List String → Option String
  | [] => none
  | value :: rest =>
    if entries.any fun e => entryName e = value then some value
    else firstSupportedName entryName entries rest

/-- The method `triggerSourceToString`.  `cachedMap` is `m_triggerSourceMap`
when `m_triggerSourceMapCached` is set (its only writer,
`cacheTriggerSourceMappings`, has no caller); `entryName` is the result of
`entry->GetName()`. -/
def triggerSourceToString (entryName : EnumEntry → String)
    (cachedMap : Option (List (TriggerSource × String))) (source : TriggerSource) : PM String :=
  match cachedMap.bind fun m => (m.find? fun e => e.1 = source) with
  | some e => pure e.2
  | none => do
    let avail ← isParameterAvailable "TriggerSource"
    if !avail then pure (defaultSourceName source)
    else do
      let found ← tryCatchIf Exn.isCatchable
        (do
          let pTriggerSource ← getEnumerationNode "TriggerSource"
          let entries := pTriggerSource.entries
          match (sourceMap source).bind (firstSupportedName entryName entries) with
          | some value => pure (some value)
          | none =>
            if entries.any fun e => entryName e = switchSourceName source then
              pure (some (switchSourceName source))
            else pure none)
        (fun _ => pure none)
      match found with
      | some value => pure value
      | none => pure (defaultSourceName source)

/-- The table `stringMap` of `stringToTriggerSource`. -/
def stringMap : List (String × TriggerSource) :=
  [("Software", .Software), ("SoftwareTrigger", .Software), ("SW", .Software),
   ("Line0", .Line0), ("Line_0", .Line0), ("Input0", .Line0), ("DI0", .Line0),
   ("TTL_IN0", .Line0),
   ("Line1", .Line1), ("Line_1", .Line1), ("Input1", .Line1), ("DI1", .Line1),
   ("TTL_IN1", .Line1),
   ("Line2", .Line2), ("Line_2", .Line2), ("Input2", .Line2), ("DI2", .Line2),
   ("Line3", .Line3), ("Line_3", .Line3), ("Input3", .Line3), ("DI3", .Line3),
   ("Line4", .Line4), ("Line_4", .Line4),
   ("Line5", .Line5), ("Line_5", .Line5),
   ("Line6", .Line6), ("Line_6", .Line6),
   ("Line7", .Line7), ("Line_7", .Line7),
   ("Counter0End", .Counter0End), ("Counter0", .Counter0End),
   ("Counter1End", .Counter1End), ("Counter1", .Counter1End),
   ("Timer0End", .Timer0End), ("Timer0", .Timer0End),
   ("Timer1End", .Timer1End), ("Timer1", .Timer1End),
   ("UserOutput0", .UserOutput0), ("Output0", .UserOutput0), ("DO0", .UserOutput0),
   ("UserOutput1", .UserOutput1), ("Output1", .UserOutput1), ("DO1", .UserOutput1),
   ("Action0", .Action0), ("ActionCommand0", .Action0),
   ("Action1", .Action1), ("ActionCommand1", .Action1),
   ("Encoder0", .Encoder0), ("EncoderA", .Encoder0), ("Encoder", .Encoder0),
   ("FrameTriggerWait", .FrameTriggerWait), ("ExposureActive", .ExposureActive)]

/-- The line a digit `0` to `7` stands for. -/
def lineOfDigit (c : Char) : Option TriggerSource :=
  if c = '0' then some .Line0 else if c = '1' then some .Line1
  else if c = '2' then some .Line2 else if c = '3' then some .Line3
  else if c = '4' then some .Line4 else if c = '5' then some .Line5
  else if c = '6' then some .Line6 else if c = '7' then some .Line7
  else none

/-- The method `stringToTriggerSource`: the table, then the patterns, then
`Software`. -/
def stringToTriggerSource (str : String) : TriggerSource :=
  match stringMap.find? fun e => e.1 = str with
  | some e => e.2
  | none =>
    if containsSub "Software".data str.data then .Software
    else if containsSub "Line".data str.data || containsSub "Input".data str.data ||
        containsSub "DI".data str.data then
      match str.data.findSome? lineOfDigit with
      | some line => line
      | none => .Software
    else .Software

/-- The collaborators of `setTriggerSource` and `getTriggerSource` as the
source has them, with the name cache unset; the pixel decoder, which they do
not use, returns an empty image. -/
def sourceHelpers (entryName : EnumEntry → String) : Helpers where
  triggerSourceToString := triggerSourceToString entryName none
  stringToTriggerSource := stringToTriggerSource
  convertBufferToMat := fun _ _ _ _ => .ok {}

/-- The name GenApi gives the node of an entry of `TriggerSource`. -/
def prefixedEntryName (e : EnumEntry) : String := "EnumEntry_TriggerSource_" ++ e.symbolic

/-- A feature tree whose writable `TriggerSource` offers `Software`, `Line0`,
`Counter2End`, `Timer2End`, `UserOutput2`, `UserOutput3` and `Encoder1`. -/
def triggerNodes : List Node :=
  [{ name := "Root", intf := .intfICategory, access := .RO },
   { name := "TriggerSource", intf := .intfIEnumeration, access := .RW, ival := 0,
     entries := [{ symbolic := "Software", value := 0 }, { symbolic := "Line0", value := 1 },
       { symbolic := "Counter2End", value := 2 }, { symbolic := "Timer2End", value := 3 },
       { symbolic := "UserOutput2", value := 4 }, { symbolic := "UserOutput3", value := 5 },
       { symbolic := "Encoder1", value := 6 }] }]

/-- The call `setTriggerSource(source)` followed by `getTriggerSource()` on
`triggerNodes`: the outcome of the set, the entry the node holds afterwards,
and what the get returns. -/
def sourceRoundTrip (entryName : EnumEntry → String) (source : TriggerSource) :
    Except Exn Unit × Except Exn String × Except Exn TriggerSource :=
  let r := setTriggerSource (sourceHelpers entryName) source (loadedPState triggerNodes)
  (r.1, (getParameter "TriggerSource" r.2).1,
    (getTriggerSource (sourceHelpers entryName) r.2).1)

/-! ### Payload size: the scenario of a stream without a payload size -/

/-- The `switch` of `getPixelFormatInfo` that computes `info.bytesPerPixel`.
-/
def infoBytesPerPixel : PixelFormat → ℚ
  | .Mono8 | .BayerGR8 | .BayerRG8 | .BayerGB8 | .BayerBG8 | .Confidence8 => 1
  | .Mono10Packed | .BayerGR10Packed | .BayerRG10Packed | .BayerGB10Packed
  | .BayerBG10Packed => 5 / 4
  | .Mono12Packed | .BayerGR12Packed | .BayerRG12Packed | .BayerGB12Packed
  | .BayerBG12Packed => 3 / 2
  | .Mono10 | .Mono12 | .Mono14 | .Mono16
  | .BayerGR10 | .BayerRG10 | .BayerGB10 | .BayerBG10
  | .BayerGR12 | .BayerRG12 | .BayerGB12 | .BayerBG12
  | .BayerGR16 | .BayerRG16 | .BayerGB16 | .BayerBG16 | .Confidence16 => 2
  | .RGB8 | .BGR8 | .YUV444_8 => 3
  | .RGBa8 | .BGRa8 => 4
  | .YUV422_8 | .YUV422_8_UYVY | .YUV422_8_YUYV => 2
  | .RGB10 | .BGR10 | .RGB12 | .BGR12 | .RGB16 | .BGR16 | .Coord3D_ABC16 => 6
  | .Coord3D_ABC32f => 12
  | .Undefined => 0

/-- A feature tree with a 640 by 480 ROI, no `PayloadSize`, and a `PixelFormat`
offering `Mono8` and `RGBa8`; `code` is the PFNC code of the current format.
-/
def payloadNodes (code : Int) : List Node :=
  [{ name := "Root", intf := .intfICategory, access := .RO },
   { name := "AcquisitionStart", intf := .intfICommand, access := .WO },
   { name := "AcquisitionStop", intf := .intfICommand, access := .WO },
   { name := "OffsetX", intf := .intfIInteger, access := .RW, ival := 0, imax := 640 },
   { name := "OffsetY", intf := .intfIInteger, access := .RW, ival := 0, imax := 480 },
   { name := "Width", intf := .intfIInteger, access := .RW, ival := 640, imin := 1, imax := 640 },
   { name := "Height", intf := .intfIInteger, access := .RW, ival := 480, imin := 1, imax := 480 },
   { name := "PixelFormat", intf := .intfIEnumeration, access := .RW, ival := code,
     entries := [{ symbolic := "Mono8", value := 0x01080001 },
       { symbolic := "RGBa8", value := 0x02200016 }] }]

/-- The transport layer `streamEnv` with the description `payloadNodes code`,
a stream that does not define a payload size (the answer to call 17,
`STREAM_INFO_DEFINES_PAYLOADSIZE`, is 0) and an alignment of 64 (call 19). -/
def payloadEnv (code : Int) : TLEnv :=
  { streamEnv with
    xmlFile := fun _ => some (payloadNodes code)
    num := fun k => if k = 17 then 0 else if k = 19 then 64 else k + 1 }

/-- The session after `connect("cam")` and `startAcquisition(5)` on
`payloadEnv code`. -/
def payloadAcquiring (code : Int) : St :=
  (startAcquisition (payloadEnv code) 5 (connect (payloadEnv code) "cam" initialSt).2).2

/-! ### Feature invalidation -/

/-- The process: the camera object and the function-local
`static std::atomic<int> invalidationCount` of `handleFeatureInvalidation`,
which outlives every session. -/
structure Process where
  session : St := {}
  invalidationCount : Nat := 0

/-- Run a method of the camera object inside the process. -/
def liftS {α : Type} (m : SM α) : M Process α := fun pr =>
  match m pr.session with
  | (r, s1) => (r, { pr with session := s1 })

/-- The statement `m_parameterCache.erase(featureName)`. -/
def PState.evict (featureName : String) (q : PState) : PState :=
  { q with parameterCache := q.parameterCache.filter fun c => c.key ≠ featureName }

/-- The method `handleFeatureInvalidation`. -/
def handleFeatureInvalidation (featureName : String) : M Process Unit := do
  liftS (liftP (modS (PState.evict featureName)))
  let pr ← getS
  (match pr.session.eventListener with
    | some l =>
      match l.onParameterChanged with
      | some e => raise e
      | none => pure ()
    | none => pure ())
  modS fun pr => { pr with invalidationCount := pr.invalidationCount + 1 }
  let pr ← getS
  if pr.invalidationCount > 10 then do
    modS fun pr => { pr with invalidationCount := 0 }
    liftS (liftP refreshNodeMap)
  else pure ()

/-- Consecutive invalidation events, handled one after the other. -/
def handleEvents : List String → M Process Unit
  | [] => pure ()
  | featureName :: rest => do
    handleFeatureInvalidation featureName
    handleEvents rest

/-- The cache evictions of a run of events, and nothing else. -/
def evictAll : List String → PState → PState
  | [], q => q
  | featureName :: rest, q => evictAll rest (q.evict featureName)

/-- The process `pr` with the parameter layer `q`. -/
def Process.withP (pr : Process) (q : PState) : Process :=
  { pr with session := { pr.session with p := q } }

/-- The parameter cache is unchanged. -/
def SameCache (p q : PState) : Prop := q.parameterCache = p.parameterCache

/-- Invalidation events handled `d` milliseconds apart: the clock moves on by
`d` before each of them. -/
def handleEventsEvery (d : Nat) : List String → M Process Unit
  | [] => pure ()
  | featureName :: rest => do
    modS fun pr => { pr with session := advanceClock d pr.session }
    handleFeatureInvalidation featureName
    handleEventsEvery d rest

/-- A process whose camera is streaming (`streamAcquiring`) at time 1000. -/
def streamingProcess : Process := { session := advanceClock 1000 streamAcquiring }

/-- Five unrelated features. -/
def fiveFeatures : List String := ["Gain", "ExposureTime", "Width", "Height", "OffsetX"]

/-- Eleven other unrelated features. -/
def elevenFeatures : List String :=
  ["BlackLevel", "Gamma", "OffsetY", "PixelFormat", "TriggerMode", "TriggerSource",
   "AcquisitionMode", "AcquisitionFrameRate", "BalanceRatio", "DeviceTemperature", "LineStatus"]

/-- The process `streamingProcess` after five events, 10 ms apart. -/
def afterFiveEvents : Process := (handleEventsEvery 10 fiveFeatures streamingProcess).2

/-- The process `afterFiveEvents` after `stopAcquisition()` and
`startAcquisition(2)`: a new streaming session of the same process. -/
def nextSession : Process :=
  (liftS (startAcquisition streamEnv 2) (liftS (stopAcquisition streamEnv) afterFiveEvents).2).2

/-! ### Availability probes -/

/-- The method `isExposureAutoAvailable`: the feature tree is dereferenced
without a null test. -/
def isExposureAutoAvailable : PM Bool := isFeatureImplemented "ExposureAuto"

/-- The names `isFrameRateAvailable` tries. -/
def frameRateNames : List String := ["AcquisitionFrameRate", "FrameRate", "AcquisitionFrameRateAbs"]

/-- The loop of `isFrameRateAvailable`: each name is looked up in a `try` of
its own, whose handler goes on with the next name. -/
def anyFrameRateName : List String → PM Bool
  | [] => pure false
  | name :: rest => do
    let found ← tryCatchIf Exn.isCatchable
      (do
        let node ← nmGetNode name
        match node with
        | some n => pure n.isImplemented
        | none => pure false)
      (fun _ => pure false)
    if found then pure true else anyFrameRateName rest

/-- The method `isFrameRateAvailable`. -/
def isFrameRateAvailable : PM Bool := anyFrameRateName frameRateNames

/-- The names `isGainAvailable` tries. -/
def gainProbeNames : List String :=
  ["Gain", "GainRaw", "GainAbs", "AnalogGain", "DigitalGain", "Brightness", "GainDB"]

/-- The selector check of `isGainAvailable`: some entry of `GainSelector` is
available; an error counts as available.  `entryAvailable` stands for
`GenApi::IsAvailable` on an entry. -/
def gainSelectorCheck (entryAvailable : EnumEntry → Bool) : PM Bool :=
  tryCatchIf Exn.isCatchable
    (do
      let pGainSelector ← getEnumerationNode "GainSelector"
      pure (pGainSelector.entries.any entryAvailable))
    (fun _ => pure true)

/-- One turn of the loop of `isGainAvailable`: `some b` returns `b`, `none`
goes on with the next name. -/
def probeGainName (entryAvailable : EnumEntry → Bool) (hasGainSelector : Bool)
    (name : String) : PM (Option Bool) :=
  tryCatchIf Exn.isCatchable
    (do
      let node ← nmGetNode name
      match node with
      | some n =>
        if n.isImplemented then
          if n.isAvailable && (n.isReadable || n.isWritable) then
            if hasGainSelector then do
              let b ← gainSelectorCheck entryAvailable
              pure (some b)
            else pure (some true)
          else pure none
        else pure none
      | none => pure none)
    (fun _ => pure none)

/-- The loop of `isGainAvailable`. -/
def anyGainName (entryAvailable : EnumEntry → Bool) (hasGainSelector : Bool) :
    List String → PM Bool
  | [] => pure false
  | name :: rest => do
    let r ← probeGainName entryAvailable hasGainSelector name
    match r with
    | some b => pure b
    | none => anyGainName entryAvailable hasGainSelector rest

/-- The method `isGainAvailable`: the look-up of `GainSelector` dereferences
the feature tree without a null test. -/
def isGainAvailable (entryAvailable : EnumEntry → Bool) : PM Bool :=
  tryCatchIf Exn.isCatchable
    (do
      let hasGainSelector ← tryCatchIf Exn.isCatchable
        (do
          let pGainSelector ← nmGetNode "GainSelector"
          match pGainSelector with
          | some n => pure n.isImplemented
          | none => pure false)
        (fun _ => pure false)
      anyGainName entryAvailable hasGainSelector gainProbeNames)
    (fun _ => pure false)

/-- The first loop of `isExposureTimeAvailable`: a name that resolves to an
implemented, available, readable float or integer node. -/
def anyExposureName : List String → PM Bool
  | [] => pure false
  | name :: rest => do
    let found ← tryCatchIf Exn.isCatchable
      (do
        let node ← nmGetNode name
        match node with
        | some n =>
          pure (n.isImplemented && n.isAvailable && n.isReadable &&
            (n.intf = .intfIFloat || n.intf = .intfIInteger))
        | none => pure false)
      (fun _ => pure false)
    if found then pure true else anyExposureName rest

/-- The `ExposureMode` part of `isExposureTimeAvailable`: `some b` returns
`b`, `none` goes on to the final read. -/
def exposureModeCheck : PM (Option Bool) := do
  let avail ← isParameterAvailable "ExposureMode"
  if avail then
    tryCatchIf Exn.isCatchable
      (do
        let mode ← getExposureMode
        if mode = .Off then pure (some false)
        else if mode = .Timed then
          tryCatchIf Exn.isCatchable
            (do
              let node ← nmGetNode "ExposureTimeTimed"
              match node with
              | some n =>
                if n.isImplemented && n.isAvailable && n.isReadable then pure (some true)
                else pure none
              | none => pure none)
            (fun _ => pure none)
        else pure none)
      (fun _ => pure none)
  else pure none

/-- The method `isExposureTimeAvailable`: the connection and the feature tree
are tested before any look-up. -/
def isExposureTimeAvailable : SM Bool := fun s =>
  tryCatchIf Exn.isCatchable
    (if !isConnected s || s.p.pNodeMap.isNone then pure false
     else liftP (do
       let found ← anyExposureName exposureNames
       if found then pure true
       else do
         let r ← exposureModeCheck
         match r with
         | some b => pure b
         | none =>
           tryCatchIf Exn.isCatchable
             (do
               let _ ← getExposureTime
               pure true)
             (fun _ => pure false)))
    (fun _ => pure false) s

/-! ### Register URLs -/

/-- A hexadecimal numeral: a non-empty run of hexadecimal digits.  Stated from
the claim. -/
def isHexNumeral (str : List Char) : Bool :=
  !str.isEmpty && str.all fun c => (digitVal 16 c).isSome

/-- The number a run of hexadecimal digits denotes.  Stated from the claim. -/
def hexValue (str : List Char) : Nat :=
  str.foldl (fun acc c => acc * 16 + (digitVal 16 c).getD 0) 0

/-- The port URL `<scheme><name>;<address>;<size><query>`.  Stated from the
claim. -/
def registerURL (scheme name address size query : List Char) : List Char :=
  scheme ++ (name ++ ';' :: (address ++ ';' :: (size ++ query)))

/-- The feature tree is unchanged. -/
def SameTree (p q : PState) : Prop := q.pNodeMap = p.pNodeMap

/-- The feature tree is unchanged and the trace has only grown. -/
def TreeKept (s t : St) : Prop := t.p.pNodeMap = s.p.pNodeMap ∧ ∃ l, t.trace = s.trace ++ l

/-- The transport layer `demoEnv` with the port URL `url` and the bytes `data`
behind every port read; the ZIP loader yields `demoNodes`, the string loader
`streamNodes`, and no description file exists. -/
def registerEnv (url : String) (data : List Nat) : TLEnv :=
  { demoEnv with
    str := fun k => if k = 10 then url else "cam"
    bytes := fun _ => data
    xmlZip := fun _ => some demoNodes
    xmlString := fun _ => some streamNodes
    xmlFile := fun _ => none }

/-- Data that start with the ZIP magic. -/
def zipBytes : List Nat := [80, 75, 3, 4, 20, 0]

/-- The bytes of a description without XML declaration,
`<RegisterDescription>`. -/
def plainXmlBytes : List Nat := "<RegisterDescription>".data.map Char.toNat

/-- The bytes of a description that opens with an XML declaration. -/
def declaredXmlBytes : List Nat := "<?xml version=\"1.0\"?><RegisterDescription>".data.map Char.toNat

/-- Whether the event is a port read. -/
def Ev.isReadPort : Ev → Bool
  | .tl (.GCReadPort _ _ _) => true
  | _ => false

/-- The transport layer `registerEnv url data` that answers every string
query with `url`. -/
def urlOnlyEnv (url : String) (data : List Nat) : TLEnv :=
  { registerEnv url data with str := fun _ => url }

/-! ### Waiting for the delivery thread

`stopAcquisitionBody` takes the join of the delivery thread to return.  Here
the wait is modelled with the steady clock: `blockedFor` is the time in
milliseconds after which the thread function returns (`none`: never).  Only
`join` and `sleep_for` take time. -/

/-- How a call that may block ends; `outOfFuel` is the bound of the model on
the turns of a loop, not an outcome of the program. -/
inductive Blocking (α : Type) where
  | returns (a : α)
  | never
  | outOfFuel
  deriving Repr

/-- Whether the call never returns. -/
def Blocking.isNever {α : Type} : Blocking α → Bool
  | .never => true
  | _ => false

/-- What the call returned, if it did. -/
def Blocking.result {α : Type} : Blocking α → Option α
  | .returns a => some a
  | _ => none

/-- How the wait for the delivery thread ended. -/
inductive JoinEnd where
  | joined
  | detached
  deriving DecidableEq, Repr

/-- The constant `maxWaitTime` of the join loop (5 s), in milliseconds. -/
def maxWaitTime : Nat := 5000

/-- The call `m_acquisitionThread.join()`: it returns when the thread function
has returned. -/
def threadJoin (blockedFor : Option Nat) (s : St) : Blocking St :=
  match blockedFor with
  | none => .never
  | some d => .returns { (advanceClock d s) with threadJoinable := false }

/-- The call `m_acquisitionThread.detach()`. -/
def threadDetach (s : St) : St := { s with threadJoinable := false }

/-- The `while` loop of step 3 of `stopAcquisition`, with `startTime` read
before it; one unit of fuel per turn. -/
def joinLoop (blockedFor : Option Nat) (startTime : Nat) :
    Nat → St → Blocking (Option JoinEnd × St)
  | 0, _ => .outOfFuel
  | fuel + 1, s =>
    if s.threadJoinable then
      if s.threadJoinable then
        if s.p.now - startTime > maxWaitTime then .returns (some .detached, threadDetach s)
        else if s.threadJoinable then
          match threadJoin blockedFor s with
          | .returns t => .returns (some .joined, t)
          | .never => .never
          | .outOfFuel => .outOfFuel
        else joinLoop blockedFor startTime fuel (advanceClock 100 s)
      else joinLoop blockedFor startTime fuel (advanceClock 100 s)
    else .returns (none, s)

/-- Step 3 of `stopAcquisition`. -/
def waitForThread (blockedFor : Option Nat) (fuel : Nat) (s : St) :
    Blocking (Option JoinEnd × St) :=
  if s.threadJoinable then joinLoop blockedFor s.p.now fuel s else .returns (none, s)

/-- Steps 1 and 2 of `stopAcquisition`. -/
def stopBeforeJoin (env : TLEnv) : SM Unit := do
  issueAcquisitionStop
  let s ← getS
  if s.dsHandle ≠ 0 then do
    let _ ← tlCall env (.DSStopAcquisition s.dsHandle)
    let _ ← tlCall env (.DSFlushQueue s.dsHandle)
    pure ()
  else pure ()

/-- Steps 4 to 8 of `stopAcquisition`. -/
def stopAfterJoin (env : TLEnv) : SM Unit := do
  let s ← getS
  (if s.eventHandle ≠ 0 then do
    let _ ← tlCall env (.GCUnregisterEvent s.dsHandle .EVENT_NEW_BUFFER)
    modS fun t => { t with eventHandle := 0 }
  else pure ())
  let s ← getS
  (if s.dsHandle ≠ 0 then do
    let _ ← tlCall env (.DSClose s.dsHandle)
    modS fun t => { t with dsHandle := 0 }
  else pure ())
  let _ ← setTransportLayerLock false
  freeBuffers env
  modS fun t => { t with isAcquiring := false, state := .Connected }
  let s ← getS
  match s.eventListener with
  | some l =>
    match l.onAcquisitionStopped with
    | some e => raise e
    | none => pure ()
  | none => pure ()

/-- The handler `catch (const std::exception&)` of `stopAcquisition`. -/
def stopHandler (_e : Exn) : SM Unit := do
  let _ ← setTransportLayerLock false
  modS fun t => { t with state := .Error }
  raise (.genicam .AcquisitionError 0)

/-- The method `stopAcquisition` with the wait of step 3: the result, how the
wait ended, and the session. -/
def stopAcquisitionTimed (env : TLEnv) (blockedFor : Option Nat) (fuel : Nat) (s0 : St) :
    Blocking (Except Exn Unit × Option JoinEnd × St) :=
  let s : St := { s0 with stopAcquisition := true }
  if !s.isAcquiring then .returns (.ok (), none, s)
  else
    match stopBeforeJoin env s with
    | (.error e, t) =>
      if e.isStd then .returns ((stopHandler e t).1, none, (stopHandler e t).2)
      else .returns (.error e, none, t)
    | (.ok _, t) =>
      match waitForThread blockedFor fuel t with
      | .never => .never
      | .outOfFuel => .outOfFuel
      | .returns (how, u) =>
        .returns ((tryCatchIf Exn.isStd (stopAfterJoin env) stopHandler u).1, how,
          (tryCatchIf Exn.isStd (stopAfterJoin env) stopHandler u).2)

/-- The session `streamAcquiring` when `stopAcquisition` reaches step 3: the
flag is set, the stop command issued and the stream stopped. -/
def stopIssued : St := (stopBeforeJoin streamEnv { streamAcquiring with stopAcquisition := true }).2

/-! ### The `AcquisitionStart` command of `startAcquisition` -/

/-- The `try` block of `startAcquisition` before the `AcquisitionStart`
command: prepare, lock, open the stream, size, allocate, queue, register the
event, start the stream. -/
def startAcquisitionTransport (env : TLEnv) (bufferCount : Nat) : SM Unit := do
  liftP prepareTransportLayerForAcquisition
  let _ ← setTransportLayerLock true
  openDataStream env
  determinePayloadSize env
  allocateBuffers env bufferCount
  queueAllBuffers env
  registerNewBufferEvent env
  startStream env

/-- A feature tree with the root category, the node `start` and the command
`AcquisitionStop`. -/
def startNodes (start : Node) : List Node :=
  [{ name := "Root", intf := .intfICategory, access := .RO }, start,
   { name := "AcquisitionStop", intf := .intfICommand, access := .WO }]

/-- The transport layer `streamEnv`, in which every call succeeds, with the
description `nodes`. -/
def startEnv (nodes : List Node) : TLEnv := { streamEnv with xmlFile := fun _ => some nodes }

/-- The session after `connect("cam")` on `startEnv nodes`. -/
def startConnected (nodes : List Node) : St := (connect (startEnv nodes) "cam" initialSt).2

/-- An `AcquisitionStart` command whose execution fails. -/
def failingStart : Node :=
  { name := "AcquisitionStart", intf := .intfICommand, access := .WO, ioFails := true }

/-- An `AcquisitionStart` command that is not writable. -/
def lockedStart : Node := { name := "AcquisitionStart", intf := .intfICommand, access := .RO }

/-- An `AcquisitionStart` command that executes. -/
def workingStart : Node := { name := "AcquisitionStart", intf := .intfICommand, access := .WO }

/-- The session `startConnected nodes` after the steps of `startAcquisition(2)`
that precede the `AcquisitionStart` command. -/
def startTransported (nodes : List Node) : St :=
  (startAcquisitionTransport (startEnv nodes) 2 (startConnected nodes)).2

/-! ### Single-frame grab: the scenario of a wait that times out -/

/-- A feature tree with the root category, the lock parameter
`TLParamsLocked`, the trigger features and the two acquisition commands. -/
def lockNodes : List Node :=
  [{ name := "Root", intf := .intfICategory, access := .RO },
   { name := "TLParamsLocked", intf := .intfIInteger, access := .RW, ival := 0, imin := 0,
     imax := 1 },
   { name := "TriggerMode", intf := .intfIEnumeration, access := .RW, ival := 0,
     entries := [{ symbolic := "Off", value := 0 }, { symbolic := "On", value := 1 }] },
   { name := "TriggerSource", intf := .intfIEnumeration, access := .RW, ival := 0,
     entries := [{ symbolic := "Software", value := 0 }, { symbolic := "Line0", value := 1 }] },
   { name := "TriggerSoftware", intf := .intfICommand, access := .WO },
   { name := "AcquisitionStart", intf := .intfICommand, access := .WO },
   { name := "AcquisitionStop", intf := .intfICommand, access := .WO }]

/-- The transport layer `streamEnv` with the description `lockNodes`; the call
at trace position `failAt`, if any, fails with `GC_ERR_TIMEOUT` (1011 stands
for -1011). -/
def grabEnv (failAt : Option Nat) : TLEnv :=
  { streamEnv with
    xmlFile := fun _ => some lockNodes
    err := fun k => if some k = failAt then 1011 else 0 }

/-- The session after `connect("cam")` on `grabEnv none`. -/
def grabConnected : St := (connect (grabEnv none) "cam" initialSt).2

/-- The collaborators of `grabSingleFrame` in the scenario. -/
def grabHelpers : Helpers := sourceHelpers EnumEntry.symbolic

/-- The call `grabSingleFrame(1000)` on `grabConnected` when the wait for the
new buffer, the call at trace position 27, times out. -/
def grabTimedOut : Except Exn Mat × St := grabSingleFrame (grabEnv (some 27)) grabHelpers 1000 grabConnected

/-- The call `grabSingleFrame(1000)` on `grabConnected` when every call
succeeds. -/
def grabSucceeded : Except Exn Mat × St := grabSingleFrame (grabEnv none) grabHelpers 1000 grabConnected

/-- Whether the event is a call of `setTransportLayerLock`. -/
def Ev.isLockCall : Ev → Bool
  | .lockCall _ => true
  | _ => false

/-- The feature tree, the cache and the acquiring flag are unchanged and the
trace has grown by events that are no calls of `setTransportLayerLock`. -/
def LockKept (s t : St) : Prop :=
  t.p = s.p ∧ t.isAcquiring = s.isAcquiring ∧
    ∃ l, t.trace = s.trace ++ l ∧ ∀ e ∈ l, e.isLockCall = false

/-! ### The buffer ring after allocation -/

/-- Whether the event queues a buffer. -/
def Ev.isQueue : Ev → Bool
  | .tl (.DSQueueBuffer _ _) => true
  | _ => false

/-- The handles the transport layer hands out in the `n` calls at the trace
positions from `k` on. -/
def handlesFrom (env : TLEnv) (k n : Nat) : List Nat :=
  (List.range' k n).map fun i => env.num i + 1

/-- The buffers the second loop of `allocateBuffers` allocates in `n` turns
that succeed. -/
def manualBuffers (size : Nat) : Nat → Nat → List AlignedBuffer
  | 0, _ => []
  | n + 1, alignment =>
    { size := size, alignment := fixAlignment alignment, zeroed := true } ::
      manualBuffers size n (fixAlignment alignment)

/-- The trace has grown by events on which `P` is false. -/
def Avoids (P : Ev → Bool) (s t : St) : Prop :=
  ∃ l, t.trace = s.trace ++ l ∧ ∀ e ∈ l, P e = false

/-- The trace has grown by events on which `P` is false; the ring and the
stream handle are unchanged. -/
def Settled (P : Ev → Bool) (s t : St) : Prop :=
  Avoids P s t ∧ t.bufferHandles = s.bufferHandles ∧ t.dsHandle = s.dsHandle

/-- Whether the event queues or revokes a buffer. -/
def Ev.isQueueOrRevoke (e : Ev) : Bool := e.isQueue || e.isRevoke

/-- The session when the first loop of `allocateBuffers` starts: the old ring
is freed and the alignment has been asked for. -/
def allocStart (env : TLEnv) (u : St) : St :=
  { (freeBuffers env u).2 with
    bufferHandles := []
    alignedBuffers := []
    trace := (freeBuffers env u).2.trace ++
      [.tl (.DSGetInfo (freeBuffers env u).2.dsHandle .STREAM_INFO_BUF_ALIGNMENT)] }

/-- The alignment `allocateBuffers` works with: what the stream reports, or 64
when the query fails or reports 0. -/
def allocAlignment (env : TLEnv) (u : St) : Nat :=
  if env.err (freeBuffers env u).2.trace.length ≠ 0 ∨
      env.num (freeBuffers env u).2.trace.length = 0 then 64
  else env.num (freeBuffers env u).2.trace.length

/-- The size `allocateBuffers` announces every buffer with. -/
def allocSize (env : TLEnv) (u : St) : Nat :=
  alignSize (freeBuffers env u).2.bufferSize (allocAlignment env u)

/-- Whether the event announces a buffer with a size other than `size`. -/
def Ev.announcesOther (size : Nat) : Ev → Bool
  | .tl (.DSAllocAndAnnounceBuffer _ sz) => decide (sz ≠ size)
  | .tl (.DSAnnounceBuffer _ sz) => decide (sz ≠ size)
  | _ => false

/-- The session after the first loop of `allocateBuffers` has obtained `j`
handles from the session `u` and failed at the next call: the allocation
calls are followed by the revocation of every handle of the ring, which is
then emptied. -/
def producerFailed (env : TLEnv) (size j : Nat) (u : St) : St :=
  { u with
    bufferHandles := []
    trace := u.trace ++
               List.replicate (j + 1) (.tl (.DSAllocAndAnnounceBuffer u.dsHandle size)) ++
               (u.bufferHandles ++ handlesFrom env u.trace.length j).map
                 (fun h => .tl (.DSRevokeBuffer u.dsHandle h)) }

/-- The steps of `startAcquisition` before the allocation: prepare, lock,
open the stream, payload size. -/
def startAcquisitionOpen (env : TLEnv) : SM Unit := do
  liftP prepareTransportLayerForAcquisition
  let _ ← setTransportLayerLock true
  openDataStream env
  determinePayloadSize env

/-- The session `streamConnected` after the steps of `startAcquisition` that
precede the allocation. -/
def streamOpened : St := (startAcquisitionOpen streamEnv streamConnected).2

/-- A transport layer in which the calls at the trace positions `failAt` fail
and all others succeed; the call at position 1 reports `alignment`, the call
at position `k` hands out the handle `100 + k`. -/
def allocEnv (failAt : List Nat) (alignment : Nat) : TLEnv :=
  { demoEnv with
    err := fun k => if k ∈ failAt then 1 else 0
    num := fun k => if k = 1 then alignment else 99 + k }

/-- A session with an open stream (handle 7), a payload size of 1000 bytes, an
empty ring and an empty trace. -/
def ringSession : St := { dsHandle := 7, bufferSize := 1000, state := .Connected }

/-! ### Payload size and the size the decoder requires -/

/-- The size test of `convertBufferToMat`: the number of bytes the `switch`
requires for a frame of `width` by `height` pixels of `format`, `none` where
the `switch` takes the `default` branch.  The products are formed in 32-bit
unsigned arithmetic; the factor `sizeof` of the 3D formats widens the product
to `size_t`. -/
def expectedSize (format : PixelFormat) (width height : Nat) : Option Nat :=
  match format with
  | .Mono8 => some ((width * height) % 2 ^ 32)
  | .Mono10 | .Mono12 | .Mono14 | .Mono16 => some ((width * height * 2) % 2 ^ 32)
  | .Mono10Packed => some (((width * height * 10) % 2 ^ 32 + 7) % 2 ^ 32 / 8)
  | .Mono12Packed => some (((width * height * 12) % 2 ^ 32 + 7) % 2 ^ 32 / 8)
  | .RGB8 | .BGR8 => some ((width * height * 3) % 2 ^ 32)
  | .RGBa8 | .BGRa8 => some ((width * height * 4) % 2 ^ 32)
  | .RGB10 | .RGB12 | .RGB16 | .BGR10 | .BGR12 | .BGR16 =>
    some ((width * height * 3 * 2) % 2 ^ 32)
  | .BayerGR8 | .BayerRG8 | .BayerGB8 | .BayerBG8 => some ((width * height) % 2 ^ 32)
  | .BayerGR10 | .BayerRG10 | .BayerGB10 | .BayerBG10
  | .BayerGR12 | .BayerRG12 | .BayerGB12 | .BayerBG12
  | .BayerGR16 | .BayerRG16 | .BayerGB16 | .BayerBG16 =>
    some ((width * height * 2) % 2 ^ 32)
  | .BayerGR10Packed | .BayerRG10Packed | .BayerGB10Packed | .BayerBG10Packed =>
    some (((width * height * 10) % 2 ^ 32 + 7) % 2 ^ 32 / 8)
  | .BayerGR12Packed | .BayerRG12Packed | .BayerGB12Packed | .BayerBG12Packed =>
    some (((width * height * 12) % 2 ^ 32 + 7) % 2 ^ 32 / 8)
  | .YUV422_8 | .YUV422_8_UYVY => some ((width * height * 2) % 2 ^ 32)
  | .YUV422_8_YUYV => some ((width * height * 2) % 2 ^ 32)
  | .YUV444_8 => some ((width * height * 3) % 2 ^ 32)
  | .Coord3D_ABC32f => some (((width * height * 3) % 2 ^ 32 * 4) % 2 ^ 64)
  | .Coord3D_ABC16 => some (((width * height * 3) % 2 ^ 32 * 2) % 2 ^ 64)
  | .Confidence8 => some ((width * height) % 2 ^ 32)
  | .Confidence16 => some ((width * height * 2) % 2 ^ 32)
  | .Undefined => none

/-- Whether `convertBufferToMat` passes its tests on the arguments and on the
size for a non-null buffer of `size` bytes. -/
def bufferLargeEnough (size width height : Nat) (format : PixelFormat) : Bool :=
  if size = 0 ∨ width = 0 ∨ height = 0 then false
  else
    match expectedSize format width height with
    | some expected => !decide (size < expected)
    | none => false

/-- The formats for which the `switch` of `startAcquisition` gives the depth
of the table of `getPixelFormatInfo`. -/
def depthAgrees : List PixelFormat :=
  [.Mono8, .Mono10, .Mono12, .Mono16, .RGB8, .BGR8,
   .BayerGR8, .BayerRG8, .BayerGB8, .BayerBG8, .Confidence8]

/-- A feature tree with a 640 by 480 ROI, no `PayloadSize`, and a `PixelFormat`
whose only and current entry is `symbolic` with the PFNC code `code`. -/
def depthNodes (symbolic : String) (code : Int) : List Node :=
  [{ name := "Root", intf := .intfICategory, access := .RO },
   { name := "AcquisitionStart", intf := .intfICommand, access := .WO },
   { name := "AcquisitionStop", intf := .intfICommand, access := .WO },
   { name := "OffsetX", intf := .intfIInteger, access := .RW, ival := 0, imax := 640 },
   { name := "OffsetY", intf := .intfIInteger, access := .RW, ival := 0, imax := 480 },
   { name := "Width", intf := .intfIInteger, access := .RW, ival := 640, imin := 1, imax := 640 },
   { name := "Height", intf := .intfIInteger, access := .RW, ival := 480, imin := 1, imax := 480 },
   { name := "PixelFormat", intf := .intfIEnumeration, access := .RW, ival := code,
     entries := [{ symbolic := symbolic, value := code }] }]

/-- The transport layer `streamEnv` with the description `depthNodes`, a
stream that does not define a payload size (the answer to call 17 is 0) and an
alignment of 64 (call 19). -/
def depthEnv (symbolic : String) (code : Int) : TLEnv :=
  { streamEnv with
    xmlFile := fun _ => some (depthNodes symbolic code)
    num := fun k => if k = 17 then 0 else if k = 19 then 64 else k + 1 }

/-- The session after `connect("cam")` and `startAcquisition(5)` on
`depthEnv symbolic code`. -/
def depthAcquiring (symbolic : String) (code : Int) : St :=
  (startAcquisition (depthEnv symbolic code) 5
    (connect (depthEnv symbolic code) "cam" initialSt).2).2

/-! ### The delivery thread -/

/-- The value of `GC_ERR_TIMEOUT` in the transport-layer header (1011 stands
for -1011). -/
def GC_ERR_TIMEOUT : Nat := 1011

/-- The value of `EVENT_FEATURE_INVALIDATE` in the transport-layer header. -/
def EVENT_FEATURE_INVALIDATE : Nat := 2

/-- A call of the listener made by the delivery thread: `OnFrameReady` with
the image data, `OnError(-1, ...)` from the handler of the buffer processing,
`OnError(err, ...)` for a failed wait. -/
inductive Notice where
  | frameReady (width height : Nat) (format : PixelFormat)
  | processingError
  | acquisitionError (err : Nat)
  deriving DecidableEq, Repr

/-- The process as the delivery thread sees it, and the calls it made to the
listener. -/
structure Delivery where
  process : Process := {}
  notices : List Notice := []

/-- Run a computation of the process inside the delivery thread. -/
def liftD {α : Type} (m : M Process α) : M Delivery α := fun d =>
  match m d.process with
  | (r, p1) => (r, { d with process := p1 })

/-- A transport-layer call of the delivery thread. -/
def tlCallD (env : TLEnv) (c : TLCall) : M Delivery TLOut := liftD (liftS (tlCall env c))

/-- A guarded call of the listener: `if (m_eventListener)` and the call of
the callback, which may throw (`throws`). -/
def tell (n : Notice) (throws : Listener → Option Exn) : M Delivery Unit := do
  let d ← getS
  match d.process.session.eventListener with
  | some l => do
    modS fun d => { d with notices := d.notices ++ [n] }
    match throws l with
    | some e => raise e
    | none => pure ()
  | none => pure ()

/-- The block at the head of `acquisitionThreadFunction` that computes
`hasFeatureEvents`. -/
def probeFeatureEvents (env : TLEnv) : M Delivery Bool := do
  let d ← getS
  if d.process.session.featureEventHandle ≠ 0 then do
    let r ← tlCallD env (.EventGetInfo d.process.session.featureEventHandle .EVENT_EVENT_TYPE)
    pure (decide (r.err = 0 ∧ r.num = EVENT_FEATURE_INVALIDATE))
  else pure false

/-- The non-blocking poll for a feature-invalidation event at the head of an
iteration of the delivery loop. -/
def pollFeatureEvents (env : TLEnv) (hasFeatureEvents : Bool) : M Delivery Unit := do
  let d ← getS
  if hasFeatureEvents = true ∧ d.process.session.featureEventHandle ≠ 0 then do
    let r ← tlCallD env (.EventGetData d.process.session.featureEventHandle 0)
    if r.err = 0 then do
      let ri ← tlCallD env (.EventGetDataInfo d.process.session.featureEventHandle)
      if ri.err = 0 ∧ ri.str.length > 0 then liftD (handleFeatureInvalidation ri.str)
      else liftD (liftS (liftP refreshNodeMap))
    else pure ()
  else pure ()

/-- The reading of exposure time and gain for the image data, inside
`try ... catch (...)`. -/
def readFrameParameters (entryName : EnumEntry → String) : PM Unit :=
  tryCatchIf Exn.isCatchable
    (do
      let _ ← getExposureTime
      let _ ← getGain entryName
      pure ())
    (fun _ => pure ())

/-- The `try` block of the buffer handling in the delivery loop. -/
def processBuffer (env : TLEnv) (h : Helpers) (entryName : EnumEntry → String)
    (hBuffer : Nat) : M Delivery Unit := do
  let d ← getS
  let ds := d.process.session.dsHandle
  let rb ← tlCallD env (.DSGetBufferInfo ds hBuffer .BUFFER_INFO_BASE)
  if rb.err = 0 ∧ rb.num ≠ 0 then do
    let rw ← tlCallD env (.DSGetBufferInfo ds hBuffer .BUFFER_INFO_WIDTH)
    let rh ← tlCallD env (.DSGetBufferInfo ds hBuffer .BUFFER_INFO_HEIGHT)
    let rf ← tlCallD env (.DSGetBufferInfo ds hBuffer .BUFFER_INFO_PIXELFORMAT)
    let width := if rw.err = 0 then rw.num else 0
    let height := if rh.err = 0 then rh.num else 0
    let pixelFormat := if rf.err = 0 then rf.num else 0
    match h.convertBufferToMat d.process.session.bufferSize width height
        (convertFromGenICamPixelFormat pixelFormat) with
    | .error e => raise e
    | .ok image =>
      if image.empty then pure ()
      else do
        let _ ← tlCallD env (.DSGetBufferInfo ds hBuffer .BUFFER_INFO_FRAMEID)
        liftD (liftS (liftP (readFrameParameters entryName)))
        tell (.frameReady width height (convertFromGenICamPixelFormat pixelFormat))
          Listener.onFrameReady
  else pure ()

/-- The handling of a delivered buffer in the delivery loop: the `try` block,
its handler `catch (const std::exception&)`, and the return of the buffer to
the queue. -/
def handleBuffer (env : TLEnv) (h : Helpers) (entryName : EnumEntry → String)
    (hBuffer : Nat) : M Delivery Unit := do
  tryCatchIf Exn.isStd (processBuffer env h entryName hBuffer)
    (fun _ => tell .processingError Listener.onError)
  let d ← getS
  let _ ← tlCallD env (.DSQueueBuffer d.process.session.dsHandle hBuffer)
  pure ()

/-- The wait for a new buffer in an iteration of the delivery loop, and what
follows from its outcome. -/
def waitForBuffer (env : TLEnv) (h : Helpers) (entryName : EnumEntry → String) :
    M Delivery Unit := do
  let d ← getS
  let r ← tlCallD env (.EventGetData d.process.session.eventHandle 100)
  if r.err = GC_ERR_TIMEOUT then pure ()
  else if r.err = 0 then
    (if r.num ≠ 0 then handleBuffer env h entryName r.num else pure ())
  else tell (.acquisitionError r.err) Listener.onError

/-- One iteration of the loop of `acquisitionThreadFunction`. -/
def deliveryIteration (env : TLEnv) (h : Helpers) (entryName : EnumEntry → String)
    (hasFeatureEvents : Bool) : M Delivery Unit := do
  pollFeatureEvents env hasFeatureEvents
  waitForBuffer env h entryName

/-- The loop of `acquisitionThreadFunction`, observed for at most `iterations`
iterations; it ends earlier when `m_stopAcquisition` is set. -/
def deliveryLoop (env : TLEnv) (h : Helpers) (entryName : EnumEntry → String)
    (hasFeatureEvents : Bool) : Nat → M Delivery Unit
  | 0 => pure ()
  | iterations + 1 => do
    let d ← getS
    if d.process.session.stopAcquisition then pure ()
    else do
      deliveryIteration env h entryName hasFeatureEvents
      deliveryLoop env h entryName hasFeatureEvents iterations

/-- The method `acquisitionThreadFunction`, observed for at most `iterations`
iterations of its loop. -/
def acquisitionThreadFunction (env : TLEnv) (h : Helpers) (entryName : EnumEntry → String)
    (iterations : Nat) : M Delivery Unit := do
  let hasFeatureEvents ← probeFeatureEvents env
  deliveryLoop env h entryName hasFeatureEvents iterations

/-- The member `m_featureEventHandle` is unchanged. -/
def SameFeatureHandle (s t : St) : Prop := t.featureEventHandle = s.featureEventHandle

/-- Whether the event is a call on a feature event: the query of the event
type, the poll with timeout 0, the query of the name of the feature. -/
def Ev.isFeaturePoll : Ev → Bool
  | .tl (.EventGetInfo _ _) => true
  | .tl (.EventGetData _ 0) => true
  | .tl (.EventGetDataInfo _) => true
  | _ => false

/-- Between two states of the delivery thread `m_featureEventHandle` is
unchanged and no call on a feature event was made. -/
def Unpolled (d e : Delivery) : Prop :=
  SameFeatureHandle d.process.session e.process.session ∧
  Avoids Ev.isFeaturePoll d.process.session e.process.session

/-- The feature tree `streamNodes` with the float node `ExposureTime`. -/
def pollNodes : List Node := streamNodes ++ exposureNodes

/-- The transport layer `streamEnv` with the description `pollNodes`. -/
def pollEnv : TLEnv := { streamEnv with xmlFile := fun _ => some pollNodes }

/-- The session after `connect("cam")` on `pollEnv`. -/
def pollConnected : St := (connect pollEnv "cam" initialSt).2

/-- The session after `startAcquisition(2)` on `pollConnected`. -/
def pollSession : St := (startAcquisition pollEnv 2 pollConnected).2

/-- The session `pollSession` after the application called `getExposureTime()`.
-/
def pollCached : St := (liftP getExposureTime pollSession).2

/-- A transport layer in which every call succeeds, every number returned is 2
and every string returned is `ExposureTime`: whenever a feature event is
polled, an invalidation of `ExposureTime` is pending. -/
def pendingEnv : TLEnv :=
  { demoEnv with num := fun _ => 2, str := fun _ => "ExposureTime" }

/-- The delivery thread of `pollCached` after three iterations on `pendingEnv`.
-/
def pollDelivered : Delivery :=
  (acquisitionThreadFunction pendingEnv (sourceHelpers EnumEntry.symbolic) EnumEntry.symbolic 3
    ⟨⟨pollCached, 0⟩, []⟩).2

/-- The delivery thread after one iteration on `pendingEnv` from `pollCached`
with `m_featureEventHandle` set to `handle`. -/
def pollAssigned (handle : Nat) : Delivery :=
  (acquisitionThreadFunction pendingEnv (sourceHelpers EnumEntry.symbolic) EnumEntry.symbolic 1
    ⟨⟨{ pollCached with featureEventHandle := handle }, 0⟩, []⟩).2

/-! ### Vocabulary for a delivered buffer -/

/-- The state of the delivery thread after the event `e` was added to the
trace. -/
def Delivery.logged (d : Delivery) (e : Ev) : Delivery :=
  { d with process := { d.process with session :=
      { d.process.session with trace := d.process.session.trace ++ [e] } } }

/-- The state of the delivery thread with the parameter layer `q`. -/
def Delivery.withP (d : Delivery) (q : PState) : Delivery :=
  { d with process := { d.process with session := { d.process.session with p := q } } }

/-- The state of the delivery thread after the listener was told `n`. -/
def Delivery.noted (d : Delivery) (n : Notice) : Delivery :=
  { d with notices := d.notices ++ [n] }

/-- Whether the query of the base address issued at trace position `k`
succeeds with a non-null address. -/
def baseAvailable (env : TLEnv) (k : Nat) : Bool := decide (env.err k = 0 ∧ env.num k ≠ 0)

/-- The width the delivery loop passes to the decoder when the query of the
base address was issued at trace position `k`. -/
def frameWidth (env : TLEnv) (k : Nat) : Nat := if env.err (k + 1) = 0 then env.num (k + 1) else 0

/-- The height the delivery loop passes to the decoder when the query of the
base address was issued at trace position `k`. -/
def frameHeight (env : TLEnv) (k : Nat) : Nat := if env.err (k + 2) = 0 then env.num (k + 2) else 0

/-- The format the delivery loop passes to the decoder when the query of the
base address was issued at trace position `k`. -/
def frameFormat (env : TLEnv) (k : Nat) : PixelFormat :=
  convertFromGenICamPixelFormat (if env.err (k + 3) = 0 then env.num (k + 3) else 0)

/-- Collaborators whose decoder returns an image exactly when the arguments
pass the tests of `convertBufferToMat` on the arguments and on the size (the
image library never throws). -/
def sizeDecoder : Helpers :=
  { sourceHelpers EnumEntry.symbolic with
    convertBufferToMat := fun size width height format =>
      .ok { empty := !bufferLargeEnough size width height format } }

/-- Collaborators whose decoder throws a standard exception. -/
def throwingDecoder : Helpers :=
  { sourceHelpers EnumEntry.symbolic with convertBufferToMat := fun _ _ _ _ => .error .stdExn }

/-- A transport layer for one iteration of the delivery loop that starts at
trace position `first`: the wait delivers the buffer 5, the query of its base
address returns the error code `baseErr`, the three queries that follow return
`width`, `height` and the format code `code`. -/
def frameEnv (first baseErr width height code : Nat) : TLEnv :=
  { demoEnv with
    err := fun k => if k = first + 1 then baseErr else 0
    num := fun k =>
      if k = first + 2 then width else if k = first + 3 then height
      else if k = first + 4 then code else 5 }

/-- The delivery thread of the streaming session `pollSession` with the
listener `l`, nothing told yet. -/
def listening (l : Listener) : Delivery := ⟨⟨setEventListener (some l) pollSession, 0⟩, []⟩

/-- The acquiring flag and the connection state are unchanged. -/
def SameAcquiring (s t : St) : Prop := t.isAcquiring = s.isAcquiring ∧ t.state = s.state

/-! ### Connect: the search for the device -/

/-- A transport layer with one interface and one device, whose user-defined
name is `cam`; every call succeeds and the handle returned by the call at
trace position `k` is `k + 2`. -/
def searchEnv : TLEnv :=
  { demoEnv with num := fun k => if k = 1 ∨ k = 5 then 1 else k + 1 }

/-- The session after the failed `connect("other")` on `searchEnv`. -/
def searchFailed : St := (connect searchEnv "other" initialSt).2

/-- The session when the search of `connect("other")` on `searchEnv` ends
without a match. -/
def searchEnded : St :=
  (interfaceLoop searchEnv "other" 1 0
    { initialSt with trace := [.tl .TLUpdateInterfaceList, .tl .TLGetNumInterfaces] }).2

/-- The session `demoConnected` when the steps of `startAcquisition(2)` on
`demoEnv` end. -/
def demoStepped : St := (startAcquisitionSteps demoEnv 2 demoConnected).2

/-- The session `demoConnected` after the steps of `startAcquisition(2)` on
`demoEnv` that precede the `AcquisitionStart` command. -/
def demoTransported : St := (startAcquisitionTransport demoEnv 2 demoConnected).2

/-- Between two states of the delivery thread `m_featureEventHandle` and the
count of handled invalidation events are unchanged. -/
def Uncounted (d e : Delivery) : Prop :=
  SameFeatureHandle d.process.session e.process.session ∧
  e.process.invalidationCount = d.process.invalidationCount

/-- The streaming session `pollSession`, 50 ms later. -/
def laterSession : St := advanceClock 50 pollSession

/-- The session `laterSession` after the application called
`getExposureTime()`. -/
def laterCached : St := (liftP getExposureTime laterSession).2

/-- The delivery thread of `laterCached` after eleven iterations on
`pendingEnv`, where an invalidation is pending at every poll. -/
def elevenPending : Delivery :=
  (acquisitionThreadFunction pendingEnv (sourceHelpers EnumEntry.symbolic) EnumEntry.symbolic 11
    ⟨⟨laterCached, 0⟩, []⟩).2

/-- The process of `laterCached` after the handler was called for
`elevenFeatures`. -/
def elevenHandled : Process := (handleEvents elevenFeatures ⟨laterCached, 0⟩).2
/-! # Theorems -/

/-! ## Unfolding the monad -/

@[simp] theorem pure_run {σ α : Type} (a : α) (s : σ) : (pure a : M σ α) s = (.ok a, s) := rfl

@[simp] theorem bind_run {σ α β : Type} (m : M σ α) (f : α → M σ β) (s : σ) :
    (m >>= f) s = match m s with
      | (.ok a, s1) => f a s1
      | (.error e, s1) => (.error e, s1) := rfl

@[simp] theorem raise_run {σ α : Type} (e : Exn) (s : σ) : (raise e : M σ α) s = (.error e, s) := rfl

@[simp] theorem getS_run {σ : Type} (s : σ) : (getS : M σ σ) s = (.ok s, s) := rfl

@[simp] theorem modS_run {σ : Type} (f : σ → σ) (s : σ) : (modS f : M σ Unit) s = (.ok (), f s) := rfl

@[simp] theorem tryCatchIf_run {σ α : Type} (sel : Exn → Bool) (m : M σ α) (h : Exn → M σ α) (s : σ) :
    tryCatchIf sel m h s = match m s with
      | (.ok a, s1) => (.ok a, s1)
      | (.error e, s1) => if sel e then h e s1 else (.error e, s1) := rfl

@[simp] theorem liftP_run {α : Type} (m : PM α) (s : St) :
    liftP m s = ((m s.p).1, { s with p := (m s.p).2 }) := rfl

/-! ## Which exceptions a computation raises -/

theorem raises_pure {σ α : Type} (P : Exn → Bool) (a : α) : Raises P (pure a : M σ α) := by
  intro s e s1 h
  simp [pure_run] at h

theorem raises_raise {σ α : Type} (P : Exn → Bool) (e : Exn) (h : P e = true) :
    Raises P (raise e : M σ α) := by
  intro s e1 s1 h1
  simp only [raise_run, Prod.mk.injEq, Except.error.injEq] at h1
  rw [← h1.1]
  exact h

theorem raises_getS {σ : Type} (P : Exn → Bool) : Raises P (getS : M σ σ) := by
  intro s e s1 h
  simp [getS_run] at h

theorem raises_modS {σ : Type} (P : Exn → Bool) (f : σ → σ) : Raises P (modS f) := by
  intro s e s1 h
  simp [modS_run] at h

theorem raises_bind {σ α β : Type} {P : Exn → Bool} {m : M σ α} {f : α → M σ β}
    (hm : Raises P m) (hf : ∀ a, Raises P (f a)) : Raises P (m >>= f) := by
  intro s e s1 h
  rw [bind_run] at h
  split at h
  · exact hf _ _ _ _ h
  · rename_i e0 s0 heq
    simp only [Prod.mk.injEq, Except.error.injEq] at h
    rw [← h.1]
    exact hm _ _ _ heq

theorem raises_mono {σ α : Type} {P Q : Exn → Bool} {m : M σ α}
    (hm : Raises P m) (hPQ : ∀ e, P e = true → Q e = true) : Raises Q m :=
  fun s e s1 h => hPQ e (hm s e s1 h)

theorem raises_tryCatchIf {σ α : Type} {P Q sel : Exn → Bool} {m : M σ α} {h : Exn → M σ α}
    (hm : Raises Q m) (hsel : ∀ e, Q e = true → sel e = false → P e = true)
    (hh : ∀ e, Raises P (h e)) : Raises P (tryCatchIf sel m h) := by
  intro s e s1 hrun
  rw [tryCatchIf_run] at hrun
  split at hrun
  · simp at hrun
  · rename_i e0 s0 heq
    by_cases hs : sel e0 = true
    · rw [if_pos hs] at hrun
      exact hh _ _ _ _ hrun
    · rw [if_neg hs] at hrun
      simp only [Prod.mk.injEq, Except.error.injEq] at hrun
      rw [← hrun.1]
      exact hsel e0 (hm _ _ _ heq) (by simpa using hs)

theorem raises_ite {σ α : Type} {P : Exn → Bool} {c : Prop} [Decidable c] {m1 m2 : M σ α}
    (h1 : Raises P m1) (h2 : Raises P m2) : Raises P (if c then m1 else m2) := by
  split
  · exact h1
  · exact h2

theorem neverRaises_of_raises {σ α : Type} {m : M σ α} (h : Raises (fun _ => false) m) :
    NeverRaises m := by
  intro s
  cases hr : m s with
  | mk r s1 =>
    cases r with
    | ok a => exact ⟨a, rfl⟩
    | error e => exact absurd (h s e s1 hr) (by simp)

/-! ## Exceptions of the parameter layer -/

theorem raises_refreshNodeMap : Raises (fun _ => false) refreshNodeMap := by
  intro p e p1 h
  unfold refreshNodeMap at h
  split at h
  · simp at h
  · rename_i hc
    simp only [Bool.or_eq_true, Option.isNone_iff_eq_none, Bool.not_eq_true', not_or] at hc
    obtain ⟨hnm, -⟩ := hc
    obtain ⟨r, hr⟩ := Option.ne_none_iff_exists'.mp hnm
    cases hn : r.nodes with
    | none => simp [nmGetNode, hr, hn, Exn.isGeneric] at h
    | some ns =>
      cases hroot : findNode "Root" ns with
      | some n =>
        by_cases hio : n.ioFails = true
        · simp [nmGetNode, hr, hn, hroot, invalidateNode, hio, Exn.isGeneric] at h
        · simp [nmGetNode, hr, hn, hroot, invalidateNode, hio, Exn.isGeneric] at h
      | none =>
        cases hdev : findNode "Device" ns with
        | some n =>
          by_cases hio : n.ioFails = true
          · simp [nmGetNode, hr, hn, hroot, hdev, invalidateNode, hio, Exn.isGeneric] at h
          · simp [nmGetNode, hr, hn, hroot, hdev, invalidateNode, hio, Exn.isGeneric] at h
        | none => simp [nmGetNode, hr, hn, hroot, hdev, invalidateNode, Exn.isGeneric] at h

theorem raises_validateNodeMap : Raises Exn.isStd validateNodeMap := by
  intro p e p1 h
  unfold validateNodeMap at h
  split at h
  · simp only [Prod.mk.injEq, Except.error.injEq] at h
    rw [← h.1]
    rfl
  · split at h
    · exact absurd (raises_refreshNodeMap p e p1 h) (by simp)
    · simp at h

theorem raises_getNode (nodeName : String) : Raises Exn.isLib (getNode nodeName) := by
  intro p e p1 h
  unfold getNode at h
  simp only [bind_run, getS_run] at h
  split at h
  · rename_i p2 hv
    split at h
    · simp only [raise_run, Prod.mk.injEq, Except.error.injEq] at h
      rw [← h.1]
      rfl
    · rename_i hnn
      simp only [Option.isNone_iff_eq_none] at hnn
      obtain ⟨r, hr⟩ := Option.ne_none_iff_exists'.mp hnn
      cases hn : r.nodes with
      | none =>
        simp only [bind_run, nmGetNode, hr, hn, Prod.mk.injEq, Except.error.injEq] at h
        rw [← h.1]
        rfl
      | some ns =>
        cases hf : findNode nodeName ns with
        | none =>
          simp only [bind_run, nmGetNode, hr, hn, hf, raise_run, Prod.mk.injEq,
            Except.error.injEq] at h
          rw [← h.1]
          rfl
        | some n => simp [nmGetNode, hr, hn, hf] at h
  · rename_i e0 p2 hv
    simp only [Prod.mk.injEq, Except.error.injEq] at h
    rw [← h.1]
    have := raises_validateNodeMap p e0 p2 hv
    simp [Exn.isLib, this]

theorem isLib_of_isStd (e : Exn) (h : e.isStd = true) : e.isLib = true := by
  simp [Exn.isLib, h]

theorem raises_getTypedNode (intf : EInterfaceType) (nodeName : String) :
    Raises Exn.isLib (getTypedNode intf nodeName) := by
  unfold getTypedNode
  apply raises_bind (raises_mono raises_validateNodeMap isLib_of_isStd)
  intro _
  apply raises_bind (raises_getNode _)
  intro _
  apply raises_ite (raises_pure _ _) (raises_raise _ _ rfl)

theorem raises_probeParameter (test : Node → Bool) (parameterName : String) :
    Raises (fun _ => false) (probeParameter test parameterName) := by
  intro p e p1 h
  unfold probeParameter at h
  split at h
  · simp at h
  · rename_i hnn
    simp only [Option.isNone_iff_eq_none] at hnn
    obtain ⟨r, hr⟩ := Option.ne_none_iff_exists'.mp hnn
    cases hn : r.nodes with
    | none => simp [nmGetNode, hr, hn, Exn.isCatchable] at h
    | some ns =>
      cases hf : findNode parameterName ns <;> simp [nmGetNode, hr, hn, hf] at h

theorem raises_probe_any (P : Exn → Bool) (test : Node → Bool) (parameterName : String) :
    Raises P (probeParameter test parameterName) :=
  raises_mono (raises_probeParameter test parameterName) (by simp)

theorem raises_nmUpdate (P : Exn → Bool) (name : String) (f : Node → Node) :
    Raises P (nmUpdate name f) := raises_modS _ _

theorem raises_logOp (P : Exn → Bool) (op : NodeOp) : Raises P (logOp op) := raises_modS _ _

theorem raises_intGetValue (n : Node) : Raises Exn.isLib (intGetValue n) := by
  unfold intGetValue
  exact raises_ite (raises_pure _ _) (raises_raise _ _ rfl)

theorem raises_floatGetValue (n : Node) : Raises Exn.isLib (floatGetValue n) := by
  unfold floatGetValue
  exact raises_ite (raises_pure _ _) (raises_raise _ _ rfl)

theorem raises_stringGetValue (n : Node) : Raises Exn.isLib (stringGetValue n) := by
  unfold stringGetValue
  exact raises_ite (raises_pure _ _) (raises_raise _ _ rfl)

theorem raises_boolGetValue (n : Node) : Raises Exn.isLib (boolGetValue n) := by
  unfold boolGetValue
  exact raises_ite (raises_pure _ _) (raises_raise _ _ rfl)

theorem raises_enumCurrentEntry (n : Node) : Raises Exn.isLib (enumCurrentEntry n) := by
  unfold enumCurrentEntry
  exact raises_ite (raises_pure _ _) (raises_raise _ _ rfl)

theorem raises_enumToString (n : Node) : Raises Exn.isLib (enumToString n) := by
  unfold enumToString
  apply raises_bind (raises_enumCurrentEntry n)
  intro a
  cases a
  · exact raises_raise _ _ rfl
  · exact raises_pure _ _

theorem raises_intSetValue (n : Node) (v : Int) : Raises Exn.isLib (intSetValue n v) := by
  unfold intSetValue
  apply raises_bind (raises_logOp _ _)
  intro _
  exact raises_ite (raises_nmUpdate _ _ _) (raises_raise _ _ rfl)

theorem raises_floatSetValue (n : Node) (v : ℚ) : Raises Exn.isLib (floatSetValue n v) := by
  unfold floatSetValue
  apply raises_bind (raises_logOp _ _)
  intro _
  exact raises_ite (raises_nmUpdate _ _ _) (raises_raise _ _ rfl)

theorem raises_stringSetValue (n : Node) (v : String) : Raises Exn.isLib (stringSetValue n v) := by
  unfold stringSetValue
  apply raises_bind (raises_logOp _ _)
  intro _
  exact raises_ite (raises_nmUpdate _ _ _) (raises_raise _ _ rfl)

theorem raises_boolSetValue (n : Node) (v : Bool) : Raises Exn.isLib (boolSetValue n v) := by
  unfold boolSetValue
  apply raises_bind (raises_logOp _ _)
  intro _
  exact raises_ite (raises_nmUpdate _ _ _) (raises_raise _ _ rfl)

theorem raises_enumFromString (n : Node) (v : String) : Raises Exn.isLib (enumFromString n v) := by
  unfold enumFromString
  apply raises_bind (raises_logOp _ _)
  intro _
  split
  · exact raises_ite (raises_nmUpdate _ _ _) (raises_raise _ _ rfl)
  · exact raises_raise _ _ rfl

theorem raises_enumSetIntValue (n : Node) (v : Int) : Raises Exn.isLib (enumSetIntValue n v) := by
  unfold enumSetIntValue
  apply raises_bind (raises_logOp _ _)
  intro _
  exact raises_ite (raises_nmUpdate _ _ _) (raises_raise _ _ rfl)

theorem raises_commandExecute (n : Node) : Raises Exn.isLib (commandExecute n) := by
  unfold commandExecute
  apply raises_bind (raises_logOp _ _)
  intro _
  exact raises_ite (raises_pure _ _) (raises_raise _ _ rfl)

theorem raises_notify (P : Exn → Bool) (a b : String) : Raises P (notifyParameterChanged a b) :=
  raises_pure _ _

theorem raises_getParameterBody (parameterName : String) :
    Raises Exn.isLib (getParameterBody parameterName) := by
  unfold getParameterBody
  apply raises_bind (raises_getNode _)
  intro pNode
  apply raises_ite (raises_raise _ _ rfl)
  split
  · exact raises_bind (raises_intGetValue _) (fun _ => raises_pure _ _)
  · exact raises_bind (raises_floatGetValue _) (fun _ => raises_pure _ _)
  · exact raises_stringGetValue _
  · exact raises_enumToString _
  · exact raises_bind (raises_boolGetValue _) (fun _ => raises_pure _ _)
  · exact raises_raise _ _ rfl

theorem raises_getParameter (parameterName : String) :
    Raises Exn.isStd (getParameter parameterName) := by
  unfold getParameter
  apply raises_tryCatchIf (raises_getParameterBody parameterName)
  · intro e h1 h2
    simpa [Exn.isLib, h2] using h1
  · intro _
    exact raises_raise _ _ rfl

theorem raises_setParameterBody (parameterName value : String) :
    Raises Exn.isLib (setParameterBody parameterName value) := by
  unfold setParameterBody
  apply raises_bind (raises_getNode _)
  intro pNode
  apply raises_ite (raises_raise _ _ rfl)
  split
  · split
    · exact raises_raise _ _ rfl
    · exact raises_bind (raises_intSetValue _ _) (fun _ => raises_notify _ _ _)
  · split
    · exact raises_raise _ _ rfl
    · exact raises_bind (raises_floatSetValue _ _) (fun _ => raises_notify _ _ _)
  · exact raises_bind (raises_stringSetValue _ _) (fun _ => raises_notify _ _ _)
  · split
    · exact raises_bind (raises_enumFromString _ _) (fun _ => raises_notify _ _ _)
    · refine raises_tryCatchIf (Q := Exn.isLib) ?_ ?_ ?_
      · split
        · exact raises_raise _ _ rfl
        · exact raises_bind (raises_enumSetIntValue _ _) (fun _ => raises_notify _ _ _)
      · intro e h1 h2
        exact h1
      · intro _
        exact raises_raise _ _ rfl
  · exact raises_bind (raises_boolSetValue _ _) (fun _ => raises_notify _ _ _)
  · exact raises_bind (raises_commandExecute _) (fun _ => raises_notify _ _ _)
  · exact raises_raise _ _ rfl

theorem raises_setParameter (parameterName value : String) :
    Raises Exn.isStd (setParameter parameterName value) := by
  unfold setParameter
  apply raises_tryCatchIf (raises_setParameterBody parameterName value)
  · intro e h1 h2
    simp [Exn.isLib] at h1 h2
    rcases h1 with h1 | h1 <;> simp_all
  · intro e
    split
    · exact raises_raise _ _ rfl
    · exact raises_raise _ _ rfl

theorem isCatchable_of_isLib (e : Exn) (h : e.isLib = true) : e.isCatchable = true := by
  cases e <;> simp_all [Exn.isLib, Exn.isCatchable, Exn.isGeneric, Exn.isStd]

theorem isCatchable_of_isStd (e : Exn) (h : e.isStd = true) : e.isCatchable = true := by
  cases e <;> simp_all [Exn.isCatchable, Exn.isStd]

/-- A block whose exceptions all come from the libraries, wrapped in
`catch (...)` with a handler that does not throw, never raises. -/
theorem raises_catchAll {σ α : Type} (P : Exn → Bool) {m : M σ α} {h : Exn → M σ α}
    (hm : Raises Exn.isLib m) (hh : ∀ e, Raises P (h e)) :
    Raises P (tryCatchIf Exn.isCatchable m h) := by
  apply raises_tryCatchIf hm
  · intro e h1 h2
    rw [isCatchable_of_isLib e h1] at h2
    exact absurd h2 (by simp)
  · exact hh

theorem raises_lockStep (P : Exn → Bool) (lock : Bool) (paramName lockValue : String) :
    Raises P (lockStep lock paramName lockValue) := by
  unfold lockStep
  refine raises_tryCatchIf (Q := Exn.isStd) ?_ ?_ ?_
  · apply raises_bind (raises_probe_any _ _ _)
    intro avail
    apply raises_ite (raises_pure _ _)
    apply raises_ite
    · exact raises_bind (raises_setParameter _ _) (fun _ => raises_pure _ _)
    · apply raises_bind (raises_probe_any _ _ _)
      intro w
      apply raises_ite (raises_pure _ _)
      apply raises_bind (raises_setParameter _ _)
      intro _
      apply raises_bind (raises_probe_any _ _ _)
      intro r
      apply raises_ite
      · exact raises_bind (raises_getParameter _) (fun _ => raises_pure _ _)
      · exact raises_pure _ _
  · intro e h1 h2
    rw [h1] at h2
    exact absurd h2 (by simp)
  · intro _
    exact raises_pure _ _

theorem raises_lockLoop (P : Exn → Bool) (lock : Bool) (l : List (String × String)) :
    Raises P (lockLoop lock l) := by
  induction l with
  | nil => exact raises_pure _ _
  | cons a rest ih =>
    obtain ⟨n, v⟩ := a
    unfold lockLoop
    apply raises_bind (raises_lockStep _ _ _ _)
    intro found
    exact raises_ite (raises_pure _ _) ih

theorem raises_setTransportLayerLockP (P : Exn → Bool) (lock : Bool) :
    Raises P (setTransportLayerLockP lock) := by
  unfold setTransportLayerLockP
  exact raises_bind (raises_lockLoop _ _ _) (fun _ => raises_pure _ _)

theorem raises_intGetBound (n : Node) :
    Raises Exn.isLib (intGetMin n) ∧ Raises Exn.isLib (intGetMax n) ∧
      Raises Exn.isLib (intGetInc n) := by
  unfold intGetMin intGetMax intGetInc
  exact ⟨raises_ite (raises_raise _ _ rfl) (raises_pure _ _),
    raises_ite (raises_raise _ _ rfl) (raises_pure _ _),
    raises_ite (raises_raise _ _ rfl) (raises_pure _ _)⟩

theorem raises_floatGetBound (n : Node) :
    Raises Exn.isLib (floatGetMin n) ∧ Raises Exn.isLib (floatGetMax n) ∧
      Raises Exn.isLib (floatGetInc n) := by
  unfold floatGetMin floatGetMax floatGetInc
  exact ⟨raises_ite (raises_raise _ _ rfl) (raises_pure _ _),
    raises_ite (raises_raise _ _ rfl) (raises_pure _ _),
    raises_ite (raises_raise _ _ rfl) (raises_pure _ _)⟩

theorem raises_getOptimalPacketSize (P : Exn → Bool) : Raises P getOptimalPacketSize := by
  unfold getOptimalPacketSize
  apply raises_catchAll
  · apply raises_bind (raises_probe_any _ _ _)
    intro avail
    apply raises_ite
    · apply raises_bind (raises_getTypedNode _ _)
      intro n
      apply raises_bind (raises_intGetBound n).2.1
      intro _
      exact raises_ite (raises_pure _ _) (raises_pure _ _)
    · exact raises_pure _ _
  · intro _
    exact raises_pure _ _

theorem raises_calculateOptimalInterPacketDelay (P : Exn → Bool) :
    Raises P calculateOptimalInterPacketDelay := by
  unfold calculateOptimalInterPacketDelay
  apply raises_catchAll
  · apply raises_bind (raises_probe_any _ _ _)
    intro a
    apply raises_bind (raises_ite (raises_probe_any _ _ _) (raises_pure _ _))
    intro b
    apply raises_ite
    · apply raises_bind (raises_mono (raises_getParameter _) isLib_of_isStd)
      intro ps
      split
      · exact raises_raise _ _ rfl
      · apply raises_bind (raises_mono (raises_getParameter _) isLib_of_isStd)
        intro ls
        split
        · exact raises_raise _ _ rfl
        · exact raises_pure _ _
    · exact raises_pure _ _
  · intro _
    exact raises_pure _ _

theorem raises_configureTimeoutsLoop (P : Exn → Bool) (l : List (String × Int)) :
    Raises P (configureTimeoutsLoop l) := by
  induction l with
  | nil => exact raises_pure _ _
  | cons a rest ih =>
    obtain ⟨n, v⟩ := a
    unfold configureTimeoutsLoop
    apply raises_bind (raises_probe_any _ _ _)
    intro a
    apply raises_bind (raises_ite (raises_probe_any _ _ _) (raises_pure _ _))
    intro w
    apply raises_bind
    · apply raises_ite
      · exact raises_catchAll _ (raises_mono (raises_setParameter _ _) isLib_of_isStd)
          (fun _ => raises_pure _ _)
      · exact raises_pure _ _
    · intro _
      exact ih

theorem raises_prepareTransportLayerForAcquisition (P : Exn → Bool) :
    Raises P prepareTransportLayerForAcquisition := by
  unfold prepareTransportLayerForAcquisition
  apply raises_bind (raises_probe_any _ _ _)
  intro a1
  apply raises_bind
  · apply raises_ite
    · apply raises_catchAll
      · apply raises_bind (raises_getOptimalPacketSize _)
        intro ops
        apply raises_bind (raises_getTypedNode _ _)
        intro n
        apply raises_ite
        · apply raises_bind (raises_intGetBound n).1
          intro mn
          apply raises_bind (raises_intGetBound n).2.1
          intro mx
          apply raises_bind (raises_intGetBound n).2.2
          intro inc
          exact raises_intSetValue _ _
        · exact raises_pure _ _
      · intro _
        exact raises_pure _ _
    · exact raises_pure _ _
  intro _
  apply raises_bind (raises_probe_any _ _ _)
  intro a2
  apply raises_bind
  · apply raises_ite
    · apply raises_catchAll
      · apply raises_bind (raises_calculateOptimalInterPacketDelay _)
        intro d
        exact raises_mono (raises_setParameter _ _) isLib_of_isStd
      · intro _
        exact raises_pure _ _
    · exact raises_pure _ _
  intro _
  apply raises_bind (raises_probe_any _ _ _)
  intro a3
  apply raises_bind
  · apply raises_ite
    · apply raises_catchAll _ (raises_mono (raises_setParameter _ _) isLib_of_isStd)
      intro _
      exact raises_catchAll _ (raises_mono (raises_setParameter _ _) isLib_of_isStd)
        (fun _ => raises_pure _ _)
    · exact raises_pure _ _
  intro _
  apply raises_bind (raises_configureTimeoutsLoop _ _)
  intro _
  apply raises_bind (raises_probe_any _ _ _)
  intro a5
  apply raises_ite
  · exact raises_catchAll _ (raises_mono (raises_setParameter _ _) isLib_of_isStd)
      (fun _ => raises_pure _ _)
  · exact raises_pure _ _

/-! ## What a computation leaves unchanged -/

theorem preserves_pure {σ α : Type} {R : σ → σ → Prop} (hR : Stable R) (a : α) :
    Preserves R (pure a : M σ α) := fun s => hR.refl s

theorem preserves_raise {σ α : Type} {R : σ → σ → Prop} (hR : Stable R) (e : Exn) :
    Preserves R (raise e : M σ α) := fun s => hR.refl s

theorem preserves_getS {σ : Type} {R : σ → σ → Prop} (hR : Stable R) :
    Preserves R (getS : M σ σ) := fun s => hR.refl s

theorem preserves_bind {σ α β : Type} {R : σ → σ → Prop} (hR : Stable R) {m : M σ α}
    {f : α → M σ β} (hm : Preserves R m) (hf : ∀ a, Preserves R (f a)) :
    Preserves R (m >>= f) := by
  intro s
  have h1 := hm s
  rw [bind_run]
  split
  · rename_i a s1 heq
    rw [heq] at h1
    exact hR.trans _ _ _ h1 (hf a s1)
  · rename_i e s1 heq
    rw [heq] at h1
    exact h1

theorem preserves_tryCatchIf {σ α : Type} {R : σ → σ → Prop} (hR : Stable R) {sel : Exn → Bool}
    {m : M σ α} {h : Exn → M σ α} (hm : Preserves R m) (hh : ∀ e, Preserves R (h e)) :
    Preserves R (tryCatchIf sel m h) := by
  intro s
  have h1 := hm s
  rw [tryCatchIf_run]
  split
  · rename_i a s1 heq
    rw [heq] at h1
    exact h1
  · rename_i e s1 heq
    rw [heq] at h1
    split
    · exact hR.trans _ _ _ h1 (hh e s1)
    · exact h1

theorem preserves_ite {σ α : Type} {R : σ → σ → Prop} {c : Prop} [Decidable c] {m1 m2 : M σ α}
    (h1 : Preserves R m1) (h2 : Preserves R m2) : Preserves R (if c then m1 else m2) := by
  split
  · exact h1
  · exact h2

theorem stable_sameSession : Stable SameSession := by
  constructor
  · intro s
    simp [SameSession]
  · intro s t u h1 h2
    simp only [SameSession] at *
    obtain ⟨a1, a2, a3, a4, a5, a6, a7, a8, a9, a10, a11⟩ := h1
    obtain ⟨b1, b2, b3, b4, b5, b6, b7, b8, b9, b10, b11⟩ := h2
    exact ⟨b1.trans a1, b2.trans a2, b3.trans a3, b4.trans a4, b5.trans a5, b6.trans a6,
      b7.trans a7, b8.trans a8, b9.trans a9, b10.trans a10, b11.trans a11⟩

theorem stable_sameHandles : Stable SameHandles := by
  constructor
  · intro s
    exact ⟨stable_sameSession.refl s, rfl, rfl⟩
  · intro s t u h1 h2
    exact ⟨stable_sameSession.trans _ _ _ h1.1 h2.1, h2.2.1.trans h1.2.1, h2.2.2.trans h1.2.2⟩

theorem stable_sameButTrace : Stable SameButTrace := by
  constructor
  · intro s
    exact ⟨stable_sameHandles.refl s, rfl, rfl, rfl, rfl⟩
  · intro s t u h1 h2
    exact ⟨stable_sameHandles.trans _ _ _ h1.1 h2.1, h2.2.1.trans h1.2.1,
      h2.2.2.1.trans h1.2.2.1, h2.2.2.2.1.trans h1.2.2.2.1, h2.2.2.2.2.trans h1.2.2.2.2⟩

theorem sameHandles_of_sameButTrace {s t : St} (h : SameButTrace s t) : SameHandles s t := h.1

theorem sameSession_of_sameHandles {s t : St} (h : SameHandles s t) : SameSession s t := h.1

theorem preserves_weaken {σ α : Type} {R Q : σ → σ → Prop} {m : M σ α}
    (hm : Preserves R m) (h : ∀ s t, R s t → Q s t) : Preserves Q m := fun s => h _ _ (hm s)

/-! ### Relations respected by the building blocks -/

theorem resp_liftP {env : TLEnv} {R : St → St → Prop} (hR : Respects env R) {α : Type}
    (m : PM α) : Preserves R (liftP m) := fun s => hR.param s _

theorem resp_tlCall {env : TLEnv} {R : St → St → Prop} (hR : Respects env R) (c : TLCall)
    (hc : c.isQuiet = true) : Preserves R (tlCall env c) := fun s => hR.call s c hc

theorem resp_revokeLoop {env : TLEnv} {R : St → St → Prop} (hR : Respects env R)
    (l : List Nat) : Preserves R (revokeLoop env l) := by
  induction l with
  | nil => exact preserves_pure hR.stable _
  | cons h rest ih =>
    unfold revokeLoop
    apply preserves_bind hR.stable (preserves_getS hR.stable)
    intro s
    apply preserves_bind hR.stable
    · apply preserves_ite
      · exact preserves_bind hR.stable (resp_tlCall hR _ (by rfl))
          (fun _ => preserves_pure hR.stable _)
      · exact preserves_pure hR.stable _
    · intro _
      exact ih

theorem resp_freeBuffers {env : TLEnv} {R : St → St → Prop} (hR : Respects env R) :
    Preserves R (freeBuffers env) := by
  unfold freeBuffers
  apply preserves_bind hR.stable (fun s => hR.free s)
  intro _
  apply preserves_bind hR.stable (preserves_getS hR.stable)
  intro s
  apply preserves_bind hR.stable (resp_revokeLoop hR _)
  intro _
  intro t
  exact hR.ring t [] [] t.bufferSize

theorem resp_revokeProducerLoop {env : TLEnv} {R : St → St → Prop} (hR : Respects env R)
    (l : List Nat) : Preserves R (revokeProducerLoop env l) := by
  induction l with
  | nil => exact preserves_pure hR.stable _
  | cons h rest ih =>
    unfold revokeProducerLoop
    apply preserves_bind hR.stable (preserves_getS hR.stable)
    intro s
    apply preserves_bind hR.stable (resp_tlCall hR _ (by rfl))
    intro _
    exact ih

theorem resp_producerLoop {env : TLEnv} {R : St → St → Prop} (hR : Respects env R)
    (size n : Nat) : Preserves R (producerLoop env size n) := by
  induction n with
  | zero => exact preserves_pure hR.stable _
  | succ n ih =>
    unfold producerLoop
    apply preserves_bind hR.stable (preserves_getS hR.stable)
    intro s
    apply preserves_bind hR.stable (resp_tlCall hR _ (by rfl))
    intro r
    apply preserves_ite
    · apply preserves_bind hR.stable
        (fun t => hR.ring t (t.bufferHandles ++ [r.num + 1]) t.alignedBuffers t.bufferSize)
      intro _
      exact ih
    · apply preserves_bind hR.stable (preserves_getS hR.stable)
      intro t
      apply preserves_bind hR.stable (resp_revokeProducerLoop hR _)
      intro _
      apply preserves_bind hR.stable (fun t => hR.ring t [] t.alignedBuffers t.bufferSize)
      intro _
      exact preserves_pure hR.stable _

theorem resp_manualLoop {env : TLEnv} {R : St → St → Prop} (hR : Respects env R)
    (size n alignment : Nat) : Preserves R (manualLoop env size n alignment) := by
  induction n generalizing alignment with
  | zero => exact preserves_pure hR.stable _
  | succ n ih =>
    unfold manualLoop
    apply preserves_bind hR.stable (preserves_getS hR.stable)
    intro s
    apply preserves_ite
    · exact preserves_bind hR.stable (resp_freeBuffers hR)
        (fun _ => preserves_raise hR.stable _)
    · apply preserves_bind hR.stable
        (fun t => hR.ring t t.bufferHandles (t.alignedBuffers ++
          [{ size := size, alignment := fixAlignment alignment, zeroed := true }]) t.bufferSize)
      intro _
      apply preserves_bind hR.stable (resp_tlCall hR _ (by rfl))
      intro r
      apply preserves_ite
      · exact preserves_bind hR.stable (resp_freeBuffers hR)
          (fun _ => preserves_raise hR.stable _)
      · apply preserves_bind hR.stable
          (fun t => hR.ring t (t.bufferHandles ++ [r.num + 1]) t.alignedBuffers t.bufferSize)
        intro _
        exact ih _

theorem resp_allocateBuffers {env : TLEnv} {R : St → St → Prop} (hR : Respects env R)
    (count : Nat) : Preserves R (allocateBuffers env count) := by
  unfold allocateBuffers
  apply preserves_ite (preserves_raise hR.stable _)
  apply preserves_bind hR.stable (resp_freeBuffers hR)
  intro _
  apply preserves_bind hR.stable (fun t => hR.ring t [] [] t.bufferSize)
  intro _
  apply preserves_bind hR.stable (preserves_getS hR.stable)
  intro s
  apply preserves_bind hR.stable (resp_tlCall hR _ (by rfl))
  intro ra
  apply preserves_bind hR.stable (resp_producerLoop hR _ _)
  intro u
  exact preserves_ite (preserves_pure hR.stable _) (resp_manualLoop hR _ _ _)

theorem resp_queueLoop {env : TLEnv} {R : St → St → Prop} (hR : Respects env R)
    (l : List Nat) : Preserves R (queueLoop env l) := by
  induction l with
  | nil => exact preserves_pure hR.stable _
  | cons h rest ih =>
    unfold queueLoop
    apply preserves_bind hR.stable (preserves_getS hR.stable)
    intro s
    apply preserves_bind hR.stable (resp_tlCall hR _ (by rfl))
    intro r
    exact preserves_ite (preserves_raise hR.stable _) ih

theorem resp_queueAllBuffers {env : TLEnv} {R : St → St → Prop} (hR : Respects env R) :
    Preserves R (queueAllBuffers env) := by
  unfold queueAllBuffers
  exact preserves_bind hR.stable (preserves_getS hR.stable) (fun _ => resp_queueLoop hR _)

theorem resp_determinePayloadSize {env : TLEnv} {R : St → St → Prop} (hR : Respects env R) :
    Preserves R (determinePayloadSize env) := by
  unfold determinePayloadSize
  apply preserves_bind hR.stable (preserves_getS hR.stable)
  intro s
  apply preserves_bind hR.stable (resp_tlCall hR _ (by rfl))
  intro r4
  apply preserves_ite
  · apply preserves_bind hR.stable (resp_tlCall hR _ (by rfl))
    intro r5
    exact preserves_ite (preserves_raise hR.stable _)
      (fun t => hR.ring t t.bufferHandles t.alignedBuffers r5.num)
  · apply preserves_bind hR.stable (resp_liftP hR _)
    intro size
    exact fun t => hR.ring t t.bufferHandles t.alignedBuffers size

theorem resp_issueAcquisitionStart {env : TLEnv} {R : St → St → Prop} (hR : Respects env R) :
    Preserves R issueAcquisitionStart := by
  unfold issueAcquisitionStart
  exact preserves_tryCatchIf hR.stable (resp_liftP hR _) (fun _ => preserves_raise hR.stable _)

theorem resp_startStream {env : TLEnv} {R : St → St → Prop} (hR : Respects env R) :
    Preserves R (startStream env) := by
  unfold startStream
  apply preserves_bind hR.stable (preserves_getS hR.stable)
  intro t
  apply preserves_bind hR.stable (resp_tlCall hR _ (by rfl))
  intro r
  exact preserves_ite (preserves_raise hR.stable _) (preserves_pure hR.stable _)

theorem respects_sameHandles (env : TLEnv) : Respects env SameHandles where
  stable := stable_sameHandles
  param := by intro s q; simp [SameHandles, SameSession]
  call := by intro s c _; simp [SameHandles, SameSession]
  ring := by intro s bh ab bs; simp [SameHandles, SameSession]
  free := by intro s; simp [SameHandles, SameSession]

theorem respects_sameSession (env : TLEnv) : Respects env SameSession where
  stable := stable_sameSession
  param := by intro s q; simp [SameSession]
  call := by intro s c _; simp [SameSession]
  ring := by intro s bh ab bs; simp [SameSession]
  free := by intro s; simp [SameSession]

theorem sameHandles_liftP {α : Type} (m : PM α) : Preserves SameHandles (liftP m) := by
  intro s
  simp [SameHandles, SameSession]

theorem sameHandles_setTransportLayerLock (lock : Bool) :
    Preserves SameHandles (setTransportLayerLock lock) := by
  unfold setTransportLayerLock
  apply preserves_bind stable_sameHandles
  · intro s
    simp [logEv, SameHandles, SameSession]
  · intro _
    exact sameHandles_liftP _

theorem sameHandles_freeBuffers (env : TLEnv) : Preserves SameHandles (freeBuffers env) :=
  resp_freeBuffers (respects_sameHandles env)

theorem sameSession_openDataStream (env : TLEnv) : Preserves SameSession (openDataStream env) := by
  have hS := stable_sameSession
  have hc : ∀ c, Preserves SameSession (tlCall env c) := by
    intro c s
    simp [tlCall, SameSession]
  unfold openDataStream
  apply preserves_bind hS (preserves_getS hS)
  intro s
  apply preserves_bind hS (hc _)
  intro r1
  apply preserves_ite (preserves_raise hS _)
  apply preserves_bind hS (hc _)
  intro r2
  apply preserves_ite (preserves_raise hS _)
  apply preserves_bind hS (hc _)
  intro r3
  apply preserves_ite (preserves_raise hS _)
  intro t
  simp [SameSession]

theorem sameSession_registerNewBufferEvent (env : TLEnv) :
    Preserves SameSession (registerNewBufferEvent env) := by
  have hS := stable_sameSession
  unfold registerNewBufferEvent
  apply preserves_bind hS (preserves_getS hS)
  intro s
  apply preserves_bind hS (resp_tlCall (respects_sameSession env) _ (by rfl))
  intro r
  apply preserves_ite (preserves_raise hS _)
  intro t
  simp [SameSession]

theorem sameSession_startAcquisitionSteps (env : TLEnv) (bufferCount : Nat) :
    Preserves SameSession (startAcquisitionSteps env bufferCount) := by
  have hS := stable_sameSession
  have hR := respects_sameSession env
  unfold startAcquisitionSteps
  apply preserves_bind hS (resp_liftP hR _)
  intro _
  apply preserves_bind hS
    (preserves_weaken (sameHandles_setTransportLayerLock _) fun _ _ h => h.1)
  intro _
  apply preserves_bind hS (sameSession_openDataStream env)
  intro _
  unfold startAcquisitionFill
  apply preserves_bind hS (resp_determinePayloadSize hR)
  intro _
  apply preserves_bind hS (resp_allocateBuffers hR _)
  intro _
  apply preserves_bind hS (resp_queueAllBuffers hR)
  intro _
  apply preserves_bind hS (sameSession_registerNewBufferEvent env)
  intro _
  apply preserves_bind hS (resp_startStream hR)
  intro _
  exact resp_issueAcquisitionStart hR

/-! ## Session-level computations that never raise -/

theorem raises_tlCall (P : Exn → Bool) (env : TLEnv) (c : TLCall) : Raises P (tlCall env c) := by
  intro s e s1 h
  simp [tlCall] at h

theorem raises_logEv (P : Exn → Bool) (e : Ev) : Raises P (logEv e) := raises_modS _ _

theorem raises_liftP {α : Type} {P : Exn → Bool} {m : PM α} (hm : Raises P m) :
    Raises P (liftP m) := by
  intro s e s1 h
  simp only [liftP_run, Prod.mk.injEq] at h
  exact hm s.p e (m s.p).2 (Prod.ext h.1 rfl)

theorem raises_setTransportLayerLock (P : Exn → Bool) (lock : Bool) :
    Raises P (setTransportLayerLock lock) := by
  unfold setTransportLayerLock
  exact raises_bind (raises_logEv _ _) (fun _ => raises_liftP (raises_setTransportLayerLockP _ _))

theorem raises_revokeLoop (P : Exn → Bool) (env : TLEnv) (l : List Nat) :
    Raises P (revokeLoop env l) := by
  induction l with
  | nil => exact raises_pure _ _
  | cons h rest ih =>
    unfold revokeLoop
    apply raises_bind (raises_getS _)
    intro s
    apply raises_bind
    · apply raises_ite
      · exact raises_bind (raises_tlCall _ _ _) (fun _ => raises_pure _ _)
      · exact raises_pure _ _
    · intro _
      exact ih

theorem raises_freeBuffers (P : Exn → Bool) (env : TLEnv) : Raises P (freeBuffers env) := by
  unfold freeBuffers
  apply raises_bind (raises_logEv _ _)
  intro _
  apply raises_bind (raises_getS _)
  intro s
  apply raises_bind (raises_revokeLoop _ _ _)
  intro _
  exact raises_modS _ _

theorem run_ok_of_never {σ α : Type} {m : M σ α} (h : Raises (fun _ => false) m) (s : σ) :
    ∃ a, m s = (.ok a, (m s).2) := by
  cases hr : m s with
  | mk r s1 =>
    cases r with
    | ok a => exact ⟨a, rfl⟩
    | error e => exact absurd (h s e s1 hr) (by simp)

/-- The method `freeBuffers` returns normally and leaves the ring empty; the
handles of the stream and of the event stay as they are. -/
theorem freeBuffers_spec (env : TLEnv) (s : St) :
    freeBuffers env s = (.ok (), (freeBuffers env s).2) ∧
      (freeBuffers env s).2.bufferHandles = [] ∧ (freeBuffers env s).2.alignedBuffers = [] ∧
      SameHandles s (freeBuffers env s).2 := by
  obtain ⟨a, ha⟩ := run_ok_of_never (raises_freeBuffers _ env) s
  refine ⟨ha, ?_, ?_, sameHandles_freeBuffers env s⟩
  · unfold freeBuffers
    simp only [bind_run, logEv, modS_run, getS_run]
    split <;> simp
    rename_i e s1 heq
    exact absurd (raises_revokeLoop (fun _ => false) env _ _ _ _ heq) (by simp)
  · unfold freeBuffers
    simp only [bind_run, logEv, modS_run, getS_run]
    split <;> simp
    rename_i e s1 heq
    exact absurd (raises_revokeLoop (fun _ => false) env _ _ _ _ heq) (by simp)

/-- The handler of `startAcquisition` rethrows the exception it was entered
with, after having reset the stream handle, the event handle and the ring;
the state and the flags are not touched. -/
theorem startAcquisitionRollback_spec (env : TLEnv) (e : Exn) (s : St) :
    ∃ s2, startAcquisitionRollback env e s = (.error e, s2) ∧ SameSession s s2 ∧
      s2.dsHandle = 0 ∧ s2.eventHandle = 0 ∧ s2.bufferHandles = [] ∧
      s2.alignedBuffers = [] := by
  obtain ⟨a, ha⟩ := run_ok_of_never (raises_setTransportLayerLock _ false) s
  have hl := sameHandles_setTransportLayerLock false s
  generalize (setTransportLayerLock false s).2 = t at ha hl
  unfold startAcquisitionRollback
  simp only [bind_run, ha, getS_run]
  by_cases hev : t.eventHandle = 0 <;> by_cases hds : t.dsHandle = 0
  all_goals
    simp only [hev, hds, ne_eq, not_true_eq_false, not_false_eq_true, if_true, if_false,
      pure_run, tlCall, modS_run, bind_run, raise_run]
    rw [(freeBuffers_spec env _).1]
    refine ⟨_, rfl, ?_, ?_, ?_, (freeBuffers_spec env _).2.1, (freeBuffers_spec env _).2.2.1⟩
    · refine stable_sameSession.trans _ _ _ hl.1
        (stable_sameSession.trans _ _ _ ?_ (freeBuffers_spec env _).2.2.2.1)
      simp [SameSession]
    · rw [(freeBuffers_spec env _).2.2.2.2.1] <;> exact hds
    · rw [(freeBuffers_spec env _).2.2.2.2.2] <;> exact hev

/-! ## Exact runs of the stop sequence -/

theorem raises_executeIfWritable (name : String) : Raises Exn.isLib (executeIfWritable name) := by
  unfold executeIfWritable
  apply raises_bind (raises_getTypedNode _ _)
  intro n
  exact raises_ite (raises_commandExecute _) (raises_pure _ _)

theorem setTransportLayerLockP_run (lock : Bool) (p : PState) :
    setTransportLayerLockP lock p = (.ok true, (setTransportLayerLockP lock p).2) := by
  have hn := raises_lockLoop (fun _ => false) lock (lockParams lock)
  unfold setTransportLayerLockP
  simp only [bind_run]
  cases h : lockLoop lock (lockParams lock) p with
  | mk r q =>
    cases r with
    | ok a => simp
    | error e => exact absurd (hn _ _ _ h) (by simp)

theorem setTransportLayerLock_run (lock : Bool) (s : St) :
    setTransportLayerLock lock s =
      (.ok true, { s with p := (setTransportLayerLockP lock s.p).2,
                          trace := s.trace ++ [.lockCall lock] }) := by
  unfold setTransportLayerLock
  simp only [bind_run, logEv, modS_run, liftP_run]
  rw [setTransportLayerLockP_run]

theorem issueAcquisitionStop_run (s : St) :
    issueAcquisitionStop s = (.ok (), { s with p := (executeIfWritable "AcquisitionStop" s.p).2 }) := by
  unfold issueAcquisitionStop
  simp only [tryCatchIf_run, liftP_run]
  cases hrun : executeIfWritable "AcquisitionStop" s.p with
  | mk r q =>
    cases r with
    | ok a => rfl
    | error e =>
      have hc := isCatchable_of_isLib e (raises_executeIfWritable _ _ _ _ hrun)
      simp [hc]

theorem revokeLoop_closed (env : TLEnv) (l : List Nat) (s : St) (h : s.dsHandle = 0) :
    revokeLoop env l s = (.ok (), s) := by
  induction l with
  | nil => rfl
  | cons a rest ih =>
    unfold revokeLoop
    simp [h, ih]

theorem freeBuffers_closed (env : TLEnv) (s : St) (h : s.dsHandle = 0) :
    freeBuffers env s =
      (.ok (), { s with trace := s.trace ++ [.freeBuffersCall], bufferHandles := [],
                        alignedBuffers := [] }) := by
  unfold freeBuffers
  simp only [bind_run, logEv, modS_run, getS_run]
  have hr := revokeLoop_closed env s.bufferHandles
    { s with trace := s.trace ++ [.freeBuffersCall] } h
  rw [hr]

theorem stopAcquisitionBody_run (env : TLEnv) (s : St) :
    stopAcquisitionBody env s = (stoppedOutcome s, stoppedSession s) := by
  unfold stopAcquisitionBody
  simp only [bind_run, issueAcquisitionStop_run, getS_run]
  by_cases hds : s.dsHandle = 0 <;> by_cases hev : s.eventHandle = 0
  all_goals
    simp only [hds, hev, ne_eq, not_true_eq_false, not_false_eq_true, if_true, if_false,
      pure_run, tlCall, modS_run, bind_run, setTransportLayerLock_run]
    rw [freeBuffers_closed env _ (by first | exact hds | rfl)]
    simp only [stoppedSession, stopTrace, stoppedOutcome, stoppedPState, hds,
      hev, ne_eq, not_true_eq_false, not_false_eq_true, if_true, if_false, List.append_nil,
      List.nil_append, List.append_assoc, List.singleton_append, List.cons_append]
    cases s.eventListener with
    | none => rfl
    | some l => cases h : l.onAcquisitionStopped <;> simp [h]

theorem stopAcquisition_ok (env : TLEnv) (s s2 : St) (hacq : s.isAcquiring = true)
    (hrun : stopAcquisition env s = (.ok (), s2)) :
    s2 = stoppedSession { s with stopAcquisition := true } := by
  unfold stopAcquisition at hrun
  simp only [bind_run, modS_run, getS_run] at hrun
  split at hrun
  · rename_i hc
    simp [hacq] at hc
  · simp only [tryCatchIf_run, stopAcquisitionBody_run, setTransportLayerLock_run, bind_run,
      modS_run, raise_run] at hrun
    cases ho : stoppedOutcome { s with stopAcquisition := true } with
    | ok a =>
      rw [ho] at hrun
      simp only [Prod.mk.injEq, true_and] at hrun
      exact hrun.symm
    | error e =>
      rw [ho] at hrun
      simp only at hrun
      split at hrun <;> simp at hrun

/-! ## Shape of the trace of a successful start -/

theorem stable_noKey : Stable NoKey := by
  constructor
  · intro s
    exact ⟨[], by simp, by simp⟩
  · intro s t u h1 h2
    obtain ⟨l1, e1, k1⟩ := h1
    obtain ⟨l2, e2, k2⟩ := h2
    refine ⟨l1 ++ l2, by rw [e2, e1, List.append_assoc], ?_⟩
    intro e he
    rcases List.mem_append.mp he with h | h
    · exact k1 e h
    · exact k2 e h

theorem stable_quietStream : Stable QuietStream := by
  constructor
  · intro s
    exact ⟨stable_noKey.refl s, rfl⟩
  · intro s t u h1 h2
    exact ⟨stable_noKey.trans _ _ _ h1.1 h2.1, h2.2.trans h1.2⟩

theorem noKey_same_trace (s t : St) (h : t.trace = s.trace) : NoKey s t :=
  ⟨[], by simp [h], by simp⟩

theorem isKey_of_quiet (c : TLCall) (h : c.isQuiet = true) : (Ev.tl c).isKey = false := by
  cases c <;> simp_all [TLCall.isQuiet, Ev.isKey]

theorem respects_quietStream (env : TLEnv) : Respects env QuietStream where
  stable := stable_quietStream
  param := by
    intro s q
    exact ⟨noKey_same_trace _ _ rfl, rfl⟩
  call := by
    intro s c hc
    refine ⟨⟨[.tl c], rfl, ?_⟩, rfl⟩
    intro e he
    simp only [List.mem_singleton] at he
    rw [he]
    exact isKey_of_quiet c hc
  ring := by
    intro s bh ab bs
    exact ⟨noKey_same_trace _ _ rfl, rfl⟩
  free := by
    intro s
    refine ⟨⟨[.freeBuffersCall], rfl, ?_⟩, rfl⟩
    intro e he
    simp only [List.mem_singleton] at he
    rw [he]
    rfl

theorem quietStream_registerNewBufferEvent (env : TLEnv) :
    Preserves QuietStream (registerNewBufferEvent env) := by
  have hR := respects_quietStream env
  unfold registerNewBufferEvent
  apply preserves_bind hR.stable (preserves_getS hR.stable)
  intro s
  apply preserves_bind hR.stable (resp_tlCall hR _ (by rfl))
  intro r
  apply preserves_ite (preserves_raise hR.stable _)
  intro t
  exact ⟨noKey_same_trace _ _ rfl, rfl⟩

theorem quietStream_startAcquisitionFill (env : TLEnv) (bufferCount : Nat) :
    Preserves QuietStream (startAcquisitionFill env bufferCount) := by
  have hR := respects_quietStream env
  unfold startAcquisitionFill
  apply preserves_bind hR.stable (resp_determinePayloadSize hR)
  intro _
  apply preserves_bind hR.stable (resp_allocateBuffers hR _)
  intro _
  apply preserves_bind hR.stable (resp_queueAllBuffers hR)
  intro _
  apply preserves_bind hR.stable (quietStream_registerNewBufferEvent env)
  intro _
  apply preserves_bind hR.stable (resp_startStream hR)
  intro _
  exact resp_issueAcquisitionStart hR

/-- A successful `openDataStream` appends its three calls, the last of which
opens the stream, and stores a non-null stream handle. -/
theorem openDataStream_ok (env : TLEnv) (s t : St) (h : openDataStream env s = (.ok (), t)) :
    ∃ id ds, t = { s with dsHandle := ds + 1,
                          trace := s.trace ++ [.tl (.DevGetNumDataStreams s.devHandle),
                            .tl (.DevGetDataStreamID s.devHandle),
                            .tl (.DevOpenDataStream s.devHandle id)] } := by
  unfold openDataStream at h
  simp only [bind_run, getS_run, tlCall] at h
  split at h
  · simp at h
  · simp only [bind_run, tlCall] at h
    split at h
    · simp at h
    · simp only [bind_run, tlCall] at h
      split at h
      · simp at h
      · simp only [modS_run, Prod.mk.injEq, true_and] at h
        refine ⟨env.str (s.trace.length + 1), env.num (s.trace.length + 2), ?_⟩
        rw [← h]
        simp

/-- Shape of a successful `startAcquisition`: the flags are set, the stream
handle is non-null, and the trace has grown by the lock call, the three calls
that open the stream, and then events that are neither lock calls nor openings
or closings of a stream. -/
theorem startAcquisition_ok (env : TLEnv) (bufferCount : Nat) (s s1 : St)
    (hrun : startAcquisition env bufferCount s = (.ok (), s1)) :
    s1.isAcquiring = true ∧ s1.state = .Acquiring ∧ s1.dsHandle ≠ 0 ∧
      ∃ id rest, s1.trace = s.trace ++ [.lockCall true,
          .tl (.DevGetNumDataStreams s.devHandle), .tl (.DevGetDataStreamID s.devHandle),
          .tl (.DevOpenDataStream s.devHandle id)] ++ rest ∧ ∀ e ∈ rest, e.isKey = false := by
  unfold startAcquisition at hrun
  simp only [bind_run, getS_run] at hrun
  split at hrun
  · simp at hrun
  split at hrun
  · simp at hrun
  simp only [tryCatchIf_run, bind_run] at hrun
  cases hsteps : startAcquisitionSteps env bufferCount s with
  | mk r t =>
    rw [hsteps] at hrun
    cases r with
    | error e =>
      simp only at hrun
      split at hrun
      · obtain ⟨s2, h2, -⟩ := startAcquisitionRollback_spec env e t
        rw [h2] at hrun
        simp at hrun
      · simp at hrun
    | ok a =>
      simp only at hrun
      unfold startAcquisitionSteps at hsteps
      simp only [bind_run, liftP_run, setTransportLayerLock_run] at hsteps
      have hprep := run_ok_of_never (raises_prepareTransportLayerForAcquisition (fun _ => false)) s.p
      obtain ⟨u0, hprep⟩ := hprep
      rw [hprep] at hsteps
      simp only at hsteps
      generalize hq : (setTransportLayerLockP true (prepareTransportLayerForAcquisition s.p).2).2 = q
        at hsteps
      cases hopen : openDataStream env
          { s with p := q, trace := s.trace ++ [.lockCall true] } with
      | mk r u =>
        rw [hopen] at hsteps
        cases r with
        | error e => simp at hsteps
        | ok a1 =>
          simp only at hsteps
          obtain ⟨id, ds, hu⟩ := openDataStream_ok env _ _ hopen
          have hfill := quietStream_startAcquisitionFill env bufferCount u
          rw [hsteps] at hfill
          obtain ⟨⟨rest, htr, hkey⟩, hsame⟩ := hfill
          have hcommit : s1.isAcquiring = true ∧ s1.state = .Acquiring ∧
              s1.dsHandle = t.dsHandle ∧ s1.trace = t.trace := by
            unfold startAcquisitionCommit at hrun
            simp only [bind_run, modS_run, getS_run] at hrun
            cases hl : t.eventListener with
            | none =>
              simp only [hl, pure_run, Prod.mk.injEq, true_and] at hrun
              rw [← hrun]
              simp
            | some l =>
              cases hl2 : l.onAcquisitionStarted with
              | none =>
                simp only [hl, hl2, pure_run, Prod.mk.injEq, true_and] at hrun
                rw [← hrun]
                simp
              | some e =>
                exfalso
                simp only [hl, hl2, raise_run] at hrun
                split at hrun
                · obtain ⟨s2, h2, -⟩ := startAcquisitionRollback_spec env e _
                  rw [h2] at hrun
                  simp at hrun
                · simp at hrun
          obtain ⟨c1, c2, c3, c4⟩ := hcommit
          refine ⟨c1, c2, ?_, id, rest, ?_, hkey⟩
          · rw [c3, hsame, hu]
            simp
          · rw [c4, htr, hu]
            simp

/-! ## Idempotent calls -/

/-- C8: `disconnect()` in state `Disconnected` returns without error and
leaves the whole session as it was: state, handles, feature tree, camera id,
parameter cache, and the trace of transport-layer calls, to which nothing is
added. -/
theorem disconnect_when_disconnected (env : TLEnv) (s : St)
    (h : s.state = .Disconnected) : disconnect env s = (.ok (), s) := by
  cases s
  simp_all [disconnect, bind_run, liftP_run, notifyParameterChanged, pure_run, getS_run]

theorem disconnect_when_disconnected_witness :
    initialSt.state = .Disconnected ∧ disconnect quietEnv initialSt = (.ok (), initialSt) :=
  ⟨rfl, disconnect_when_disconnected quietEnv initialSt rfl⟩

/-- C9, as the code has it: `stopAcquisition()` with no acquisition active
returns without error, issues no transport-layer call and no device command,
and changes nothing but the stop flag, which it sets. -/
theorem stopAcquisition_when_idle (env : TLEnv) (s : St) (h : s.isAcquiring = false) :
    stopAcquisition env s = (.ok (), { s with stopAcquisition := true }) := by
  simp [stopAcquisition, bind_run, modS_run, getS_run, pure_run, h]

theorem stopAcquisition_when_idle_witness :
    initialSt.isAcquiring = false ∧
      stopAcquisition quietEnv initialSt = (.ok (), { initialSt with stopAcquisition := true }) :=
  ⟨rfl, stopAcquisition_when_idle quietEnv initialSt rfl⟩

/-- C9 fails as stated: on a fresh session, where no acquisition is active and
the stop flag is clear, `stopAcquisition()` sets the stop flag. -/
theorem stopAcquisition_sets_stop_flag :
    initialSt.isAcquiring = false ∧ initialSt.stopAcquisition = false ∧
      (stopAcquisition quietEnv initialSt).2.stopAcquisition = true := by
  refine ⟨rfl, rfl, rfl⟩

/-! ## Rollback of a failed start -/

/-- C2: when a call of `startAcquisition(bufferCount)` that passed the
precondition checks fails at one of its steps, from the preparation of the
transport layer to the `AcquisitionStart` command, with a C++ exception, then
the call fails with the exception the failing step raised, and on return the
state is the one before the call, the acquiring flag is clear, the stream
handle and the event handle are null and the ring is empty. -/
theorem startAcquisition_failure_rolls_back (env : TLEnv) (bufferCount : Nat) (s t : St)
    (e : Exn) (hconn : isConnected s = true) (hidle : s.isAcquiring = false)
    (hexc : e.isCatchable = true)
    (hsteps : startAcquisitionSteps env bufferCount s = (.error e, t)) :
    (startAcquisition env bufferCount s).1 = .error e ∧
      getState (startAcquisition env bufferCount s).2 = getState s ∧
      (startAcquisition env bufferCount s).2.isAcquiring = false ∧
      (startAcquisition env bufferCount s).2.dsHandle = 0 ∧
      (startAcquisition env bufferCount s).2.eventHandle = 0 ∧
      (startAcquisition env bufferCount s).2.bufferHandles = [] ∧
      (startAcquisition env bufferCount s).2.alignedBuffers = [] := by
  have hframe := sameSession_startAcquisitionSteps env bufferCount s
  rw [hsteps] at hframe
  obtain ⟨s2, h2, hss, hds, hev, hb, hab⟩ := startAcquisitionRollback_spec env e t
  have hrun : startAcquisition env bufferCount s = (.error e, s2) := by
    unfold startAcquisition
    simp only [bind_run, getS_run, hconn, hidle, Bool.not_true, Bool.false_eq_true, if_false,
      tryCatchIf_run, hsteps, hexc, if_true, h2]
  rw [hrun]
  have htot := stable_sameSession.trans _ _ _ hframe hss
  exact ⟨rfl, htot.1, htot.2.1.trans hidle, hds, hev, hb, hab⟩

theorem startAcquisition_failure_rolls_back_witness :
    isConnected demoConnected = true ∧ demoConnected.isAcquiring = false ∧
      (startAcquisitionSteps demoEnv 2 demoConnected).1 = .error (.genicam .ParameterError 0) ∧
      ((startAcquisition demoEnv 2 demoConnected).1 = .error (.genicam .ParameterError 0) ∧
      getState (startAcquisition demoEnv 2 demoConnected).2 = getState demoConnected ∧
      (startAcquisition demoEnv 2 demoConnected).2.isAcquiring = false ∧
      (startAcquisition demoEnv 2 demoConnected).2.dsHandle = 0 ∧
      (startAcquisition demoEnv 2 demoConnected).2.eventHandle = 0 ∧
      (startAcquisition demoEnv 2 demoConnected).2.bufferHandles = [] ∧
      (startAcquisition demoEnv 2 demoConnected).2.alignedBuffers = []) :=
  ⟨by decide!, by decide!, by decide!,
    startAcquisition_failure_rolls_back demoEnv 2 demoConnected demoStepped
      (.genicam .ParameterError 0) (by decide!) (by decide!) rfl (by decide!)⟩

/-! ## Order of the calls around the locked section -/

theorem newEvents_append (s t : St) (l : List Ev) (h : t.trace = s.trace ++ l) :
    newEvents s t = l := by
  simp [newEvents, h]

theorem filter_isKey_nil (l : List Ev) (h : ∀ e ∈ l, e.isKey = false) :
    l.filter Ev.isKey = [] := by
  rw [List.filter_eq_nil_iff]
  intro e he
  simp [h e he]

/-- The key events of the stop sequence on an open stream: the stream is
closed, then the unlock call is made. -/
theorem filter_isKey_stopTrace (s : St) (hds : s.dsHandle ≠ 0) :
    (stopTrace s).filter Ev.isKey = [.tl (.DSClose s.dsHandle), .lockCall false] := by
  by_cases hev : s.eventHandle = 0 <;> simp [stopTrace, hds, hev, List.filter, Ev.isKey]

/-- C4: in every successful `startAcquisition` followed by a successful
`stopAcquisition` (whatever happens in between leaves the stream handle alone
and makes no lock call and opens or closes no stream), the lock calls and the
openings and closings of streams made during the cycle are exactly, in this
order: `setTransportLayerLock(true)`, the opening of the data stream, its
closing, `setTransportLayerLock(false)`. -/
theorem lock_brackets_stream (env : TLEnv) (bufferCount : Nat) (s s1 sm s2 : St)
    (hstart : startAcquisition env bufferCount s = (.ok (), s1))
    (hmid : QuietStream s1 sm) (hacq : sm.isAcquiring = true)
    (hstop : stopAcquisition env sm = (.ok (), s2)) :
    ∃ id, (newEvents s s2).filter Ev.isKey =
      [.lockCall true, .tl (.DevOpenDataStream s.devHandle id), .tl (.DSClose s1.dsHandle),
        .lockCall false] := by
  obtain ⟨-, -, hds, id, rest, htr, hkey⟩ := startAcquisition_ok env bufferCount s s1 hstart
  obtain ⟨⟨mid, hmt, hmk⟩, hsame⟩ := hmid
  have h2 := stopAcquisition_ok env sm s2 hacq hstop
  have hdsm : sm.dsHandle ≠ 0 := by
    rw [hsame]
    exact hds
  have htrace : s2.trace = s.trace ++ ([.lockCall true,
      .tl (.DevGetNumDataStreams s.devHandle), .tl (.DevGetDataStreamID s.devHandle),
      .tl (.DevOpenDataStream s.devHandle id)] ++ rest ++ mid ++
      stopTrace { sm with stopAcquisition := true }) := by
    rw [h2]
    simp only [stoppedSession, hmt, htr, List.append_assoc]
  refine ⟨id, ?_⟩
  rw [newEvents_append s s2 _ htrace]
  simp only [List.filter_append, filter_isKey_nil rest hkey, filter_isKey_nil mid hmk,
    List.append_nil]
  rw [filter_isKey_stopTrace { sm with stopAcquisition := true } hdsm]
  have hd : ({ sm with stopAcquisition := true } : St).dsHandle = s1.dsHandle := hsame
  rw [hd]
  simp [List.filter, Ev.isKey]

theorem lock_brackets_stream_witness :
    startAcquisition streamEnv 2 streamConnected = (.ok (), streamAcquiring) ∧
      streamAcquiring.isAcquiring = true ∧
      stopAcquisition streamEnv streamAcquiring = (.ok (), streamStopped) ∧
      ∃ id, (newEvents streamConnected streamStopped).filter Ev.isKey =
        [.lockCall true, .tl (.DevOpenDataStream streamConnected.devHandle id),
          .tl (.DSClose streamAcquiring.dsHandle), .lockCall false] :=
  ⟨by decide!, by decide!, by decide!,
    lock_brackets_stream streamEnv 2 streamConnected streamAcquiring streamAcquiring
      streamStopped (by decide!) ⟨⟨[], by simp, by simp⟩, rfl⟩ (by decide!) (by decide!)⟩

/-- C5, as the code has it: when `stopAcquisition()` runs to its end on an
open stream, the last three events it adds are, in this order, the closing of
the data stream, the unlock call `setTransportLayerLock(false)` and the entry
into `freeBuffers`; before them it makes no lock call, closes no stream and
frees no buffer.  The lock is released after the stream is closed and before
the ring is freed. -/
theorem stopAcquisition_unlocks_before_free (env : TLEnv) (s s2 : St)
    (hacq : s.isAcquiring = true) (hds : s.dsHandle ≠ 0)
    (hrun : stopAcquisition env s = (.ok (), s2)) :
    ∃ pre, newEvents s s2 =
        pre ++ [.tl (.DSClose s.dsHandle), .lockCall false, .freeBuffersCall] ∧
      ∀ e ∈ pre, e.isKey = false ∧ e ≠ .freeBuffersCall := by
  have h2 := stopAcquisition_ok env s s2 hacq hrun
  have htrace : s2.trace = s.trace ++ stopTrace { s with stopAcquisition := true } := by
    rw [h2]
    rfl
  rw [newEvents_append s s2 _ htrace]
  by_cases hev : s.eventHandle = 0
  · refine ⟨[.tl (.DSStopAcquisition s.dsHandle), .tl (.DSFlushQueue s.dsHandle)], ?_, ?_⟩
    · simp [stopTrace, hds, hev]
    · intro e he
      simp only [List.mem_cons, List.mem_singleton, List.not_mem_nil, or_false] at he
      rcases he with h | h <;> simp [h, Ev.isKey]
  · refine ⟨[.tl (.DSStopAcquisition s.dsHandle), .tl (.DSFlushQueue s.dsHandle),
      .tl (.GCUnregisterEvent s.dsHandle .EVENT_NEW_BUFFER)], ?_, ?_⟩
    · simp [stopTrace, hds, hev]
    · intro e he
      simp only [List.mem_cons, List.mem_singleton, List.not_mem_nil, or_false] at he
      rcases he with h | h | h <;> simp [h, Ev.isKey]

theorem stopAcquisition_unlocks_before_free_witness :
    streamAcquiring.isAcquiring = true ∧ streamAcquiring.dsHandle ≠ 0 ∧
      stopAcquisition streamEnv streamAcquiring = (.ok (), streamStopped) ∧
      ∃ pre, newEvents streamAcquiring streamStopped =
          pre ++ [.tl (.DSClose streamAcquiring.dsHandle), .lockCall false, .freeBuffersCall] ∧
        ∀ e ∈ pre, e.isKey = false ∧ e ≠ .freeBuffersCall :=
  ⟨by decide!, by decide!, by decide!,
    stopAcquisition_unlocks_before_free streamEnv streamAcquiring streamStopped (by decide!)
      (by decide!) (by decide!)⟩

/-- C5 fails as stated: in the stop of a running acquisition the unlock call
precedes the freeing of the ring; the events of the stop are, in order, stop
and flush of the stream, unregistration of the event, closing of the stream,
`setTransportLayerLock(false)`, `freeBuffers`. -/
theorem stopAcquisition_unlock_precedes_free :
    streamAcquiring.isAcquiring = true ∧
      newEvents streamAcquiring streamStopped =
        [.tl (.DSStopAcquisition 18), .tl (.DSFlushQueue 18),
          .tl (.GCUnregisterEvent 18 .EVENT_NEW_BUFFER), .tl (.DSClose 18),
          .lockCall false, .freeBuffersCall] := by
  decide!

/-- C3 fails on the code: `startAcquisition(2)` succeeds and announces two
buffers to the stream, the following `stopAcquisition()` succeeds and closes
the stream, and no buffer is revoked at any point of the stop: `freeBuffers`
runs after the stream handle has been reset and skips every revoke. -/
theorem stopAcquisition_revokes_nothing :
    (startAcquisition streamEnv 2 streamConnected).1 = .ok () ∧
      (stopAcquisition streamEnv streamAcquiring).1 = .ok () ∧
      ((newEvents streamConnected streamAcquiring).filter Ev.isAnnounce).length = 2 ∧
      streamAcquiring.bufferHandles = [23, 24] ∧
      ((newEvents streamAcquiring streamStopped).filter Ev.isRevoke).length = 0 ∧
      Ev.tl (.DSClose 18) ∈ newEvents streamAcquiring streamStopped := by
  decide!

/-- The defect behind C3 in general: a stop that runs to its end revokes no
buffer, whatever the ring holds. -/
theorem stopAcquisition_never_revokes (env : TLEnv) (s s2 : St) (hacq : s.isAcquiring = true)
    (hrun : stopAcquisition env s = (.ok (), s2)) :
    (newEvents s s2).filter Ev.isRevoke = [] := by
  have h2 := stopAcquisition_ok env s s2 hacq hrun
  have htrace : s2.trace = s.trace ++ stopTrace { s with stopAcquisition := true } := by
    rw [h2]
    rfl
  rw [newEvents_append s s2 _ htrace]
  by_cases hds : s.dsHandle = 0 <;> by_cases hev : s.eventHandle = 0 <;>
    simp [stopTrace, hds, hev, List.filter, Ev.isRevoke]

/-! ## Failed connection attempts -/

/-- C1 fails on the code, in two ways.  With a register URL whose address
field is malformed, `std::stoull` throws an exception that the handler of
`connect` does not match: the exception leaves `connect` with the interface,
device and port handles still set and no closing call issued.  With a
description that lacks the root node, the handler runs and closes device and
interface, but the port handle and the port object stay set. -/
theorem connect_failure_leaks_handles :
    ((connect badUrlEnv "cam" initialSt).1 = .error .stdExn ∧
      (connect badUrlEnv "cam" initialSt).2.state = .Disconnected ∧
      (connect badUrlEnv "cam" initialSt).2.devHandle = 2 ∧
      (connect badUrlEnv "cam" initialSt).2.ifHandle = 2 ∧
      (connect badUrlEnv "cam" initialSt).2.portHandle = 2 ∧
      (connect badUrlEnv "cam" initialSt).2.trace.filter Ev.isRelease = []) ∧
    ((connect noRootEnv "cam" initialSt).1 = .error (.genicam .GenApiError 0) ∧
      (connect noRootEnv "cam" initialSt).2.state = .Disconnected ∧
      (connect noRootEnv "cam" initialSt).2.devHandle = 0 ∧
      (connect noRootEnv "cam" initialSt).2.ifHandle = 0 ∧
      (connect noRootEnv "cam" initialSt).2.portHandle = 2 ∧
      (connect noRootEnv "cam" initialSt).2.p.hasCameraPort = true) := by
  decide!

/-! ## Exposure time out of range -/

/-- C10 fails as stated: on a device whose `ExposureTime` node is writable
with bounds `[10, 1000]`, `setExposureTime(5)` fails with ParameterError and
`setExposureTime(2000)` too; no write reaches any node and the value of the
node stays `100`. -/
theorem setExposureTime_out_of_range_fails :
    (setExposureTime 5 exposurePState).1 = .error (.genicam .ParameterError 0) ∧
      (setExposureTime 5 exposurePState).2.nodeOps = [] ∧
      (setExposureTime 5 exposurePState).2.pNodeMap = exposurePState.pNodeMap ∧
      (setExposureTime 2000 exposurePState).1 = .error (.genicam .ParameterError 0) ∧
      (setExposureTime 2000 exposurePState).2.nodeOps = [] := by
  decide!

/-- C10, as the code has it: once `setExposureTime(v)` has found its exposure
node (bounds readable), a value `v` below the minimum or above the maximum of
the node is rejected: the call fails with ParameterError at the range test,
and the feature tree, the cache and the record of node writes are left as the
search of the node left them: nothing is written. -/
theorem setExposureTime_rejects_out_of_range (v : ℚ) (p p1 : PState) (n : Node)
    (hfound : locateExposureNode p = (.ok (some n), p1)) (hio : n.ioFails = false)
    (hout : v < n.fmin ∨ n.fmax < v) :
    setExposureTime v p = (.error (.genicam .ParameterError 0), p1) := by
  unfold setExposureTime
  simp only [tryCatchIf_run, bind_run, hfound, writeExposure, floatGetMin, floatGetMax, hio,
    Bool.false_eq_true, if_false, pure_run]
  have hc : (v < n.fmin ∨ v > n.fmax) := hout
  simp [hc, Exn.isGeneric]

theorem setExposureTime_rejects_out_of_range_witness :
    locateExposureNode exposurePState =
        (.ok (some { name := "ExposureTime", intf := .intfIFloat, access := .RW,
                     fval := 100, fmin := 10, fmax := 1000 }), exposurePState) ∧
      setExposureTime 5 exposurePState = (.error (.genicam .ParameterError 0), exposurePState) :=
  ⟨by decide!,
    setExposureTime_rejects_out_of_range 5 exposurePState exposurePState
      { name := "ExposureTime", intf := .intfIFloat, access := .RW,
        fval := 100, fmin := 10, fmax := 1000 }
      (by decide!) rfl (Or.inl (by norm_num))⟩


/-! ## Hoare triples -/

theorem triple_bind {σ α β : Type} {P : σ → Prop} {I : α → σ → Prop} {Q : β → σ → Prop}
    {E : Exn → σ → Prop} {m : M σ α} {f : α → M σ β}
    (hm : Triple P m I E) (hf : ∀ a, Triple (I a) (f a) Q E) : Triple P (m >>= f) Q E := by
  intro s hs
  have h1 := hm s hs
  rw [bind_run]
  cases hrun : m s with
  | mk r t =>
    cases r with
    | ok a => exact hf a t (h1.1 a t hrun)
    | error e =>
      refine ⟨fun a u h => ?_, fun e2 u h => ?_⟩
      · simp at h
      · simp only [Prod.mk.injEq, Except.error.injEq] at h
        obtain ⟨rfl, rfl⟩ := h
        exact h1.2 _ _ hrun

theorem triple_weaken {σ α : Type} {P P1 : σ → Prop} {Q Q1 : α → σ → Prop}
    {E E1 : Exn → σ → Prop} {m : M σ α} (hm : Triple P1 m Q1 E1)
    (hP : ∀ s, P s → P1 s) (hQ : ∀ a s, Q1 a s → Q a s) (hE : ∀ e s, E1 e s → E e s) :
    Triple P m Q E := fun s hs =>
  ⟨fun a t h => hQ a t ((hm s (hP s hs)).1 a t h), fun e t h => hE e t ((hm s (hP s hs)).2 e t h)⟩

theorem triple_tryCatchIf {σ α : Type} {P : σ → Prop} {Q : α → σ → Prop}
    {E F : Exn → σ → Prop} {sel : Exn → Bool} {m : M σ α} {h : Exn → M σ α}
    (hm : Triple P m Q F) (hh : ∀ e, sel e = true → Triple (F e) (h e) Q E)
    (hE : ∀ e s, sel e = false → F e s → E e s) : Triple P (tryCatchIf sel m h) Q E := by
  intro s hs
  have h1 := hm s hs
  rw [tryCatchIf_run]
  cases hrun : m s with
  | mk r t =>
    cases r with
    | ok a =>
      refine ⟨fun b u hb => ?_, fun e2 u hb => ?_⟩
      · simp only [Prod.mk.injEq, Except.ok.injEq] at hb
        obtain ⟨rfl, rfl⟩ := hb
        exact h1.1 _ _ hrun
      · simp at hb
    | error e =>
      by_cases hsel : sel e = true
      · simp only [hsel, if_true]
        exact hh e hsel t (h1.2 e t hrun)
      · have hf : sel e = false := by simpa using hsel
        refine ⟨fun b u hb => ?_, fun e2 u hb => ?_⟩
        · simp [hf] at hb
        · simp only [hf, Bool.false_eq_true, if_false, Prod.mk.injEq, Except.error.injEq] at hb
          obtain ⟨rfl, rfl⟩ := hb
          exact hE _ _ hf (h1.2 _ _ hrun)

theorem triple_ite {σ α : Type} {P : σ → Prop} {Q : α → σ → Prop} {E : Exn → σ → Prop}
    {c : Prop} [Decidable c] {m1 m2 : M σ α} (h1 : Triple P m1 Q E) (h2 : Triple P m2 Q E) :
    Triple P (if c then m1 else m2) Q E := by
  split
  · exact h1
  · exact h2

theorem triple_raise {σ α : Type} {P : σ → Prop} {Q : α → σ → Prop} {E : Exn → σ → Prop}
    (e : Exn) (h : ∀ s, P s → E e s) : Triple P (raise e : M σ α) Q E := by
  intro s hs
  refine ⟨fun a t ht => ?_, fun e2 t ht => ?_⟩
  · simp at ht
  · simp only [raise_run, Prod.mk.injEq, Except.error.injEq] at ht
    obtain ⟨rfl, rfl⟩ := ht
    exact h _ hs

theorem triple_pure {σ α : Type} {P : σ → Prop} {Q : α → σ → Prop} {E : Exn → σ → Prop}
    (a : α) (h : ∀ s, P s → Q a s) : Triple P (pure a : M σ α) Q E := by
  intro s hs
  refine ⟨fun b t ht => ?_, fun e2 t ht => ?_⟩
  · simp only [pure_run, Prod.mk.injEq, Except.ok.injEq] at ht
    obtain ⟨rfl, rfl⟩ := ht
    exact h _ hs
  · simp at ht

theorem triple_modS {σ : Type} {P : σ → Prop} {Q : Unit → σ → Prop} {E : Exn → σ → Prop}
    (f : σ → σ) (h : ∀ s, P s → Q () (f s)) : Triple P (modS f) Q E := by
  intro s hs
  refine ⟨fun b t ht => ?_, fun e2 t ht => ?_⟩
  · simp only [modS_run, Prod.mk.injEq, Except.ok.injEq] at ht
    obtain ⟨_, rfl⟩ := ht
    exact h _ hs
  · simp at ht

theorem triple_getS {σ : Type} {P : σ → Prop} {E : Exn → σ → Prop} :
    Triple P (getS : M σ σ) (fun a s => a = s ∧ P s) E := by
  intro s hs
  refine ⟨fun b t ht => ?_, fun e2 t ht => ?_⟩
  · simp only [getS_run, Prod.mk.injEq, Except.ok.injEq] at ht
    obtain ⟨rfl, rfl⟩ := ht
    exact ⟨rfl, hs⟩
  · simp at ht

/-- A frame property gives a triple: what holds before and is carried along
`R` holds after, whatever the outcome. -/
theorem triple_of_preserves {σ α : Type} {R : σ → σ → Prop} {P P1 : σ → Prop} {m : M σ α}
    (hm : Preserves R m) (h : ∀ s t, P s → R s t → P1 t) :
    Triple P m (fun _ => P1) (fun _ => P1) := by
  intro s hs
  have h1 := h s _ hs (hm s)
  refine ⟨fun a t ht => ?_, fun e t ht => ?_⟩ <;>
  · rw [ht] at h1
    exact h1

/-- A computation that never raises satisfies any exceptional postcondition. -/
theorem triple_of_never {σ α : Type} {P : σ → Prop} {Q : α → σ → Prop} {E F : Exn → σ → Prop}
    {m : M σ α} (hn : Raises (fun _ => false) m) (hm : Triple P m Q F) : Triple P m Q E := by
  intro s hs
  refine ⟨(hm s hs).1, fun e t ht => ?_⟩
  exact absurd (hn _ _ _ ht) (by simp)

/-! ## The state never becomes Disconnected outside connect and disconnect -/

theorem stable_staysConnected : Stable StaysConnected :=
  ⟨fun _ h => h, fun _ _ _ h1 h2 h => h1 (h2 h)⟩

theorem respects_staysConnected (env : TLEnv) : Respects env StaysConnected where
  stable := stable_staysConnected
  param := by intro s q; simp [StaysConnected]
  call := by intro s c _; simp [StaysConnected]
  ring := by intro s bh ab bs; simp [StaysConnected]
  free := by intro s; simp [StaysConnected]

theorem staysConnected_tlCall (env : TLEnv) (c : TLCall) :
    Preserves StaysConnected (tlCall env c) := by
  intro s
  simp [tlCall, StaysConnected]

theorem staysConnected_modS (f : St → St) (h : ∀ s, (f s).state = s.state) :
    Preserves StaysConnected (modS f) := by
  intro s h1
  simp only [modS_run] at h1
  rw [h] at h1
  exact h1

theorem staysConnected_unwindSingleFrame (env : TLEnv) :
    Preserves StaysConnected (unwindSingleFrame env) := by
  have hS := stable_staysConnected
  have hR := respects_staysConnected env
  have hC := staysConnected_tlCall env
  have hM := staysConnected_modS
  unfold unwindSingleFrame setTransportLayerLock logEv
  repeat' with_reducible first
    | exact preserves_pure hS _
    | exact preserves_raise hS _
    | exact preserves_getS hS
    | exact resp_liftP hR _
    | exact hC _
    | exact resp_freeBuffers hR
    | exact hM _ (fun _ => rfl)
    | apply preserves_bind hS
    | apply preserves_tryCatchIf hS
    | apply preserves_ite
    | intro _

theorem staysConnected_grabSingleFrame (env : TLEnv) (h : Helpers) (timeoutMs : Nat) :
    Preserves StaysConnected (grabSingleFrame env h timeoutMs) := by
  have hS := stable_staysConnected
  have hR := respects_staysConnected env
  have hC := staysConnected_tlCall env
  have hM := staysConnected_modS
  unfold grabSingleFrame grabSingleFrameBody grabSingleFrameCleanup
    waitAndDecode reportStreamCounters issueAcquisitionStartSingle configureSingleFrame
    setTransportLayerLock logEv openDataStream registerNewBufferEvent
  repeat' with_reducible first
    | exact preserves_pure hS _
    | exact preserves_raise hS _
    | exact preserves_getS hS
    | exact resp_liftP hR _
    | exact hC _
    | exact staysConnected_unwindSingleFrame env
    | exact resp_freeBuffers hR
    | exact resp_allocateBuffers hR _
    | exact resp_queueAllBuffers hR
    | exact resp_determinePayloadSize hR
    | exact resp_startStream hR
    | exact hM _ (fun _ => rfl)
    | apply preserves_bind hS
    | apply preserves_tryCatchIf hS
    | apply preserves_ite
    | intro _
    | split

theorem staysConnected_startAcquisition (env : TLEnv) (bufferCount : Nat) :
    Preserves StaysConnected (startAcquisition env bufferCount) := by
  have hS := stable_staysConnected
  have hR := respects_staysConnected env
  have hC := staysConnected_tlCall env
  have hM := staysConnected_modS
  have hSteps : Preserves StaysConnected (startAcquisitionSteps env bufferCount) :=
    preserves_weaken (sameSession_startAcquisitionSteps env bufferCount) fun s t h hd => by
      rw [h.1] at hd
      exact hd
  have hCommit : Preserves StaysConnected
      (modS fun t : St =>
        { t with isAcquiring := true, stopAcquisition := false, state := .Acquiring }) := by
    intro s hd
    simp at hd
  unfold startAcquisition startAcquisitionCommit startAcquisitionRollback
    setTransportLayerLock logEv
  repeat' with_reducible first
    | exact preserves_pure hS _
    | exact preserves_raise hS _
    | exact preserves_getS hS
    | exact resp_liftP hR _
    | exact hC _
    | exact hSteps
    | exact hCommit
    | exact resp_freeBuffers hR
    | exact hM _ (fun _ => rfl)
    | apply preserves_bind hS
    | apply preserves_tryCatchIf hS
    | apply preserves_ite
    | intro _
    | split

/-! ## A failed connect leaves the feature tree flagged invalid -/

theorem stable_sameValid : Stable SameValid :=
  ⟨fun _ => rfl, fun _ _ _ h1 h2 => h2.trans h1⟩

theorem stable_keepsFlags : Stable KeepsFlags :=
  ⟨fun _ => ⟨rfl, rfl⟩, fun _ _ _ h1 h2 => ⟨h2.1.trans h1.1, h2.2.trans h1.2⟩⟩

theorem sameValid_nmGetNode (name : String) : Preserves SameValid (nmGetNode name) := by
  intro p
  unfold nmGetNode SameValid
  split
  · rfl
  · split <;> rfl

theorem sameValid_stringGetValue (n : Node) : Preserves SameValid (stringGetValue n) := by
  unfold stringGetValue
  exact preserves_ite (preserves_pure stable_sameValid _) (preserves_raise stable_sameValid _)

theorem sameValid_newNodeMap : Preserves SameValid newNodeMap := fun _ => rfl

theorem sameValid_loadXML (parsed : Option (List Node)) : Preserves SameValid (loadXML parsed) := by
  intro p
  unfold loadXML SameValid
  split
  · rfl
  · split <;> rfl

theorem sameValid_connectPort (env : TLEnv) : Preserves SameValid (connectPort env) := by
  intro p
  unfold connectPort SameValid
  split
  · rfl
  · split <;> rfl

theorem sameValid_modS (f : PState → PState) (h : ∀ p, (f p).nodeMapValid = p.nodeMapValid) :
    Preserves SameValid (modS f) := h

theorem keepsFlags_liftP {α : Type} {m : PM α} (h : Preserves SameValid m) :
    Preserves KeepsFlags (liftP m) := fun s => ⟨h s.p, rfl⟩

theorem keepsFlags_tlCall (env : TLEnv) (c : TLCall) : Preserves KeepsFlags (tlCall env c) :=
  fun _ => ⟨rfl, rfl⟩

theorem keepsFlags_modS (f : St → St) (h : ∀ s, (f s).p = s.p ∧ (f s).isAcquiring = s.isAcquiring) :
    Preserves KeepsFlags (modS f) := by
  intro s
  simp only [modS_run, KeepsFlags, (h s).1, (h s).2, and_self]

theorem keepsFlags_deviceLoop (env : TLEnv) (cameraID : String) (tempIF n j : Nat) :
    Preserves KeepsFlags (deviceLoop env cameraID tempIF n j) := by
  have hS := stable_keepsFlags
  have hC := keepsFlags_tlCall env
  have hM := keepsFlags_modS
  induction n generalizing j with
  | zero => exact preserves_pure hS _
  | succ n ih =>
    unfold deviceLoop
    repeat' with_reducible first
      | exact preserves_pure hS _
      | exact preserves_raise hS _
      | exact hC _
      | exact ih _
      | exact hM _ (fun _ => ⟨rfl, rfl⟩)
      | apply preserves_bind hS
      | apply preserves_ite
      | intro _

theorem keepsFlags_interfaceLoop (env : TLEnv) (cameraID : String) (n i : Nat) :
    Preserves KeepsFlags (interfaceLoop env cameraID n i) := by
  have hS := stable_keepsFlags
  have hC := keepsFlags_tlCall env
  induction n generalizing i with
  | zero => exact preserves_pure hS _
  | succ n ih =>
    unfold interfaceLoop
    repeat' with_reducible first
      | exact preserves_pure hS _
      | exact hC _
      | exact ih _
      | exact keepsFlags_deviceLoop env cameraID _ _ _
      | apply preserves_bind hS
      | apply preserves_ite
      | intro _

theorem keepsFlags_loadDescription (env : TLEnv) (urlString : List Char) :
    Preserves KeepsFlags (parseAndLoadXMLFromURL env urlString) ∧
    Preserves KeepsFlags (loadXMLFromDevice env) := by
  have hS := stable_keepsFlags
  have hC := keepsFlags_tlCall env
  constructor
  · simp only [parseAndLoadXMLFromURL]
    repeat' with_reducible first
      | exact preserves_pure hS _
      | exact preserves_raise hS _
      | exact preserves_getS hS
      | exact hC _
      | exact keepsFlags_liftP sameValid_newNodeMap
      | exact keepsFlags_liftP (sameValid_loadXML _)
      | exact keepsFlags_liftP (sameValid_connectPort _)
      | apply preserves_bind hS
      | apply preserves_tryCatchIf hS
      | apply preserves_ite
      | intro _
      | split
  · simp only [loadXMLFromDevice]
    repeat' with_reducible first
      | exact preserves_pure hS _
      | exact preserves_raise hS _
      | exact preserves_getS hS
      | exact hC _
      | exact keepsFlags_liftP sameValid_newNodeMap
      | exact keepsFlags_liftP (sameValid_loadXML _)
      | exact keepsFlags_liftP (sameValid_connectPort _)
      | apply preserves_bind hS
      | apply preserves_ite
      | intro _

theorem triple_validateAtConnect :
    Triple (fun p : PState => p.nodeMapValid = false) validateAtConnect (fun _ _ => True)
      (fun _ q => q.nodeMapValid = false) := by
  have hS := stable_sameValid
  have hkeep : ∀ p q : PState, p.nodeMapValid = false → SameValid p q → q.nodeMapValid = false :=
    fun p q hp h => h.trans hp
  unfold validateAtConnect
  apply triple_tryCatchIf (F := fun _ q => q.nodeMapValid = false)
  · apply triple_bind (triple_of_preserves (sameValid_nmGetNode _) hkeep)
    intro pRoot
    apply triple_bind (I := fun _ q => q.nodeMapValid = false)
    · split
      · exact triple_pure _ (fun _ h => h)
      · exact triple_of_preserves (sameValid_nmGetNode _) hkeep
    · intro pRoot2
      split
      · exact triple_raise _ (fun _ h => h)
      · apply triple_bind (triple_of_preserves (sameValid_nmGetNode _) hkeep)
        intro pVendor
        apply triple_bind (I := fun _ q => q.nodeMapValid = false)
        · split
          · split
            · apply triple_bind (triple_of_preserves (sameValid_stringGetValue _) hkeep)
              intro _
              exact triple_pure _ (fun _ h => h)
            · exact triple_pure _ (fun _ h => h)
          · exact triple_pure _ (fun _ h => h)
        · intro _
          exact triple_modS _ (fun _ _ => trivial)
  · intro e _
    apply triple_bind (I := fun _ q => q.nodeMapValid = false) (triple_modS _ (fun _ _ => rfl))
    intro _
    exact triple_raise _ (fun _ h => h)
  · intro e s _ h
    exact h

theorem triple_liftP {α : Type} {Pp : PState → Prop} {Qp : α → PState → Prop}
    {Ep : Exn → PState → Prop} {m : PM α} (hm : Triple Pp m Qp Ep) (b : Bool) :
    Triple (fun s : St => Pp s.p ∧ s.isAcquiring = b) (liftP m)
      (fun a t => Qp a t.p ∧ t.isAcquiring = b) (fun e t => Ep e t.p ∧ t.isAcquiring = b) := by
  intro s hs
  have h1 := hm s.p hs.1
  refine ⟨fun a t ht => ?_, fun e t ht => ?_⟩
  · simp only [liftP_run, Prod.mk.injEq] at ht
    obtain ⟨h2, rfl⟩ := ht
    exact ⟨h1.1 a _ (Prod.ext h2 rfl), hs.2⟩
  · simp only [liftP_run, Prod.mk.injEq] at ht
    obtain ⟨h2, rfl⟩ := ht
    exact ⟨h1.2 e _ (Prod.ext h2 rfl), hs.2⟩

theorem raises_registerFeatureInvalidationEvents (P : Exn → Bool) (env : TLEnv) :
    Raises P (registerFeatureInvalidationEvents env) := by
  unfold registerFeatureInvalidationEvents
  repeat' with_reducible first
    | exact raises_pure _ _
    | exact raises_getS _
    | exact raises_tlCall _ _ _
    | exact raises_modS _ _
    | apply raises_bind
    | apply raises_ite
    | intro _

theorem idle_of_keepsFlags (s t : St) (hs : Idle s) (h : KeepsFlags s t) : Idle t :=
  ⟨h.1.trans hs.1, h.2.trans hs.2⟩

theorem triple_connectGenApi (env : TLEnv) :
    Triple Idle (connectGenApi env) (fun _ t => t.isAcquiring = false) (fun _ t => Idle t) := by
  have hS := stable_keepsFlags
  have hC := keepsFlags_tlCall env
  have hframe : ∀ {α : Type} {m : SM α}, Preserves KeepsFlags m →
      Triple Idle m (fun _ => Idle) (fun _ => Idle) :=
    fun h => triple_of_preserves h idle_of_keepsFlags
  have hload : ∀ {m : PM Unit}, Preserves SameValid m →
      Triple Idle (liftP m) (fun _ => Idle) (fun _ => Idle) :=
    fun h => hframe (keepsFlags_liftP h)
  simp only [connectGenApi]
  refine triple_bind (hload (sameValid_modS _ (fun _ => rfl))) ?_
  intro _
  refine triple_bind (hframe (preserves_getS hS)) ?_
  intro s
  refine triple_bind (hframe (hC _)) ?_
  intro ru
  apply triple_bind (I := fun _ => Idle)
  · apply hframe
    repeat' with_reducible first
      | exact (keepsFlags_loadDescription env _).1
      | exact (keepsFlags_loadDescription env []).2
      | exact preserves_raise hS _
      | exact keepsFlags_liftP sameValid_newNodeMap
      | exact keepsFlags_liftP (sameValid_loadXML _)
      | exact keepsFlags_liftP (sameValid_connectPort _)
      | apply preserves_bind hS
      | apply preserves_ite
      | intro _
  · intro _
    apply triple_bind (I := fun _ t => t.isAcquiring = false)
    · exact triple_weaken (triple_liftP triple_validateAtConnect false) (fun _ h => h)
        (fun _ _ h => h.2) (fun _ _ h => h)
    · intro _
      apply triple_of_never (raises_registerFeatureInvalidationEvents _ env)
        (F := fun _ t => t.isAcquiring = false)
      apply triple_of_preserves (R := KeepsFlags)
      · unfold registerFeatureInvalidationEvents
        repeat' with_reducible first
          | exact preserves_pure hS _
          | exact preserves_getS hS
          | exact hC _
          | exact keepsFlags_modS _ (fun _ => ⟨rfl, rfl⟩)
          | apply preserves_bind hS
          | apply preserves_ite
          | intro _
      · intro s t hs h
        exact h.2.trans hs

theorem triple_connectBody (env : TLEnv) (cameraID : String) :
    Triple Idle (connectBody env cameraID) (fun _ t => t.state = .Connected)
      (fun _ t => Idle t) := by
  have hS := stable_keepsFlags
  have hC := keepsFlags_tlCall env
  have hframe : ∀ {α : Type} {m : SM α}, Preserves KeepsFlags m →
      Triple Idle m (fun _ => Idle) (fun _ => Idle) :=
    fun h => triple_of_preserves h idle_of_keepsFlags
  unfold connectBody
  refine triple_bind (hframe (hC _)) ?_
  intro r
  refine triple_ite (triple_raise _ (fun _ h => h)) ?_
  refine triple_bind (hframe (hC _)) ?_
  intro rn
  refine triple_bind (hframe (keepsFlags_interfaceLoop env cameraID _ _)) ?_
  intro deviceFound
  refine triple_ite (triple_raise _ (fun _ h => h)) ?_
  refine triple_bind (hframe (preserves_getS hS)) ?_
  intro s
  refine triple_bind (hframe (hC _)) ?_
  intro rp
  refine triple_ite (triple_raise _ (fun _ h => h)) ?_
  refine triple_bind (hframe (keepsFlags_modS _ (fun _ => ⟨rfl, rfl⟩))) ?_
  intro _
  apply triple_bind (I := fun _ _ => True)
  · apply triple_tryCatchIf (F := fun _ t => Idle t)
    · exact triple_weaken (triple_connectGenApi env) (fun _ h => h) (fun _ _ _ => trivial)
        (fun _ _ h => h)
    · intro e _
      exact triple_raise _ (fun _ h => h)
    · intro e s _ h
      exact h
  · intro _
    exact triple_modS _ (fun _ _ => rfl)

theorem triple_connectRollback (env : TLEnv) (e : Exn) :
    Triple Idle (connectRollback env e) (fun _ t => t.state = .Connected) (fun _ t => Idle t) := by
  have hS := stable_keepsFlags
  have hC := keepsFlags_tlCall env
  have hframe : ∀ {α : Type} {m : SM α}, Preserves KeepsFlags m →
      Triple Idle m (fun _ => Idle) (fun _ => Idle) :=
    fun h => triple_of_preserves h idle_of_keepsFlags
  have hclose : ∀ (c : Prop) [Decidable c] (call : TLCall) (f : St → St),
      (∀ s, (f s).p = s.p ∧ (f s).isAcquiring = s.isAcquiring) →
      Preserves KeepsFlags (if c then do
          let _ ← tlCall env call
          modS f
        else pure ()) := by
    intro c _ call f hf
    apply preserves_ite
    · apply preserves_bind hS (hC _)
      intro _
      exact keepsFlags_modS _ hf
    · exact preserves_pure hS _
  unfold connectRollback
  refine triple_bind (hframe (preserves_getS hS)) ?_
  intro s
  refine triple_bind (hframe (hclose _ _ _ (fun _ => ⟨rfl, rfl⟩))) ?_
  intro _
  refine triple_bind (hframe (preserves_getS hS)) ?_
  intro s2
  refine triple_bind (hframe (hclose _ _ _ (fun _ => ⟨rfl, rfl⟩))) ?_
  intro _
  refine triple_bind (hframe (keepsFlags_modS _ (fun _ => ⟨rfl, rfl⟩))) ?_
  intro _
  exact triple_raise _ (fun _ h => h)

/-- The method `connect` keeps `DisconnectedClean`: when it fails the flag
`m_nodeMapValid` is still false. -/
theorem disconnectedClean_connect (env : TLEnv) (cameraID : String) (s : St)
    (h : DisconnectedClean s) : DisconnectedClean (connect env cameraID s).2 := by
  by_cases hd : s.state = .Disconnected
  · have hidle : Idle s := h hd
    have ht : Triple Idle
        (tryCatchIf Exn.isGenICam (connectBody env cameraID) (connectRollback env))
        (fun _ t => t.state = .Connected) (fun _ t => Idle t) := by
      apply triple_tryCatchIf (triple_connectBody env cameraID)
      · intro e _
        exact triple_connectRollback env e
      · intro e s _ h
        exact h
    have h1 := ht s hidle
    unfold connect
    simp only [bind_run, getS_run, hd, ne_eq, not_true_eq_false, if_false]
    cases hrun : tryCatchIf Exn.isGenICam (connectBody env cameraID) (connectRollback env) s with
    | mk r t =>
      cases r with
      | ok a =>
        intro hd2
        have hc : t.state = .Connected := h1.1 a t hrun
        have hd3 : t.state = .Disconnected := hd2
        rw [hc] at hd3
        cases hd3
      | error e =>
        intro _
        exact h1.2 e t hrun
  · unfold connect
    simp only [bind_run, getS_run, hd, ne_eq, not_false_eq_true, if_true, raise_run]
    exact h

/-! ## Stopping and disconnecting -/

theorem stopAcquisition_outcome (env : TLEnv) (s : St) (hacq : s.isAcquiring = true) :
    (∃ t, stopAcquisition env s = (.ok (), t) ∧ t.isAcquiring = false ∧ t.state = .Connected) ∨
    (∃ e t, stopAcquisition env s = (.error e, t) ∧
      (t.state = .Connected ∨ t.state = .Error)) := by
  unfold stopAcquisition
  simp only [bind_run, modS_run, getS_run]
  rw [if_neg (by simp [hacq])]
  simp only [tryCatchIf_run, stopAcquisitionBody_run]
  generalize ({ s with stopAcquisition := true } : St) = s1
  cases ho : stoppedOutcome s1 with
  | ok a => exact Or.inl ⟨_, rfl, rfl, rfl⟩
  | error e =>
    right
    by_cases hstd : e.isStd = true
    · simp only [hstd, if_true, setTransportLayerLock_run, bind_run, modS_run, raise_run]
      exact ⟨_, _, rfl, Or.inr rfl⟩
    · simp only [hstd, if_false]
      exact ⟨_, _, rfl, Or.inl rfl⟩

theorem disconnectedClean_stopAcquisition (env : TLEnv) (s : St) (h : DisconnectedClean s) :
    DisconnectedClean (stopAcquisition env s).2 := by
  by_cases hacq : s.isAcquiring = true
  · rcases stopAcquisition_outcome env s hacq with ⟨t, hrun, _, hst⟩ | ⟨e, t, hrun, hst⟩
    · rw [hrun]
      intro hd
      rw [hst] at hd
      cases hd
    · rw [hrun]
      intro hd
      rcases hst with hst | hst <;>
      · rw [hst] at hd
        cases hd
  · have hrun : stopAcquisition env s = (.ok (), { s with stopAcquisition := true }) := by
      unfold stopAcquisition
      simp [hacq]
    rw [hrun]
    exact h

theorem disconnect_idle_run (env : TLEnv) (s : St) (h : s.state = .Disconnected) :
    disconnect env s = (.ok (), s) := by
  cases s
  simp_all [disconnect, bind_run, liftP_run, notifyParameterChanged, pure_run, getS_run]

theorem disconnectedClean_disconnect (env : TLEnv) (s : St) (h : DisconnectedClean s) :
    DisconnectedClean (disconnect env s).2 := by
  by_cases hd : s.state = .Disconnected
  · rw [disconnect_idle_run env s hd]
    exact h
  · have hrest : ∀ t : St, t.isAcquiring = false →
        ∃ u, ((do
          unregisterFeatureInvalidationEvents env
          liftP (modS fun q =>
            { q with nodeMapValid := false, pNodeMap := none, hasCameraPort := false })
          let t ← getS
          (if t.devHandle ≠ 0 then do
            let _ ← tlCall env (.DevClose t.devHandle)
            modS fun u => { u with devHandle := 0 }
          else pure ())
          let t ← getS
          (if t.ifHandle ≠ 0 then do
            let _ ← tlCall env (.IFClose t.ifHandle)
            modS fun u => { u with ifHandle := 0 }
          else pure ())
          modS fun u => { u with portHandle := 0, state := .Disconnected, cameraID := "" }
          liftP (modS fun q => { q with parameterCache := [] }) : SM Unit) t) = (.ok (), u) ∧
          Idle u := by
      intro t ht
      simp only [bind_run, liftP_run, unregisterFeatureInvalidationEvents, getS_run, tlCall,
        modS_run, pure_run]
      by_cases h1 : t.devHandle = 0 <;> by_cases h2 : t.ifHandle = 0 <;>
        simp [h1, h2, Idle, ht, tlCall]
    have hs : liftP (notifyParameterChanged "Disconnected" "") s = (.ok (), s) := rfl
    unfold disconnect
    rw [bind_run, hs]
    simp only [bind_run, getS_run, hd, if_false, tryCatchIf_run]
    by_cases hacq : s.isAcquiring = true
    · rw [if_pos hacq]
      rcases stopAcquisition_outcome env s hacq with ⟨t, hrun, hq, hst⟩ | ⟨e, t, hrun, hst⟩
      · obtain ⟨u, hu, hidle⟩ := hrest t hq
        simp only [bind_run, getS_run] at hu
        simp only [hrun, hu]
        intro _
        exact hidle
      · simp only [hrun]
        intro hd2
        exfalso
        by_cases hc : e.isCatchable = true
        · simp [hc] at hd2
        · have hf : e.isCatchable = false := by simpa using hc
          simp only [hf, Bool.false_eq_true, if_false] at hd2
          rcases hst with hst | hst <;>
          · rw [hst] at hd2
            cases hd2
    · rw [if_neg hacq]
      have hq : s.isAcquiring = false := by simpa using hacq
      obtain ⟨u, hu, hidle⟩ := hrest s hq
      simp only [bind_run, getS_run] at hu
      simp only [pure_run, hu]
      intro _
      exact hidle

/-! ## Parameter access without a valid feature tree -/

theorem validateNodeMap_invalid (p : PState) (h : featureTreeValid p = false) :
    validateNodeMap p = (.error (.genicam .GenApiError 0), p) := by
  unfold validateNodeMap
  have hg : (!p.nodeMapValid || p.pNodeMap.isNone) = true := by
    unfold featureTreeValid at h
    cases hv : p.nodeMapValid <;> cases hm : p.pNodeMap <;> simp_all
  rw [if_pos hg]

theorem getNode_invalid (nodeName : String) (p : PState) (h : featureTreeValid p = false) :
    getNode nodeName p = (.error (.genicam .GenApiError 0), p) := by
  unfold getNode
  simp only [bind_run, validateNodeMap_invalid p h]

theorem getParameter_invalid (parameterName : String) (p : PState)
    (h : featureTreeValid p = false) :
    getParameter parameterName p = (.error (.genicam .GenApiError 0), p) := by
  unfold getParameter getParameterBody
  simp only [tryCatchIf_run, bind_run, getNode_invalid parameterName p h]
  rfl

theorem setParameter_invalid (parameterName value : String) (p : PState)
    (h : featureTreeValid p = false) :
    setParameter parameterName value p = (.error (.genicam .ParameterError 0), p) := by
  unfold setParameter setParameterBody
  simp only [tryCatchIf_run, bind_run, getNode_invalid parameterName p h]
  rfl

theorem featureTreeValid_of_flag (p : PState) (h : p.nodeMapValid = false) :
    featureTreeValid p = false := by
  simp [featureTreeValid, h]

theorem disconnectedClean_liftP {α : Type} (m : PM α)
    (hm : ∀ p, p.nodeMapValid = false → (m p).2 = p) (s : St) (h : DisconnectedClean s) :
    DisconnectedClean (liftP m s).2 := by
  intro hd
  have hs := h hd
  have hp : (liftP m s).2 = s := by
    simp only [liftP_run]
    rw [hm s.p hs.1]
  rw [hp]
  exact hs

theorem disconnectedClean_guarded {α : Type} (m : SM α) (hm : Preserves StaysConnected m)
    (hg : ∀ s, s.state = .Disconnected → (m s).2 = s) (s : St) (h : DisconnectedClean s) :
    DisconnectedClean (m s).2 := by
  intro hd
  have hs : s.state = .Disconnected := hm s hd
  rw [hg s hs]
  exact h hs

/-- Every reachable session that is `Disconnected` has its feature tree
flagged invalid and no acquisition running. -/
theorem disconnectedClean_of_reachable (s : St) (h : Reachable s) : DisconnectedClean s := by
  induction h with
  | fresh => exact fun _ => ⟨rfl, rfl⟩
  | connect env cameraID _ ih => exact disconnectedClean_connect env cameraID _ ih
  | disconnect env _ ih => exact disconnectedClean_disconnect env _ ih
  | startAcquisition env bufferCount _ ih =>
    refine disconnectedClean_guarded _ (staysConnected_startAcquisition env bufferCount) ?_ _ ih
    intro s hs
    unfold startAcquisition
    simp [isConnected, hs]
  | stopAcquisition env _ ih => exact disconnectedClean_stopAcquisition env _ ih
  | grabSingleFrame env hlp timeoutMs _ ih =>
    refine disconnectedClean_guarded _ (staysConnected_grabSingleFrame env hlp timeoutMs) ?_ _ ih
    intro s hs
    unfold grabSingleFrame
    simp [isConnected, hs]
  | setEventListener l _ ih => exact ih
  | advanceClock d _ ih => exact ih
  | validateNodeMap _ ih =>
    refine disconnectedClean_liftP _ (fun p hp => ?_) _ ih
    rw [validateNodeMap_invalid p (featureTreeValid_of_flag p hp)]
  | getParameter parameterName _ ih =>
    refine disconnectedClean_liftP _ (fun p hp => ?_) _ ih
    rw [getParameter_invalid parameterName p (featureTreeValid_of_flag p hp)]
  | setParameter parameterName value _ ih =>
    refine disconnectedClean_liftP _ (fun p hp => ?_) _ ih
    rw [setParameter_invalid parameterName value p (featureTreeValid_of_flag p hp)]
  | deliveryRefresh _ hacq ih =>
    intro hd
    simp only [liftP_run] at hd
    rw [hacq] at hd
    cases hd

/-! ## C6 and C7: the feature tree and the connection state -/

/-- C6, the claim as written fails in both directions.  A session reached by
`setEventListener`, `connect`, `startAcquisition` and a `stopAcquisition`
whose listener callback throws is in state `Error` with a feature tree that is
present, flagged valid and passes `validateNodeMap`; a session reached by
`connect`, 31 seconds and a `validateNodeMap` whose refresh fails is in state
`Connected` with the feature tree flagged invalid, and `validateNodeMap`
fails on it. -/
theorem featureTree_validity_differs_from_state :
    (Reachable listenerSession ∧ listenerSession.state = .Error ∧
      featureTreeValid listenerSession.p = true ∧
      (validateNodeMap listenerSession.p).1 = .ok ()) ∧
    (Reachable staleSession ∧ staleSession.state = .Connected ∧
      featureTreeValid staleSession.p = false ∧
      (validateNodeMap staleSession.p).1 = .error (.genicam .GenApiError 0)) :=
  ⟨⟨Reachable.stopAcquisition streamEnv
      (Reachable.startAcquisition streamEnv 2
        (Reachable.connect streamEnv "cam"
          (Reachable.setEventListener (some failingListener) Reachable.fresh))),
    by decide!, by decide!, by decide!⟩,
   ⟨Reachable.validateNodeMap
      (Reachable.advanceClock 31000 (Reachable.connect staleEnv "cam" Reachable.fresh)),
    by decide!, by decide!, by decide!⟩⟩

/-- C6, as the code has it: in every reachable session (any sequence of
`connect`, `disconnect`, `startAcquisition`, `stopAcquisition`,
`grabSingleFrame`, listener changes, parameter access and feature-tree
refreshes, failing calls included) state `Disconnected` implies that the
feature tree is not valid and that `validateNodeMap` rejects access with
`GenApiError`; so a valid feature tree implies state `Connected`, `Acquiring`
or `Error`.  The converse does not hold. -/
theorem disconnected_has_no_valid_featureTree (s : St) (hr : Reachable s) :
    (s.state = .Disconnected →
      featureTreeValid s.p = false ∧
      validateNodeMap s.p = (.error (.genicam .GenApiError 0), s.p)) ∧
    (featureTreeValid s.p = true →
      s.state = .Connected ∨ s.state = .Acquiring ∨ s.state = .Error) := by
  have h := disconnectedClean_of_reachable s hr
  constructor
  · intro hd
    have hv := featureTreeValid_of_flag s.p (h hd).1
    exact ⟨hv, validateNodeMap_invalid s.p hv⟩
  · intro hv
    cases hst : s.state with
    | Disconnected =>
      have hf := featureTreeValid_of_flag s.p (h hst).1
      rw [hv] at hf
      cases hf
    | Connected => exact Or.inl rfl
    | Acquiring => exact Or.inr (Or.inl rfl)
    | Error => exact Or.inr (Or.inr rfl)

theorem disconnected_has_no_valid_featureTree_witness :
    (Reachable demoDisconnected ∧ demoDisconnected.state = .Disconnected ∧
      featureTreeValid demoDisconnected.p = false ∧
      validateNodeMap demoDisconnected.p =
        (.error (.genicam .GenApiError 0), demoDisconnected.p)) ∧
    (Reachable demoConnected ∧ featureTreeValid demoConnected.p = true ∧
      (demoConnected.state = .Connected ∨ demoConnected.state = .Acquiring ∨
        demoConnected.state = .Error)) :=
  have hr : Reachable demoDisconnected :=
    Reachable.disconnect demoEnv (Reachable.connect demoEnv "cam" Reachable.fresh)
  have hd : demoDisconnected.state = .Disconnected := by decide!
  have hc : Reachable demoConnected := Reachable.connect demoEnv "cam" Reachable.fresh
  have hv : featureTreeValid demoConnected.p = true := by decide!
  ⟨⟨hr, hd, (disconnected_has_no_valid_featureTree demoDisconnected hr).1 hd⟩,
   ⟨hc, hv, (disconnected_has_no_valid_featureTree demoConnected hc).2 hv⟩⟩

/-- C11, where the code leaves the range.  Float path: on a `Gain` node with
range `[0, 10]` and increment 4, `setGain(10)` clamps to 10 and then rounds
to 12, which is what it passes to `SetValue`; the node refuses it and the
call fails with `GenApiError`.  Integer path: on a `Gain` node with range
`[1, 9]` and increment 2, `setGain(1)` clamps to 1 and then cuts it down to
0, which is what it passes to `SetValue`, with the same end. -/
theorem setGain_rounds_out_of_range :
    floatGainValue 0 10 4 10 = 12 ∧
    (setGain EnumEntry.symbolic 10 (loadedPState floatGainNodes)).2.nodeOps =
      [.setFloat "Gain" 12] ∧
    (setGain EnumEntry.symbolic 10 (loadedPState floatGainNodes)).1 =
      .error (.genicam .GenApiError 0) ∧
    intGainValue 1 9 2 1 = 0 ∧
    (setGain EnumEntry.symbolic 1 (loadedPState intGainNodes)).2.nodeOps =
      [.setInt "Gain" 0] ∧
    (setGain EnumEntry.symbolic 1 (loadedPState intGainNodes)).1 =
      .error (.genicam .GenApiError 0) :=
  ⟨by decide!, by decide!, by decide!, by decide!, by decide!, by decide!⟩

/-- C12, where the code returns a stale value.  On a device whose `Gain`
node holds 5 (range `[0, 10]`, increment 1/2), `getGain()` followed by
`setGain(7)` writes 7 to the node and leaves the cache entry of the read in
place, so that `getGain()` still returns 5 immediately afterwards and 99 ms
later; it returns 7 once 100 ms have passed. -/
theorem getGain_after_setGain_is_stale :
    (getGain EnumEntry.symbolic (loadedPState halfStepGainNodes)).1 = .ok 5 ∧
    gainSetAfterRead.nodeOps = [.setFloat "Gain" 7] ∧
    (nmGetNode "Gain" gainSetAfterRead).1.toOption.bind (Option.map Node.fval) = some 7 ∧
    (getGain EnumEntry.symbolic gainSetAfterRead).1 = .ok 5 ∧
    (getGain EnumEntry.symbolic (gainSetAfterRead.later 99)).1 = .ok 5 ∧
    (getGain EnumEntry.symbolic (gainSetAfterRead.later 100)).1 = .ok 7 :=
  ⟨by decide!, by decide!, by decide!, by decide!, by decide!, by decide!⟩

/-! ## Readers on a loaded feature tree -/

theorem validateNodeMap_loaded {ns : List Node} {p : PState} (h : Loaded ns p) :
    validateNodeMap p = (.ok (), p) := by
  unfold validateNodeMap
  obtain ⟨hm, hv, hs⟩ := h
  simp [hm, hv, hs]

theorem nmGetNode_loaded {ns : List Node} {p : PState} (h : Loaded ns p) (name : String) :
    nmGetNode name p = (.ok (findNode name ns), p) := by
  unfold nmGetNode
  simp [h.1]

theorem getTypedNode_loaded {ns : List Node} {p : PState} (h : Loaded ns p)
    (intf : EInterfaceType) (name : String) :
    getTypedNode intf name p =
      match typedNode intf ns name with
      | some n => (.ok n, p)
      | none => (.error (.genicam .ParameterError 0), p) := by
  unfold getTypedNode getNode typedNode
  simp only [bind_run, validateNodeMap_loaded h, getS_run, h.1, Option.isNone_some,
    Bool.false_eq_true, if_false, nmGetNode_loaded h]
  cases hf : findNode name ns with
  | none => rfl
  | some n =>
    by_cases hi : n.intf = intf <;> simp [hi]

theorem cachePut_run (key value : String) (p : PState) :
    cachePut key value p = (.ok (), p.cached key value) := rfl

theorem loaded_cached {ns : List Node} {p : PState} (h : Loaded ns p) (key value : String) :
    Loaded ns (p.cached key value) := h

theorem floatGetValue_run (n : Node) (p : PState) :
    floatGetValue n p =
      match n.reading with
      | some v => (.ok v, p)
      | none => (.error .generic, p) := by
  unfold floatGetValue Node.reading
  by_cases h : (n.isReadable && !n.ioFails) = true <;> simp [h]

theorem exposureFactor_loaded {ns : List Node} {p : PState} (h : Loaded ns p) (value : ℚ) :
    tryCatchIf Exn.isCatchable
      (do
        let pConvFactor ← getFloatNode "ExposureTimeBaseAbs"
        let factor ← floatGetValue pConvFactor
        pure (value * factor))
      (fun _ => pure value) p = (.ok (value * exposureBase ns), p) := by
  unfold exposureBase
  simp only [tryCatchIf_run, bind_run, getFloatNode, getTypedNode_loaded h]
  cases ht : typedNode .intfIFloat ns "ExposureTimeBaseAbs" with
  | none => simp [Exn.isCatchable]
  | some f =>
    simp only [floatGetValue_run, Option.bind]
    cases hr : f.reading with
    | none => simp [Exn.isCatchable]
    | some v => simp

theorem readExposureNode_loaded {ns : List Node} {p : PState} (h : Loaded ns p)
    (name : String) :
    readExposureNode name p =
      match exposureOf ns name with
      | some v => (.ok (some v), p.cached "ExposureTime" (doubleToString v))
      | none => (.ok none, p) := by
  unfold readExposureNode exposureOf
  simp only [tryCatchIf_run, bind_run, getFloatNode, getTypedNode_loaded h]
  cases ht : typedNode .intfIFloat ns name with
  | none => simp [Exn.isCatchable]
  | some n =>
    simp only [Option.bind]
    by_cases hr : n.isReadable = true
    · simp only [hr, if_true, bind_run, floatGetValue_run]
      cases hv : n.reading with
      | none => simp [Exn.isCatchable]
      | some v =>
        by_cases hn : name = "ExposureTimeRaw"
        · simp only [hn, if_true]
          have hf := exposureFactor_loaded h v
          simp only [getFloatNode] at hf
          rw [hf]
          simp [cachePut_run]
        · simp [hn, cachePut_run]
    · have hv : n.reading = none := by
        unfold Node.reading
        simp [hr]
      simp [hr, hv]

theorem readExposure_loaded {ns : List Node} {p : PState} (h : Loaded ns p)
    (names : List String) :
    readExposure names p =
      match exposureReading ns names with
      | some v => (.ok (some v), p.cached "ExposureTime" (doubleToString v))
      | none => (.ok none, p) := by
  induction names with
  | nil => rfl
  | cons name rest ih =>
    unfold readExposure exposureReading
    simp only [bind_run, readExposureNode_loaded h]
    cases hv : exposureOf ns name with
    | none => simpa using ih
    | some v => simp

/-- On a loaded feature tree with no fresh cache entry `getExposureTime` is
`exposureReading`: the value is returned and cached, and when no name
qualifies the call fails with `ParameterError`. -/
theorem getExposureTime_loaded {ns : List Node} {p : PState} (h : Loaded ns p)
    (hmiss : cachedValue "ExposureTime" p = none) :
    getExposureTime p =
      match exposureReading ns exposureNames with
      | some v => (.ok v, p.cached "ExposureTime" (doubleToString v))
      | none => (.error (.genicam .ParameterError 0), p) := by
  unfold getExposureTime fetchExposureTime
  simp only [tryCatchIf_run, bind_run, getS_run, hmiss, readExposure_loaded h]
  cases hv : exposureReading ns exposureNames with
  | none => simp [Exn.isGeneric]
  | some v => simp

/-! ## What a fetching read leaves in the cache -/

theorem triple_trivial {σ α : Type} (P : σ → Prop) (m : M σ α) :
    Triple P m (fun _ _ => True) (fun _ _ => True) :=
  fun _ _ => ⟨fun _ _ _ => trivial, fun _ _ _ => trivial⟩

theorem cacheFind_cached (key value : String) (p : PState) :
    cacheFind key (p.cached key value).parameterCache =
      some { key := key, value := value, stamp := p.now } := by
  unfold cacheFind PState.cached
  simp only [List.find?_append]
  have h : (List.filter (fun c => decide (c.key ≠ key)) p.parameterCache).find?
      (fun c => decide (c.key = key)) = none := by
    rw [List.find?_eq_none]
    intro c hc
    simp only [List.mem_filter, decide_eq_true_eq] at hc
    simp [hc.2]
  simp [h]

theorem triple_cachePut (key : String) (v : ℚ) :
    Triple (fun _ : PState => True) (cachePut key (doubleToString v))
      (fun _ q => CachedNow key v q) (fun _ _ => True) := by
  intro p _
  refine ⟨fun a q hq => ?_, fun _ _ _ => trivial⟩
  rw [cachePut_run] at hq
  simp only [Prod.mk.injEq] at hq
  rw [← hq.2]
  exact cacheFind_cached key (doubleToString v) p

theorem triple_readExposureNode (name : String) :
    Triple (fun _ : PState => True) (readExposureNode name)
      (fun r q => ∀ v, r = some v → CachedNow "ExposureTime" v q) (fun _ _ => True) := by
  unfold readExposureNode
  apply triple_tryCatchIf (F := fun _ _ => True)
  · apply triple_bind (I := fun _ _ => True) (triple_trivial _ _)
    intro pExposure
    apply triple_ite
    · apply triple_bind (I := fun _ _ => True) (triple_trivial _ _)
      intro value
      apply triple_bind (I := fun _ _ => True) (triple_trivial _ _)
      intro value2
      apply triple_bind (I := fun _ q => CachedNow "ExposureTime" value2 q)
      · exact triple_weaken (triple_cachePut _ _) (fun _ _ => trivial) (fun _ _ h => h)
          (fun _ _ _ => trivial)
      · intro _
        refine triple_pure _ ?_
        intro q hq v hv
        cases hv
        exact hq
    · refine triple_pure _ ?_
      intro q _ v hv
      cases hv
  · intro e _
    refine triple_pure _ ?_
    intro q _ v hv
    cases hv
  · intro _ _ _ _
    trivial

theorem triple_readExposure (names : List String) :
    Triple (fun _ : PState => True) (readExposure names)
      (fun r q => ∀ v, r = some v → CachedNow "ExposureTime" v q) (fun _ _ => True) := by
  induction names with
  | nil =>
    refine triple_pure _ ?_
    intro q _ v hv
    cases hv
  | cons name rest ih =>
    unfold readExposure
    apply triple_bind (triple_readExposureNode name)
    intro r
    cases r with
    | none =>
      exact triple_weaken ih (fun _ _ => trivial) (fun _ _ h => h) (fun _ _ h => h)
    | some v =>
      refine triple_pure _ ?_
      intro q hq
      exact hq

theorem triple_readGainNode (gainName : String) :
    Triple (fun _ : PState => True) (readGainNode gainName)
      (fun r q => ∀ v, r = some v → CachedNow "Gain" v q) (fun _ _ => True) := by
  have hput : ∀ value : ℚ, Triple (fun _ : PState => True)
      (do
        cachePut "Gain" (doubleToString value)
        pure (some value))
      (fun r q => ∀ v, r = some v → CachedNow "Gain" v q) (fun _ _ => True) := by
    intro value
    apply triple_bind (I := fun _ q => CachedNow "Gain" value q)
    · exact triple_weaken (triple_cachePut _ _) (fun _ _ => trivial) (fun _ _ h => h)
        (fun _ _ _ => trivial)
    · intro _
      refine triple_pure _ ?_
      intro q hq v hv
      cases hv
      exact hq
  have hnone : Triple (fun _ : PState => True) (pure none : PM (Option ℚ))
      (fun r q => ∀ v, r = some v → CachedNow "Gain" v q) (fun _ _ => True) := by
    refine triple_pure _ ?_
    intro q _ v hv
    cases hv
  unfold readGainNode
  apply triple_tryCatchIf (F := fun _ _ => True)
  · unfold readGainFloat
    apply triple_bind (I := fun _ _ => True) (triple_trivial _ _)
    intro pGain
    apply triple_ite
    · apply triple_bind (I := fun _ _ => True) (triple_trivial _ _)
      intro value
      exact hput value
    · exact hnone
  · intro e _
    apply triple_tryCatchIf (F := fun _ _ => True)
    · unfold readGainInteger
      apply triple_bind (I := fun _ _ => True) (triple_trivial _ _)
      intro pGainInt
      apply triple_ite
      · apply triple_bind (I := fun _ _ => True) (triple_trivial _ _)
        intro raw
        apply triple_bind (I := fun _ _ => True) (triple_trivial _ _)
        intro value
        exact hput value
      · exact hnone
    · intro e2 _
      exact hnone
    · intro _ _ _ _
      trivial
  · intro _ _ _ _
    trivial

theorem triple_readGain (names : List String) :
    Triple (fun _ : PState => True) (readGain names)
      (fun r q => ∀ v, r = some v → CachedNow "Gain" v q) (fun _ _ => True) := by
  induction names with
  | nil =>
    refine triple_pure _ ?_
    intro q _ v hv
    cases hv
  | cons name rest ih =>
    unfold readGain
    apply triple_bind (triple_readGainNode name)
    intro r
    cases r with
    | none =>
      exact triple_weaken ih (fun _ _ => trivial) (fun _ _ h => h) (fun _ _ h => h)
    | some v =>
      refine triple_pure _ ?_
      intro q hq
      exact hq

theorem returnCached_run (str : String) (p : PState) :
    returnCached str p =
      match stod str with
      | some v => (.ok v, p)
      | none => (.error .stdExn, p) := by
  unfold returnCached
  cases stod str <;> rfl

theorem cachedValue_of_entry (key : String) (p : PState) (c : CacheEntry)
    (h : cacheFind key p.parameterCache = some c) :
    cachedValue key p = if p.now - c.stamp < CACHE_TIMEOUT then some c.value else none := by
  unfold cachedValue
  rw [h]

/-- A read that finds a fresh entry returns the cached text parsed by
`std::stod` and touches nothing. -/
theorem getExposureTime_hit (p : PState) (str : String)
    (h : cachedValue "ExposureTime" p = some str) :
    getExposureTime p = returnCached str p := by
  unfold getExposureTime
  simp only [tryCatchIf_run, bind_run, getS_run, h, returnCached_run]
  cases stod str <;> simp [Exn.isGeneric]

/-- A read that finds no fresh entry goes to the device. -/
theorem getExposureTime_miss (p : PState) (h : cachedValue "ExposureTime" p = none) :
    getExposureTime p =
      tryCatchIf Exn.isGeneric fetchExposureTime
        (fun _ => raise (.genicam .GenApiError 0)) p := by
  unfold getExposureTime
  simp only [tryCatchIf_run, bind_run, getS_run, h]

theorem getGain_hit (entryName : EnumEntry → String) (p : PState) (str : String)
    (h : cachedValue "Gain" p = some str) :
    getGain entryName p = returnCached str p := by
  unfold getGain
  simp only [tryCatchIf_run, bind_run, getS_run, h, returnCached_run]
  cases stod str <;> simp [Exn.isGeneric]

theorem getGain_miss (entryName : EnumEntry → String) (p : PState)
    (h : cachedValue "Gain" p = none) :
    getGain entryName p =
      tryCatchIf Exn.isGeneric (fetchGain entryName)
        (fun _ => raise (.genicam .GenApiError 0)) p := by
  unfold getGain
  simp only [tryCatchIf_run, bind_run, getS_run, h]

/-- A fetching `getExposureTime` that returns `v` leaves `std::to_string(v)`
in the cache, stamped with the time of the read. -/
theorem getExposureTime_caches (p p1 : PState) (v : ℚ)
    (hmiss : cachedValue "ExposureTime" p = none)
    (hread : getExposureTime p = (.ok v, p1)) : CachedNow "ExposureTime" v p1 := by
  rw [getExposureTime_miss p hmiss] at hread
  unfold fetchExposureTime at hread
  simp only [tryCatchIf_run, bind_run] at hread
  have ht := (triple_readExposure exposureNames p trivial).1
  cases hrun : readExposure exposureNames p with
  | mk r q =>
    rw [hrun] at hread
    cases r with
    | error e =>
      simp only at hread
      split at hread <;> simp at hread
    | ok a =>
      cases a with
      | none =>
        simp only [raise_run] at hread
        split at hread <;> simp at hread
      | some w =>
        simp only [pure_run, Prod.mk.injEq, Except.ok.injEq] at hread
        obtain ⟨rfl, rfl⟩ := hread
        exact ht _ _ hrun w rfl

/-- A fetching `getGain` that returns `v` leaves `std::to_string(v)` in the
cache, stamped with the time of the read. -/
theorem getGain_caches (entryName : EnumEntry → String) (p p1 : PState) (v : ℚ)
    (hmiss : cachedValue "Gain" p = none)
    (hread : getGain entryName p = (.ok v, p1)) : CachedNow "Gain" v p1 := by
  rw [getGain_miss entryName p hmiss] at hread
  unfold fetchGain at hread
  simp only [tryCatchIf_run, bind_run] at hread
  cases hsel : setupGainSelector entryName p with
  | mk r0 q0 =>
    rw [hsel] at hread
    cases r0 with
    | error e =>
      simp only at hread
      split at hread <;> simp at hread
    | ok b =>
      simp only at hread
      have ht := (triple_readGain gainNames q0 trivial).1
      cases hrun : readGain gainNames q0 with
      | mk r q =>
        rw [hrun] at hread
        cases r with
        | error e =>
          simp only at hread
          split at hread <;> simp at hread
        | ok a =>
          cases a with
          | none =>
            simp only [raise_run] at hread
            split at hread <;> simp at hread
          | some w =>
            simp only [pure_run, Prod.mk.injEq, Except.ok.injEq] at hread
            obtain ⟨rfl, rfl⟩ := hread
            exact ht _ _ hrun w rfl

/-! ## The gain reader on a loaded feature tree -/

theorem intGetValue_run (n : Node) (p : PState) :
    intGetValue n p =
      match n.intReading with
      | some v => (.ok v, p)
      | none => (.error .generic, p) := by
  unfold intGetValue Node.intReading
  by_cases h : (n.isReadable && !n.ioFails) = true <;> simp [h]

theorem reading_of_not_readable (n : Node) (h : ¬ n.isReadable = true) : n.reading = none := by
  unfold Node.reading
  simp [h]

theorem intReading_of_not_readable (n : Node) (h : ¬ n.isReadable = true) :
    n.intReading = none := by
  unfold Node.intReading
  simp [h]

theorem applyGainFactor_loaded {ns : List Node} {p : PState} (h : Loaded ns p)
    (gainName : String) (raw : ℚ) :
    applyGainFactor gainName raw p =
      (.ok (if gainName = "GainRaw" then raw * gainFactor ns else raw), p) := by
  unfold applyGainFactor gainFactor
  by_cases hn : gainName = "GainRaw"
  · simp only [hn, if_true, tryCatchIf_run, bind_run, getFloatNode, getTypedNode_loaded h]
    cases ht : typedNode .intfIFloat ns "GainRaw" with
    | _ =>
      cases hf : typedNode .intfIFloat ns "GainFactor" with
      | none => simp [Exn.isCatchable]
      | some f =>
        simp only [Option.bind]
        by_cases hr : f.isReadable = true
        · simp only [hr, if_true, bind_run, floatGetValue_run]
          cases hv : f.reading with
          | none => simp [Exn.isCatchable]
          | some v => simp
        · simp [hr, reading_of_not_readable f hr]
  · simp [hn]

theorem readGainInteger_loaded {ns : List Node} {p : PState} (h : Loaded ns p)
    (gainName : String) :
    tryCatchIf Exn.isCatchable (readGainInteger gainName) (fun _ => pure none) p =
      match gainOfInteger ns gainName with
      | some v => (.ok (some v), p.cached "Gain" (doubleToString v))
      | none => (.ok none, p) := by
  unfold readGainInteger gainOfInteger
  simp only [tryCatchIf_run, bind_run, getIntegerNode, getTypedNode_loaded h]
  cases ht : typedNode .intfIInteger ns gainName with
  | none => simp [Exn.isCatchable]
  | some n =>
    simp only [Option.bind]
    by_cases hr : n.isReadable = true
    · simp only [hr, if_true, bind_run, intGetValue_run]
      cases hv : n.intReading with
      | none => simp [Exn.isCatchable]
      | some raw => simp [applyGainFactor_loaded h, cachePut_run]
    · simp [hr, intReading_of_not_readable n hr]

theorem readGainNode_loaded {ns : List Node} {p : PState} (h : Loaded ns p)
    (gainName : String) :
    readGainNode gainName p =
      match gainOf ns gainName with
      | some v => (.ok (some v), p.cached "Gain" (doubleToString v))
      | none => (.ok none, p) := by
  unfold readGainNode gainOf
  rw [tryCatchIf_run]
  unfold readGainFloat
  simp only [bind_run, getFloatNode, getTypedNode_loaded h]
  cases ht : typedNode .intfIFloat ns gainName with
  | none =>
    simp only [Exn.isCatchable, if_true]
    exact readGainInteger_loaded h gainName
  | some n =>
    by_cases hr : n.isReadable = true
    · simp only [hr, if_true, bind_run, floatGetValue_run]
      cases hv : n.reading with
      | none =>
        simp only [Exn.isCatchable, if_true]
        exact readGainInteger_loaded h gainName
      | some v => simp [cachePut_run]
    · simp [hr]

theorem readGain_loaded {ns : List Node} {p : PState} (h : Loaded ns p)
    (names : List String) :
    readGain names p =
      match gainReading ns names with
      | some v => (.ok (some v), p.cached "Gain" (doubleToString v))
      | none => (.ok none, p) := by
  induction names with
  | nil => rfl
  | cons name rest ih =>
    unfold readGain gainReading
    simp only [bind_run, readGainNode_loaded h]
    cases hv : gainOf ns name with
    | none => simpa using ih
    | some v => simp

theorem setupGainSelector_absent {ns : List Node} {p : PState} (h : Loaded ns p)
    (entryName : EnumEntry → String)
    (hsel : typedNode .intfIEnumeration ns "GainSelector" = none) :
    setupGainSelector entryName p = (.ok false, p) := by
  unfold setupGainSelector
  simp [tryCatchIf_run, bind_run, getEnumerationNode, getTypedNode_loaded h, hsel,
    Exn.isCatchable]

/-- On a loaded feature tree without a `GainSelector`, with no fresh cache
entry, `getGain` is `gainReading`. -/
theorem getGain_loaded {ns : List Node} {p : PState} (h : Loaded ns p)
    (entryName : EnumEntry → String)
    (hsel : typedNode .intfIEnumeration ns "GainSelector" = none)
    (hmiss : cachedValue "Gain" p = none) :
    getGain entryName p =
      match gainReading ns gainNames with
      | some v => (.ok v, p.cached "Gain" (doubleToString v))
      | none => (.error (.genicam .ParameterError 0), p) := by
  rw [getGain_miss entryName p hmiss]
  unfold fetchGain
  simp only [tryCatchIf_run, bind_run, setupGainSelector_absent h entryName hsel,
    readGain_loaded h]
  cases hv : gainReading ns gainNames with
  | none => simp [Exn.isGeneric]
  | some v => simp

/-! ## C14 and C15: cached reads and the order of the exposure names -/

theorem cachedValue_after_read (key : String) (v : ℚ) (p1 p2 : PState)
    (h : CachedNow key v p1) (hc : p2.parameterCache = p1.parameterCache) :
    cachedValue key p2 =
      if p2.now - p1.now < 100 then some (doubleToString v) else none := by
  unfold CachedNow at h
  rw [← hc] at h
  rw [cachedValue_of_entry key p2 _ h]
  rfl

/-- C14, the claim as written fails.  On a device whose `ExposureTime` and
`Gain` hold `1025/1024 = 1.0009765625`, the first read returns that value; a
second read 50 ms later, the device unchanged, returns `1.000977`, the value
the cache kept as the text `1.000977`; so does a read 50 ms later with the
device changed to 2. -/
theorem cached_read_differs_from_first_read :
    (getExposureTime (loadedPState fineNodes)).1 = .ok (1025 / 1024) ∧
    (getExposureTime ((getExposureTime (loadedPState fineNodes)).2.later 50)).1 =
      .ok (1000977 / 1000000) ∧
    (getExposureTime (changedAfter 50 (getExposureTime (loadedPState fineNodes)).2)).1 =
      .ok (1000977 / 1000000) ∧
    (getGain EnumEntry.symbolic (loadedPState fineNodes)).1 = .ok (1025 / 1024) ∧
    (getGain EnumEntry.symbolic
      ((getGain EnumEntry.symbolic (loadedPState fineNodes)).2.later 50)).1 =
      .ok (1000977 / 1000000) :=
  ⟨by decide!, by decide!, by decide!, by decide!, by decide!⟩

/-- C14, as the code has it.  Let a read of `getExposureTime()` (of
`getGain()`) find no fresh cache entry, fetch the value `v` (`w`) from the
device and end in state `p1` (`g1`), and let `p2` (`g2`) be any later state
with the same cache, whatever the device holds by then.  A read in `p2` made
less than 100 ms after the first returns what `std::stod` reads from the text
`std::to_string(v)`, the earlier value to six decimals, and changes nothing.
A read made 100 ms or more after it goes to the device: on a loaded feature
tree it returns the current reading of the device (`exposureReading`,
`gainReading`). -/
theorem cached_read_within_timeout (entryName : EnumEntry → String)
    (p p1 p2 g g1 g2 : PState) (v w : ℚ)
    (hmiss : cachedValue "ExposureTime" p = none)
    (hread : getExposureTime p = (.ok v, p1))
    (hcache : p2.parameterCache = p1.parameterCache)
    (gmiss : cachedValue "Gain" g = none)
    (gread : getGain entryName g = (.ok w, g1))
    (gcache : g2.parameterCache = g1.parameterCache) :
    (p2.now - p1.now < 100 →
      getExposureTime p2 = returnCached (doubleToString v) p2) ∧
    (100 ≤ p2.now - p1.now →
      getExposureTime p2 =
        tryCatchIf Exn.isGeneric fetchExposureTime
          (fun _ => raise (.genicam .GenApiError 0)) p2 ∧
      ∀ ns, Loaded ns p2 →
        getExposureTime p2 =
          match exposureReading ns exposureNames with
          | some x => (.ok x, p2.cached "ExposureTime" (doubleToString x))
          | none => (.error (.genicam .ParameterError 0), p2)) ∧
    (g2.now - g1.now < 100 →
      getGain entryName g2 = returnCached (doubleToString w) g2) ∧
    (100 ≤ g2.now - g1.now →
      getGain entryName g2 =
        tryCatchIf Exn.isGeneric (fetchGain entryName)
          (fun _ => raise (.genicam .GenApiError 0)) g2 ∧
      ∀ ns, Loaded ns g2 → typedNode .intfIEnumeration ns "GainSelector" = none →
        getGain entryName g2 =
          match gainReading ns gainNames with
          | some x => (.ok x, g2.cached "Gain" (doubleToString x))
          | none => (.error (.genicam .ParameterError 0), g2)) := by
  have hp := cachedValue_after_read "ExposureTime" v p1 p2
    (getExposureTime_caches p p1 v hmiss hread) hcache
  have hg := cachedValue_after_read "Gain" w g1 g2
    (getGain_caches entryName g g1 w gmiss gread) gcache
  refine ⟨fun hlt => ?_, fun hge => ?_, fun hlt => ?_, fun hge => ?_⟩
  · rw [if_pos hlt] at hp
    exact getExposureTime_hit p2 _ hp
  · rw [if_neg (by omega)] at hp
    exact ⟨getExposureTime_miss p2 hp, fun ns hl => getExposureTime_loaded hl hp⟩
  · rw [if_pos hlt] at hg
    exact getGain_hit entryName g2 _ hg
  · rw [if_neg (by omega)] at hg
    exact ⟨getGain_miss entryName g2 hg, fun ns hl hs => getGain_loaded hl entryName hs hg⟩

theorem cached_read_within_timeout_witness :
    getExposureTime (changedAfter 50 fineRead) =
      returnCached (doubleToString (1025 / 1024)) (changedAfter 50 fineRead) ∧
    getExposureTime (changedAfter 100 fineRead) =
      (match exposureReading changedNodes exposureNames with
        | some x => (.ok x, (changedAfter 100 fineRead).cached "ExposureTime" (doubleToString x))
        | none => (.error (.genicam .ParameterError 0), changedAfter 100 fineRead)) ∧
    exposureReading changedNodes exposureNames = some 2 ∧
    getGain EnumEntry.symbolic (changedAfter 50 fineGainRead) =
      returnCached (doubleToString (1025 / 1024)) (changedAfter 50 fineGainRead) ∧
    getGain EnumEntry.symbolic (changedAfter 100 fineGainRead) =
      (match gainReading changedNodes gainNames with
        | some x => (.ok x, (changedAfter 100 fineGainRead).cached "Gain" (doubleToString x))
        | none => (.error (.genicam .ParameterError 0), changedAfter 100 fineGainRead)) ∧
    gainReading changedNodes gainNames = some 2 ∧
    returnCached (doubleToString (1025 / 1024)) (changedAfter 50 fineRead) =
      (.ok (1000977 / 1000000), changedAfter 50 fineRead) :=
  have h50 := cached_read_within_timeout EnumEntry.symbolic
    (loadedPState fineNodes) fineRead (changedAfter 50 fineRead)
    (loadedPState fineNodes) fineGainRead (changedAfter 50 fineGainRead)
    (1025 / 1024) (1025 / 1024)
    (by decide!) (by decide!) rfl (by decide!) (by decide!) rfl
  have h100 := cached_read_within_timeout EnumEntry.symbolic
    (loadedPState fineNodes) fineRead (changedAfter 100 fineRead)
    (loadedPState fineNodes) fineGainRead (changedAfter 100 fineGainRead)
    (1025 / 1024) (1025 / 1024)
    (by decide!) (by decide!) rfl (by decide!) (by decide!) rfl
  ⟨h50.1 (by decide!),
   (h100.2.1 (by decide!)).2 changedNodes ⟨rfl, by decide!, by decide!⟩,
   by decide!,
   h50.2.2.1 (by decide!),
   (h100.2.2.2 (by decide!)).2 changedNodes ⟨rfl, by decide!, by decide!⟩ (by decide!),
   by decide!,
   by decide!⟩

/-- C15, the claim as written fails: on a device without `ExposureTime` and
`ExposureTimeAbs` whose float node `ExposureTimeRaw` holds 100 and whose
`ExposureTimeBaseAbs` holds 2, `getExposureTime()` returns 200, not the value
of the node. -/
theorem getExposureTime_scales_raw_value :
    (typedNode .intfIFloat rawExposureNodes "ExposureTimeRaw").bind Node.reading = some 100 ∧
    (loadedPState rawExposureNodes).parameterCache = [] ∧
    (getExposureTime (loadedPState rawExposureNodes)).1 = .ok 200 :=
  ⟨by decide!, rfl, by decide!⟩

/-- C15, as the code has it: on a loaded feature tree with an empty cache,
`getExposureTime()` returns (and caches) the reading of the first name of the
ordered list `ExposureTime`, `ExposureTimeAbs`, `ExposureTimeRaw` that
resolves to a float node that is readable and whose read succeeds, multiplied
for `ExposureTimeRaw` by the reading of `ExposureTimeBaseAbs` when there is
one; names that are missing, of another type, unreadable or failing are
skipped silently, and when none is left the call fails with `ParameterError`.
In particular, without a float node `ExposureTime` and with a readable
`ExposureTimeAbs` it returns the `ExposureTimeAbs` value. -/
theorem getExposureTime_first_readable_name (ns : List Node) (p : PState)
    (h : Loaded ns p) (hempty : p.parameterCache = []) :
    getExposureTime p =
      (match exposureReading ns exposureNames with
        | some v => (.ok v, p.cached "ExposureTime" (doubleToString v))
        | none => (.error (.genicam .ParameterError 0), p)) ∧
    (∀ n v, typedNode .intfIFloat ns "ExposureTime" = none →
      typedNode .intfIFloat ns "ExposureTimeAbs" = some n → n.reading = some v →
      getExposureTime p = (.ok v, p.cached "ExposureTime" (doubleToString v))) := by
  have hmiss : cachedValue "ExposureTime" p = none := by
    simp [cachedValue, cacheFind, hempty]
  have hrun := getExposureTime_loaded h hmiss
  refine ⟨hrun, fun n v h1 h2 h3 => ?_⟩
  rw [hrun]
  have hr : exposureReading ns exposureNames = some v := by
    simp [exposureNames, exposureReading, exposureOf, h1, h2, h3]
  rw [hr]

theorem getExposureTime_first_readable_name_witness :
    Loaded absExposureNodes (loadedPState absExposureNodes) ∧
    getExposureTime (loadedPState absExposureNodes) =
      (.ok 250, (loadedPState absExposureNodes).cached "ExposureTime" (doubleToString 250)) :=
  have hl : Loaded absExposureNodes (loadedPState absExposureNodes) :=
    ⟨rfl, rfl, by decide!⟩
  ⟨hl, (getExposureTime_first_readable_name absExposureNodes (loadedPState absExposureNodes)
    hl rfl).2
    { name := "ExposureTimeAbs", intf := .intfIFloat, access := .RW, fval := 250,
      fmin := 10, fmax := 1000 }
    250 (by decide!) (by decide!) (by decide!)⟩

/-! ## C13: the two trigger-source mappings -/

/-- The table of `stringToTriggerSource` inverts the standard names of
`triggerSourceToString` for every source but five: `Counter2End`, `Timer2End`,
`UserOutput2` and `Encoder1` have no row in it, `UserOutput3` has no row in
either table. -/
theorem stringToTriggerSource_inverts_standard_name (s : TriggerSource) :
    stringToTriggerSource (defaultSourceName s) = s ↔
      s ∉ [TriggerSource.Counter2End, .Timer2End, .UserOutput2, .UserOutput3, .Encoder1] := by
  cases s <;> decide!

/-- C13, where the code loses the source.  On a device whose writable
`TriggerSource` offers the entries `Counter2End`, `Timer2End`, `UserOutput2`
and `Encoder1`, `setTriggerSource` of each of these sources succeeds and
selects the entry of that name, and `getTriggerSource()` then returns
`Software`: the inverse table has no row for these names.  `Line0` comes back
as `Line0`.  The outcome is the same whether `entry->GetName()` gives the
symbolic name of an entry or the name of its node. -/
theorem getTriggerSource_loses_source :
    sourceRoundTrip EnumEntry.symbolic .Line0 = (.ok (), .ok "Line0", .ok .Line0) ∧
    sourceRoundTrip EnumEntry.symbolic .Counter2End =
      (.ok (), .ok "Counter2End", .ok .Software) ∧
    sourceRoundTrip EnumEntry.symbolic .Timer2End =
      (.ok (), .ok "Timer2End", .ok .Software) ∧
    sourceRoundTrip EnumEntry.symbolic .UserOutput2 =
      (.ok (), .ok "UserOutput2", .ok .Software) ∧
    sourceRoundTrip EnumEntry.symbolic .Encoder1 =
      (.ok (), .ok "Encoder1", .ok .Software) ∧
    sourceRoundTrip prefixedEntryName .Counter2End =
      (.ok (), .ok "Counter2End", .ok .Software) ∧
    sourceRoundTrip prefixedEntryName .Encoder1 =
      (.ok (), .ok "Encoder1", .ok .Software) :=
  ⟨by decide!, by decide!, by decide!, by decide!, by decide!, by decide!, by decide!⟩

/-! ## C16: the payload size computed from the ROI -/

/-- C16, where the code takes the wrong depth.  With `bufferCount = 5`, a
stream that defines no payload size, no `PayloadSize` node and a 640 by 480
ROI, `startAcquisition` succeeds and sets the buffer size to 307200 for
`Mono8`, as claimed, and to the same 307200 for `RGBa8`, whose four bytes per
pixel (the table of `getPixelFormatInfo`) make 1228800: the `switch` of
`startAcquisition` knows one, two and three bytes and takes one byte for
every other format. -/
theorem payload_size_ignores_pixel_depth :
    (payloadAcquiring 0x01080001).state = .Acquiring ∧
    (getPixelFormat (payloadAcquiring 0x01080001).p).1 = .ok .Mono8 ∧
    (payloadAcquiring 0x01080001).bufferSize = 307200 ∧
    (payloadAcquiring 0x02200016).state = .Acquiring ∧
    (getPixelFormat (payloadAcquiring 0x02200016).p).1 = .ok .RGBa8 ∧
    (getROI (payloadAcquiring 0x02200016).p).1 = .ok { x := 0, y := 0, width := 640, height := 480 } ∧
    (payloadAcquiring 0x02200016).bufferSize = 307200 ∧
    bytesPerPixel .RGBa8 = 1 ∧
    infoBytesPerPixel .RGBa8 = 4 ∧
    (640 : ℚ) * 480 * infoBytesPerPixel .RGBa8 = 1228800 :=
  ⟨by decide!, by decide!, by decide!, by decide!, by decide!, by decide!, by decide!,
   by decide!, by decide!, by decide!⟩

/-! ## The handler of invalidation events, taken on its own -/

theorem refreshNodeMap_run (p : PState) : refreshNodeMap p = (.ok (), (refreshNodeMap p).2) := by
  obtain ⟨a, h⟩ := run_ok_of_never raises_refreshNodeMap p
  exact h

theorem liftS_refresh_run (pr : Process) :
    liftS (liftP refreshNodeMap) pr = (.ok (), pr.withP (refreshNodeMap pr.session.p).2) := by
  unfold liftS
  simp only [liftP_run]
  have h : (refreshNodeMap pr.session.p).1 = .ok () := by rw [refreshNodeMap_run]
  rw [h]
  rfl

/-- One event: the feature is evicted from the cache and the count goes up;
when it passes 10 it is reset and the feature tree is refreshed. -/
theorem handleFeatureInvalidation_run (featureName : String) (pr : Process)
    (hquiet : ∀ l, pr.session.eventListener = some l → l.onParameterChanged = none) :
    handleFeatureInvalidation featureName pr =
      if pr.invalidationCount + 1 > 10 then
        (.ok (), { (pr.withP (refreshNodeMap (pr.session.p.evict featureName)).2) with
          invalidationCount := 0 })
      else
        (.ok (), { (pr.withP (pr.session.p.evict featureName)) with
          invalidationCount := pr.invalidationCount + 1 }) := by
  unfold handleFeatureInvalidation
  simp only [bind_run, liftS, liftP_run, modS_run, getS_run]
  have hl : (match pr.session.eventListener with
      | some l =>
        match l.onParameterChanged with
        | some e => (raise e : M Process Unit)
        | none => pure ()
      | none => pure ()) = pure () := by
    cases hls : pr.session.eventListener with
    | none => rfl
    | some l => simp [hquiet l hls]
  rw [hl]
  simp only [pure_run]
  by_cases hc : pr.invalidationCount + 1 > 10
  · simp only [hc, if_true, bind_run, modS_run]
    have hr := liftS_refresh_run
      { (pr.withP (pr.session.p.evict featureName)) with invalidationCount := 0 }
    simp only [liftS, liftP_run] at hr
    exact hr
  · simp only [hc, if_false, pure_run]
    rfl

theorem stable_sameCache : Stable SameCache :=
  ⟨fun _ => rfl, fun _ _ _ h1 h2 => h2.trans h1⟩

theorem nmGetNode_state (name : String) (p : PState) : (nmGetNode name p).2 = p := by
  unfold nmGetNode
  split
  · rfl
  · split <;> rfl

theorem refreshNodeMap_clears_cache (q : PState) (hmap : q.pNodeMap.isSome = true)
    (hport : q.hasCameraPort = true) : (refreshNodeMap q).2.parameterCache = [] := by
  have hS := stable_sameCache
  have hget : ∀ name, Preserves SameCache (nmGetNode name) := by
    intro name p
    unfold SameCache
    rw [nmGetNode_state]
  have hmod : ∀ f : PState → PState, (∀ p, (f p).parameterCache = p.parameterCache) →
      Preserves SameCache (modS f) := fun _ h => h
  have ht : Triple (fun _ : PState => True)
      (tryCatchIf Exn.isGeneric
        (do
          modS fun q => { q with parameterCache := [] }
          let pRoot ← nmGetNode "Root"
          let pRoot ← (match pRoot with
            | some n => pure (some n)
            | none => nmGetNode "Device")
          match pRoot with
          | some n => invalidateNode n
          | none => pure ()
          modS fun q => { q with lastNodeMapRefresh := q.now, nodeMapValid := true })
        (fun _ => modS fun q => { q with nodeMapValid := false }))
      (fun _ t => t.parameterCache = []) (fun _ t => t.parameterCache = []) := by
    apply triple_tryCatchIf (F := fun _ t => t.parameterCache = [])
    · apply triple_bind (I := fun _ t => t.parameterCache = [])
      · exact triple_modS _ (fun _ _ => rfl)
      · intro _
        apply triple_of_preserves (R := SameCache)
        · repeat' with_reducible first
            | exact preserves_pure hS _
            | exact preserves_raise hS _
            | exact hget _
            | exact hmod _ (fun _ => rfl)
            | apply preserves_bind hS
            | apply preserves_ite
            | intro _
            | unfold invalidateNode
            | split
        · intro s t hs h
          exact h.trans hs
    · intro e _
      exact triple_modS _ (fun _ h => h)
    · intro e s _ h
      exact h
  unfold refreshNodeMap
  have hg : (q.pNodeMap.isNone || !q.hasCameraPort) = false := by
    cases hm : q.pNodeMap with
    | none => simp [hm] at hmap
    | some r => simp [hport]
  rw [if_neg (by simp [hg])]
  have h1 := ht q trivial
  cases hrun : tryCatchIf Exn.isGeneric
        (do
          modS fun q => { q with parameterCache := [] }
          let pRoot ← nmGetNode "Root"
          let pRoot ← (match pRoot with
            | some n => pure (some n)
            | none => nmGetNode "Device")
          match pRoot with
          | some n => invalidateNode n
          | none => pure ()
          modS fun q => { q with lastNodeMapRefresh := q.now, nodeMapValid := true })
        (fun _ => modS fun q => { q with nodeMapValid := false }) q with
  | mk r t =>
    cases r with
    | ok a => exact h1.1 a t hrun
    | error e => exact h1.2 e t hrun

theorem evictAll_keeps (names : List String) (q : PState) :
    (evictAll names q).pNodeMap = q.pNodeMap ∧ (evictAll names q).hasCameraPort = q.hasCameraPort := by
  induction names generalizing q with
  | nil => exact ⟨rfl, rfl⟩
  | cons name rest ih => exact ih (q.evict name)

theorem evictAll_append (names : List String) (last : String) (q : PState) :
    evictAll (names ++ [last]) q = (evictAll names q).evict last := by
  induction names generalizing q with
  | nil => rfl
  | cons name rest ih => exact ih (q.evict name)

theorem handleEvents_append (names : List String) (last : String) (pr : Process) :
    handleEvents (names ++ [last]) pr =
      match handleEvents names pr with
      | (.ok _, pr1) => handleFeatureInvalidation last pr1
      | (.error e, pr1) => (.error e, pr1) := by
  induction names generalizing pr with
  | nil =>
    simp only [List.nil_append, handleEvents, bind_run, pure_run]
    cases handleFeatureInvalidation last pr with
    | mk r pr1 => cases r <;> rfl
  | cons name rest ih =>
    simp only [List.cons_append, handleEvents, bind_run]
    cases handleFeatureInvalidation name pr with
    | mk r pr1 =>
      cases r with
      | ok a => exact ih pr1
      | error e => rfl

/-- Events that keep the count at 10 or below evict their features from the
cache and do nothing else. -/
theorem handleEvents_below_threshold (names : List String) (pr : Process)
    (hquiet : ∀ l, pr.session.eventListener = some l → l.onParameterChanged = none)
    (hle : pr.invalidationCount + names.length ≤ 10) :
    handleEvents names pr =
      (.ok (), { (pr.withP (evictAll names pr.session.p)) with
        invalidationCount := pr.invalidationCount + names.length }) := by
  induction names generalizing pr with
  | nil => rfl
  | cons name rest ih =>
    simp only [List.length_cons] at hle
    simp only [handleEvents, bind_run, handleFeatureInvalidation_run name pr hquiet]
    rw [if_neg (by omega)]
    have h1 := ih { (pr.withP (pr.session.p.evict name)) with
        invalidationCount := pr.invalidationCount + 1 } hquiet
      (by simp only; omega)
    simp only at h1 ⊢
    rw [h1]
    simp only [Process.withP, evictAll, List.length_cons, Prod.mk.injEq, true_and]
    congr 1
    omega

/-- The handler `handleFeatureInvalidation` called directly: its count of
events is one static counter of the process and no session resets it.  After
five calls made earlier, in the same streaming session or in the one before,
the sixth of eleven consecutive calls brings the count to 11 and triggers the
refresh, and the eleventh, 50 ms later, triggers none: the last refresh is the
one of the sixth call and the count stands at 5. -/
theorem eleventh_event_without_refresh :
    afterFiveEvents.invalidationCount = 5 ∧
    nextSession.session.state = .Acquiring ∧ nextSession.invalidationCount = 5 ∧
    (handleEventsEvery 10 (elevenFeatures.take 6) afterFiveEvents).2.session.p.now = 1110 ∧
    (handleEventsEvery 10 (elevenFeatures.take 6) afterFiveEvents).2.session.p.lastNodeMapRefresh
      = 1110 ∧
    (handleEventsEvery 10 elevenFeatures afterFiveEvents).2.session.p.now = 1160 ∧
    (handleEventsEvery 10 elevenFeatures afterFiveEvents).2.session.p.lastNodeMapRefresh = 1110 ∧
    (handleEventsEvery 10 elevenFeatures afterFiveEvents).2.invalidationCount = 5 ∧
    (handleEventsEvery 10 elevenFeatures nextSession).2.session.p.now = 1160 ∧
    (handleEventsEvery 10 elevenFeatures nextSession).2.session.p.lastNodeMapRefresh = 1110 ∧
    (handleEventsEvery 10 elevenFeatures nextSession).2.invalidationCount = 5 :=
  ⟨by decide!, by decide!, by decide!, by decide!, by decide!, by decide!, by decide!,
   by decide!, by decide!, by decide!, by decide!⟩

/-- The handler `handleFeatureInvalidation` called directly: when the
invalidation count of the process is zero, the feature tree and its port exist
(as they do during streaming) and the listener's `OnParameterChanged` does not
throw, then of eleven consecutive calls the first ten do nothing but evict
their features from the cache and count, and the eleventh resets the count and
runs `refreshNodeMap` exactly once, after which the cache is empty. -/
theorem eleventh_invalidation_refreshes (pr : Process) (names : List String) (last : String)
    (hcount : pr.invalidationCount = 0) (hlen : names.length = 10)
    (hquiet : ∀ l, pr.session.eventListener = some l → l.onParameterChanged = none)
    (hmap : pr.session.p.pNodeMap.isSome = true) (hport : pr.session.p.hasCameraPort = true) :
    (∀ k, k ≤ 10 →
      handleEvents (names.take k) pr =
        (.ok (), { (pr.withP (evictAll (names.take k) pr.session.p)) with
          invalidationCount := k })) ∧
    handleEvents (names ++ [last]) pr =
      (.ok (), { (pr.withP (refreshNodeMap (evictAll (names ++ [last]) pr.session.p)).2) with
        invalidationCount := 0 }) ∧
    (handleEvents (names ++ [last]) pr).2.session.p.parameterCache = [] := by
  have hfirst : ∀ k, k ≤ 10 →
      handleEvents (names.take k) pr =
        (.ok (), { (pr.withP (evictAll (names.take k) pr.session.p)) with
          invalidationCount := k }) := by
    intro k hk
    have hl : (names.take k).length = k := by
      rw [List.length_take]
      omega
    have h := handleEvents_below_threshold (names.take k) pr hquiet (by omega)
    rw [h, hl, hcount]
    simp
  have hten := hfirst 10 (le_refl _)
  rw [List.take_of_length_le (by omega)] at hten
  have hlast : handleEvents (names ++ [last]) pr =
      (.ok (), { (pr.withP (refreshNodeMap (evictAll (names ++ [last]) pr.session.p)).2) with
        invalidationCount := 0 }) := by
    rw [handleEvents_append, hten]
    simp only
    have h := handleFeatureInvalidation_run last
      { (pr.withP (evictAll names pr.session.p)) with invalidationCount := 10 } hquiet
    rw [if_pos (by simp)] at h
    rw [h, evictAll_append]
    rfl
  refine ⟨hfirst, hlast, ?_⟩
  rw [hlast]
  have hk := evictAll_keeps (names ++ [last]) pr.session.p
  exact refreshNodeMap_clears_cache _ (by rw [hk.1]; exact hmap) (by rw [hk.2]; exact hport)

theorem eleventh_invalidation_refreshes_witness :
    streamingProcess.invalidationCount = 0 ∧
    handleEvents (elevenFeatures.take 10 ++ ["LineStatus"]) streamingProcess =
      (.ok (), { (streamingProcess.withP
        (refreshNodeMap (evictAll (elevenFeatures.take 10 ++ ["LineStatus"])
          streamingProcess.session.p)).2) with invalidationCount := 0 }) ∧
    (handleEvents (elevenFeatures.take 10 ++ ["LineStatus"])
      streamingProcess).2.session.p.parameterCache = [] :=
  ⟨by decide!, (eleventh_invalidation_refreshes streamingProcess (elevenFeatures.take 10)
    "LineStatus" (by decide!) (by decide!)
    (fun l h => by
      rw [show streamingProcess.session.eventListener = none by decide!] at h
      cases h)
    (by decide!) (by decide!)).2⟩

/-! ### Availability probes -/

theorem nmGetNode_absent (name : String) (p : PState) (h : p.pNodeMap = none) :
    nmGetNode name p = (.error .nullDeref, p) := by
  unfold nmGetNode
  rw [h]

/-- Without a feature tree the probes built on an unguarded look-up end in
the null dereference. -/
theorem isFeatureImplemented_absent (name : String) (p : PState) (h : p.pNodeMap = none) :
    isFeatureImplemented name p = (.error .nullDeref, p) := by
  unfold isFeatureImplemented tryCatchIf
  simp only [bind_run, nmGetNode_absent name p h]
  rfl

theorem isFrameRateAvailable_absent (p : PState) (h : p.pNodeMap = none) :
    isFrameRateAvailable p = (.error .nullDeref, p) := by
  unfold isFrameRateAvailable frameRateNames anyFrameRateName tryCatchIf
  simp only [bind_run, nmGetNode_absent _ p h]
  rfl

theorem isGainAvailable_absent (entryAvailable : EnumEntry → Bool) (p : PState)
    (h : p.pNodeMap = none) :
    isGainAvailable entryAvailable p = (.error .nullDeref, p) := by
  unfold isGainAvailable tryCatchIf
  simp only [bind_run, nmGetNode_absent _ p h]
  rfl

/-- Without a feature tree the guarded probes answer `false`. -/
theorem probeParameter_absent (test : Node → Bool) (name : String) (p : PState)
    (h : p.pNodeMap = none) : probeParameter test name p = (.ok false, p) := by
  unfold probeParameter
  rw [h]
  rfl

/-- With a feature tree the unguarded look-up probe returns a boolean and
leaves the state alone. -/
theorem isFeatureImplemented_present (name : String) (p : PState) (r : NodeMapRef)
    (h : p.pNodeMap = some r) : ∃ b, isFeatureImplemented name p = (.ok b, p) := by
  unfold isFeatureImplemented tryCatchIf nmGetNode
  simp only [bind_run, h]
  cases hn : r.nodes with
  | none => exact ⟨false, rfl⟩
  | some ns =>
    cases hf : findNode name ns with
    | none => exact ⟨false, by simp only [hf]; rfl⟩
    | some n => exact ⟨n.isImplemented, by simp only [hf]; rfl⟩

/-- C18, failing input: in state Disconnected, both before any connection and
after `connect` and `disconnect`, no feature tree exists, and each of
`isTriggerModeAvailable`, `isAcquisitionModeAvailable`,
`isExposureAutoAvailable`, `isFrameRateAvailable` and `isGainAvailable`
dereferences it: the call ends in a null dereference, which no handler
catches, instead of returning `false`.  The probes `isParameterAvailable`,
`isParameterReadable`, `isParameterWritable` and `isExposureTimeAvailable`,
which test the tree first, return `false` there. -/
theorem probes_dereference_absent_tree :
    initialSt.state = .Disconnected ∧ initialSt.p.pNodeMap = none ∧
    demoDisconnected.state = .Disconnected ∧ demoDisconnected.p.pNodeMap = none ∧
    (isTriggerModeAvailable initialSt.p).1 = .error .nullDeref ∧
    (isAcquisitionModeAvailable initialSt.p).1 = .error .nullDeref ∧
    (isExposureAutoAvailable initialSt.p).1 = .error .nullDeref ∧
    (isFrameRateAvailable initialSt.p).1 = .error .nullDeref ∧
    (isGainAvailable (fun _ => true) initialSt.p).1 = .error .nullDeref ∧
    (isTriggerModeAvailable demoDisconnected.p).1 = .error .nullDeref ∧
    (isAcquisitionModeAvailable demoDisconnected.p).1 = .error .nullDeref ∧
    (isExposureAutoAvailable demoDisconnected.p).1 = .error .nullDeref ∧
    (isFrameRateAvailable demoDisconnected.p).1 = .error .nullDeref ∧
    (isGainAvailable (fun _ => true) demoDisconnected.p).1 = .error .nullDeref ∧
    (isParameterAvailable "TriggerMode" demoDisconnected.p).1 = .ok false ∧
    (isParameterReadable "TriggerMode" demoDisconnected.p).1 = .ok false ∧
    (isParameterWritable "TriggerMode" demoDisconnected.p).1 = .ok false ∧
    (isExposureTimeAvailable demoDisconnected).1 = .ok false :=
  ⟨by decide!, by decide!, by decide!, by decide!, by decide!, by decide!, by decide!,
   by decide!, by decide!, by decide!, by decide!, by decide!, by decide!, by decide!,
   by decide!, by decide!, by decide!, by decide!⟩

/-! ### Register URLs -/

theorem findChar_zero_append (c : Char) (pre rest : List Char) (h : c ∉ pre) :
    findChar c 0 (pre ++ c :: rest) = some pre.length := by
  induction pre with
  | nil => simp [findChar]
  | cons d ds ih =>
    have hd : d ≠ c := fun e => h (by simp [e])
    have hds : c ∉ ds := fun e => h (by simp [e])
    simp [findChar, hd, ih hds]

theorem findChar_zero_none (c : Char) (l : List Char) (h : c ∉ l) : findChar c 0 l = none := by
  induction l with
  | nil => rfl
  | cons d ds ih =>
    have hd : d ≠ c := fun e => h (by simp [e])
    have hds : c ∉ ds := fun e => h (by simp [e])
    simp [findChar, hd, ih hds]

theorem findChar_skip (c : Char) (pre rest : List Char) :
    findChar c pre.length (pre ++ rest) = (findChar c 0 rest).map (· + pre.length) := by
  induction pre with
  | nil => simp
  | cons d ds ih =>
    show (findChar c ds.length (ds ++ rest)).map (· + 1) = _
    rw [ih, Option.map_map]
    cases findChar c 0 rest with
    | none => rfl
    | some k => simp only [Option.map_some', Function.comp, List.length_cons, Nat.add_assoc]

theorem digitVal_semicolon : digitVal 16 ';' = none := by decide
theorem digitVal_question : digitVal 16 '?' = none := by decide
theorem digitVal_minus : digitVal 16 '-' = none := by decide
theorem digitVal_plus : digitVal 16 '+' = none := by decide
theorem digitVal_x : digitVal 16 'x' = none := by decide
theorem digitVal_X : digitVal 16 'X' = none := by decide

theorem digitVal_of_space (c : Char) (h : isSpaceChar c = true) : digitVal 16 c = none := by
  unfold isSpaceChar at h
  simp only [Bool.or_eq_true, decide_eq_true_eq] at h
  rcases h with ((((h | h) | h) | h) | h) | h
  · subst h; decide
  · subst h; decide
  · subst h; decide
  · subst h; decide
  · have hc : c = Char.ofNat 11 := by rw [← h, Char.ofNat_toNat]
    subst hc; decide
  · have hc : c = Char.ofNat 12 := by rw [← h, Char.ofNat_toNat]
    subst hc; decide

theorem readDigits_hex (str : List Char) (acc n : Nat)
    (h : str.all (fun c => (digitVal 16 c).isSome) = true) :
    readDigits 16 str acc n =
      (str.foldl (fun acc c => acc * 16 + (digitVal 16 c).getD 0) acc, n + str.length) := by
  induction str generalizing acc n with
  | nil => rfl
  | cons c cs ih =>
    simp only [List.all_cons, Bool.and_eq_true] at h
    obtain ⟨d, hd⟩ := Option.isSome_iff_exists.mp h.1
    simp only [readDigits, hd, List.foldl_cons, Option.getD_some, List.length_cons]
    rw [ih _ _ h.2]
    congr 1
    omega

theorem stoull16_hex (str : List Char) (h : isHexNumeral str = true) (hv : hexValue str < 2 ^ 64) :
    stoull16 str = some (hexValue str) := by
  unfold isHexNumeral at h
  simp only [Bool.and_eq_true, Bool.not_eq_true', List.isEmpty_eq_false] at h
  obtain ⟨hne, hall⟩ := h
  cases str with
  | nil => simp at hne
  | cons c cs =>
    have hc : (digitVal 16 c).isSome = true := by
      simp only [List.all_cons, Bool.and_eq_true] at hall
      exact hall.1
    have hsp : isSpaceChar c = false := by
      cases hs : isSpaceChar c with
      | false => rfl
      | true => rw [digitVal_of_space c hs] at hc; cases hc
    have hskip : skipSpaces (c :: cs) = c :: cs := by simp [skipSpaces, hsp]
    have hm : c ≠ '-' := fun e => by rw [e, digitVal_minus] at hc; cases hc
    have hp : c ≠ '+' := fun e => by rw [e, digitVal_plus] at hc; cases hc
    have hsign : readSign (c :: cs) = (false, c :: cs) := by
      unfold readSign
      split
      · rename_i heq; simp at heq; exact absurd heq.1 hm
      · rename_i heq; simp at heq; exact absurd heq.1 hp
      · rfl
    have hbody : (match c :: cs with
        | '0' :: x :: d :: ds =>
          if (x = 'x' || x = 'X') && (digitVal 16 d).isSome then d :: ds else c :: cs
        | _ => c :: cs) = c :: cs := by
      split
      · rename_i x d ds heq
        simp only [List.cons.injEq] at heq
        have hx : (digitVal 16 x).isSome = true := by
          rw [heq.2] at hall
          simp only [List.all_cons, Bool.and_eq_true] at hall
          exact hall.2.1
        have hx1 : x ≠ 'x' := fun e => by rw [e, digitVal_x] at hx; cases hx
        have hx2 : x ≠ 'X' := fun e => by rw [e, digitVal_X] at hx; cases hx
        simp [hx1, hx2]
      · rfl
    unfold stoull16
    simp only [hskip, hsign, hbody]
    rw [readDigits_hex _ _ _ hall]
    simp only [List.length_cons, zero_add]
    rw [if_neg (by omega)]
    have hv2 : ¬ (2 ^ 64 ≤ hexValue (c :: cs)) := by omega
    unfold hexValue at hv2 ⊢
    rw [if_neg hv2]
    rfl

theorem not_mem_of_hex (c : Char) (hc : digitVal 16 c = none) (str : List Char)
    (h : str.all (fun c => (digitVal 16 c).isSome) = true) : c ∉ str := by
  intro hmem
  have := List.all_eq_true.mp h c hmem
  rw [hc] at this
  cases this

theorem parseRegisterURL_shape (name address size query : List Char)
    (hname1 : ';' ∉ name) (hname2 : '?' ∉ name)
    (haddr : isHexNumeral address = true) (hsize : isHexNumeral size = true)
    (ha64 : hexValue address < 2 ^ 64) (hs64 : hexValue size < 2 ^ 64)
    (hquery : query = [] ∨ ∃ q, query = '?' :: q) :
    parseRegisterURL (name ++ ';' :: (address ++ ';' :: (size ++ query))) =
      .ok (hexValue address, hexValue size) := by
  have hadig : address.all (fun c => (digitVal 16 c).isSome) = true := by
    unfold isHexNumeral at haddr
    simp only [Bool.and_eq_true] at haddr
    exact haddr.2
  have hsdig : size.all (fun c => (digitVal 16 c).isSome) = true := by
    unfold isHexNumeral at hsize
    simp only [Bool.and_eq_true] at hsize
    exact hsize.2
  have h1 : findChar ';' 0 (name ++ ';' :: (address ++ ';' :: (size ++ query))) =
      some name.length := findChar_zero_append _ _ _ hname1
  have h2 : findChar ';' (name.length + 1) (name ++ ';' :: (address ++ ';' :: (size ++ query))) =
      some (address.length + (name.length + 1)) := by
    have e : name ++ ';' :: (address ++ ';' :: (size ++ query)) =
        (name ++ [';']) ++ (address ++ ';' :: (size ++ query)) := by simp
    have hl : (name ++ [';']).length = name.length + 1 := by simp
    rw [e, ← hl, findChar_skip,
      findChar_zero_append _ _ _ (not_mem_of_hex _ digitVal_semicolon _ hadig)]
    rfl
  have hq : '?' ∉ name ++ ';' :: (address ++ ';' :: size) := by
    intro hmem
    simp only [List.mem_append, List.mem_cons] at hmem
    rcases hmem with h | h | h | h | h
    · exact hname2 h
    · cases h
    · exact not_mem_of_hex _ digitVal_question _ hadig h
    · cases h
    · exact not_mem_of_hex _ digitVal_question _ hsdig h
  have hdropA : (name ++ ';' :: (address ++ ';' :: (size ++ query))).drop (name.length + 1) =
      address ++ ';' :: (size ++ query) := by
    have e : name ++ ';' :: (address ++ ';' :: (size ++ query)) =
        (name ++ [';']) ++ (address ++ ';' :: (size ++ query)) := by simp
    rw [e]
    exact List.drop_left' (by simp)
  have hdropS : (name ++ ';' :: (address ++ ';' :: (size ++ query))).drop
      (address.length + (name.length + 1) + 1) = size ++ query := by
    have e : name ++ ';' :: (address ++ ';' :: (size ++ query)) =
        (name ++ [';'] ++ address ++ [';']) ++ (size ++ query) := by simp
    rw [e]
    exact List.drop_left' (by simp; omega)
  have haddrStr : substr (name ++ ';' :: (address ++ ';' :: (size ++ query))) (name.length + 1)
      (address.length + (name.length + 1) - name.length - 1) = address := by
    unfold substr
    rw [hdropA]
    exact List.take_left' (by omega)
  unfold parseRegisterURL
  simp only [h1, h2, haddrStr, stoull16_hex address haddr ha64]
  rcases hquery with hq0 | ⟨q, hq1⟩
  · subst hq0
    have h3 : findChar '?' 0 (name ++ ';' :: (address ++ ';' :: (size ++ []))) = none := by
      apply findChar_zero_none
      simpa using hq
    simp only [List.append_nil] at h3 hdropS ⊢
    simp only [h3, hdropS, stoull16_hex size hsize hs64]
  · subst hq1
    have e : name ++ ';' :: (address ++ ';' :: (size ++ '?' :: q)) =
        (name ++ ';' :: (address ++ ';' :: size)) ++ '?' :: q := by simp
    have h3 : findChar '?' 0 (name ++ ';' :: (address ++ ';' :: (size ++ '?' :: q))) =
        some (name ++ ';' :: (address ++ ';' :: size)).length := by
      rw [e]
      exact findChar_zero_append _ _ _ hq
    have hle : address.length + (name.length + 1) + 1 ≤
        (name ++ ';' :: (address ++ ';' :: size)).length := by
      simp
      omega
    have hsub : substr (name ++ ';' :: (address ++ ';' :: (size ++ '?' :: q)))
        (address.length + (name.length + 1) + 1)
        ((name ++ ';' :: (address ++ ';' :: size)).length -
          (address.length + (name.length + 1)) - 1) = size := by
      unfold substr
      rw [hdropS]
      exact List.take_left' (by simp; omega)
    simp only [h3, if_pos hle, hsub, stoull16_hex size hsize hs64]

theorem stable_sameTree : Stable SameTree :=
  ⟨fun _ => rfl, fun _ _ _ h1 h2 => h2.trans h1⟩

theorem stable_treeKept : Stable TreeKept :=
  ⟨fun _ => ⟨rfl, [], by simp⟩, fun s t u h1 h2 => by
    obtain ⟨l1, e1⟩ := h1.2
    obtain ⟨l2, e2⟩ := h2.2
    exact ⟨h2.1.trans h1.1, l1 ++ l2, by rw [e2, e1, List.append_assoc]⟩⟩

theorem sameTree_nmGetNode (name : String) : Preserves SameTree (nmGetNode name) := by
  intro p
  unfold nmGetNode SameTree
  split
  · rfl
  · split <;> rfl

theorem sameTree_stringGetValue (n : Node) : Preserves SameTree (stringGetValue n) := by
  unfold stringGetValue
  exact preserves_ite (preserves_pure stable_sameTree _) (preserves_raise stable_sameTree _)

theorem sameTree_modS (f : PState → PState) (h : ∀ p, (f p).pNodeMap = p.pNodeMap) :
    Preserves SameTree (modS f) := h

theorem sameTree_validateAtConnect : Preserves SameTree validateAtConnect := by
  have hS := stable_sameTree
  unfold validateAtConnect
  repeat' with_reducible first
    | exact preserves_pure hS _
    | exact preserves_raise hS _
    | exact sameTree_nmGetNode _
    | exact sameTree_stringGetValue _
    | exact sameTree_modS _ (fun _ => rfl)
    | apply preserves_bind hS
    | apply preserves_tryCatchIf hS
    | apply preserves_ite
    | intro _
    | split

theorem treeKept_liftP {α : Type} {m : PM α} (h : Preserves SameTree m) :
    Preserves TreeKept (liftP m) := fun s => ⟨h s.p, [], by simp⟩

theorem treeKept_tlCall (env : TLEnv) (c : TLCall) : Preserves TreeKept (tlCall env c) :=
  fun _ => ⟨rfl, [_], rfl⟩

theorem treeKept_modS (f : St → St) (h : ∀ s, (f s).p = s.p ∧ (f s).trace = s.trace) :
    Preserves TreeKept (modS f) := by
  intro s
  simp only [modS_run, TreeKept, (h s).1, (h s).2, true_and]
  exact ⟨[], by simp⟩

theorem treeKept_registerFeatureInvalidationEvents (env : TLEnv) :
    Preserves TreeKept (registerFeatureInvalidationEvents env) := by
  have hS := stable_treeKept
  unfold registerFeatureInvalidationEvents
  repeat' with_reducible first
    | exact preserves_pure hS _
    | exact preserves_getS hS
    | exact treeKept_tlCall env _
    | exact treeKept_modS _ (fun _ => ⟨rfl, rfl⟩)
    | apply preserves_bind hS
    | apply preserves_ite
    | intro _

/-- What follows the loading of the description in `connect` keeps the tree
and only extends the trace, also when the loading has thrown. -/
theorem treeKept_after {α : Type} (env : TLEnv) (m : SM α) (s : St) :
    TreeKept (m s).2
      ((m >>= fun _ => liftP validateAtConnect >>= fun _ =>
        registerFeatureInvalidationEvents env) s).2 := by
  rw [bind_run]
  cases hr : m s with
  | mk r t =>
    cases r with
    | error e => exact stable_treeKept.refl _
    | ok a =>
      exact preserves_bind stable_treeKept (treeKept_liftP sameTree_validateAtConnect)
        (fun _ => treeKept_registerFeatureInvalidationEvents env) t

theorem scheme_parse (scheme rest : List Char)
    (hscheme : scheme = "local:///".data ∨ scheme = "Local:".data) :
    (if "local:///".data.isPrefixOf (scheme ++ rest) then
        parseRegisterURL ((scheme ++ rest).drop 9)
      else if "Local:".data.isPrefixOf (scheme ++ rest) then
        parseRegisterURL ((scheme ++ rest).drop 6)
      else .error (.genicam .GenApiError 0)) = parseRegisterURL rest := by
  rcases hscheme with h | h
  · subst h
    have e : "local:///".data = ['l', 'o', 'c', 'a', 'l', ':', '/', '/', '/'] := rfl
    rw [e]
    simp [List.isPrefixOf]
  · subst h
    have e1 : "local:///".data = ['l', 'o', 'c', 'a', 'l', ':', '/', '/', '/'] := rfl
    have e2 : "Local:".data = ['L', 'o', 'c', 'a', 'l', ':'] := rfl
    rw [e1, e2]
    simp [List.isPrefixOf]

theorem scheme_accepted (scheme rest : List Char)
    (hscheme : scheme = "local:///".data ∨ scheme = "Local:".data) :
    ("local:///".data.isPrefixOf (scheme ++ rest) || "Local:".data.isPrefixOf (scheme ++ rest))
      = true := by
  rcases hscheme with h | h
  · subst h
    have e : "local:///".data = ['l', 'o', 'c', 'a', 'l', ':', '/', '/', '/'] := rfl
    rw [e]
    simp [List.isPrefixOf]
  · subst h
    have e1 : "local:///".data = ['l', 'o', 'c', 'a', 'l', ':', '/', '/', '/'] := rfl
    have e2 : "Local:".data = ['L', 'o', 'c', 'a', 'l', ':'] := rfl
    rw [e1, e2]
    simp [List.isPrefixOf]

/-- The loading stage of `parseAndLoadXMLFromURL` on a fresh `CNodeMapRef`:
the tree it leaves holds what the chosen loader produced, the trace is as
before, and data that are neither ZIP nor open with an XML declaration are
refused. -/
theorem loadStage_run (env : TLEnv) (zipData : List Nat) (t : St)
    (ht : t.p.pNodeMap = some { nodes := none }) (m : SM Unit)
    (hm : m = tryCatchIf Exn.isGeneric
      (do
        (if isZipData zipData then liftP (loadXML (env.xmlZip zipData))
        else if containsSub "<?xml".data ((zipData.take 10).map Char.ofNat) then
          liftP (loadXML (env.xmlString zipData))
        else raise (.genicam .GenApiError 0))
        liftP (connectPort env))
      (fun _ => raise (.genicam .GenApiError 0))) :
    (m t).2.p.pNodeMap = some ⟨
      (if isZipData zipData then env.xmlZip zipData
      else if containsSub "<?xml".data ((zipData.take 10).map Char.ofNat) then
        env.xmlString zipData
      else none)⟩ ∧
    (m t).2.trace = t.trace ∧
    (isZipData zipData = false →
      containsSub "<?xml".data ((zipData.take 10).map Char.ofNat) = false →
      (m t).1 = .error (.genicam .GenApiError 0)) := by
  have hload : ∀ (parsed : Option (List Node)) (n : SM Unit),
      n = tryCatchIf Exn.isGeneric
        (liftP (loadXML parsed) >>= fun _ => liftP (connectPort env))
        (fun _ => raise (.genicam .GenApiError 0)) →
      (n t).2.p.pNodeMap = some { nodes := parsed } ∧ (n t).2.trace = t.trace := by
    intro parsed n hn
    cases parsed with
    | none =>
      simp [hn, tryCatchIf_run, bind_run, liftP_run, loadXML, ht, Exn.isGeneric]
    | some ns =>
      cases hc : env.connectPortFails <;>
        simp [hn, tryCatchIf_run, bind_run, liftP_run, loadXML, connectPort, ht, hc, Exn.isGeneric]
  by_cases hz : isZipData zipData = true
  · have e : m = tryCatchIf Exn.isGeneric
        (liftP (loadXML (env.xmlZip zipData)) >>= fun _ => liftP (connectPort env))
        (fun _ => raise (.genicam .GenApiError 0)) := by
      simp only [hm, hz, if_true]
    rw [e, if_pos hz]
    exact ⟨(hload _ _ rfl).1, (hload _ _ rfl).2, fun h => by rw [h] at hz; cases hz⟩
  · have hz1 : isZipData zipData = false := by simpa using hz
    by_cases hx : containsSub "<?xml".data ((zipData.take 10).map Char.ofNat) = true
    · have e : m = tryCatchIf Exn.isGeneric
          (liftP (loadXML (env.xmlString zipData)) >>= fun _ => liftP (connectPort env))
          (fun _ => raise (.genicam .GenApiError 0)) := by
        simp only [hm, hz1, hx, if_true, Bool.false_eq_true, if_false]
      rw [e, if_neg hz, if_pos hx]
      exact ⟨(hload _ _ rfl).1, (hload _ _ rfl).2, fun _ h => by rw [h] at hx; cases hx⟩
    · have hx1 : containsSub "<?xml".data ((zipData.take 10).map Char.ofNat) = false := by
        simpa using hx
      have e : m = tryCatchIf Exn.isGeneric
          ((raise (.genicam .GenApiError 0) : SM Unit) >>= fun _ => liftP (connectPort env))
          (fun _ => raise (.genicam .GenApiError 0)) := by
        simp only [hm, hz1, hx1, Bool.false_eq_true, if_false]
      rw [e, if_neg hz, if_neg hx]
      simp only [tryCatchIf_run, bind_run, raise_run, Exn.isGeneric]
      exact ⟨ht, rfl, fun _ _ => rfl⟩

theorem connectGenApi_register_run (env : TLEnv) (s : St)
    (scheme name address size query : List Char)
    (hscheme : scheme = "local:///".data ∨ scheme = "Local:".data)
    (hzip : containsSub ".zip".data (registerURL scheme name address size query) = true)
    (herr : env.err s.trace.length = 0)
    (hurl : (env.str s.trace.length).data = registerURL scheme name address size query) :
    connectGenApi env s =
      (parseAndLoadXMLFromURL env (registerURL scheme name address size query) >>= fun _ =>
        liftP validateAtConnect >>= fun _ => registerFeatureInvalidationEvents env)
        { s with p := { s.p with hasCameraPort := true },
                 trace := s.trace ++ [.tl (.GCGetPortURL s.portHandle)] } := by
  have hpre := scheme_accepted scheme (name ++ ';' :: (address ++ ';' :: (size ++ query))) hscheme
  have hlen : (env.str s.trace.length).length > 0 := by
    rw [String.length, hurl]
    unfold registerURL
    rcases hscheme with h | h <;> subst h <;> simp
  unfold registerURL at hzip hurl ⊢
  simp only [connectGenApi, bind_run, liftP_run, modS_run, getS_run, tlCall, herr, hlen, hurl,
    hpre, hzip, and_self, if_true, Bool.and_self]

theorem parseAndLoadXMLFromURL_run (env : TLEnv) (u : St)
    (scheme name address size query : List Char)
    (hscheme : scheme = "local:///".data ∨ scheme = "Local:".data)
    (hname1 : ';' ∉ name) (hname2 : '?' ∉ name)
    (haddr : isHexNumeral address = true) (hsize : isHexNumeral size = true)
    (ha0 : hexValue address ≠ 0) (hs0 : hexValue size ≠ 0)
    (ha64 : hexValue address < 2 ^ 64) (hs63 : hexValue size < 2 ^ 63)
    (hquery : query = [] ∨ ∃ q, query = '?' :: q) :
    parseAndLoadXMLFromURL env (registerURL scheme name address size query) u =
      if env.err u.trace.length ≠ 0 then
        (.error (.genicam .GenTLError (env.err u.trace.length)),
          { u with trace := u.trace ++
              [.tl (.GCReadPort u.portHandle (hexValue address) (hexValue size))] })
      else
        (tryCatchIf Exn.isGeneric
          (do
            (if isZipData (readBuffer (hexValue size) (env.bytes u.trace.length)) then
              liftP (loadXML (env.xmlZip (readBuffer (hexValue size) (env.bytes u.trace.length))))
            else if containsSub "<?xml".data
                (((readBuffer (hexValue size) (env.bytes u.trace.length)).take 10).map
                  Char.ofNat) then
              liftP (loadXML
                (env.xmlString (readBuffer (hexValue size) (env.bytes u.trace.length))))
            else raise (.genicam .GenApiError 0))
            liftP (connectPort env))
          (fun _ => raise (.genicam .GenApiError 0)))
          { u with p := { u.p with pNodeMap := some { nodes := none } },
                   trace := u.trace ++
                     [.tl (.GCReadPort u.portHandle (hexValue address) (hexValue size))] } := by
  have hs64 : hexValue size < 2 ^ 64 := lt_trans hs63 (by norm_num)
  have hparse := parseRegisterURL_shape name address size query hname1 hname2 haddr hsize
    ha64 hs64 hquery
  have hsp := scheme_parse scheme (name ++ ';' :: (address ++ ';' :: (size ++ query))) hscheme
  unfold registerURL
  simp only [parseAndLoadXMLFromURL, hsp, hparse]
  rw [if_neg (by simp [ha0, hs0]), if_neg (by simpa [vectorSizeLimit] using hs63)]
  simp only [bind_run, getS_run, tlCall]
  by_cases he : env.err u.trace.length = 0
  · simp only [he, ne_eq, not_true_eq_false, if_false, liftP_run, newNodeMap, modS_run]
    rfl
  · simp only [he, ne_eq, not_false_eq_true, if_true, raise_run]

/-- The register branch of `connect`: when the port URL has the shape
`local:///<name>;<hexAddress>;<hexSize>[?...]` or
`Local:<name>;<hexAddress>;<hexSize>[?...]` (name free of `;` and `?`, address
a non-zero hexadecimal numeral below `2^64`, size one below `2^63`, the
largest buffer that can be constructed) and contains `.zip`, `connect` reads
exactly `hexSize` bytes at register address `hexAddress` from the device port,
right after it has asked for the URL.  A failed read ends in
a GenTL error.  After a successful read the feature tree holds what the ZIP
loader makes of the data when they start with `PK\x03\x04`, what the string
loader makes of them when they do not but `<?xml` occurs in their first ten
bytes, and nothing otherwise; in the last case the call fails with
`GenApiError`. -/
theorem register_url_reads_port (env : TLEnv) (s : St)
    (scheme name address size query : List Char) (data : List Nat)
    (hscheme : scheme = "local:///".data ∨ scheme = "Local:".data)
    (hname1 : ';' ∉ name) (hname2 : '?' ∉ name)
    (haddr : isHexNumeral address = true) (hsize : isHexNumeral size = true)
    (ha0 : hexValue address ≠ 0) (hs0 : hexValue size ≠ 0)
    (ha64 : hexValue address < 2 ^ 64) (hs63 : hexValue size < 2 ^ 63)
    (hquery : query = [] ∨ ∃ q, query = '?' :: q)
    (hzip : containsSub ".zip".data (registerURL scheme name address size query) = true)
    (herr : env.err s.trace.length = 0)
    (hurl : (env.str s.trace.length).data = registerURL scheme name address size query)
    (hdata : data = readBuffer (hexValue size) (env.bytes (s.trace.length + 1))) :
    (∃ rest, (connectGenApi env s).2.trace =
      s.trace ++ .tl (.GCGetPortURL s.portHandle) ::
        .tl (.GCReadPort s.portHandle (hexValue address) (hexValue size)) :: rest) ∧
    (env.err (s.trace.length + 1) ≠ 0 →
      (connectGenApi env s).1 = .error (.genicam .GenTLError (env.err (s.trace.length + 1)))) ∧
    (env.err (s.trace.length + 1) = 0 →
      (connectGenApi env s).2.p.pNodeMap = some ⟨
        (if isZipData data then env.xmlZip data
        else if containsSub "<?xml".data ((data.take 10).map Char.ofNat) then env.xmlString data
        else none)⟩ ∧
      (isZipData data = false →
        containsSub "<?xml".data ((data.take 10).map Char.ofNat) = false →
        (connectGenApi env s).1 = .error (.genicam .GenApiError 0))) := by
  have hrun := connectGenApi_register_run env s scheme name address size query hscheme hzip
    herr hurl
  have hpl := parseAndLoadXMLFromURL_run env
    { s with p := { s.p with hasCameraPort := true },
             trace := s.trace ++ [.tl (.GCGetPortURL s.portHandle)] }
    scheme name address size query hscheme hname1 hname2 haddr hsize ha0 hs0 ha64 hs63 hquery
  have hkept := treeKept_after env
    (parseAndLoadXMLFromURL env (registerURL scheme name address size query))
    { s with p := { s.p with hasCameraPort := true },
             trace := s.trace ++ [.tl (.GCGetPortURL s.portHandle)] }
  rw [← hrun] at hkept
  have hfail : ∀ e, (parseAndLoadXMLFromURL env (registerURL scheme name address size query)
      { s with p := { s.p with hasCameraPort := true },
               trace := s.trace ++ [.tl (.GCGetPortURL s.portHandle)] }).1 = .error e →
      (connectGenApi env s).1 = .error e := by
    intro e he
    rw [hrun, bind_run]
    split
    · rename_i heq
      rw [heq] at he
      cases he
    · rename_i heq
      rw [heq] at he
      exact he
  simp only [List.length_append, List.length_singleton] at hpl
  rw [← hdata] at hpl
  by_cases he : env.err (s.trace.length + 1) = 0
  · rw [if_neg (by simp [he])] at hpl
    have hstage := loadStage_run env data
      { s with p := { s.p with hasCameraPort := true, pNodeMap := some { nodes := none } },
               trace := s.trace ++ [.tl (.GCGetPortURL s.portHandle)] ++
                 [.tl (.GCReadPort s.portHandle (hexValue address) (hexValue size))] }
      rfl _ rfl
    rw [← hpl] at hstage
    obtain ⟨htree, htrace, hrefuse⟩ := hstage
    obtain ⟨hk1, l, hk2⟩ := hkept
    refine ⟨⟨l, ?_⟩, fun h => absurd he h, fun _ => ⟨?_, ?_⟩⟩
    · rw [hk2, htrace]
      simp
    · rw [hk1, htree]
    · intro h1 h2
      exact hfail _ (hrefuse h1 h2)
  · rw [if_pos he] at hpl
    have h1 := hfail _ (by rw [hpl])
    obtain ⟨_, l, hk2⟩ := hkept
    refine ⟨⟨l, ?_⟩, fun _ => h1, fun h => absurd h he⟩
    rw [hk2, hpl]
    simp

theorem register_url_reads_port_witness :
    (∃ rest, (connectGenApi (urlOnlyEnv "Local:cam.zip;1000;200?SchemaVersion=1.1.0" zipBytes)
      initialSt).2.trace =
      initialSt.trace ++ .tl (.GCGetPortURL initialSt.portHandle) ::
        .tl (.GCReadPort initialSt.portHandle (hexValue "1000".data) (hexValue "200".data)) ::
        rest) ∧
    hexValue "1000".data = 4096 ∧ hexValue "200".data = 512 :=
  ⟨(register_url_reads_port (urlOnlyEnv "Local:cam.zip;1000;200?SchemaVersion=1.1.0" zipBytes)
    initialSt "Local:".data "cam.zip".data "1000".data "200".data "?SchemaVersion=1.1.0".data
    (readBuffer (hexValue "200".data) zipBytes)
    (Or.inr rfl) (by decide) (by decide) (by decide!) (by decide!) (by decide!) (by decide!)
    (by decide!) (by decide!) (Or.inr ⟨"SchemaVersion=1.1.0".data, rfl⟩) (by decide!)
    (by decide!) (by decide!) rfl).1, by decide!, by decide!⟩

/-- Register URLs on concrete devices.  The port URL
`local:///cam.xml;1000;200` has the register shape, but it does not contain
`.zip`: `connect` reads nothing from the port, hands the whole URL to the file
loader and fails.  With `local:///cam.zip;1000;200` the 0x200 bytes at 0x1000
are read; data that are no ZIP and do not open with `<?xml`, here
`<RegisterDescription>`, are refused with `GenApiError`. -/
theorem register_url_without_zip_reads_no_port :
    (connect (registerEnv "local:///cam.xml;1000;200" zipBytes) "cam" initialSt).1 =
      .error (.genicam .GenApiError 0) ∧
    (connect (registerEnv "local:///cam.xml;1000;200" zipBytes) "cam" initialSt).2.trace.any
      Ev.isReadPort = false ∧
    (connect (registerEnv "local:///cam.xml;1000;200" zipBytes) "cam" initialSt).2.trace.get? 10 =
      some (.tl (.GCGetPortURL 2)) ∧
    (connect (registerEnv "local:///cam.zip;1000;200" plainXmlBytes) "cam" initialSt).2.trace.get?
      11 = some (.tl (.GCReadPort 2 4096 512)) ∧
    isZipData (readBuffer 512 plainXmlBytes) = false ∧
    (registerEnv "local:///cam.zip;1000;200" plainXmlBytes).xmlString
      (readBuffer 512 plainXmlBytes) = some streamNodes ∧
    (connect (registerEnv "local:///cam.zip;1000;200" plainXmlBytes) "cam" initialSt).1 =
      .error (.genicam .GenApiError 0) ∧
    (connect (registerEnv "local:///cam.zip;1000;200" plainXmlBytes) "cam" initialSt).2.state =
      .Disconnected :=
  ⟨by decide!, by decide!, by decide!, by decide!, by decide!, by decide!, by decide!,
   by decide!⟩

/-- The same URLs on a device that answers as the code expects: with `.zip`
in the URL, ZIP data are loaded by the ZIP loader and data that open with an
XML declaration by the string loader, and the session ends up Connected. -/
theorem connect_register_url_examples :
    (connect (registerEnv "Local:cam.zip;1000;200?SchemaVersion=1.1.0" zipBytes) "cam"
      initialSt).2.trace.get? 11 = some (.tl (.GCReadPort 2 4096 512)) ∧
    (connect (registerEnv "Local:cam.zip;1000;200?SchemaVersion=1.1.0" zipBytes) "cam"
      initialSt).2.p.pNodeMap = some { nodes := some demoNodes } ∧
    (connect (registerEnv "Local:cam.zip;1000;200?SchemaVersion=1.1.0" zipBytes) "cam"
      initialSt).2.state = .Connected ∧
    (connect (registerEnv "local:///cam.zip;1000;200" declaredXmlBytes) "cam"
      initialSt).2.p.pNodeMap = some { nodes := some streamNodes } ∧
    (connect (registerEnv "local:///cam.zip;1000;200" declaredXmlBytes) "cam"
      initialSt).2.state = .Connected :=
  ⟨by decide!, by decide!, by decide!, by decide!, by decide!⟩

/-! ### Waiting for the delivery thread -/

/-- The timed model splits the `try` block of `stopAcquisition` at the join:
with a join that returns at once it is the block itself. -/
theorem stopAcquisitionBody_split (env : TLEnv) (s : St) :
    stopAcquisitionBody env s =
      (stopBeforeJoin env >>= fun _ =>
        (modS fun t => { t with threadJoinable := false }) >>= fun _ => stopAfterJoin env) s := by
  simp only [stopAcquisitionBody, stopBeforeJoin, stopAfterJoin, bind_run]
  cases issueAcquisitionStop s with
  | mk r t =>
    cases r with
    | error e => rfl
    | ok a =>
      simp only [getS_run]

/-- Step 3 of `stopAcquisition` on a joinable thread: the first turn of the
loop calls `join`, whatever the time the thread still needs; the branch that
detaches is not reached. -/
theorem waitForThread_run (blockedFor : Option Nat) (fuel : Nat) (s : St)
    (h : s.threadJoinable = true) :
    waitForThread blockedFor (fuel + 1) s =
      match blockedFor with
      | none => .never
      | some d => .returns (some .joined, { (advanceClock d s) with threadJoinable := false }) := by
  unfold waitForThread joinLoop
  simp only [h, if_true, Nat.sub_self, maxWaitTime, threadJoin]
  cases blockedFor with
  | none => simp
  | some d => simp

theorem stopAcquisitionTimed_run (env : TLEnv) (blockedFor : Option Nat) (fuel : Nat)
    (s0 t : St) (hacq : s0.isAcquiring = true)
    (hbefore : stopBeforeJoin env { s0 with stopAcquisition := true } = (.ok (), t))
    (hj : t.threadJoinable = true) :
    stopAcquisitionTimed env blockedFor (fuel + 1) s0 =
      match blockedFor with
      | none => .never
      | some d =>
        .returns
          ((tryCatchIf Exn.isStd (stopAfterJoin env) stopHandler
            { (advanceClock d t) with threadJoinable := false }).1, some .joined,
           (tryCatchIf Exn.isStd (stopAfterJoin env) stopHandler
            { (advanceClock d t) with threadJoinable := false }).2) := by
  simp only [stopAcquisitionTimed]
  rw [if_neg (by simp [hacq]), hbefore]
  simp only [waitForThread_run blockedFor fuel t hj]
  cases blockedFor with
  | none => rfl
  | some d => rfl

/-- C20, failing input: `stopAcquisition()` on the streaming session
`streamAcquiring`, whose delivery thread is joinable.  When the thread stays
blocked for 60 s, the call returns only after those 60 s, twelve times the
5 s of `maxWaitTime`, having joined the thread and not detached it; the state
is then Connected.  When the thread never returns, neither does the call.
The number of turns allowed to the loop makes no difference. -/
theorem stopAcquisition_waits_for_thread (fuel : Nat) :
    streamAcquiring.isAcquiring = true ∧ streamAcquiring.threadJoinable = true ∧
    (stopAcquisitionTimed streamEnv (some 60000) (fuel + 1) streamAcquiring).result.map
      (fun r => (r.1, r.2.1, r.2.2.p.now - streamAcquiring.p.now, r.2.2.state)) =
      some (.ok (), some .joined, 60000, .Connected) ∧
    (stopAcquisitionTimed streamEnv none (fuel + 1) streamAcquiring).isNever = true := by
  have hacq : streamAcquiring.isAcquiring = true := by decide!
  have hbefore : stopBeforeJoin streamEnv { streamAcquiring with stopAcquisition := true } =
      (.ok (), stopIssued) := by decide!
  have hj : stopIssued.threadJoinable = true := by decide!
  refine ⟨hacq, by decide!, ?_, ?_⟩
  · rw [stopAcquisitionTimed_run streamEnv (some 60000) fuel streamAcquiring stopIssued hacq hbefore hj]
    simp only [Blocking.result, Option.map_some']
    decide!
  · rw [stopAcquisitionTimed_run streamEnv none fuel streamAcquiring stopIssued hacq hbefore hj]
    rfl

/-- With a delivery thread that has already returned, the timed model of
`stopAcquisition` ends in the session `stopAcquisition` ends in. -/
theorem stopAcquisitionTimed_agrees :
    (stopAcquisitionTimed streamEnv (some 0) 1 streamAcquiring).result.map
      (fun r => (r.1, r.2.2)) = some (stopAcquisition streamEnv streamAcquiring) := by
  decide!

/-! ## C21: the `AcquisitionStart` command of `startAcquisition` -/

theorem bind_assoc_run {σ α β γ : Type} (m : M σ α) (f : α → M σ β) (g : β → M σ γ) :
    (m >>= f) >>= g = m >>= fun a => f a >>= g := by
  funext s
  simp only [bind_run]
  cases m s with
  | mk r t =>
    cases r with
    | error e => rfl
    | ok a => rfl

theorem startAcquisitionSteps_split (env : TLEnv) (bufferCount : Nat) :
    startAcquisitionSteps env bufferCount =
      startAcquisitionTransport env bufferCount >>= fun _ => issueAcquisitionStart := by
  simp only [startAcquisitionSteps, startAcquisitionFill, startAcquisitionTransport,
    bind_assoc_run]

theorem sameSession_startAcquisitionTransport (env : TLEnv) (bufferCount : Nat) :
    Preserves SameSession (startAcquisitionTransport env bufferCount) := by
  have hS := stable_sameSession
  have hR := respects_sameSession env
  unfold startAcquisitionTransport
  apply preserves_bind hS (resp_liftP hR _)
  intro _
  apply preserves_bind hS
    (preserves_weaken (sameHandles_setTransportLayerLock _) fun _ _ h => h.1)
  intro _
  apply preserves_bind hS (sameSession_openDataStream env)
  intro _
  apply preserves_bind hS (resp_determinePayloadSize hR)
  intro _
  apply preserves_bind hS (resp_allocateBuffers hR _)
  intro _
  apply preserves_bind hS (resp_queueAllBuffers hR)
  intro _
  apply preserves_bind hS (sameSession_registerNewBufferEvent env)
  intro _
  exact resp_startStream hR

/-- The `AcquisitionStart` command on a loaded feature tree: a missing node or
a node that is no command ends in `ParameterError`, a command that is not
writable is skipped, a writable command is executed and a failure of the
execution ends in `GenApiError`. -/
theorem issueAcquisitionStart_loaded {ns : List Node} (t : St) (h : Loaded ns t.p) :
    issueAcquisitionStart t =
      match typedNode .intfICommand ns "AcquisitionStart" with
      | none => (.error (.genicam .ParameterError 0), t)
      | some n =>
        if n.isWritable then
          if n.ioFails then
            (.error (.genicam .GenApiError 0),
              { t with p := { t.p with nodeOps := t.p.nodeOps ++ [.execute n.name] } })
          else (.ok (), { t with p := { t.p with nodeOps := t.p.nodeOps ++ [.execute n.name] } })
        else (.ok (), t) := by
  unfold issueAcquisitionStart executeIfWritable getCommandNode
  simp only [tryCatchIf_run, liftP_run, bind_run, getTypedNode_loaded h]
  cases hn : typedNode .intfICommand ns "AcquisitionStart" with
  | none => simp [Exn.isGeneric]
  | some n =>
    by_cases hw : n.isWritable = true
    · by_cases hf : n.ioFails = true
      · simp [hw, hf, commandExecute, logOp, Exn.isGeneric]
      · simp [hw, hf, commandExecute, logOp]
    · simp [hw]

theorem startAcquisitionCommit_quiet (u : St)
    (hl : ∀ l, u.eventListener = some l → l.onAcquisitionStarted = none) :
    startAcquisitionCommit u =
      (.ok (), { u with isAcquiring := true, stopAcquisition := false, state := .Acquiring,
                        threadJoinable := true }) := by
  unfold startAcquisitionCommit
  simp only [bind_run, modS_run, getS_run]
  cases hls : u.eventListener with
  | none => rfl
  | some l => simp [hl l hls]

theorem startAcquisitionCommit_throws (u : St) (l : Listener) (e : Exn)
    (hl : u.eventListener = some l) (he : l.onAcquisitionStarted = some e) :
    startAcquisitionCommit u =
      (.error e, { u with isAcquiring := true, stopAcquisition := false, state := .Acquiring }) := by
  unfold startAcquisitionCommit
  simp [bind_run, modS_run, getS_run, hl, he]

/-- A call of `startAcquisition` that passed its precondition checks and whose
steps succeed: the flags are set and the state is Acquiring on return, whether
the listener throws or not; the call returns without error when the listener
does not throw and with the listener's exception when it does. -/
theorem startAcquisition_steps_ok (env : TLEnv) (bufferCount : Nat) (s u : St)
    (hconn : isConnected s = true) (hidle : s.isAcquiring = false)
    (hsteps : startAcquisitionSteps env bufferCount s = (.ok (), u)) :
    (startAcquisition env bufferCount s).2.state = .Acquiring ∧
    (startAcquisition env bufferCount s).2.isAcquiring = true ∧
    ((∀ l, s.eventListener = some l → l.onAcquisitionStarted = none) →
      (startAcquisition env bufferCount s).1 = .ok ()) ∧
    (∀ l e, s.eventListener = some l → l.onAcquisitionStarted = some e →
      (startAcquisition env bufferCount s).1 = .error e) := by
  have hframe := sameSession_startAcquisitionSteps env bufferCount s
  rw [hsteps] at hframe
  have hlis : u.eventListener = s.eventListener := hframe.2.2.2.1
  have hrun : startAcquisition env bufferCount s =
      tryCatchIf Exn.isCatchable (startAcquisitionSteps env bufferCount >>= fun _ =>
        startAcquisitionCommit) (startAcquisitionRollback env) s := by
    unfold startAcquisition
    simp only [bind_run, getS_run, hconn, hidle, Bool.not_true, Bool.false_eq_true, if_false]
  have hquiet : (∀ l, s.eventListener = some l → l.onAcquisitionStarted = none) →
      startAcquisition env bufferCount s =
        (.ok (), { u with isAcquiring := true, stopAcquisition := false, state := .Acquiring,
                          threadJoinable := true }) := by
    intro h
    rw [hrun, tryCatchIf_run, bind_run, hsteps]
    simp only
    rw [startAcquisitionCommit_quiet u (fun l hl => h l (by rw [← hlis]; exact hl))]
  have hthrows : ∀ l e, s.eventListener = some l → l.onAcquisitionStarted = some e →
      (startAcquisition env bufferCount s).1 = .error e ∧
      (startAcquisition env bufferCount s).2.state = .Acquiring ∧
      (startAcquisition env bufferCount s).2.isAcquiring = true := by
    intro l e hl he
    rw [hrun, tryCatchIf_run, bind_run, hsteps]
    simp only
    rw [startAcquisitionCommit_throws u l e (by rw [hlis]; exact hl) he]
    simp only
    by_cases hc : e.isCatchable = true
    · rw [if_pos hc]
      obtain ⟨s2, h2, hss, -⟩ := startAcquisitionRollback_spec env e
        { u with isAcquiring := true, stopAcquisition := false, state := .Acquiring }
      rw [h2]
      exact ⟨rfl, hss.1, hss.2.1⟩
    · rw [if_neg hc]
      exact ⟨rfl, rfl, rfl⟩
  cases hls : s.eventListener with
  | none =>
    have h := hquiet (fun l hl => by rw [hls] at hl; cases hl)
    refine ⟨by rw [h], by rw [h], fun _ => by rw [h], fun l e hl => by cases hl⟩
  | some l =>
    cases hon : l.onAcquisitionStarted with
    | none =>
      have h := hquiet (fun l1 hl1 => by
        rw [hls] at hl1
        cases hl1
        exact hon)
      refine ⟨by rw [h], by rw [h], fun _ => by rw [h], fun l1 e hl1 he => ?_⟩
      cases hl1
      rw [hon] at he
      cases he
    | some e =>
      have h := hthrows l e hls hon
      refine ⟨h.2.1, h.2.2, fun hq => ?_, fun l1 e1 hl1 he1 => ?_⟩
      · have := hq l rfl
        rw [hon] at this
        cases this
      · cases hl1
        rw [hon] at he1
        cases he1
        exact h.1

/-- A call of `startAcquisition` that passed its precondition checks and whose
steps fail with a C++ exception: the stream is rolled back and the exception
is rethrown. -/
theorem startAcquisition_steps_fail (env : TLEnv) (bufferCount : Nat) (s u : St) (e : Exn)
    (hconn : isConnected s = true) (hidle : s.isAcquiring = false)
    (hc : e.isCatchable = true)
    (hsteps : startAcquisitionSteps env bufferCount s = (.error e, u)) :
    (startAcquisition env bufferCount s).1 = .error e ∧
    (startAcquisition env bufferCount s).2.state = s.state ∧
    (startAcquisition env bufferCount s).2.isAcquiring = false ∧
    (startAcquisition env bufferCount s).2.dsHandle = 0 ∧
    (startAcquisition env bufferCount s).2.bufferHandles = [] := by
  have hframe := sameSession_startAcquisitionSteps env bufferCount s
  rw [hsteps] at hframe
  obtain ⟨s2, h2, hss, hds, _, hb, _⟩ := startAcquisitionRollback_spec env e u
  have hrun : startAcquisition env bufferCount s = (.error e, s2) := by
    unfold startAcquisition
    simp only [bind_run, getS_run, hconn, hidle, Bool.not_true, Bool.false_eq_true, if_false,
      tryCatchIf_run, hsteps, hc, if_true, h2]
  rw [hrun]
  have htot := stable_sameSession.trans _ _ _ hframe hss
  exact ⟨rfl, htot.1, htot.2.1.trans hidle, hds, hb⟩

/-- C21, where the code is not best-effort.  When a call of `startAcquisition`
passed its precondition checks, every step before the `AcquisitionStart`
command succeeded and the feature tree is loaded, the outcome is decided by
the command node.  Without a command node of that name the call fails with
`ParameterError`; with a writable command whose execution fails it fails with
`GenApiError`; in both cases the stream is rolled back and the state stays as
it was.  With a command that is not writable, or one that executes, the
flags are set and the state is Acquiring; the call then returns without error
unless the listener throws, and with the listener's exception if it does. -/
theorem startAcquisition_depends_on_command (env : TLEnv) (bufferCount : Nat) (s t : St)
    (ns : List Node) (hconn : isConnected s = true) (hidle : s.isAcquiring = false)
    (htransport : startAcquisitionTransport env bufferCount s = (.ok (), t))
    (hloaded : Loaded ns t.p) :
    match typedNode .intfICommand ns "AcquisitionStart" with
    | none =>
      (startAcquisition env bufferCount s).1 = .error (.genicam .ParameterError 0) ∧
      (startAcquisition env bufferCount s).2.state = s.state ∧
      (startAcquisition env bufferCount s).2.isAcquiring = false ∧
      (startAcquisition env bufferCount s).2.dsHandle = 0
    | some node =>
      if node.isWritable && node.ioFails then
        (startAcquisition env bufferCount s).1 = .error (.genicam .GenApiError 0) ∧
        (startAcquisition env bufferCount s).2.state = s.state ∧
        (startAcquisition env bufferCount s).2.isAcquiring = false ∧
        (startAcquisition env bufferCount s).2.dsHandle = 0
      else
        (startAcquisition env bufferCount s).2.state = .Acquiring ∧
        (startAcquisition env bufferCount s).2.isAcquiring = true ∧
        ((∀ l, s.eventListener = some l → l.onAcquisitionStarted = none) →
          (startAcquisition env bufferCount s).1 = .ok ()) ∧
        (∀ l e, s.eventListener = some l → l.onAcquisitionStarted = some e →
          (startAcquisition env bufferCount s).1 = .error e) := by
  have hcmd := issueAcquisitionStart_loaded t hloaded
  have hsplit : startAcquisitionSteps env bufferCount s = issueAcquisitionStart t := by
    rw [startAcquisitionSteps_split, bind_run, htransport]
  cases hn : typedNode .intfICommand ns "AcquisitionStart" with
  | none =>
    rw [hn] at hcmd
    simp only at hcmd ⊢
    have h1 := startAcquisition_steps_fail env bufferCount s _ (.genicam .ParameterError 0)
      hconn hidle rfl (hsplit.trans hcmd)
    exact ⟨h1.1, h1.2.1, h1.2.2.1, h1.2.2.2.1⟩
  | some node =>
    rw [hn] at hcmd
    simp only at hcmd ⊢
    by_cases hw : node.isWritable = true
    · by_cases hf : node.ioFails = true
      · rw [if_pos hw, if_pos hf] at hcmd
        rw [if_pos (by simp [hw, hf])]
        have h1 := startAcquisition_steps_fail env bufferCount s _ (.genicam .GenApiError 0)
          hconn hidle rfl (hsplit.trans hcmd)
        exact ⟨h1.1, h1.2.1, h1.2.2.1, h1.2.2.2.1⟩
      · rw [if_pos hw, if_neg hf] at hcmd
        rw [if_neg (by simp [hw, hf])]
        exact startAcquisition_steps_ok env bufferCount s _ hconn hidle (hsplit.trans hcmd)
    · rw [if_neg hw] at hcmd
      rw [if_neg (by simp [hw])]
      exact startAcquisition_steps_ok env bufferCount s _ hconn hidle (hsplit.trans hcmd)

/-- C21 on a device without `AcquisitionStart` node: every step of
`startAcquisition(2)` before the command succeeds, and the call fails with
`ParameterError`; the stream is closed again and the state is Connected, not
Acquiring. -/
theorem startAcquisition_depends_on_command_witness :
    findNode "AcquisitionStart" demoNodes = none ∧
    typedNode .intfICommand demoNodes "AcquisitionStart" = none ∧
    (startAcquisitionTransport demoEnv 2 demoConnected).1 = .ok () ∧
    demoConnected.state = .Connected ∧
    (startAcquisition demoEnv 2 demoConnected).1 = .error (.genicam .ParameterError 0) ∧
    (startAcquisition demoEnv 2 demoConnected).2.state = demoConnected.state ∧
    (startAcquisition demoEnv 2 demoConnected).2.isAcquiring = false ∧
    (startAcquisition demoEnv 2 demoConnected).2.dsHandle = 0 := by
  have hn : typedNode .intfICommand demoNodes "AcquisitionStart" = none := by decide!
  have h := startAcquisition_depends_on_command demoEnv 2 demoConnected demoTransported
    demoNodes (by decide!) (by decide!) (by decide!) ⟨by decide!, by decide!, by decide!⟩
  rw [hn] at h
  exact ⟨by decide!, hn, by decide!, by decide!, h⟩

/-- The same on concrete devices.  Without `AcquisitionStart` node the call
fails with `ParameterError` after the rollback.  With a writable command that
fails when executed, the command is issued and the call fails with
`GenApiError`; the stream is closed again and the state is Connected.  With a
command that is not writable the call succeeds and the state is Acquiring. -/
theorem startAcquisition_fails_without_command :
    findNode "AcquisitionStart" demoNodes = none ∧
    (startAcquisitionTransport demoEnv 2 demoConnected).1 = .ok () ∧
    (startAcquisition demoEnv 2 demoConnected).1 = .error (.genicam .ParameterError 0) ∧
    (startAcquisition demoEnv 2 demoConnected).2.state = .Connected ∧
    (startAcquisition demoEnv 2 demoConnected).2.trace.getLast? = some .freeBuffersCall ∧
    (startAcquisitionTransport (startEnv (startNodes failingStart)) 2
      (startConnected (startNodes failingStart))).1 = .ok () ∧
    (startAcquisition (startEnv (startNodes failingStart)) 2
      (startConnected (startNodes failingStart))).1 = .error (.genicam .GenApiError 0) ∧
    (startAcquisition (startEnv (startNodes failingStart)) 2
      (startConnected (startNodes failingStart))).2.p.nodeOps = [.execute "AcquisitionStart"] ∧
    (startAcquisition (startEnv (startNodes failingStart)) 2
      (startConnected (startNodes failingStart))).2.state = .Connected ∧
    (startAcquisition (startEnv (startNodes failingStart)) 2
      (startConnected (startNodes failingStart))).2.dsHandle = 0 ∧
    typedNode .intfICommand (startNodes lockedStart) "AcquisitionStart" = some lockedStart ∧
    lockedStart.isWritable = false ∧
    (startAcquisition (startEnv (startNodes lockedStart)) 2
      (startConnected (startNodes lockedStart))).1 = .ok () ∧
    (startAcquisition (startEnv (startNodes lockedStart)) 2
      (startConnected (startNodes lockedStart))).2.state = .Acquiring :=
  ⟨by decide!, by decide!, by decide!, by decide!, by decide!, by decide!, by decide!,
   by decide!, by decide!, by decide!, by decide!, by decide!, by decide!, by decide!⟩

/-! ## C22: the handler of `grabSingleFrame` -/

theorem stable_lockKept : Stable LockKept :=
  ⟨fun _ => ⟨rfl, rfl, [], by simp, by simp⟩, fun s t u h1 h2 => by
    obtain ⟨hp1, ha1, l1, e1, q1⟩ := h1
    obtain ⟨hp2, ha2, l2, e2, q2⟩ := h2
    refine ⟨hp2.trans hp1, ha2.trans ha1, l1 ++ l2, by rw [e2, e1, List.append_assoc], ?_⟩
    intro e he
    rcases List.mem_append.mp he with h | h
    · exact q1 e h
    · exact q2 e h⟩

theorem lockKept_tlCall (env : TLEnv) (c : TLCall) : Preserves LockKept (tlCall env c) :=
  fun _ => ⟨rfl, rfl, [_], rfl, by simp [Ev.isLockCall]⟩

theorem lockKept_modS (f : St → St)
    (h : ∀ s, (f s).p = s.p ∧ (f s).isAcquiring = s.isAcquiring ∧ (f s).trace = s.trace) :
    Preserves LockKept (modS f) := by
  intro s
  exact ⟨(h s).1, (h s).2.1, [], by simp [modS_run, (h s).2.2], by simp⟩

theorem lockKept_revokeLoop (env : TLEnv) (handles : List Nat) :
    Preserves LockKept (revokeLoop env handles) := by
  have hS := stable_lockKept
  induction handles with
  | nil => exact preserves_pure hS _
  | cons hBuffer rest ih =>
    unfold revokeLoop
    repeat' with_reducible first
      | exact preserves_pure hS _
      | exact preserves_getS hS
      | exact lockKept_tlCall env _
      | exact ih
      | apply preserves_bind hS
      | apply preserves_ite
      | intro _

theorem lockKept_freeBuffers (env : TLEnv) : Preserves LockKept (freeBuffers env) := by
  have hS := stable_lockKept
  unfold freeBuffers logEv
  repeat' with_reducible first
    | exact preserves_getS hS
    | exact lockKept_revokeLoop env _
    | exact lockKept_modS _ (fun _ => ⟨rfl, rfl, rfl⟩)
    | apply preserves_bind hS
    | intro _
  intro s
  exact ⟨rfl, rfl, [_], rfl, by simp [Ev.isLockCall]⟩

/-- The handler of `grabSingleFrame` never calls `setTransportLayerLock`,
leaves the feature tree as it finds it, lock parameter included, and does not
touch the acquiring flag. -/
theorem lockKept_grabSingleFrameCleanup (env : TLEnv) (e : Exn) :
    Preserves LockKept (grabSingleFrameCleanup env e) := by
  have hS := stable_lockKept
  unfold grabSingleFrameCleanup
  repeat' with_reducible first
    | exact preserves_pure hS _
    | exact preserves_raise hS _
    | exact preserves_getS hS
    | exact lockKept_tlCall env _
    | exact lockKept_freeBuffers env
    | exact lockKept_modS _ (fun _ => ⟨rfl, rfl, rfl⟩)
    | apply preserves_bind hS
    | apply preserves_ite
    | intro _

/-- C22, failing input: `grabSingleFrame(1000)` on a connected device with the
lock parameter `TLParamsLocked`, when the wait for the new buffer times out.
The call fails with `TimeoutError` after the six diagnostic queries; the
handler unregisters the event, stops and closes the stream and empties the
ring, but it does not call `setTransportLayerLock(false)`: the last lock call
of the trace is the locking one, `TLParamsLocked` still reads 1, and the
acquiring flag is left set.  When the frame arrives, the same call ends with
`setTransportLayerLock(false)`, `TLParamsLocked` reads 0 and the flag is
clear. -/
theorem grabSingleFrame_timeout_keeps_lock :
    grabConnected.state = .Connected ∧ grabConnected.isAcquiring = false ∧
    grabTimedOut.1 = .error (.genicam .TimeoutError 1011) ∧
    grabTimedOut.2.trace.drop 34 =
      [.tl (.GCUnregisterEvent 19 .EVENT_NEW_BUFFER), .tl (.DSStopAcquisition 19),
       .tl (.DSClose 19), .freeBuffersCall] ∧
    grabTimedOut.2.eventHandle = 0 ∧ grabTimedOut.2.dsHandle = 0 ∧
    grabTimedOut.2.bufferHandles = [] ∧
    (grabTimedOut.2.trace.filter Ev.isLockCall).getLast? = some (.lockCall true) ∧
    (getParameter "TLParamsLocked" grabTimedOut.2.p).1 = .ok "1" ∧
    grabTimedOut.2.isAcquiring = true ∧
    grabSucceeded.1 = .ok {} ∧
    (grabSucceeded.2.trace.filter Ev.isLockCall).getLast? = some (.lockCall false) ∧
    (getParameter "TLParamsLocked" grabSucceeded.2.p).1 = .ok "0" ∧
    grabSucceeded.2.isAcquiring = false :=
  ⟨by decide!, by decide!, by decide!, by decide!, by decide!, by decide!, by decide!,
   by decide!, by decide!, by decide!, by decide!, by decide!, by decide!, by decide!⟩

/-! ## The buffer ring: allocation and queueing -/

theorem bind_ok_inv {σ α β : Type} {m : M σ α} {f : α → M σ β} {s t : σ} {b : β}
    (h : (m >>= f) s = (.ok b, t)) : ∃ a u, m s = (.ok a, u) ∧ f a u = (.ok b, t) := by
  rw [bind_run] at h
  cases hm : m s with
  | mk r u =>
    rw [hm] at h
    cases r with
    | ok a => exact ⟨a, u, rfl, h⟩
    | error e => simp at h

theorem stable_avoids (P : Ev → Bool) : Stable (Avoids P) :=
  ⟨fun _ => ⟨[], by simp, by simp⟩, fun s t u h1 h2 => by
    obtain ⟨l1, e1, q1⟩ := h1
    obtain ⟨l2, e2, q2⟩ := h2
    refine ⟨l1 ++ l2, by rw [e2, e1, List.append_assoc], ?_⟩
    intro e he
    rcases List.mem_append.mp he with h | h
    · exact q1 e h
    · exact q2 e h⟩

theorem stable_settled (P : Ev → Bool) : Stable (Settled P) :=
  ⟨fun _ => ⟨(stable_avoids P).refl _, rfl, rfl⟩, fun _ _ _ h1 h2 =>
    ⟨(stable_avoids P).trans _ _ _ h1.1 h2.1, h2.2.1.trans h1.2.1, h2.2.2.trans h1.2.2⟩⟩

theorem avoids_tlCall (P : Ev → Bool) (env : TLEnv) (c : TLCall) (hc : P (.tl c) = false) :
    Preserves (Avoids P) (tlCall env c) :=
  fun _ => ⟨[_], rfl, by simp [hc]⟩

theorem avoids_logEv (P : Ev → Bool) (e : Ev) (he : P e = false) :
    Preserves (Avoids P) (logEv e) :=
  fun _ => ⟨[_], rfl, by simp [he]⟩

theorem avoids_liftP (P : Ev → Bool) {α : Type} (m : PM α) : Preserves (Avoids P) (liftP m) :=
  fun _ => ⟨[], by simp, by simp⟩

theorem avoids_modS (P : Ev → Bool) (f : St → St) (h : ∀ s, (f s).trace = s.trace) :
    Preserves (Avoids P) (modS f) := by
  intro s
  exact ⟨[], by simp [modS_run, h s], by simp⟩

theorem settled_tlCall (P : Ev → Bool) (env : TLEnv) (c : TLCall) (hc : P (.tl c) = false) :
    Preserves (Settled P) (tlCall env c) :=
  fun s => ⟨avoids_tlCall P env c hc s, rfl, rfl⟩

theorem settled_liftP (P : Ev → Bool) {α : Type} (m : PM α) :
    Preserves (Settled P) (liftP m) :=
  fun s => ⟨avoids_liftP P m s, rfl, rfl⟩

theorem settled_modS (P : Ev → Bool) (f : St → St)
    (h : ∀ s, (f s).trace = s.trace ∧ (f s).bufferHandles = s.bufferHandles ∧
      (f s).dsHandle = s.dsHandle) : Preserves (Settled P) (modS f) :=
  fun s => ⟨avoids_modS P f (fun s => (h s).1) s, (h s).2.1, (h s).2.2⟩

/-- The clean-up loop of the producer allocation revokes each handle of the
list once, in order, and nothing else happens. -/
theorem revokeProducerLoop_run (env : TLEnv) (handles : List Nat) (u : St) :
    revokeProducerLoop env handles u =
      (.ok (), { u with
        trace := u.trace ++ handles.map (fun h => .tl (.DSRevokeBuffer u.dsHandle h)) }) := by
  induction handles generalizing u with
  | nil => simp [revokeProducerLoop]
  | cons h rest ih =>
    unfold revokeProducerLoop
    simp only [bind_run, getS_run, tlCall]
    rw [ih]
    simp

/-- The first loop of `allocateBuffers` when its `n` calls succeed: the
handles handed out are appended to the ring, in order. -/
theorem producerLoop_ok (env : TLEnv) (size n : Nat) (u : St)
    (h : ∀ i, i < n → env.err (u.trace.length + i) = 0) :
    producerLoop env size n u =
      (.ok true, { u with
        bufferHandles := u.bufferHandles ++ handlesFrom env u.trace.length n
        trace := u.trace ++ List.replicate n (.tl (.DSAllocAndAnnounceBuffer u.dsHandle size)) })
    := by
  induction n generalizing u with
  | zero => simp [producerLoop, handlesFrom]
  | succ n ih =>
    unfold producerLoop
    have h0 : env.err u.trace.length = 0 := by simpa using h 0 (by omega)
    simp only [bind_run, getS_run, tlCall, h0, if_true, modS_run]
    rw [ih]
    · simp only [handlesFrom, List.length_append, List.length_singleton, List.range'_succ,
        List.map_cons, List.replicate_succ, List.append_assoc, List.singleton_append]
    · intro i hi
      have := h (i + 1) (by omega)
      simp only [List.length_append, List.length_singleton]
      rw [← this]
      congr 1
      omega

/-- The first loop of `allocateBuffers` when its first `j` calls succeed and
the next one fails: the `j` handles obtained, and those the ring held, are
revoked once each, in order, and the ring is emptied. -/
theorem producerLoop_fail (env : TLEnv) (size n j : Nat) (u : St) (hj : j < n)
    (h : ∀ i, i < j → env.err (u.trace.length + i) = 0)
    (hf : env.err (u.trace.length + j) ≠ 0) :
    producerLoop env size n u = (.ok false, producerFailed env size j u) := by
  unfold producerFailed
  induction n generalizing u j with
  | zero => omega
  | succ n ih =>
    unfold producerLoop
    cases j with
    | zero =>
      have h0 : env.err u.trace.length ≠ 0 := by simpa using hf
      simp only [bind_run, getS_run, tlCall, h0, if_false, modS_run, revokeProducerLoop_run,
        pure_run]
      simp [handlesFrom]
    | succ j =>
      have h0 : env.err u.trace.length = 0 := by simpa using h 0 (by omega)
      simp only [bind_run, getS_run, tlCall, h0, if_true, modS_run]
      rw [ih j _ (by omega)]
      · simp [handlesFrom, List.range'_succ, List.replicate_succ]
      · intro i hi
        have := h (i + 1) (by omega)
        simp only [List.length_append, List.length_singleton]
        rw [← this]
        congr 1
        omega
      · simp only [List.length_append, List.length_singleton]
        intro hc
        apply hf
        rw [← hc]
        congr 1
        omega

/-- The second loop of `allocateBuffers` when its `n` turns succeed: the
buffers are allocated zero-filled with the aligned size, announced, and the
handles handed out are appended to the ring, in order. -/
theorem manualLoop_ok (env : TLEnv) (size n alignment : Nat) (u : St)
    (h : ∀ i, i < n → env.mallocFails (u.trace.length + i) = false ∧
      env.err (u.trace.length + i) = 0) :
    manualLoop env size n alignment u =
      (.ok (), { u with
        bufferHandles := u.bufferHandles ++ handlesFrom env u.trace.length n
        alignedBuffers := u.alignedBuffers ++ manualBuffers size n alignment
        trace := u.trace ++ List.replicate n (.tl (.DSAnnounceBuffer u.dsHandle size)) }) := by
  induction n generalizing u alignment with
  | zero => simp [manualLoop, handlesFrom, manualBuffers]
  | succ n ih =>
    unfold manualLoop
    have h0 := h 0 (by omega)
    simp only [Nat.add_zero] at h0
    simp only [bind_run, getS_run, h0.1, Bool.false_eq_true, if_false, modS_run, tlCall, h0.2,
      ne_eq, not_true_eq_false]
    rw [ih]
    · simp [handlesFrom, List.range'_succ, List.replicate_succ, manualBuffers]
    · intro i hi
      have := h (i + 1) (by omega)
      simp only [List.length_append, List.length_singleton]
      rw [show u.trace.length + 1 + i = u.trace.length + (i + 1) by omega]
      exact this

/-- The second loop of `allocateBuffers` when one of its turns fails, at the
allocation or at the announcement: the call fails with `BufferError` and the
ring is empty. -/
theorem manualLoop_fail (env : TLEnv) (size n j alignment : Nat) (u : St) (hj : j < n)
    (h : ∀ i, i < j → env.mallocFails (u.trace.length + i) = false ∧
      env.err (u.trace.length + i) = 0)
    (hf : env.mallocFails (u.trace.length + j) = true ∨ env.err (u.trace.length + j) ≠ 0) :
    ∃ code v, manualLoop env size n alignment u = (.error (.genicam .BufferError code), v) ∧
      v.bufferHandles = [] ∧ v.alignedBuffers = [] ∧ v.dsHandle = u.dsHandle := by
  induction n generalizing u j alignment with
  | zero => omega
  | succ n ih =>
    unfold manualLoop
    cases j with
    | zero =>
      simp only [Nat.add_zero] at hf
      by_cases hm : env.mallocFails u.trace.length = true
      · simp only [bind_run, getS_run, hm, if_true]
        have hfree := freeBuffers_spec env u
        rw [hfree.1]
        exact ⟨0, _, rfl, hfree.2.1, hfree.2.2.1, hfree.2.2.2.2.1⟩
      · have he : env.err u.trace.length ≠ 0 := by
          rcases hf with h1 | h1
          · exact absurd h1 hm
          · exact h1
        simp only [bind_run, getS_run, hm, Bool.false_eq_true, if_false, modS_run, tlCall, ne_eq,
          he, not_false_eq_true, if_true]
        have hfree := freeBuffers_spec env
          { u with
            alignedBuffers := u.alignedBuffers ++
              [{ size := size, alignment := fixAlignment alignment, zeroed := true }]
            trace := u.trace ++ [.tl (.DSAnnounceBuffer u.dsHandle size)] }
        rw [hfree.1]
        exact ⟨_, _, rfl, hfree.2.1, hfree.2.2.1, hfree.2.2.2.2.1⟩
    | succ j =>
      have h0 := h 0 (by omega)
      simp only [Nat.add_zero] at h0
      simp only [bind_run, getS_run, h0.1, Bool.false_eq_true, if_false, modS_run, tlCall, h0.2,
        ne_eq, not_true_eq_false]
      have hstep := ih j (fixAlignment alignment)
        { u with
          bufferHandles := u.bufferHandles ++ [env.num u.trace.length + 1]
          alignedBuffers := u.alignedBuffers ++
            [{ size := size, alignment := fixAlignment alignment, zeroed := true }]
          trace := u.trace ++ [.tl (.DSAnnounceBuffer u.dsHandle size)] }
        (by omega)
        (fun i hi => by
          have := h (i + 1) (by omega)
          simp only [List.length_append, List.length_singleton]
          rw [show u.trace.length + 1 + i = u.trace.length + (i + 1) by omega]
          exact this)
        (by
          simp only [List.length_append, List.length_singleton]
          rw [show u.trace.length + 1 + j = u.trace.length + (j + 1) by omega]
          exact hf)
      exact hstep

/-- The loop of `startAcquisition` that queues the ring when every call
succeeds: each handle is queued once, in order, and nothing else happens. -/
theorem queueLoop_ok (env : TLEnv) (handles : List Nat) (u : St)
    (h : ∀ i, i < handles.length → env.err (u.trace.length + i) = 0) :
    queueLoop env handles u =
      (.ok (), { u with
        trace := u.trace ++ handles.map (fun hb => .tl (.DSQueueBuffer u.dsHandle hb)) }) := by
  induction handles generalizing u with
  | nil => simp [queueLoop]
  | cons hb rest ih =>
    unfold queueLoop
    have h0 : env.err u.trace.length = 0 := by simpa using h 0 (by simp)
    simp only [bind_run, getS_run, tlCall, h0, ne_eq, not_true_eq_false, if_false]
    rw [ih]
    · simp
    · intro i hi
      have := h (i + 1) (by simp; omega)
      simp only [List.length_append, List.length_singleton]
      rw [show u.trace.length + 1 + i = u.trace.length + (i + 1) by omega]
      exact this

/-- When the loop that queues the ring returns, every call has succeeded. -/
theorem queueLoop_ok_inv (env : TLEnv) (handles : List Nat) (u v : St)
    (hrun : queueLoop env handles u = (.ok (), v)) :
    ∀ i, i < handles.length → env.err (u.trace.length + i) = 0 := by
  induction handles generalizing u with
  | nil => intro i hi; simp at hi
  | cons hb rest ih =>
    unfold queueLoop at hrun
    simp only [bind_run, getS_run, tlCall] at hrun
    by_cases h0 : env.err u.trace.length = 0
    · simp only [h0, ne_eq, not_true_eq_false, if_false] at hrun
      have hrest := ih _ hrun
      intro i hi
      cases i with
      | zero => simpa using h0
      | succ i =>
        have := hrest i (by simpa using hi)
        simp only [List.length_append, List.length_singleton] at this
        rw [show u.trace.length + (i + 1) = u.trace.length + 1 + i by omega]
        exact this
    · simp [h0] at hrun

theorem allocateBuffers_unfold (env : TLEnv) (count : Nat) (u : St) (hc : count ≠ 0) :
    allocateBuffers env count u =
      (producerLoop env (allocSize env u) count >>= fun useProducerAllocation =>
        if useProducerAllocation then pure ()
        else manualLoop env (allocSize env u) count (allocAlignment env u)) (allocStart env u) := by
  have hfree := (freeBuffers_spec env u).1
  unfold allocateBuffers allocStart allocSize allocAlignment
  rw [if_neg hc]
  cases hf : freeBuffers env u with
  | mk r t =>
    rw [hf] at hfree
    cases r with
    | error e => simp at hfree
    | ok a =>
      simp only [bind_run, hf, modS_run, getS_run, tlCall]

theorem exists_first_bad (P : Nat → Prop) (n : Nat) (h : ¬ ∀ i, i < n → P i) :
    ∃ j, j < n ∧ (∀ i, i < j → P i) ∧ ¬ P j := by
  induction n with
  | zero => exact absurd (fun i hi => absurd hi (Nat.not_lt_zero i)) h
  | succ n ih =>
    by_cases hn : ∀ i, i < n → P i
    · refine ⟨n, by omega, hn, fun hp => h ?_⟩
      intro i hi
      rcases Nat.lt_succ_iff_lt_or_eq.mp hi with h1 | h1
      · exact hn i h1
      · rw [h1]; exact hp
    · obtain ⟨j, hj, h1, h2⟩ := ih hn
      exact ⟨j, by omega, h1, h2⟩

theorem manualBuffers_spec (size n alignment : Nat) :
    (manualBuffers size n alignment).length = n ∧
    ∀ b ∈ manualBuffers size n alignment, b.size = size ∧ b.zeroed = true := by
  induction n generalizing alignment with
  | zero => simp [manualBuffers]
  | succ n ih =>
    simp only [manualBuffers, List.length_cons, List.mem_cons]
    refine ⟨by rw [(ih _).1], ?_⟩
    intro b hb
    rcases hb with h | h
    · rw [h]; exact ⟨rfl, rfl⟩
    · exact (ih _).2 b h

theorem handlesFrom_length (env : TLEnv) (k n : Nat) : (handlesFrom env k n).length = n := by
  simp [handlesFrom]

theorem avoids_revokeLoop (P : Ev → Bool) (env : TLEnv)
    (hR : ∀ ds h, P (.tl (.DSRevokeBuffer ds h)) = false) (handles : List Nat) :
    Preserves (Avoids P) (revokeLoop env handles) := by
  have hS := stable_avoids P
  induction handles with
  | nil => exact preserves_pure hS _
  | cons hBuffer rest ih =>
    unfold revokeLoop
    repeat' with_reducible first
      | exact preserves_pure hS _
      | exact preserves_getS hS
      | exact avoids_tlCall P env _ (hR _ _)
      | exact ih
      | apply preserves_bind hS
      | apply preserves_ite
      | intro _

theorem avoids_freeBuffers (P : Ev → Bool) (env : TLEnv)
    (hR : ∀ ds h, P (.tl (.DSRevokeBuffer ds h)) = false) (hF : P .freeBuffersCall = false) :
    Preserves (Avoids P) (freeBuffers env) := by
  have hS := stable_avoids P
  unfold freeBuffers
  repeat' with_reducible first
    | exact preserves_getS hS
    | exact avoids_logEv P _ hF
    | exact avoids_revokeLoop P env hR _
    | exact avoids_modS P _ (fun _ => rfl)
    | apply preserves_bind hS
    | intro _

theorem allocStart_spec (P : Ev → Bool) (env : TLEnv) (u : St)
    (hR : ∀ ds h, P (.tl (.DSRevokeBuffer ds h)) = false) (hF : P .freeBuffersCall = false)
    (hI : ∀ ds c, P (.tl (.DSGetInfo ds c)) = false) :
    (allocStart env u).bufferHandles = [] ∧ (allocStart env u).alignedBuffers = [] ∧
    (allocStart env u).dsHandle = u.dsHandle ∧ Avoids P u (allocStart env u) := by
  refine ⟨rfl, rfl, (freeBuffers_spec env u).2.2.2.2.1, ?_⟩
  obtain ⟨l, hl, hq⟩ := avoids_freeBuffers P env hR hF u
  refine ⟨l ++ [.tl (.DSGetInfo (freeBuffers env u).2.dsHandle .STREAM_INFO_BUF_ALIGNMENT)], ?_, ?_⟩
  · simp only [allocStart]
    rw [hl, List.append_assoc]
  · intro e he
    rcases List.mem_append.mp he with h | h
    · exact hq e h
    · simp only [List.mem_singleton] at h
      rw [h]
      exact hI _ _

/-- What a successful `allocateBuffers(count)` leaves: the last `count` events
of the trace are announcements of one kind, all on the stream and with the
aligned size, all successful, and the ring holds the handles they handed out,
in order; nothing was queued on the way. -/
theorem allocateBuffers_ok_inv (env : TLEnv) (count : Nat) (u v : St)
    (hrun : allocateBuffers env count u = (.ok (), v)) :
    count ≠ 0 ∧ v.dsHandle = u.dsHandle ∧
    ∃ pre annEv, v.trace = u.trace ++ pre ++ List.replicate count annEv ∧
      (annEv = .tl (.DSAllocAndAnnounceBuffer u.dsHandle (allocSize env u)) ∨
        annEv = .tl (.DSAnnounceBuffer u.dsHandle (allocSize env u))) ∧
      (∀ e ∈ pre, e.isQueue = false) ∧
      v.bufferHandles = handlesFrom env (u.trace.length + pre.length) count ∧
      (∀ i, i < count → env.err (u.trace.length + pre.length + i) = 0) := by
  have hc : count ≠ 0 := by
    intro h0
    rw [h0] at hrun
    simp [allocateBuffers] at hrun
  refine ⟨hc, ?_⟩
  rw [allocateBuffers_unfold env count u hc, bind_run] at hrun
  obtain ⟨hring, _, hds, l0, hl0, hq0⟩ :=
    allocStart_spec Ev.isQueue env u (fun _ _ => rfl) rfl (fun _ _ => rfl)
  by_cases hall : ∀ i, i < count → env.err ((allocStart env u).trace.length + i) = 0
  · rw [producerLoop_ok env _ count _ hall] at hrun
    simp only [if_true, pure_run, Prod.mk.injEq, true_and] at hrun
    subst hrun
    refine ⟨hds, l0,
      .tl (.DSAllocAndAnnounceBuffer (allocStart env u).dsHandle (allocSize env u)), ?_,
      Or.inl (by rw [hds]), hq0, ?_, ?_⟩
    · simp only [hl0]
    · simp only [hring, List.nil_append, hl0, List.length_append]
    · intro i hi
      have := hall i hi
      rw [hl0, List.length_append] at this
      exact this
  · obtain ⟨j, hj, hgood, hbad⟩ := exists_first_bad _ count hall
    rw [producerLoop_fail env _ count j _ hj hgood hbad] at hrun
    simp only [Bool.false_eq_true, if_false] at hrun
    have hpre : ∃ pre, (producerFailed env (allocSize env u) j (allocStart env u)).trace =
        u.trace ++ pre ∧ ∀ e ∈ pre, e.isQueue = false := by
      refine ⟨l0 ++ List.replicate (j + 1)
          (Ev.tl (.DSAllocAndAnnounceBuffer (allocStart env u).dsHandle (allocSize env u))) ++
          ((allocStart env u).bufferHandles ++
            handlesFrom env (allocStart env u).trace.length j).map
            (fun h => Ev.tl (.DSRevokeBuffer (allocStart env u).dsHandle h)), ?_, ?_⟩
      · simp only [producerFailed, hl0, List.append_assoc]
      · intro e he
        simp only [List.mem_append, List.mem_replicate, List.mem_map] at he
        rcases he with (h | h) | h
        · exact hq0 e h
        · rw [h.2]; rfl
        · obtain ⟨a, _, ha⟩ := h
          rw [← ha]; rfl
    obtain ⟨pre, htrace, hqpre⟩ := hpre
    have hWring : (producerFailed env (allocSize env u) j (allocStart env u)).bufferHandles =
        [] := rfl
    have hWds : (producerFailed env (allocSize env u) j (allocStart env u)).dsHandle =
        u.dsHandle := hds
    generalize producerFailed env (allocSize env u) j (allocStart env u) = W
      at hrun htrace hWring hWds
    have hlen : W.trace.length = u.trace.length + pre.length := by
      rw [htrace, List.length_append]
    by_cases hman : ∀ i, i < count →
        env.mallocFails (W.trace.length + i) = false ∧ env.err (W.trace.length + i) = 0
    · rw [manualLoop_ok env _ count _ W hman] at hrun
      simp only [Prod.mk.injEq, true_and] at hrun
      subst hrun
      refine ⟨hWds, pre, .tl (.DSAnnounceBuffer W.dsHandle (allocSize env u)), ?_,
        Or.inr (by rw [hWds]), hqpre, ?_, ?_⟩
      · simp only [htrace]
      · simp only [hWring, List.nil_append, hlen]
      · intro i hi
        rw [← hlen]
        exact (hman i hi).2
    · exfalso
      obtain ⟨i, hi, hgood2, hbad2⟩ := exists_first_bad _ count hman
      have hbad3 : env.mallocFails (W.trace.length + i) = true ∨
          env.err (W.trace.length + i) ≠ 0 := by
        by_cases hm : env.mallocFails (W.trace.length + i) = true
        · exact Or.inl hm
        · right
          intro he
          exact hbad2 ⟨by simpa using hm, he⟩
      obtain ⟨code, w, hfail, -⟩ := manualLoop_fail env (allocSize env u) count i
        (allocAlignment env u) W hi hgood2 hbad3
      rw [hfail] at hrun
      simp at hrun

theorem avoids_startAcquisitionOpen (env : TLEnv) :
    Preserves (Avoids Ev.isQueue)
      (startAcquisitionOpen env) := by
  have hS := stable_avoids Ev.isQueue
  unfold startAcquisitionOpen setTransportLayerLock openDataStream determinePayloadSize
  repeat' with_reducible first
    | exact preserves_pure hS _
    | exact preserves_raise hS _
    | exact preserves_getS hS
    | exact avoids_liftP _ _
    | exact avoids_modS _ _ (fun _ => rfl)
    | apply preserves_bind hS
    | apply preserves_ite
    | intro _
  all_goals first
    | exact avoids_tlCall _ env _ rfl
    | exact avoids_logEv _ _ rfl

theorem settled_startAcquisitionClose (env : TLEnv) :
    Preserves (Settled Ev.isQueueOrRevoke)
      (registerNewBufferEvent env >>= fun _ =>
        startStream env >>= fun _ =>
        issueAcquisitionStart >>= fun _ => startAcquisitionCommit) := by
  have hS := stable_settled Ev.isQueueOrRevoke
  unfold registerNewBufferEvent startStream issueAcquisitionStart startAcquisitionCommit
  repeat' with_reducible first
    | exact preserves_pure hS _
    | exact preserves_raise hS _
    | exact preserves_getS hS
    | exact settled_liftP _ _
    | exact settled_modS _ _ (fun _ => ⟨rfl, rfl, rfl⟩)
    | apply preserves_bind hS
    | apply preserves_tryCatchIf hS
    | apply preserves_ite
    | intro _
    | split
  all_goals exact settled_tlCall _ env _ rfl

/-- A call of `startAcquisition` that returns has run its steps to the end. -/
theorem startAcquisition_ok_chain (env : TLEnv) (bufferCount : Nat) (s s1 : St)
    (hrun : startAcquisition env bufferCount s = (.ok (), s1)) :
    ∃ u2 u3 u4, startAcquisitionOpen env s = (.ok (), u2) ∧
      allocateBuffers env bufferCount u2 = (.ok (), u3) ∧
      queueAllBuffers env u3 = (.ok (), u4) ∧
      (registerNewBufferEvent env >>= fun _ =>
        startStream env >>= fun _ =>
        issueAcquisitionStart >>= fun _ => startAcquisitionCommit) u4 = (.ok (), s1) := by
  unfold startAcquisition at hrun
  simp only [bind_run, getS_run] at hrun
  split at hrun
  · simp at hrun
  split at hrun
  · simp at hrun
  rw [tryCatchIf_run] at hrun
  cases hbody : (startAcquisitionSteps env bufferCount >>= fun _ => startAcquisitionCommit) s with
  | mk r t =>
    rw [hbody] at hrun
    cases r with
    | error e =>
      simp only at hrun
      split at hrun
      · obtain ⟨s2, h2, -⟩ := startAcquisitionRollback_spec env e t
        rw [h2] at hrun
        simp at hrun
      · simp at hrun
    | ok a =>
      simp only [Prod.mk.injEq, true_and] at hrun
      subst hrun
      simp only [startAcquisitionSteps, startAcquisitionFill, bind_assoc_run] at hbody
      obtain ⟨_, v1, h1, hbody⟩ := bind_ok_inv hbody
      obtain ⟨_, v2, h2, hbody⟩ := bind_ok_inv hbody
      obtain ⟨_, v3, h3, hbody⟩ := bind_ok_inv hbody
      obtain ⟨_, v4, h4, hbody⟩ := bind_ok_inv hbody
      obtain ⟨_, v5, h5, hbody⟩ := bind_ok_inv hbody
      obtain ⟨_, v6, h6, hbody⟩ := bind_ok_inv hbody
      refine ⟨v4, v5, v6, ?_, h5, h6, hbody⟩
      simp only [startAcquisitionOpen, bind_run, h1, h2, h3, h4]

theorem get?_replicate_mid {α : Type} (A B : List α) (x : α) (n i : Nat) (hi : i < n) :
    (A ++ List.replicate n x ++ B).get? (A.length + i) = some x := by
  rw [List.get?_eq_getElem?, List.append_assoc, List.getElem?_append_right (by omega)]
  simp only [Nat.add_sub_cancel_left]
  rw [List.getElem?_append_left (by simpa using hi)]
  rw [List.getElem?_eq_getElem (by simpa using hi)]
  simp

theorem queueAllBuffers_ok_inv (env : TLEnv) (u v : St)
    (hrun : queueAllBuffers env u = (.ok (), v)) :
    v = { u with
      trace := u.trace ++ u.bufferHandles.map (fun hb => .tl (.DSQueueBuffer u.dsHandle hb)) }
    := by
  unfold queueAllBuffers at hrun
  simp only [bind_run, getS_run] at hrun
  have herr := queueLoop_ok_inv env _ u v hrun
  rw [queueLoop_ok env _ u herr] at hrun
  simp only [Prod.mk.injEq, true_and] at hrun
  exact hrun.symm

/-- C23: a call of `startAcquisition(bufferCount)` that succeeds was made with
`bufferCount > 0`; the ring then holds exactly `bufferCount` handles, which
are the handles handed out, in order, by `bufferCount` consecutive successful
announcements on the stream made during the call, none of them revoked
afterwards; and the buffers queued during the call are the handles of the
ring, each queued once, in order.  A call with `bufferCount = 0` never
succeeds, and when its steps before the allocation succeed it fails with
`BufferError`. -/
theorem startAcquisition_fills_ring (env : TLEnv) (bufferCount : Nat) (s : St) :
    (∀ s1, startAcquisition env bufferCount s = (.ok (), s1) →
      bufferCount ≠ 0 ∧ s1.bufferHandles.length = bufferCount ∧
      (∃ k size, s.trace.length ≤ k ∧ k + bufferCount ≤ s1.trace.length ∧
        s1.bufferHandles = handlesFrom env k bufferCount ∧
        (∀ i, i < bufferCount → env.err (k + i) = 0 ∧
          (s1.trace.get? (k + i) =
              some (.tl (.DSAllocAndAnnounceBuffer s1.dsHandle size)) ∨
            s1.trace.get? (k + i) = some (.tl (.DSAnnounceBuffer s1.dsHandle size)))) ∧
        ∀ e ∈ s1.trace.drop (k + bufferCount), e.isRevoke = false) ∧
      (newEvents s s1).filter Ev.isQueue =
        s1.bufferHandles.map (fun h => .tl (.DSQueueBuffer s1.dsHandle h))) ∧
    (bufferCount = 0 →
      (startAcquisition env bufferCount s).1 ≠ .ok () ∧
      ∀ u, isConnected s = true → s.isAcquiring = false →
        startAcquisitionOpen env s = (.ok (), u) →
        (startAcquisition env bufferCount s).1 = .error (.genicam .BufferError 0)) := by
  have hmain : ∀ s1, startAcquisition env bufferCount s = (.ok (), s1) →
      bufferCount ≠ 0 ∧ s1.bufferHandles.length = bufferCount ∧
      (∃ k size, s.trace.length ≤ k ∧ k + bufferCount ≤ s1.trace.length ∧
        s1.bufferHandles = handlesFrom env k bufferCount ∧
        (∀ i, i < bufferCount → env.err (k + i) = 0 ∧
          (s1.trace.get? (k + i) =
              some (.tl (.DSAllocAndAnnounceBuffer s1.dsHandle size)) ∨
            s1.trace.get? (k + i) = some (.tl (.DSAnnounceBuffer s1.dsHandle size)))) ∧
        ∀ e ∈ s1.trace.drop (k + bufferCount), e.isRevoke = false) ∧
      (newEvents s s1).filter Ev.isQueue =
        s1.bufferHandles.map (fun h => .tl (.DSQueueBuffer s1.dsHandle h)) := by
    intro s1 hrun
    obtain ⟨u2, u3, u4, hopen, halloc, hqueue, hclose⟩ :=
      startAcquisition_ok_chain env bufferCount s s1 hrun
    have hA := avoids_startAcquisitionOpen env s
    rw [hopen] at hA
    obtain ⟨lA, hlA, hqA⟩ := hA
    obtain ⟨hc, hds3, pre, annEv, htr3, hann, hqpre, hring3, herr3⟩ :=
      allocateBuffers_ok_inv env bufferCount u2 u3 halloc
    have hu4 := queueAllBuffers_ok_inv env u3 u4 hqueue
    have hS := settled_startAcquisitionClose env u4
    rw [hclose] at hS
    obtain ⟨⟨l, hl, hql⟩, hring1, hds1⟩ := hS
    have hring4 : u4.bufferHandles = u3.bufferHandles := by rw [hu4]
    have hds4 : u4.dsHandle = u3.dsHandle := by rw [hu4]
    have htr4 : u4.trace = u3.trace ++
        u3.bufferHandles.map (fun hb => .tl (.DSQueueBuffer u3.dsHandle hb)) := by rw [hu4]
    have hring : s1.bufferHandles = u3.bufferHandles := hring1.trans hring4
    have hds : s1.dsHandle = u3.dsHandle := hds1.trans hds4
    have htrace : s1.trace = s.trace ++ (lA ++ pre) ++ List.replicate bufferCount annEv ++
        (u3.bufferHandles.map (fun hb => Ev.tl (.DSQueueBuffer u3.dsHandle hb)) ++ l) := by
      rw [hl, htr4, htr3, hlA]
      simp only [List.append_assoc]
    have hk : (s.trace ++ (lA ++ pre)).length = u2.trace.length + pre.length := by
      rw [hlA]
      simp only [List.length_append]
      omega
    have hannq : annEv.isQueue = false ∧ annEv.isRevoke = false := by
      rcases hann with h | h <;> rw [h] <;> exact ⟨rfl, rfl⟩
    refine ⟨hc, ?_, ⟨u2.trace.length + pre.length, allocSize env u2, ?_, ?_, ?_, ?_, ?_⟩, ?_⟩
    · rw [hring, hring3, handlesFrom_length]
    · rw [hlA, List.length_append]
      omega
    · rw [htrace, ← hk]
      simp only [List.length_append, List.length_replicate]
      omega
    · rw [hring, hring3]
    · intro i hi
      refine ⟨herr3 i hi, ?_⟩
      have hget : s1.trace.get? (u2.trace.length + pre.length + i) = some annEv := by
        rw [htrace, ← hk]
        exact get?_replicate_mid _ _ annEv bufferCount i hi
      rw [hget, hds, hds3]
      rcases hann with h | h
      · exact Or.inl (by rw [h])
      · exact Or.inr (by rw [h])
    · intro e he
      have hdrop : s1.trace.drop (u2.trace.length + pre.length + bufferCount) =
          u3.bufferHandles.map (fun hb => Ev.tl (.DSQueueBuffer u3.dsHandle hb)) ++ l := by
        rw [htrace]
        exact List.drop_left' (by rw [List.length_append, hk, List.length_replicate])
      rw [hdrop] at he
      rcases List.mem_append.mp he with h | h
      · obtain ⟨a, _, ha⟩ := List.mem_map.mp h
        rw [← ha]; rfl
      · have := hql e h
        simp only [Ev.isQueueOrRevoke, Bool.or_eq_false_iff] at this
        exact this.2
    · have hnew : newEvents s s1 = (lA ++ pre) ++ List.replicate bufferCount annEv ++
          (u3.bufferHandles.map (fun hb => Ev.tl (.DSQueueBuffer u3.dsHandle hb)) ++ l) := by
        unfold newEvents
        rw [htrace, List.append_assoc, List.append_assoc]
        rw [List.drop_left]
        simp only [List.append_assoc]
      rw [hnew, hring, hds]
      simp only [List.filter_append]
      have h1 : lA.filter Ev.isQueue = [] := List.filter_eq_nil_iff.mpr
        (fun e he => by simp [hqA e he])
      have h2 : pre.filter Ev.isQueue = [] := List.filter_eq_nil_iff.mpr
        (fun e he => by simp [hqpre e he])
      have h3 : (List.replicate bufferCount annEv).filter Ev.isQueue = [] :=
        List.filter_eq_nil_iff.mpr (fun e he => by
          rw [List.eq_of_mem_replicate he]
          simp [hannq.1])
      have h4 : l.filter Ev.isQueue = [] := List.filter_eq_nil_iff.mpr (fun e he => by
        have := hql e he
        simp only [Ev.isQueueOrRevoke, Bool.or_eq_false_iff] at this
        simp [this.1])
      have h5 : (u3.bufferHandles.map (fun hb => Ev.tl (.DSQueueBuffer u3.dsHandle hb))).filter
          Ev.isQueue = u3.bufferHandles.map (fun hb => Ev.tl (.DSQueueBuffer u3.dsHandle hb)) :=
        List.filter_eq_self.mpr (fun e he => by
          obtain ⟨a, _, ha⟩ := List.mem_map.mp he
          rw [← ha]; rfl)
      rw [h1, h2, h3, h4, h5]
      simp
  refine ⟨hmain, fun h0 => ⟨?_, ?_⟩⟩
  · intro hok
    have hrun : startAcquisition env bufferCount s =
        (.ok (), (startAcquisition env bufferCount s).2) := Prod.ext hok rfl
    exact (hmain _ hrun).1 h0
  · intro u hconn hidle hopen
    have hsteps : (startAcquisitionSteps env bufferCount >>= fun _ => startAcquisitionCommit) s =
        (.error (.genicam .BufferError 0), u) := by
      simp only [startAcquisitionSteps, startAcquisitionFill, bind_assoc_run]
      unfold startAcquisitionOpen at hopen
      obtain ⟨_, v1, h1, hopen⟩ := bind_ok_inv hopen
      obtain ⟨_, v2, h2, hopen⟩ := bind_ok_inv hopen
      obtain ⟨_, v3, h3, hopen⟩ := bind_ok_inv hopen
      simp only [bind_run, h1, h2, h3, hopen, h0, allocateBuffers, if_true, raise_run]
    obtain ⟨s2, h2, -⟩ := startAcquisitionRollback_spec env (.genicam .BufferError 0) u
    unfold startAcquisition
    rw [bind_run, getS_run]
    simp only [hconn, hidle, Bool.not_true, Bool.false_eq_true, if_false]
    rw [tryCatchIf_run, hsteps]
    simp [Exn.isCatchable, h2]

theorem startAcquisition_fills_ring_witness :
    startAcquisition streamEnv 2 streamConnected = (.ok (), streamAcquiring) ∧
    streamAcquiring.bufferHandles = [23, 24] ∧
    (newEvents streamConnected streamAcquiring).filter Ev.isQueue =
      streamAcquiring.bufferHandles.map (fun h => .tl (.DSQueueBuffer streamAcquiring.dsHandle h)) ∧
    startAcquisitionOpen streamEnv streamConnected = (.ok (), streamOpened) ∧
    (startAcquisition streamEnv 0 streamConnected).1 = .error (.genicam .BufferError 0) :=
  have hrun : startAcquisition streamEnv 2 streamConnected = (.ok (), streamAcquiring) := by
    decide!
  have hopen : startAcquisitionOpen streamEnv streamConnected = (.ok (), streamOpened) := by
    decide!
  ⟨hrun, by decide!,
    ((startAcquisition_fills_ring streamEnv 2 streamConnected).1 streamAcquiring hrun).2.2.2,
    hopen,
    ((startAcquisition_fills_ring streamEnv 0 streamConnected).2 rfl).2 streamOpened
      (by decide!) (by decide!) hopen⟩

/-! ## C26 and C27: the two strategies of `allocateBuffers` -/

theorem avoids_revokeProducerLoop (P : Ev → Bool) (env : TLEnv)
    (hR : ∀ ds h, P (.tl (.DSRevokeBuffer ds h)) = false) (handles : List Nat) :
    Preserves (Avoids P) (revokeProducerLoop env handles) := by
  intro u
  rw [revokeProducerLoop_run]
  refine ⟨_, rfl, ?_⟩
  intro e he
  obtain ⟨a, _, ha⟩ := List.mem_map.mp he
  rw [← ha]
  exact hR _ _

theorem avoids_producerLoop (P : Ev → Bool) (env : TLEnv) (size : Nat)
    (hR : ∀ ds h, P (.tl (.DSRevokeBuffer ds h)) = false)
    (hA : ∀ ds, P (.tl (.DSAllocAndAnnounceBuffer ds size)) = false) (n : Nat) :
    Preserves (Avoids P) (producerLoop env size n) := by
  have hS := stable_avoids P
  induction n with
  | zero => exact preserves_pure hS _
  | succ n ih =>
    unfold producerLoop
    repeat' with_reducible first
      | exact preserves_pure hS _
      | exact preserves_getS hS
      | exact avoids_tlCall P env _ (hA _)
      | exact avoids_revokeProducerLoop P env hR _
      | exact avoids_modS P _ (fun _ => rfl)
      | exact ih
      | apply preserves_bind hS
      | apply preserves_ite
      | intro _

theorem avoids_manualLoop (P : Ev → Bool) (env : TLEnv) (size : Nat)
    (hR : ∀ ds h, P (.tl (.DSRevokeBuffer ds h)) = false) (hF : P .freeBuffersCall = false)
    (hM : ∀ ds, P (.tl (.DSAnnounceBuffer ds size)) = false) (n alignment : Nat) :
    Preserves (Avoids P) (manualLoop env size n alignment) := by
  have hS := stable_avoids P
  induction n generalizing alignment with
  | zero => exact preserves_pure hS _
  | succ n ih =>
    unfold manualLoop
    repeat' with_reducible first
      | exact preserves_pure hS _
      | exact preserves_raise hS _
      | exact preserves_getS hS
      | exact avoids_tlCall P env _ (hM _)
      | exact avoids_freeBuffers P env hR hF
      | exact avoids_modS P _ (fun _ => rfl)
      | exact ih _
      | apply preserves_bind hS
      | apply preserves_ite
      | intro _

/-- Whatever the outcome, `allocateBuffers` announces buffers only with the
size `allocSize`. -/
theorem avoids_allocateBuffers (env : TLEnv) (count : Nat) (u : St) :
    Avoids (Ev.announcesOther (allocSize env u)) u (allocateBuffers env count u).2 := by
  by_cases hc : count = 0
  · rw [hc]
    simp only [allocateBuffers, if_true, raise_run]
    exact (stable_avoids _).refl u
  · rw [allocateBuffers_unfold env count u hc]
    have hstart := (allocStart_spec (Ev.announcesOther (allocSize env u)) env u
      (fun _ _ => rfl) rfl (fun _ _ => rfl)).2.2.2
    refine (stable_avoids _).trans _ _ _ hstart ?_
    have hR : ∀ ds h, Ev.announcesOther (allocSize env u) (.tl (.DSRevokeBuffer ds h)) = false :=
      fun _ _ => rfl
    have hA : ∀ ds, Ev.announcesOther (allocSize env u)
        (.tl (.DSAllocAndAnnounceBuffer ds (allocSize env u))) = false :=
      fun _ => by simp [Ev.announcesOther]
    have hM : ∀ ds, Ev.announcesOther (allocSize env u)
        (.tl (.DSAnnounceBuffer ds (allocSize env u))) = false :=
      fun _ => by simp [Ev.announcesOther]
    exact preserves_bind (stable_avoids _) (avoids_producerLoop _ env _ hR hA count)
      (fun b => preserves_ite (preserves_pure (stable_avoids _) _)
        (avoids_manualLoop _ env _ hR rfl hM count _)) (allocStart env u)

theorem freeBuffers_bufferSize (env : TLEnv) (u : St) :
    (freeBuffers env u).2.bufferSize = u.bufferSize := by
  have hloop : ∀ (l : List Nat) (t : St), (revokeLoop env l t).2.bufferSize = t.bufferSize := by
    intro l
    induction l with
    | nil => intro t; rfl
    | cons h rest ih =>
      intro t
      unfold revokeLoop
      simp only [bind_run, getS_run]
      by_cases hc : h ≠ 0 ∧ t.dsHandle ≠ 0
      · simp only [hc, and_self, if_true, bind_run, tlCall, pure_run, ne_eq, not_false_eq_true]
        rw [ih]
      · simp only [hc, if_false, pure_run]
        rw [ih]
  unfold freeBuffers
  simp only [bind_run, logEv, modS_run, getS_run]
  have h := hloop u.bufferHandles { u with trace := u.trace ++ [.freeBuffersCall] }
  cases hr : revokeLoop env u.bufferHandles { u with trace := u.trace ++ [.freeBuffersCall] } with
  | mk r t =>
    rw [hr] at h
    cases r with
    | ok a => exact h
    | error e => exact h

/-- The rounding of `allocateBuffers`: when `s + a - 1` fits 64 bits and `a`
is positive, the result is the least multiple of `a` not smaller than `s`. -/
theorem alignSize_spec (s a : Nat) (ha : 0 < a) (hfit : s + a - 1 < 2 ^ 64) :
    s ≤ alignSize s a ∧ alignSize s a < s + a ∧ a ∣ alignSize s a ∧
    ∀ m, a ∣ m → s ≤ m → alignSize s a ≤ m := by
  have hle : (s + a - 1) / a * a ≤ s + a - 1 := Nat.div_mul_le_self _ _
  have hval : alignSize s a = (s + a - 1) / a * a := by
    unfold alignSize
    rw [Nat.mod_eq_of_lt hfit, Nat.mod_eq_of_lt (by omega)]
  rw [hval]
  have hmod := Nat.div_add_mod (s + a - 1) a
  have hlt := Nat.mod_lt (s + a - 1) ha
  have hcomm : a * ((s + a - 1) / a) = (s + a - 1) / a * a := Nat.mul_comm _ _
  refine ⟨by omega, by omega, Dvd.intro_left _ rfl, ?_⟩
  intro m hdvd hsm
  obtain ⟨q, hq⟩ := hdvd
  rw [hq, Nat.mul_comm a q]
  apply Nat.mul_le_mul_right
  apply (Nat.div_le_iff_le_mul_add_pred ha).mpr
  have : s ≤ a * q := by rw [← hq]; exact hsm
  omega

/-- C26: in `allocateBuffers(count)`, when the first `j` producer-managed
allocations succeed and the next one fails (the `k`-th with `k = j + 1`), the
`j` handles obtained are revoked once each, in order, and the ring is emptied;
the ring is then filled by manual allocation.  When the `count` manual
allocations and announcements succeed, the call succeeds and the ring holds
exactly the `count` handles they handed out, each backed by a zero-filled
buffer of the aligned size owned by the caller.  When one of them fails, the
call fails with `BufferError`, and the ring and the list of buffers are empty.
-/
theorem allocateBuffers_falls_back (env : TLEnv) (count j : Nat) (u : St) (hj : j < count)
    (hgood : ∀ i, i < j → env.err ((allocStart env u).trace.length + i) = 0)
    (hbad : env.err ((allocStart env u).trace.length + j) ≠ 0) :
    producerLoop env (allocSize env u) count (allocStart env u) =
      (.ok false, producerFailed env (allocSize env u) j (allocStart env u)) ∧
    (producerFailed env (allocSize env u) j (allocStart env u)).bufferHandles = [] ∧
    (newEvents (allocStart env u)
        (producerFailed env (allocSize env u) j (allocStart env u))).filter Ev.isRevoke =
      (handlesFrom env (allocStart env u).trace.length j).map
        (fun h => .tl (.DSRevokeBuffer u.dsHandle h)) ∧
    ((∀ i, i < count →
        env.mallocFails
          ((producerFailed env (allocSize env u) j (allocStart env u)).trace.length + i) = false ∧
        env.err
          ((producerFailed env (allocSize env u) j (allocStart env u)).trace.length + i) = 0) →
      (allocateBuffers env count u).1 = .ok () ∧
      (allocateBuffers env count u).2.bufferHandles =
        handlesFrom env
          (producerFailed env (allocSize env u) j (allocStart env u)).trace.length count ∧
      (allocateBuffers env count u).2.bufferHandles.length = count ∧
      (allocateBuffers env count u).2.alignedBuffers.length = count ∧
      (∀ b ∈ (allocateBuffers env count u).2.alignedBuffers,
        b.size = allocSize env u ∧ b.zeroed = true) ∧
      newEvents (producerFailed env (allocSize env u) j (allocStart env u))
          (allocateBuffers env count u).2 =
        List.replicate count (.tl (.DSAnnounceBuffer u.dsHandle (allocSize env u)))) ∧
    ((∃ i, i < count ∧
        (env.mallocFails
          ((producerFailed env (allocSize env u) j (allocStart env u)).trace.length + i) = true ∨
        env.err
          ((producerFailed env (allocSize env u) j (allocStart env u)).trace.length + i) ≠ 0)) →
      ∃ code, (allocateBuffers env count u).1 = .error (.genicam .BufferError code) ∧
        (allocateBuffers env count u).2.bufferHandles = [] ∧
        (allocateBuffers env count u).2.alignedBuffers = []) := by
  have hc : count ≠ 0 := by omega
  obtain ⟨hring, haligned, hds, -⟩ :=
    allocStart_spec Ev.isQueue env u (fun _ _ => rfl) rfl (fun _ _ => rfl)
  have hprod := producerLoop_fail env (allocSize env u) count j (allocStart env u) hj hgood hbad
  have hrun : allocateBuffers env count u =
      manualLoop env (allocSize env u) count (allocAlignment env u)
        (producerFailed env (allocSize env u) j (allocStart env u)) := by
    rw [allocateBuffers_unfold env count u hc, bind_run, hprod]
    simp
  have hWds : (producerFailed env (allocSize env u) j (allocStart env u)).dsHandle =
      u.dsHandle := hds
  have hWal : (producerFailed env (allocSize env u) j (allocStart env u)).alignedBuffers =
      [] := haligned
  have hWring : (producerFailed env (allocSize env u) j (allocStart env u)).bufferHandles =
      [] := rfl
  refine ⟨hprod, rfl, ?_, ?_, ?_⟩
  · unfold newEvents
    simp only [producerFailed, hring, List.nil_append, List.append_assoc, List.drop_left,
      List.filter_append, hds]
    have h1 : (List.replicate (j + 1)
        (Ev.tl (.DSAllocAndAnnounceBuffer u.dsHandle (allocSize env u)))).filter Ev.isRevoke =
        [] := List.filter_eq_nil_iff.mpr (fun e he => by
      rw [List.eq_of_mem_replicate he]
      simp [Ev.isRevoke])
    rw [h1, List.nil_append]
    exact List.filter_eq_self.mpr (fun e he => by
      obtain ⟨a, _, ha⟩ := List.mem_map.mp he
      rw [← ha]; rfl)
  · intro hman
    rw [hrun, manualLoop_ok env _ count _ _ hman]
    simp only [hWring, hWal, hWds, List.nil_append]
    refine ⟨trivial, trivial, handlesFrom_length _ _ _, (manualBuffers_spec _ _ _).1,
      (manualBuffers_spec _ _ _).2, ?_⟩
    unfold newEvents
    simp only [List.drop_left]
  · rintro ⟨i, hi, hfail⟩
    have hnot : ¬ ∀ i, i < count →
        env.mallocFails
          ((producerFailed env (allocSize env u) j (allocStart env u)).trace.length + i) = false ∧
        env.err
          ((producerFailed env (allocSize env u) j (allocStart env u)).trace.length + i) = 0 := by
      intro hall
      have := hall i hi
      rcases hfail with h | h
      · rw [this.1] at h; cases h
      · exact h this.2
    obtain ⟨i0, hi0, hgood0, hbad0⟩ := exists_first_bad _ count hnot
    have hbad1 : env.mallocFails
          ((producerFailed env (allocSize env u) j (allocStart env u)).trace.length + i0) = true ∨
        env.err
          ((producerFailed env (allocSize env u) j (allocStart env u)).trace.length + i0) ≠ 0 := by
      by_cases hm : env.mallocFails
          ((producerFailed env (allocSize env u) j (allocStart env u)).trace.length + i0) = true
      · exact Or.inl hm
      · right
        intro he
        exact hbad0 ⟨by simpa using hm, he⟩
    obtain ⟨code, w, hfail2, h1, h2, -⟩ := manualLoop_fail env (allocSize env u) count i0
      (allocAlignment env u) _ hi0 hgood0 hbad1
    rw [hrun, hfail2]
    exact ⟨code, rfl, h1, h2⟩

theorem allocateBuffers_falls_back_witness :
    (allocStart (allocEnv [3] 64) ringSession).trace.length = 2 ∧
    (allocateBuffers (allocEnv [3] 64) 3 ringSession).1 = .ok () ∧
    (allocateBuffers (allocEnv [3] 64) 3 ringSession).2.bufferHandles.length = 3 ∧
    (∃ code, (allocateBuffers (allocEnv [3, 6] 64) 3 ringSession).1 =
        .error (.genicam .BufferError code) ∧
      (allocateBuffers (allocEnv [3, 6] 64) 3 ringSession).2.bufferHandles = [] ∧
      (allocateBuffers (allocEnv [3, 6] 64) 3 ringSession).2.alignedBuffers = []) := by
  have hlen : (allocStart (allocEnv [3] 64) ringSession).trace.length = 2 := by decide!
  have hlen2 : (allocStart (allocEnv [3, 6] 64) ringSession).trace.length = 2 := by decide!
  have hW : (producerFailed (allocEnv [3] 64) (allocSize (allocEnv [3] 64) ringSession) 1
      (allocStart (allocEnv [3] 64) ringSession)).trace.length = 5 := by decide!
  have hW2 : (producerFailed (allocEnv [3, 6] 64) (allocSize (allocEnv [3, 6] 64) ringSession) 1
      (allocStart (allocEnv [3, 6] 64) ringSession)).trace.length = 5 := by decide!
  have h1 := allocateBuffers_falls_back (allocEnv [3] 64) 3 1 ringSession (by decide)
    (fun i hi => by
      rw [hlen]
      have : i = 0 := by omega
      subst this
      decide)
    (by rw [hlen]; decide)
  have h2 := allocateBuffers_falls_back (allocEnv [3, 6] 64) 3 1 ringSession (by decide)
    (fun i hi => by
      rw [hlen2]
      have : i = 0 := by omega
      subst this
      decide)
    (by rw [hlen2]; decide)
  have hok := h1.2.2.2.1 (fun i hi => by
    rw [hW]
    have : i = 0 ∨ i = 1 ∨ i = 2 := by omega
    rcases this with h | h | h <;> subst h <;> exact ⟨by decide, by decide⟩)
  have hfail := h2.2.2.2.2 ⟨1, by decide, Or.inr (by rw [hW2]; decide)⟩
  exact ⟨hlen, hok.1, hok.2.2.1, hfail⟩

theorem allocateBuffers_trace (env : TLEnv) (count : Nat) (u : St) (hc : count ≠ 0) :
    ∃ l, (allocateBuffers env count u).2.trace =
      (freeBuffers env u).2.trace ++
        [.tl (.DSGetInfo u.dsHandle .STREAM_INFO_BUF_ALIGNMENT)] ++ l := by
  rw [allocateBuffers_unfold env count u hc]
  have hP : ∀ b, Preserves (Avoids (fun _ => false))
      (if b = true then (pure () : SM Unit)
        else manualLoop env (allocSize env u) count (allocAlignment env u)) :=
    fun b => preserves_ite (preserves_pure (stable_avoids _) _)
      (avoids_manualLoop _ env _ (fun _ _ => rfl) rfl (fun _ => rfl) count _)
  obtain ⟨l, hl, -⟩ := preserves_bind (stable_avoids (fun _ => false))
    (avoids_producerLoop _ env (allocSize env u) (fun _ _ => rfl) (fun _ => rfl) count)
    hP (allocStart env u)
  refine ⟨l, ?_⟩
  rw [hl]
  simp only [allocStart, (freeBuffers_spec env u).2.2.2.2.1]

/-- C27: `allocateBuffers` asks the stream for its buffer alignment and works
with the alignment `a` it reports, or with 64 when the query fails or reports
0; every buffer it announces, in either loop, is announced with the size `s'`
computed from the payload size `s`; and when `s + a - 1` fits 64 bits, `s'` is
the least multiple of `a` not smaller than `s`: `s ≤ s' < s + a`, `a` divides
`s'`, and no smaller multiple of `a` reaches `s`. -/
theorem allocateBuffers_aligned_size (env : TLEnv) (count : Nat) (u : St)
    (hfit : u.bufferSize + allocAlignment env u - 1 < 2 ^ 64) :
    (count ≠ 0 →
      (allocateBuffers env count u).2.trace.get? (freeBuffers env u).2.trace.length =
        some (.tl (.DSGetInfo u.dsHandle .STREAM_INFO_BUF_ALIGNMENT))) ∧
    allocAlignment env u =
      (if env.err (freeBuffers env u).2.trace.length ≠ 0 ∨
          env.num (freeBuffers env u).2.trace.length = 0 then 64
        else env.num (freeBuffers env u).2.trace.length) ∧
    (∀ ds sz, (.tl (.DSAllocAndAnnounceBuffer ds sz) ∈
          newEvents u (allocateBuffers env count u).2 ∨
        .tl (.DSAnnounceBuffer ds sz) ∈ newEvents u (allocateBuffers env count u).2) →
      sz = allocSize env u) ∧
    u.bufferSize ≤ allocSize env u ∧
    allocSize env u < u.bufferSize + allocAlignment env u ∧
    allocAlignment env u ∣ allocSize env u ∧
    (∀ m, allocAlignment env u ∣ m → u.bufferSize ≤ m → allocSize env u ≤ m) := by
  have hpos : 0 < allocAlignment env u := by
    unfold allocAlignment
    split
    · decide
    · rename_i h
      simp only [not_or, ne_eq, not_not] at h
      omega
  have hsize : allocSize env u = alignSize u.bufferSize (allocAlignment env u) := by
    unfold allocSize
    rw [freeBuffers_bufferSize]
  have hspec := alignSize_spec u.bufferSize (allocAlignment env u) hpos hfit
  rw [← hsize] at hspec
  refine ⟨?_, rfl, ?_, hspec.1, hspec.2.1, hspec.2.2.1, hspec.2.2.2⟩
  · intro hc
    obtain ⟨l, hl⟩ := allocateBuffers_trace env count u hc
    rw [hl, List.append_assoc, List.get?_eq_getElem?,
      List.getElem?_append_right (Nat.le_refl _)]
    simp
  · intro ds sz hmem
    obtain ⟨l, hl, hq⟩ := avoids_allocateBuffers env count u
    have hnew : newEvents u (allocateBuffers env count u).2 = l := by
      unfold newEvents
      rw [hl, List.drop_left]
    rw [hnew] at hmem
    rcases hmem with h | h
    · have := hq _ h
      simpa [Ev.announcesOther] using this
    · have := hq _ h
      simpa [Ev.announcesOther] using this

theorem allocateBuffers_aligned_size_witness :
    ringSession.bufferSize = 1000 ∧ allocAlignment (allocEnv [] 48) ringSession = 48 ∧
    allocAlignment (allocEnv [1] 48) ringSession = 64 ∧
    allocAlignment (allocEnv [] 0) ringSession = 64 ∧
    allocSize (allocEnv [] 48) ringSession = 1008 ∧
    (∀ m, allocAlignment (allocEnv [] 48) ringSession ∣ m → ringSession.bufferSize ≤ m →
      allocSize (allocEnv [] 48) ringSession ≤ m) :=
  ⟨rfl, by decide!, by decide!, by decide!, by decide!,
    (allocateBuffers_aligned_size (allocEnv [] 48) 3 ringSession (by decide!)).2.2.2.2.2.2⟩

/-! ## C24: the byte depth of the computed payload size -/

theorem bytesPerPixel_agrees_iff (pf : PixelFormat) :
    (bytesPerPixel pf : ℚ) = infoBytesPerPixel pf ↔ pf ∈ depthAgrees := by
  cases pf <;> simp [bytesPerPixel, infoBytesPerPixel, depthAgrees] <;> norm_num

theorem bufferLargeEnough_vga_iff (pf : PixelFormat) :
    bufferLargeEnough (640 * 480 * bytesPerPixel pf) 640 480 pf = true ↔ pf ∈ depthAgrees := by
  cases pf <;> decide

/-- C24, where the code takes the wrong depth.  The `switch` of
`startAcquisition` gives the depth of the table of `getPixelFormatInfo` for
the formats of `depthAgrees` and for no other, and for a 640 by 480 frame a
buffer of the computed size passes the size test of `convertBufferToMat` for
these formats and for no other.  `Mono14`, `BayerRG12` and `RGB16` are among
the others: with no stream payload size and no `PayloadSize` node
`startAcquisition` succeeds with a buffer size of 307200, one byte per pixel,
where the table has 2, 2 and 6 bytes and the decoder requires 614400, 614400
and 1843200. -/
theorem computed_payload_depth_below_decoder :
    (∀ pf, (bytesPerPixel pf : ℚ) = infoBytesPerPixel pf ↔ pf ∈ depthAgrees) ∧
    (∀ pf, bufferLargeEnough (640 * 480 * bytesPerPixel pf) 640 480 pf = true ↔
      pf ∈ depthAgrees) ∧
    (depthAcquiring "Mono14" 0x01100009).state = .Acquiring ∧
    (getPixelFormat (depthAcquiring "Mono14" 0x01100009).p).1 = .ok .Mono14 ∧
    (getROI (depthAcquiring "Mono14" 0x01100009).p).1 =
      .ok { x := 0, y := 0, width := 640, height := 480 } ∧
    (depthAcquiring "Mono14" 0x01100009).bufferSize = 307200 ∧
    infoBytesPerPixel .Mono14 = 2 ∧
    expectedSize .Mono14 640 480 = some 614400 ∧
    bufferLargeEnough 307200 640 480 .Mono14 = false ∧
    (getPixelFormat (depthAcquiring "BayerRG12" 0x01100011).p).1 = .ok .BayerRG12 ∧
    (depthAcquiring "BayerRG12" 0x01100011).bufferSize = 307200 ∧
    infoBytesPerPixel .BayerRG12 = 2 ∧
    expectedSize .BayerRG12 640 480 = some 614400 ∧
    (getPixelFormat (depthAcquiring "RGB16" 0x02300033).p).1 = .ok .RGB16 ∧
    (depthAcquiring "RGB16" 0x02300033).bufferSize = 307200 ∧
    infoBytesPerPixel .RGB16 = 6 ∧
    expectedSize .RGB16 640 480 = some 1843200 :=
  ⟨bytesPerPixel_agrees_iff, bufferLargeEnough_vga_iff,
   by decide!, by decide!, by decide!, by decide!, by decide!, by decide!, by decide!,
   by decide!, by decide!, by decide!, by decide!, by decide!, by decide!, by decide!,
   by decide!⟩

/-! ## C25: the feature-invalidation event in the delivery loop -/

theorem stable_sameFeatureHandle : Stable SameFeatureHandle :=
  ⟨fun _ => rfl, fun _ _ _ h1 h2 => h2.trans h1⟩

theorem respects_sameFeatureHandle (env : TLEnv) : Respects env SameFeatureHandle where
  stable := stable_sameFeatureHandle
  param := fun _ _ => rfl
  call := fun _ _ _ => rfl
  ring := fun _ _ _ _ => rfl
  free := fun _ => rfl

theorem sameFeatureHandle_tlCall (env : TLEnv) (c : TLCall) :
    Preserves SameFeatureHandle (tlCall env c) := fun _ => rfl

theorem sameFeatureHandle_modS (f : St → St)
    (h : ∀ s, (f s).featureEventHandle = s.featureEventHandle) :
    Preserves SameFeatureHandle (modS f) := fun s => h s

theorem sameFeatureHandle_deviceLoop (env : TLEnv) (cameraID : String) (tempIF n j : Nat) :
    Preserves SameFeatureHandle (deviceLoop env cameraID tempIF n j) := by
  have hS := stable_sameFeatureHandle
  have hC := sameFeatureHandle_tlCall env
  have hM := sameFeatureHandle_modS
  induction n generalizing j with
  | zero => exact preserves_pure hS _
  | succ n ih =>
    unfold deviceLoop
    repeat' with_reducible first
      | exact preserves_pure hS _
      | exact preserves_raise hS _
      | exact hC _
      | exact ih _
      | exact hM _ (fun _ => rfl)
      | apply preserves_bind hS
      | apply preserves_ite
      | intro _

theorem sameFeatureHandle_interfaceLoop (env : TLEnv) (cameraID : String) (n i : Nat) :
    Preserves SameFeatureHandle (interfaceLoop env cameraID n i) := by
  have hS := stable_sameFeatureHandle
  have hC := sameFeatureHandle_tlCall env
  induction n generalizing i with
  | zero => exact preserves_pure hS _
  | succ n ih =>
    unfold interfaceLoop
    repeat' with_reducible first
      | exact preserves_pure hS _
      | exact hC _
      | exact ih _
      | exact sameFeatureHandle_deviceLoop env cameraID _ _ _
      | apply preserves_bind hS
      | apply preserves_ite
      | intro _

theorem sameFeatureHandle_loadDescription (env : TLEnv) (urlString : List Char) :
    Preserves SameFeatureHandle (parseAndLoadXMLFromURL env urlString) ∧
    Preserves SameFeatureHandle (loadXMLFromDevice env) := by
  have hS := stable_sameFeatureHandle
  have hR := respects_sameFeatureHandle env
  have hC := sameFeatureHandle_tlCall env
  constructor
  · simp only [parseAndLoadXMLFromURL]
    repeat' with_reducible first
      | exact preserves_pure hS _
      | exact preserves_raise hS _
      | exact preserves_getS hS
      | exact hC _
      | exact resp_liftP hR _
      | apply preserves_bind hS
      | apply preserves_tryCatchIf hS
      | apply preserves_ite
      | intro _
      | split
  · simp only [loadXMLFromDevice]
    repeat' with_reducible first
      | exact preserves_pure hS _
      | exact preserves_raise hS _
      | exact preserves_getS hS
      | exact hC _
      | exact resp_liftP hR _
      | apply preserves_bind hS
      | apply preserves_ite
      | intro _

theorem sameFeatureHandle_connectRollback (env : TLEnv) (e : Exn) :
    Preserves SameFeatureHandle (connectRollback env e) := by
  have hS := stable_sameFeatureHandle
  have hC := sameFeatureHandle_tlCall env
  have hM := sameFeatureHandle_modS
  unfold connectRollback
  repeat' with_reducible first
    | exact preserves_pure hS _
    | exact preserves_raise hS _
    | exact preserves_getS hS
    | exact hC _
    | exact hM _ (fun _ => rfl)
    | apply preserves_bind hS
    | apply preserves_ite
    | intro _

theorem sameFeatureHandle_connect (env : TLEnv) (cameraID : String) :
    Preserves SameFeatureHandle (connect env cameraID) := by
  have hS := stable_sameFeatureHandle
  have hR := respects_sameFeatureHandle env
  have hC := sameFeatureHandle_tlCall env
  have hM := sameFeatureHandle_modS
  simp only [connect, connectBody, connectRollback, connectGenApi,
    registerFeatureInvalidationEvents]
  repeat' with_reducible first
    | exact preserves_pure hS _
    | exact preserves_raise hS _
    | exact preserves_getS hS
    | exact resp_liftP hR _
    | exact hC _
    | exact (sameFeatureHandle_loadDescription env _).1
    | exact (sameFeatureHandle_loadDescription env []).2
    | exact sameFeatureHandle_connectRollback env _
    | exact sameFeatureHandle_interfaceLoop env cameraID _ _
    | exact hM _ (fun _ => rfl)
    | apply preserves_bind hS
    | apply preserves_tryCatchIf hS
    | apply preserves_ite
    | intro _

theorem sameFeatureHandle_stopAcquisition (env : TLEnv) :
    Preserves SameFeatureHandle (stopAcquisition env) := by
  have hS := stable_sameFeatureHandle
  have hR := respects_sameFeatureHandle env
  have hC := sameFeatureHandle_tlCall env
  have hM := sameFeatureHandle_modS
  unfold stopAcquisition stopAcquisitionBody issueAcquisitionStop setTransportLayerLock logEv
  repeat' with_reducible first
    | exact preserves_pure hS _
    | exact preserves_raise hS _
    | exact preserves_getS hS
    | exact resp_liftP hR _
    | exact hC _
    | exact resp_freeBuffers hR
    | exact hM _ (fun _ => rfl)
    | apply preserves_bind hS
    | apply preserves_tryCatchIf hS
    | apply preserves_ite
    | intro _
    | split

theorem sameFeatureHandle_disconnect (env : TLEnv) :
    Preserves SameFeatureHandle (disconnect env) := by
  have hS := stable_sameFeatureHandle
  have hR := respects_sameFeatureHandle env
  have hC := sameFeatureHandle_tlCall env
  have hM := sameFeatureHandle_modS
  unfold disconnect unregisterFeatureInvalidationEvents
  repeat' with_reducible first
    | exact preserves_pure hS _
    | exact preserves_raise hS _
    | exact preserves_getS hS
    | exact resp_liftP hR _
    | exact hC _
    | exact sameFeatureHandle_stopAcquisition env
    | exact hM _ (fun _ => rfl)
    | apply preserves_bind hS
    | apply preserves_tryCatchIf hS
    | apply preserves_ite
    | intro _

theorem sameFeatureHandle_startAcquisition (env : TLEnv) (bufferCount : Nat) :
    Preserves SameFeatureHandle (startAcquisition env bufferCount) := by
  have hS := stable_sameFeatureHandle
  have hR := respects_sameFeatureHandle env
  have hC := sameFeatureHandle_tlCall env
  have hM := sameFeatureHandle_modS
  have hSteps : Preserves SameFeatureHandle (startAcquisitionSteps env bufferCount) :=
    preserves_weaken (sameSession_startAcquisitionSteps env bufferCount)
      fun s t h => h.2.2.2.2.2.2.2.2.2.1
  unfold startAcquisition startAcquisitionCommit startAcquisitionRollback
    setTransportLayerLock logEv
  repeat' with_reducible first
    | exact preserves_pure hS _
    | exact preserves_raise hS _
    | exact preserves_getS hS
    | exact resp_liftP hR _
    | exact hC _
    | exact hSteps
    | exact resp_freeBuffers hR
    | exact hM _ (fun _ => rfl)
    | apply preserves_bind hS
    | apply preserves_tryCatchIf hS
    | apply preserves_ite
    | intro _
    | split

theorem sameFeatureHandle_grabSingleFrame (env : TLEnv) (h : Helpers) (timeoutMs : Nat) :
    Preserves SameFeatureHandle (grabSingleFrame env h timeoutMs) := by
  have hS := stable_sameFeatureHandle
  have hR := respects_sameFeatureHandle env
  have hC := sameFeatureHandle_tlCall env
  have hM := sameFeatureHandle_modS
  unfold grabSingleFrame grabSingleFrameBody grabSingleFrameCleanup unwindSingleFrame
    waitAndDecode reportStreamCounters issueAcquisitionStartSingle configureSingleFrame
    setTransportLayerLock logEv openDataStream registerNewBufferEvent
  repeat' with_reducible first
    | exact preserves_pure hS _
    | exact preserves_raise hS _
    | exact preserves_getS hS
    | exact resp_liftP hR _
    | exact hC _
    | exact resp_freeBuffers hR
    | exact resp_allocateBuffers hR _
    | exact resp_queueAllBuffers hR
    | exact resp_determinePayloadSize hR
    | exact resp_startStream hR
    | exact hM _ (fun _ => rfl)
    | apply preserves_bind hS
    | apply preserves_tryCatchIf hS
    | apply preserves_ite
    | intro _
    | split

/-- No operation on the session assigns `m_featureEventHandle`: it is null in
every reachable session. -/
theorem featureEventHandle_of_reachable (s : St) (h : Reachable s) :
    s.featureEventHandle = 0 := by
  induction h with
  | fresh => rfl
  | connect env cameraID _ ih => exact (sameFeatureHandle_connect env cameraID _).trans ih
  | disconnect env _ ih => exact (sameFeatureHandle_disconnect env _).trans ih
  | startAcquisition env bufferCount _ ih =>
    exact (sameFeatureHandle_startAcquisition env bufferCount _).trans ih
  | stopAcquisition env _ ih => exact (sameFeatureHandle_stopAcquisition env _).trans ih
  | grabSingleFrame env h timeoutMs _ ih =>
    exact (sameFeatureHandle_grabSingleFrame env h timeoutMs _).trans ih
  | setEventListener l _ ih => exact ih
  | advanceClock d _ ih => exact ih
  | validateNodeMap _ ih => exact ih
  | getParameter parameterName _ ih => exact ih
  | setParameter parameterName value _ ih => exact ih
  | deliveryRefresh _ _ ih => exact ih

theorem stable_unpolled : Stable Unpolled :=
  ⟨fun _ => ⟨rfl, (stable_avoids _).refl _⟩, fun _ _ _ h1 h2 =>
    ⟨h2.1.trans h1.1, (stable_avoids _).trans _ _ _ h1.2 h2.2⟩⟩

theorem unpolled_tlCallD (env : TLEnv) (c : TLCall) (hc : Ev.isFeaturePoll (.tl c) = false) :
    Preserves Unpolled (tlCallD env c) :=
  fun d => ⟨rfl, avoids_tlCall _ env c hc d.process.session⟩

theorem unpolled_liftP {α : Type} (m : PM α) : Preserves Unpolled (liftD (liftS (liftP m))) :=
  fun d => ⟨rfl, avoids_liftP _ m d.process.session⟩

theorem unpolled_modS (f : Delivery → Delivery) (h : ∀ d, (f d).process = d.process) :
    Preserves Unpolled (modS f) := by
  intro d
  simp only [modS_run, Unpolled, h d]
  exact ⟨rfl, (stable_avoids _).refl _⟩

theorem unpolled_tell (n : Notice) (throws : Listener → Option Exn) :
    Preserves Unpolled (tell n throws) := by
  have hS := stable_unpolled
  unfold tell
  repeat' with_reducible first
    | exact preserves_pure hS _
    | exact preserves_raise hS _
    | exact preserves_getS hS
    | exact unpolled_modS _ (fun _ => rfl)
    | apply preserves_bind hS
    | intro _
    | split

theorem unpolled_waitForBuffer (env : TLEnv) (h : Helpers) (entryName : EnumEntry → String) :
    Preserves Unpolled (waitForBuffer env h entryName) := by
  have hS := stable_unpolled
  simp only [waitForBuffer, handleBuffer, processBuffer]
  repeat' with_reducible first
    | exact preserves_pure hS _
    | exact preserves_raise hS _
    | exact preserves_getS hS
    | exact unpolled_liftP _
    | exact unpolled_tell _ _
    | apply preserves_bind hS
    | apply preserves_tryCatchIf hS
    | apply preserves_ite
    | intro _
    | split
  all_goals exact unpolled_tlCallD env _ rfl

theorem probeFeatureEvents_idle (env : TLEnv) (d : Delivery)
    (hd : d.process.session.featureEventHandle = 0) :
    probeFeatureEvents env d = (.ok false, d) := by
  simp [probeFeatureEvents, hd]

theorem pollFeatureEvents_idle (env : TLEnv) (hasFeatureEvents : Bool) (d : Delivery)
    (hd : d.process.session.featureEventHandle = 0) :
    pollFeatureEvents env hasFeatureEvents d = (.ok (), d) := by
  simp [pollFeatureEvents, hd]

theorem unpolled_deliveryLoop (env : TLEnv) (h : Helpers) (entryName : EnumEntry → String)
    (hasFeatureEvents : Bool) (iterations : Nat) (d : Delivery)
    (hd : d.process.session.featureEventHandle = 0) :
    Unpolled d (deliveryLoop env h entryName hasFeatureEvents iterations d).2 := by
  induction iterations generalizing d with
  | zero => exact stable_unpolled.refl d
  | succ n ih =>
    simp only [deliveryLoop, bind_run, getS_run]
    by_cases hstop : d.process.session.stopAcquisition = true
    · simp only [hstop, if_true]
      exact stable_unpolled.refl d
    · simp only [hstop, Bool.false_eq_true, if_false, deliveryIteration, bind_run,
        pollFeatureEvents_idle env hasFeatureEvents d hd]
      have hw := unpolled_waitForBuffer env h entryName d
      cases hrun : waitForBuffer env h entryName d with
      | mk r d1 =>
        rw [hrun] at hw
        cases r with
        | ok a =>
          exact stable_unpolled.trans _ _ _ hw (ih d1 (hw.1.trans hd))
        | error e => exact hw

/-- C25, where the code never polls.  In every session reached through the
public operations `m_featureEventHandle` is null, because the registration at
connect stores its handle in `m_eventHandle`; so, whatever a parameter-layer
computation `m` (a cached reader, say) left in the parameter cache and
whatever the transport layer answers, the delivery thread finds no feature
events at its start and, however many iterations it runs, makes no call on a
feature event: no type query, no poll with timeout 0, no query of the
invalidated name. -/
theorem delivery_never_polls_feature_event (env : TLEnv) (h : Helpers)
    (entryName : EnumEntry → String) (iterations : Nat) (s : St) (hs : Reachable s)
    (α : Type) (m : PM α) (count : Nat) (notices : List Notice) :
    s.featureEventHandle = 0 ∧
    probeFeatureEvents env ⟨⟨(liftP m s).2, count⟩, notices⟩ =
      (.ok false, ⟨⟨(liftP m s).2, count⟩, notices⟩) ∧
    Avoids Ev.isFeaturePoll (liftP m s).2
      (acquisitionThreadFunction env h entryName iterations
        ⟨⟨(liftP m s).2, count⟩, notices⟩).2.process.session := by
  have hz := featureEventHandle_of_reachable s hs
  have hd : (⟨⟨(liftP m s).2, count⟩, notices⟩ : Delivery).process.session.featureEventHandle
      = 0 := hz
  refine ⟨hz, probeFeatureEvents_idle env _ hd, ?_⟩
  simp only [acquisitionThreadFunction, bind_run, probeFeatureEvents_idle env _ hd]
  exact (unpolled_deliveryLoop env h entryName false iterations _ hd).2

theorem reachable_pollSession : Reachable pollSession := by
  unfold pollSession pollConnected
  exact .startAcquisition pollEnv 2 (.connect pollEnv "cam" .fresh)

/-- C25 on a streaming camera with a cached exposure time.  The transport
layer accepted the registration at connect (handle 13, stored in
`m_eventHandle` and replaced by the handle 27 of the new-buffer event when the
stream starts); `getExposureTime()` cached `100.000000`.  With an invalidation
of `ExposureTime` pending at every poll, three iterations of the delivery loop
wait for buffers only and the cache entry stays; had the thread been given the
registered handle, its first iteration would have polled and evicted the
entry. -/
theorem delivery_never_polls_feature_event_witness :
    (Reachable pollSession ∧
      pollConnected.state = .Connected ∧
      pollConnected.trace.drop 11 =
        [.tl (.GCRegisterEvent 9 .EVENT_FEATURE_INVALIDATE),
         .tl (.GCRegisterEvent 9 .EVENT_FEATURE_CHANGE)] ∧
      pollEnv.err 11 = 0 ∧
      pollConnected.eventHandle = 13 ∧
      pollSession.state = .Acquiring ∧
      pollSession.eventHandle = 27 ∧
      cachedValue "ExposureTime" pollCached.p = some "100.000000") ∧
    (pollSession.featureEventHandle = 0 ∧
      probeFeatureEvents pendingEnv ⟨⟨(liftP getExposureTime pollSession).2, 0⟩, []⟩ =
        (.ok false, ⟨⟨(liftP getExposureTime pollSession).2, 0⟩, []⟩) ∧
      Avoids Ev.isFeaturePoll (liftP getExposureTime pollSession).2
        (acquisitionThreadFunction pendingEnv (sourceHelpers EnumEntry.symbolic)
          EnumEntry.symbolic 3
          ⟨⟨(liftP getExposureTime pollSession).2, 0⟩, []⟩).2.process.session) ∧
    (newEvents pollCached pollDelivered.process.session).filter
        (fun e => !decide (e ∈ [Ev.tl (.DSGetBufferInfo 18 2 .BUFFER_INFO_BASE),
          Ev.tl (.DSGetBufferInfo 18 2 .BUFFER_INFO_WIDTH),
          Ev.tl (.DSGetBufferInfo 18 2 .BUFFER_INFO_HEIGHT),
          Ev.tl (.DSGetBufferInfo 18 2 .BUFFER_INFO_PIXELFORMAT),
          Ev.tl (.DSQueueBuffer 18 2)])) =
      [.tl (.EventGetData 27 100), .tl (.EventGetData 27 100), .tl (.EventGetData 27 100)] ∧
    cachedValue "ExposureTime" pollDelivered.process.session.p = some "100.000000" ∧
    (newEvents pollCached (pollAssigned 13).process.session).take 3 =
      [.tl (.EventGetInfo 13 .EVENT_EVENT_TYPE), .tl (.EventGetData 13 0),
       .tl (.EventGetDataInfo 13)] ∧
    cachedValue "ExposureTime" (pollAssigned 13).process.session.p = none := by
  have h := delivery_never_polls_feature_event pendingEnv (sourceHelpers EnumEntry.symbolic)
    EnumEntry.symbolic 3 pollSession reachable_pollSession ℚ getExposureTime 0 []
  exact ⟨⟨reachable_pollSession, by decide!, by decide!,
      by decide!, by decide!, by decide!, by decide!, by decide!⟩,
    h, by decide!, by decide!, by decide!, by decide!⟩

/-! ## C28: what the delivery loop tells the listener about a buffer -/

theorem tlCallD_run (env : TLEnv) (c : TLCall) (d : Delivery) :
    tlCallD env c d =
      (.ok ⟨env.err d.process.session.trace.length, env.num d.process.session.trace.length,
        env.str d.process.session.trace.length, env.bytes d.process.session.trace.length⟩,
        d.logged (.tl c)) := rfl

theorem liftD_param_run {α : Type} (m : PM α) (d : Delivery) :
    liftD (liftS (liftP m)) d =
      ((m d.process.session.p).1, d.withP (m d.process.session.p).2) := rfl

@[simp] theorem logged_trace (d : Delivery) (e : Ev) :
    (d.logged e).process.session.trace = d.process.session.trace ++ [e] := rfl

@[simp] theorem logged_notices (d : Delivery) (e : Ev) : (d.logged e).notices = d.notices := rfl

@[simp] theorem logged_listener (d : Delivery) (e : Ev) :
    (d.logged e).process.session.eventListener = d.process.session.eventListener := rfl

@[simp] theorem logged_dsHandle (d : Delivery) (e : Ev) :
    (d.logged e).process.session.dsHandle = d.process.session.dsHandle := rfl

@[simp] theorem logged_bufferSize (d : Delivery) (e : Ev) :
    (d.logged e).process.session.bufferSize = d.process.session.bufferSize := rfl

@[simp] theorem logged_p (d : Delivery) (e : Ev) :
    (d.logged e).process.session.p = d.process.session.p := rfl

@[simp] theorem withP_trace (d : Delivery) (q : PState) :
    (d.withP q).process.session.trace = d.process.session.trace := rfl

@[simp] theorem withP_notices (d : Delivery) (q : PState) : (d.withP q).notices = d.notices := rfl

@[simp] theorem withP_listener (d : Delivery) (q : PState) :
    (d.withP q).process.session.eventListener = d.process.session.eventListener := rfl

@[simp] theorem withP_dsHandle (d : Delivery) (q : PState) :
    (d.withP q).process.session.dsHandle = d.process.session.dsHandle := rfl

@[simp] theorem noted_trace (d : Delivery) (n : Notice) :
    (d.noted n).process.session.trace = d.process.session.trace := rfl

@[simp] theorem noted_notices (d : Delivery) (n : Notice) :
    (d.noted n).notices = d.notices ++ [n] := rfl

@[simp] theorem noted_listener (d : Delivery) (n : Notice) :
    (d.noted n).process.session.eventListener = d.process.session.eventListener := rfl

@[simp] theorem noted_dsHandle (d : Delivery) (n : Notice) :
    (d.noted n).process.session.dsHandle = d.process.session.dsHandle := rfl

theorem tell_run (n : Notice) (throws : Listener → Option Exn) (d : Delivery) (l : Listener)
    (hl : d.process.session.eventListener = some l) :
    tell n throws d =
      (match throws l with
        | some e => .error e
        | none => .ok (), d.noted n) := by
  simp only [tell, bind_run, getS_run, hl, modS_run]
  cases throws l <;> rfl

theorem tell_absent (n : Notice) (throws : Listener → Option Exn) (d : Delivery)
    (hl : d.process.session.eventListener = none) : tell n throws d = (.ok (), d) := by
  simp only [tell, bind_run, getS_run, hl, pure_run]

/-- The `try` block on a buffer whose base address is not available. -/
theorem processBuffer_unavailable (env : TLEnv) (h : Helpers) (entryName : EnumEntry → String)
    (hBuffer : Nat) (d : Delivery)
    (hbase : baseAvailable env d.process.session.trace.length = false) :
    processBuffer env h entryName hBuffer d =
      (.ok (), d.logged (.tl (.DSGetBufferInfo d.process.session.dsHandle hBuffer
        .BUFFER_INFO_BASE))) := by
  simp only [baseAvailable, decide_eq_false_iff_not] at hbase
  simp only [processBuffer, bind_run, getS_run, tlCallD_run, hbase, if_false, pure_run]

theorem processBuffer_available (env : TLEnv) (h : Helpers) (entryName : EnumEntry → String)
    (hBuffer : Nat) (d : Delivery) (k : Nat) (hk : k = d.process.session.trace.length)
    (hbase : baseAvailable env k = true) :
    processBuffer env h entryName hBuffer d =
      match h.convertBufferToMat d.process.session.bufferSize (frameWidth env k)
          (frameHeight env k) (frameFormat env k) with
      | .error e =>
        (.error e, (((d.logged (.tl (.DSGetBufferInfo d.process.session.dsHandle hBuffer
            .BUFFER_INFO_BASE))).logged
          (.tl (.DSGetBufferInfo d.process.session.dsHandle hBuffer .BUFFER_INFO_WIDTH))).logged
          (.tl (.DSGetBufferInfo d.process.session.dsHandle hBuffer .BUFFER_INFO_HEIGHT))).logged
          (.tl (.DSGetBufferInfo d.process.session.dsHandle hBuffer .BUFFER_INFO_PIXELFORMAT)))
      | .ok image =>
        if image.empty = true then
          (.ok (), (((d.logged (.tl (.DSGetBufferInfo d.process.session.dsHandle hBuffer
              .BUFFER_INFO_BASE))).logged
            (.tl (.DSGetBufferInfo d.process.session.dsHandle hBuffer .BUFFER_INFO_WIDTH))).logged
            (.tl (.DSGetBufferInfo d.process.session.dsHandle hBuffer .BUFFER_INFO_HEIGHT))).logged
            (.tl (.DSGetBufferInfo d.process.session.dsHandle hBuffer
              .BUFFER_INFO_PIXELFORMAT)))
        else
          (liftD (liftS (liftP (readFrameParameters entryName))) >>= fun _ =>
            tell (.frameReady (frameWidth env k) (frameHeight env k) (frameFormat env k))
              Listener.onFrameReady)
            (((((d.logged (.tl (.DSGetBufferInfo d.process.session.dsHandle hBuffer
              .BUFFER_INFO_BASE))).logged
            (.tl (.DSGetBufferInfo d.process.session.dsHandle hBuffer .BUFFER_INFO_WIDTH))).logged
            (.tl (.DSGetBufferInfo d.process.session.dsHandle hBuffer .BUFFER_INFO_HEIGHT))).logged
            (.tl (.DSGetBufferInfo d.process.session.dsHandle hBuffer
              .BUFFER_INFO_PIXELFORMAT))).logged
            (.tl (.DSGetBufferInfo d.process.session.dsHandle hBuffer .BUFFER_INFO_FRAMEID))) := by
  subst hk
  simp only [baseAvailable, decide_eq_true_eq] at hbase
  simp only [processBuffer, bind_run, getS_run, tlCallD_run, hbase, ne_eq, not_false_eq_true,
    and_self, if_true, logged_trace, List.length_append, List.length_singleton, Nat.add_assoc,
    Nat.reduceAdd, frameWidth, frameHeight, frameFormat]
  cases h.convertBufferToMat d.process.session.bufferSize
      (if env.err (d.process.session.trace.length + 1) = 0
        then env.num (d.process.session.trace.length + 1) else 0)
      (if env.err (d.process.session.trace.length + 2) = 0
        then env.num (d.process.session.trace.length + 2) else 0)
      (convertFromGenICamPixelFormat (if env.err (d.process.session.trace.length + 3) = 0
        then env.num (d.process.session.trace.length + 3) else 0)) with
  | error e => rfl
  | ok image =>
    by_cases hempty : image.empty = true
    · simp only [hempty, if_true, pure_run]
    · simp only [hempty, Bool.false_eq_true, if_false, bind_run, tlCallD_run]

theorem readFrameParameters_run (entryName : EnumEntry → String) (d : Delivery)
    (hpar : (readFrameParameters entryName d.process.session.p).1 = .ok ()) :
    liftD (liftS (liftP (readFrameParameters entryName))) d =
      (.ok (), d.withP (readFrameParameters entryName d.process.session.p).2) := by
  rw [liftD_param_run, hpar]

/-- What the handling of a delivered buffer tells a listener whose `OnError`
does not throw, when decoder and `OnFrameReady` throw standard exceptions
only. -/
theorem handleBuffer_outcome (env : TLEnv) (h : Helpers) (entryName : EnumEntry → String)
    (hBuffer : Nat) (d : Delivery) (l : Listener) (k : Nat) (decoded : Except Exn Mat)
    (hk : k = d.process.session.trace.length)
    (hdecoded : decoded = h.convertBufferToMat d.process.session.bufferSize (frameWidth env k)
      (frameHeight env k) (frameFormat env k))
    (hl : d.process.session.eventListener = some l)
    (herr : l.onError = none)
    (hcb : ∀ e, l.onFrameReady = some e → e.isStd = true)
    (hdec : ∀ e, decoded = .error e → e.isStd = true)
    (hpar : (readFrameParameters entryName d.process.session.p).1 = .ok ()) :
    (handleBuffer env h entryName hBuffer d).1 = .ok () ∧
      (handleBuffer env h entryName hBuffer d).2.notices = d.notices ++
        (if baseAvailable env k = true then
          match decoded with
          | .error _ => [.processingError]
          | .ok image =>
            if image.empty = true then []
            else if l.onFrameReady = none then
              [.frameReady (frameWidth env k) (frameHeight env k) (frameFormat env k)]
            else
              [.frameReady (frameWidth env k) (frameHeight env k) (frameFormat env k),
                .processingError]
        else []) ∧
      ∃ pre, (handleBuffer env h entryName hBuffer d).2.process.session.trace =
          d.process.session.trace ++ pre ++
            [.tl (.DSQueueBuffer d.process.session.dsHandle hBuffer)] ∧
        ∀ e ∈ pre, Ev.isQueue e = false := by
  by_cases hbase : baseAvailable env k = true
  · have hrun := processBuffer_available env h entryName hBuffer d k hk hbase
    rw [← hdecoded] at hrun
    simp only [hbase, if_true]
    cases hd : decoded with
    | error e =>
      rw [hd] at hrun
      simp only at hrun
      have hstd := hdec e hd
      simp only [handleBuffer, bind_run, tryCatchIf_run, hrun, hstd, if_true]
      rw [tell_run _ _ _ l (by simp [hl]), herr]
      simp only [getS_run, tlCallD_run, pure_run]
      refine ⟨trivial, ?_, ?_⟩
      · simp
      · refine ⟨[Ev.tl (.DSGetBufferInfo d.process.session.dsHandle hBuffer .BUFFER_INFO_BASE),
          Ev.tl (.DSGetBufferInfo d.process.session.dsHandle hBuffer .BUFFER_INFO_WIDTH),
          Ev.tl (.DSGetBufferInfo d.process.session.dsHandle hBuffer .BUFFER_INFO_HEIGHT),
          Ev.tl (.DSGetBufferInfo d.process.session.dsHandle hBuffer .BUFFER_INFO_PIXELFORMAT)], ?_, ?_⟩
        · simp
        · intro e he
          simp only [List.mem_cons, List.mem_singleton, List.not_mem_nil, or_false] at he
          rcases he with rfl | rfl | rfl | rfl <;> rfl
    | ok image =>
      rw [hd] at hrun
      simp only at hrun
      by_cases hempty : image.empty = true
      · simp only [hempty, if_true] at hrun ⊢
        simp only [handleBuffer, bind_run, tryCatchIf_run, hrun, getS_run, tlCallD_run,
          pure_run]
        refine ⟨trivial, ?_, ?_⟩
        · simp
        · refine ⟨[Ev.tl (.DSGetBufferInfo d.process.session.dsHandle hBuffer .BUFFER_INFO_BASE),
          Ev.tl (.DSGetBufferInfo d.process.session.dsHandle hBuffer .BUFFER_INFO_WIDTH),
          Ev.tl (.DSGetBufferInfo d.process.session.dsHandle hBuffer .BUFFER_INFO_HEIGHT),
          Ev.tl (.DSGetBufferInfo d.process.session.dsHandle hBuffer .BUFFER_INFO_PIXELFORMAT)], ?_, ?_⟩
          · simp
          · intro e he
            simp only [List.mem_cons, List.mem_singleton, List.not_mem_nil, or_false] at he
            rcases he with rfl | rfl | rfl | rfl <;> rfl
      · simp only [hempty, Bool.false_eq_true, if_false] at hrun ⊢
        rw [bind_run, readFrameParameters_run entryName _ (by simpa using hpar)] at hrun
        simp only at hrun
        rw [tell_run _ _ _ l (by simp [hl])] at hrun
        cases hf : l.onFrameReady with
        | none =>
          rw [hf] at hrun
          simp only at hrun
          simp only [handleBuffer, bind_run, tryCatchIf_run, hrun, getS_run, tlCallD_run,
            pure_run]
          refine ⟨trivial, ?_, ?_⟩
          · simp
          · refine ⟨[Ev.tl (.DSGetBufferInfo d.process.session.dsHandle hBuffer .BUFFER_INFO_BASE),
          Ev.tl (.DSGetBufferInfo d.process.session.dsHandle hBuffer .BUFFER_INFO_WIDTH),
          Ev.tl (.DSGetBufferInfo d.process.session.dsHandle hBuffer .BUFFER_INFO_HEIGHT),
          Ev.tl (.DSGetBufferInfo d.process.session.dsHandle hBuffer .BUFFER_INFO_PIXELFORMAT),
          Ev.tl (.DSGetBufferInfo d.process.session.dsHandle hBuffer .BUFFER_INFO_FRAMEID)], ?_, ?_⟩
            · simp
            · intro e he
              simp only [List.mem_cons, List.mem_singleton, List.not_mem_nil, or_false] at he
              rcases he with rfl | rfl | rfl | rfl | rfl <;> rfl
        | some e =>
          rw [hf] at hrun
          simp only at hrun
          have hstd := hcb e hf
          simp only [handleBuffer, bind_run, tryCatchIf_run, hrun, hstd, if_true]
          rw [tell_run _ _ _ l (by simp [hl]), herr]
          simp only [getS_run, tlCallD_run, pure_run]
          refine ⟨trivial, ?_, ?_⟩
          · simp
          · refine ⟨[Ev.tl (.DSGetBufferInfo d.process.session.dsHandle hBuffer .BUFFER_INFO_BASE),
          Ev.tl (.DSGetBufferInfo d.process.session.dsHandle hBuffer .BUFFER_INFO_WIDTH),
          Ev.tl (.DSGetBufferInfo d.process.session.dsHandle hBuffer .BUFFER_INFO_HEIGHT),
          Ev.tl (.DSGetBufferInfo d.process.session.dsHandle hBuffer .BUFFER_INFO_PIXELFORMAT),
          Ev.tl (.DSGetBufferInfo d.process.session.dsHandle hBuffer .BUFFER_INFO_FRAMEID)], ?_, ?_⟩
            · simp
            · intro e he
              simp only [List.mem_cons, List.mem_singleton, List.not_mem_nil, or_false] at he
              rcases he with rfl | rfl | rfl | rfl | rfl <;> rfl
  · have hbase2 : baseAvailable env d.process.session.trace.length = false := by
      rw [← hk]
      simpa using hbase
    have hrun := processBuffer_unavailable env h entryName hBuffer d hbase2
    simp only [hbase, if_false]
    simp only [handleBuffer, bind_run, tryCatchIf_run, hrun, getS_run, tlCallD_run, pure_run]
    refine ⟨trivial, ?_, ?_⟩
    · simp
    · refine ⟨[Ev.tl (.DSGetBufferInfo d.process.session.dsHandle hBuffer .BUFFER_INFO_BASE)], ?_, ?_⟩
      · simp
      · intro e he
        simp only [List.mem_singleton] at he
        subst he
        rfl

/-- C28, amended.  An iteration of the delivery loop whose wait delivers a
buffer returns, so that the loop goes on, and has given the buffer back to the
queue exactly once, as its last call; this for a registered listener whose
`OnError` does not throw, when the decoder and `OnFrameReady` throw standard
exceptions only and the reading of exposure time and gain does not crash.
What the listener was told is: nothing when the base address of the buffer is
not available or the decoder returned an empty image (unknown format, zero
width or height, buffer too small); `OnError` once when the decoder threw;
`OnFrameReady` once when the buffer was decoded; and `OnFrameReady` followed
by `OnError` when `OnFrameReady` threw. -/
theorem delivered_buffer_told_to_listener (env : TLEnv) (h : Helpers)
    (entryName : EnumEntry → String) (hasFeatureEvents : Bool) (d : Delivery) (l : Listener)
    (k : Nat) (decoded : Except Exn Mat)
    (hk : k = d.process.session.trace.length)
    (hfeat : d.process.session.featureEventHandle = 0)
    (hwait : env.err k = 0) (hbuf : env.num k ≠ 0)
    (hdecoded : decoded = h.convertBufferToMat d.process.session.bufferSize
      (frameWidth env (k + 1)) (frameHeight env (k + 1)) (frameFormat env (k + 1)))
    (hl : d.process.session.eventListener = some l)
    (herr : l.onError = none)
    (hcb : ∀ e, l.onFrameReady = some e → e.isStd = true)
    (hdec : ∀ e, decoded = .error e → e.isStd = true)
    (hpar : (readFrameParameters entryName d.process.session.p).1 = .ok ()) :
    (deliveryIteration env h entryName hasFeatureEvents d).1 = .ok () ∧
    (deliveryIteration env h entryName hasFeatureEvents d).2.notices = d.notices ++
      (if baseAvailable env (k + 1) = true then
        match decoded with
        | .error _ => [.processingError]
        | .ok image =>
          if image.empty = true then []
          else if l.onFrameReady = none then
            [.frameReady (frameWidth env (k + 1)) (frameHeight env (k + 1))
              (frameFormat env (k + 1))]
          else
            [.frameReady (frameWidth env (k + 1)) (frameHeight env (k + 1))
              (frameFormat env (k + 1)), .processingError]
      else []) ∧
    ∃ pre, (deliveryIteration env h entryName hasFeatureEvents d).2.process.session.trace =
        d.process.session.trace ++
          Ev.tl (.EventGetData d.process.session.eventHandle 100) :: pre ++
          [.tl (.DSQueueBuffer d.process.session.dsHandle (env.num k))] ∧
      ∀ e ∈ pre, Ev.isQueue e = false := by
  have hto : ¬ (0 = GC_ERR_TIMEOUT) := by decide
  have hout := handleBuffer_outcome env h entryName (env.num k)
    (d.logged (.tl (.EventGetData d.process.session.eventHandle 100))) l (k + 1) decoded
    (by simp [hk]) hdecoded hl herr hcb hdec hpar
  obtain ⟨h1, h2, pre, h3, h4⟩ := hout
  have hrun : deliveryIteration env h entryName hasFeatureEvents d =
      handleBuffer env h entryName (env.num k)
        (d.logged (.tl (.EventGetData d.process.session.eventHandle 100))) := by
    simp only [deliveryIteration, bind_run, pollFeatureEvents_idle env hasFeatureEvents d hfeat,
      waitForBuffer, getS_run, tlCallD_run, ← hk, hwait, hto, if_false, if_true, hbuf, ne_eq,
      not_false_eq_true]
  rw [hrun]
  refine ⟨h1, ?_, pre, ?_, h4⟩
  · rw [h2]
    rfl
  · rw [h3]
    simp

/-- C28 on a streaming camera: a 4 by 2 `Mono8` frame in a buffer of 19 bytes
is decoded and the listener is told `OnFrameReady`, once. -/
theorem delivered_buffer_told_to_listener_witness :
    ((deliveryIteration (frameEnv 27 0 4 2 0x01080001) sizeDecoder EnumEntry.symbolic false
        (listening {})).1 = .ok () ∧
      (deliveryIteration (frameEnv 27 0 4 2 0x01080001) sizeDecoder EnumEntry.symbolic false
        (listening {})).2.notices = (listening {}).notices ++
        (if baseAvailable (frameEnv 27 0 4 2 0x01080001) (27 + 1) = true then
          match (Except.ok { empty := false } : Except Exn Mat) with
          | .error _ => [.processingError]
          | .ok image =>
            if image.empty = true then []
            else if ({} : Listener).onFrameReady = none then
              [.frameReady (frameWidth (frameEnv 27 0 4 2 0x01080001) (27 + 1))
                (frameHeight (frameEnv 27 0 4 2 0x01080001) (27 + 1))
                (frameFormat (frameEnv 27 0 4 2 0x01080001) (27 + 1))]
            else
              [.frameReady (frameWidth (frameEnv 27 0 4 2 0x01080001) (27 + 1))
                (frameHeight (frameEnv 27 0 4 2 0x01080001) (27 + 1))
                (frameFormat (frameEnv 27 0 4 2 0x01080001) (27 + 1)), .processingError]
        else []) ∧
      ∃ pre, (deliveryIteration (frameEnv 27 0 4 2 0x01080001) sizeDecoder EnumEntry.symbolic
          false (listening {})).2.process.session.trace =
          (listening {}).process.session.trace ++
            Ev.tl (.EventGetData (listening {}).process.session.eventHandle 100) :: pre ++
            [.tl (.DSQueueBuffer (listening {}).process.session.dsHandle
              ((frameEnv 27 0 4 2 0x01080001).num 27))] ∧
        ∀ e ∈ pre, Ev.isQueue e = false) ∧
    (listening {}).process.session.state = .Acquiring ∧
    (listening {}).process.session.bufferSize = 19 ∧
    (deliveryIteration (frameEnv 27 0 4 2 0x01080001) sizeDecoder EnumEntry.symbolic false
      (listening {})).2.notices = [.frameReady 4 2 .Mono8] := by
  have h := delivered_buffer_told_to_listener (frameEnv 27 0 4 2 0x01080001) sizeDecoder
    EnumEntry.symbolic false (listening {}) {} 27 (.ok { empty := false })
    (by decide!) (by decide!) (by decide!) (by decide!) (by decide!) (by decide!) rfl
    (fun e he => by cases he) (fun e he => by cases he) (by decide!)
  exact ⟨h, by decide!, by decide!, by decide!⟩

/-- C28, where the claim fails.  On a streaming camera with a registered
listener a delivered buffer leads to no call of the listener at all when its
base address is not available, when the frame is larger than the buffer
(40 by 20 `Mono8` in 19 bytes) and when the pixel format is unknown; the
buffer goes back to the queue and the loop goes on.  When `OnFrameReady`
throws a standard exception the listener is called twice, `OnFrameReady` and
then `OnError`.  When `OnFrameReady` throws something else the exception
leaves the loop, and the buffer is not given back.  Only a throwing decoder
gives the one call of `OnError`. -/
theorem delivered_buffer_without_notification :
    (listening {}).process.session.eventListener = some {} ∧
    (deliveryIteration (frameEnv 27 1 4 2 0x01080001) sizeDecoder EnumEntry.symbolic false
        (listening {})).1 = .ok () ∧
    (deliveryIteration (frameEnv 27 1 4 2 0x01080001) sizeDecoder EnumEntry.symbolic false
        (listening {})).2.notices = [] ∧
    (deliveryIteration (frameEnv 27 1 4 2 0x01080001) sizeDecoder EnumEntry.symbolic false
        (listening {})).2.process.session.trace.drop 27 =
      [.tl (.EventGetData 27 100), .tl (.DSGetBufferInfo 18 5 .BUFFER_INFO_BASE),
       .tl (.DSQueueBuffer 18 5)] ∧
    (deliveryIteration (frameEnv 27 0 40 20 0x01080001) sizeDecoder EnumEntry.symbolic false
        (listening {})).1 = .ok () ∧
    (deliveryIteration (frameEnv 27 0 40 20 0x01080001) sizeDecoder EnumEntry.symbolic false
        (listening {})).2.notices = [] ∧
    expectedSize .Mono8 40 20 = some 800 ∧
    (deliveryIteration (frameEnv 27 0 40 20 0x01080001) sizeDecoder EnumEntry.symbolic false
        (listening {})).2.process.session.trace.getLast? = some (.tl (.DSQueueBuffer 18 5)) ∧
    (deliveryIteration (frameEnv 27 0 4 2 0) sizeDecoder EnumEntry.symbolic false
        (listening {})).1 = .ok () ∧
    (deliveryIteration (frameEnv 27 0 4 2 0) sizeDecoder EnumEntry.symbolic false
        (listening {})).2.notices = [] ∧
    (deliveryIteration (frameEnv 27 0 4 2 0x01080001) sizeDecoder EnumEntry.symbolic false
        (listening { onFrameReady := some .stdExn })).1 = .ok () ∧
    (deliveryIteration (frameEnv 27 0 4 2 0x01080001) sizeDecoder EnumEntry.symbolic false
        (listening { onFrameReady := some .stdExn })).2.notices =
      [.frameReady 4 2 .Mono8, .processingError] ∧
    (deliveryIteration (frameEnv 27 0 4 2 0x01080001) sizeDecoder EnumEntry.symbolic false
        (listening { onFrameReady := some .foreign })).1 = .error .foreign ∧
    (deliveryIteration (frameEnv 27 0 4 2 0x01080001) sizeDecoder EnumEntry.symbolic false
        (listening { onFrameReady := some .foreign })).2.process.session.trace.getLast? =
      some (.tl (.DSGetBufferInfo 18 5 .BUFFER_INFO_FRAMEID)) ∧
    (deliveryLoop (frameEnv 27 0 4 2 0x01080001) sizeDecoder EnumEntry.symbolic false 3
        (listening { onFrameReady := some .foreign })).1 = .error .foreign ∧
    (deliveryIteration (frameEnv 27 0 4 2 0x01080001) throwingDecoder EnumEntry.symbolic false
        (listening {})).2.notices = [.processingError] :=
  ⟨by decide!, by decide!, by decide!, by decide!, by decide!, by decide!, by decide!,
   by decide!, by decide!, by decide!, by decide!, by decide!, by decide!, by decide!,
   by decide!, by decide!⟩

/-! ## C29: the acquiring flag and the state -/

theorem stable_sameAcquiring : Stable SameAcquiring :=
  ⟨fun _ => ⟨rfl, rfl⟩, fun _ _ _ h1 h2 => ⟨h2.1.trans h1.1, h2.2.trans h1.2⟩⟩

theorem respects_sameAcquiring (env : TLEnv) : Respects env SameAcquiring where
  stable := stable_sameAcquiring
  param := fun _ _ => ⟨rfl, rfl⟩
  call := fun _ _ _ => ⟨rfl, rfl⟩
  ring := fun _ _ _ _ => ⟨rfl, rfl⟩
  free := fun _ => ⟨rfl, rfl⟩

/-- The handler `catch (...)` of `grabSingleFrame` leaves the acquiring flag
and the state as they were when the exception was thrown. -/
theorem sameAcquiring_grabSingleFrameCleanup (env : TLEnv) (e : Exn) :
    Preserves SameAcquiring (grabSingleFrameCleanup env e) := by
  have hS := stable_sameAcquiring
  have hR := respects_sameAcquiring env
  unfold grabSingleFrameCleanup
  repeat' with_reducible first
    | exact preserves_pure hS _
    | exact preserves_raise hS _
    | exact preserves_getS hS
    | exact resp_freeBuffers hR
    | apply preserves_bind hS
    | apply preserves_ite
    | intro _
  all_goals first
    | exact fun _ => ⟨rfl, rfl⟩

/-- A connected session whose acquiring flag is set rejects `startAcquisition`
and is left as it was. -/
theorem startAcquisition_rejected_by_flag (env : TLEnv) (bufferCount : Nat) (s : St)
    (hconn : isConnected s = true) (hflag : s.isAcquiring = true) :
    startAcquisition env bufferCount s = (.error (.genicam .AcquisitionError 0), s) := by
  simp [startAcquisition, hconn, hflag]

/-- C29, failing input: `grabSingleFrame(1000)` on a connected device when the
wait for the new buffer times out.  The call sets the acquiring flag when it
has issued `AcquisitionStart`, and its handler, like every run of the handler,
leaves flag and state as they are: the session ends with the state `Connected`
and the flag set, and the `startAcquisition(2)` that follows is rejected with
`AcquisitionError` without a single call, as any `startAcquisition` on a
connected session with the flag set.  When the frame arrives the flag is
cleared and the `startAcquisition(2)` that follows succeeds. -/
theorem grabSingleFrame_timeout_leaves_acquiring_flag :
    (∀ (env : TLEnv) (e : Exn) (u : St),
      (grabSingleFrameCleanup env e u).2.isAcquiring = u.isAcquiring ∧
      (grabSingleFrameCleanup env e u).2.state = u.state) ∧
    (∀ (env : TLEnv) (bufferCount : Nat) (s : St),
      (startAcquisition env bufferCount { s with isAcquiring := true, state := .Connected }).1 =
        .error (.genicam .AcquisitionError 0)) ∧
    grabConnected.state = .Connected ∧ grabConnected.isAcquiring = false ∧
    grabTimedOut.1 = .error (.genicam .TimeoutError 1011) ∧
    grabTimedOut.2.state = .Connected ∧
    grabTimedOut.2.isAcquiring = true ∧
    (startAcquisition (grabEnv none) 2 grabTimedOut.2).1 =
      .error (.genicam .AcquisitionError 0) ∧
    (startAcquisition (grabEnv none) 2 grabTimedOut.2).2.trace = grabTimedOut.2.trace ∧
    (startAcquisition (grabEnv none) 2 grabTimedOut.2).2.state = .Connected ∧
    grabSucceeded.1 = .ok {} ∧
    grabSucceeded.2.state = .Connected ∧
    grabSucceeded.2.isAcquiring = false ∧
    (startAcquisition (grabEnv none) 2 grabSucceeded.2).1 = .ok () ∧
    (startAcquisition (grabEnv none) 2 grabSucceeded.2).2.state = .Acquiring ∧
    (startAcquisition (grabEnv none) 2 grabSucceeded.2).2.isAcquiring = true :=
  ⟨fun env e u => sameAcquiring_grabSingleFrameCleanup env e u,
   fun env bufferCount s => by
    have hrun := startAcquisition_rejected_by_flag env bufferCount
      { s with isAcquiring := true, state := .Connected } rfl rfl
    rw [hrun],
   by decide!, by decide!, by decide!, by decide!, by decide!, by decide!, by decide!,
   by decide!, by decide!, by decide!, by decide!, by decide!, by decide!, by decide!⟩

/-! ## C30: closing of interface and device handles in connect -/

/-- A search of the devices of an interface that ends without a match leaves
`m_ifHandle` as it was or set to the interface searched. -/
theorem deviceLoop_not_found (env : TLEnv) (cameraID : String) (tempIF : Nat) (n j : Nat)
    (s t : St) (h : deviceLoop env cameraID tempIF n j s = (.ok false, t)) :
    (∃ l, t.trace = s.trace ++ l) ∧ (t.ifHandle = s.ifHandle ∨ t.ifHandle = tempIF) := by
  induction n generalizing j s with
  | zero =>
    simp only [deviceLoop, pure_run, Prod.mk.injEq, true_and] at h
    subst h
    exact ⟨⟨[], by simp⟩, Or.inl rfl⟩
  | succ n ih =>
    unfold deviceLoop at h
    by_cases h0 : env.err s.trace.length = 0
    · simp only [bind_run, tlCall, h0, if_true, modS_run, List.length_append,
        List.length_singleton] at h
      by_cases h1 : env.err (s.trace.length + 1) = 0
      · simp only [h1, ne_eq, not_true_eq_false, if_false, bind_run, modS_run, tlCall,
          List.length_append, List.length_singleton] at h
        generalize (if env.err (s.trace.length + 1 + 1) = 0
          then env.str (s.trace.length + 1 + 1) else "") = uid at h
        by_cases hm : uid = cameraID
        · simp [hm] at h
        · simp only [hm, if_false, bind_run, modS_run, tlCall] at h
          obtain ⟨⟨l, hl⟩, hif⟩ := ih _ _ h
          simp only [List.append_assoc] at hl
          exact ⟨⟨_, hl⟩, Or.inr (by simpa using hif)⟩
      · simp only [h1, ne_eq, not_false_eq_true, if_true, bind_run, modS_run, tlCall,
          raise_run] at h
        simp at h
    · simp only [bind_run, tlCall, h0, if_false] at h
      obtain ⟨⟨l, hl⟩, hif⟩ := ih _ _ h
      simp only [List.append_assoc] at hl
      exact ⟨⟨_, hl⟩, by simpa using hif⟩

/-- A search of the interfaces that ends without a match leaves `m_ifHandle`
as it was or set to an interface the search has closed. -/
theorem interfaceLoop_not_found (env : TLEnv) (cameraID : String) (n i : Nat) (s t : St)
    (h : interfaceLoop env cameraID n i s = (.ok false, t)) :
    ∃ l, t.trace = s.trace ++ l ∧
      (t.ifHandle = s.ifHandle ∨ Ev.tl (.IFClose t.ifHandle) ∈ l) := by
  induction n generalizing i s with
  | zero =>
    simp only [interfaceLoop, pure_run, Prod.mk.injEq, true_and] at h
    subst h
    exact ⟨[], by simp, Or.inl rfl⟩
  | succ n ih =>
    unfold interfaceLoop at h
    by_cases h0 : env.err s.trace.length = 0
    · simp only [bind_run, tlCall, h0, ne_eq, not_true_eq_false, if_false, List.length_append,
        List.length_singleton] at h
      by_cases h1 : env.err (s.trace.length + 1) = 0
      · simp only [h1, ne_eq, not_true_eq_false, if_false, bind_run, tlCall,
          List.length_append, List.length_singleton] at h
        by_cases h2 : env.err (s.trace.length + 1 + 1) = 0
        · simp only [h2, if_true, bind_run, tlCall, List.length_append,
            List.length_singleton] at h
          generalize hcount : (if env.err (s.trace.length + 1 + 1 + 1) = 0
            then env.num (s.trace.length + 1 + 1 + 1) else 0) = count at h
          revert h
          cases hdl : deviceLoop env cameraID (env.num (s.trace.length + 1) + 1) count 0
              { s with trace := s.trace ++ [.tl (.TLGetInterfaceID i)] ++
                [.tl (.TLOpenInterface (env.str s.trace.length))] ++
                [.tl (.IFUpdateDeviceList (env.num (s.trace.length + 1) + 1))] ++
                [.tl (.IFGetNumDevices (env.num (s.trace.length + 1) + 1))] } with
          | mk r u =>
            cases r with
            | error e =>
              intro h
              simp at h
            | ok found =>
              cases found with
              | true =>
                intro h
                simp at h
              | false =>
                intro h
                simp only [Bool.false_eq_true, if_false, bind_run, tlCall] at h
                obtain ⟨⟨l1, hl1⟩, hif1⟩ := deviceLoop_not_found env cameraID _ _ _ _ _ hdl
                obtain ⟨l, hl, hif⟩ := ih _ _ h
                rw [hl1] at hl
                simp only [List.append_assoc, List.singleton_append, List.cons_append,
                  List.nil_append] at hl
                refine ⟨_, hl, ?_⟩
                rcases hif with hif | hif
                · simp only at hif hif1
                  rcases hif1 with hif1 | hif1
                  · exact Or.inl (by rw [hif, hif1])
                  · right
                    rw [hif, hif1]
                    simp
                · right
                  simp [hif]
        · simp only [h2, if_false, pure_run, Bool.false_eq_true, bind_run, tlCall] at h
          obtain ⟨l, hl, hif⟩ := ih _ _ h
          simp only [List.append_assoc, List.singleton_append, List.cons_append,
            List.nil_append] at hl
          refine ⟨_, hl, ?_⟩
          rcases hif with hif | hif
          · exact Or.inl (by simpa using hif)
          · right
            simp [hif]
      · simp only [h1, ne_eq, not_false_eq_true, if_true] at h
        obtain ⟨l, hl, hif⟩ := ih _ _ h
        simp only [List.append_assoc, List.singleton_append, List.cons_append,
          List.nil_append] at hl
        refine ⟨_, hl, ?_⟩
        rcases hif with hif | hif
        · exact Or.inl (by simpa using hif)
        · right
          simp [hif]
    · simp only [bind_run, tlCall, h0, ne_eq, not_false_eq_true, if_true] at h
      obtain ⟨l, hl, hif⟩ := ih _ _ h
      simp only [List.append_assoc, List.singleton_append, List.cons_append,
        List.nil_append] at hl
      refine ⟨_, hl, ?_⟩
      rcases hif with hif | hif
      · exact Or.inl (by simpa using hif)
      · right
        simp [hif]

/-- C30, where the code closes twice.  When the search of `connect` ends
without a match and leaves `m_ifHandle` set, to `t.ifHandle`, the search has
already closed that interface; `connect` then fails with `ConnectionError`
and its handler closes the same handle again, as the last call of the
attempt. -/
theorem connect_closes_interface_twice (env : TLEnv) (cameraID : String) (s t : St)
    (hd : s.state = .Disconnected) (hif : s.ifHandle = 0)
    (hupd : env.err s.trace.length = 0)
    (hloop : interfaceLoop env cameraID
      (if env.err (s.trace.length + 1) = 0 then env.num (s.trace.length + 1) else 0) 0
      { s with trace := s.trace ++ [.tl .TLUpdateInterfaceList, .tl .TLGetNumInterfaces] } =
        (.ok false, t))
    (hleft : t.ifHandle ≠ 0) :
    (connect env cameraID s).1 = .error (.genicam .ConnectionError 0) ∧
    2 ≤ (newEvents s (connect env cameraID s).2).count (.tl (.IFClose t.ifHandle)) ∧
    (connect env cameraID s).2.trace.getLast? = some (.tl (.IFClose t.ifHandle)) := by
  obtain ⟨l, hl, hcl⟩ := interfaceLoop_not_found env cameraID _ _ _ _ hloop
  have hmem : Ev.tl (.IFClose t.ifHandle) ∈ l := by
    rcases hcl with hcl | hcl
    · exact absurd (hcl.trans hif) hleft
    · exact hcl
  simp only at hl
  have hrun : connect env cameraID s =
      (.error (.genicam .ConnectionError 0),
        { t with
          devHandle := 0
          ifHandle := 0
          state := .Disconnected
          trace := t.trace ++ (if t.devHandle ≠ 0 then [.tl (.DevClose t.devHandle)] else []) ++
            [.tl (.IFClose t.ifHandle)] }) := by
    simp only [connect, bind_run, getS_run]
    rw [if_neg (by simp [hd])]
    simp only [tryCatchIf_run, connectBody, bind_run, tlCall, hupd, ne_eq, not_true_eq_false,
      if_false, List.length_append, List.length_singleton, List.append_assoc,
      List.singleton_append]
    rw [hloop]
    simp only [Bool.not_false, if_true, raise_run, Exn.isGenICam, connectRollback, bind_run,
      getS_run, modS_run]
    by_cases hdev : t.devHandle = 0
    · simp [hdev, hleft, tlCall]
    · simp [hdev, hleft, tlCall]
  rw [hrun]
  refine ⟨rfl, ?_, ?_⟩
  · simp only [newEvents, hl, List.append_assoc, List.drop_left]
    simp only [List.count_append, List.count_cons, List.count_nil]
    have h1 : 0 < List.count (Ev.tl (.IFClose t.ifHandle)) l := List.count_pos_iff.mpr hmem
    simp only [beq_self_eq_true, if_true]
    omega
  · simp

/-- C30 on a transport layer with one interface (handle 5) and one device
(handle 9) whose name is not the one asked for: `connect("other")` fails with
`ConnectionError`; the device handle is closed once, the interface handle is
closed by the search and closed again by the handler.  When the name matches,
`connect("cam")` succeeds and closes nothing. -/
theorem connect_closes_interface_twice_witness :
    ((connect searchEnv "other" initialSt).1 = .error (.genicam .ConnectionError 0) ∧
      2 ≤ (newEvents initialSt (connect searchEnv "other" initialSt).2).count
        (.tl (.IFClose searchEnded.ifHandle)) ∧
      (connect searchEnv "other" initialSt).2.trace.getLast? =
        some (.tl (.IFClose searchEnded.ifHandle))) ∧
    searchEnded.ifHandle = 5 ∧
    searchFailed.trace =
      [.tl .TLUpdateInterfaceList, .tl .TLGetNumInterfaces, .tl (.TLGetInterfaceID 0),
       .tl (.TLOpenInterface "cam"), .tl (.IFUpdateDeviceList 5), .tl (.IFGetNumDevices 5),
       .tl (.IFGetDeviceID 5 0), .tl (.IFOpenDevice 5 "cam"), .tl (.DevGetInfo 9),
       .tl (.DevClose 9), .tl (.IFClose 5), .tl (.IFClose 5)] ∧
    searchFailed.trace.count (.tl (.IFClose 5)) = 2 ∧
    searchFailed.trace.count (.tl (.DevClose 9)) = 1 ∧
    searchFailed.state = .Disconnected ∧
    (connect searchEnv "cam" initialSt).1 = .ok () ∧
    (connect searchEnv "cam" initialSt).2.trace.count (.tl (.IFClose 5)) = 0 ∧
    (connect searchEnv "cam" initialSt).2.trace.count (.tl (.DevClose 9)) = 0 := by
  have h := connect_closes_interface_twice searchEnv "other" initialSt searchEnded rfl rfl
    (by decide!) (by decide!) (by decide!)
  exact ⟨h, by decide!, by decide!, by decide!, by decide!, by decide!, by decide!, by decide!,
    by decide!⟩

/-! ## C17: invalidation events during streaming -/

theorem stable_uncounted : Stable Uncounted :=
  ⟨fun _ => ⟨rfl, rfl⟩, fun _ _ _ h1 h2 => ⟨h2.1.trans h1.1, h2.2.trans h1.2⟩⟩

theorem uncounted_tlCallD (env : TLEnv) (c : TLCall) : Preserves Uncounted (tlCallD env c) :=
  fun _ => ⟨rfl, rfl⟩

theorem uncounted_liftP {α : Type} (m : PM α) : Preserves Uncounted (liftD (liftS (liftP m))) :=
  fun _ => ⟨rfl, rfl⟩

theorem uncounted_modS (f : Delivery → Delivery) (h : ∀ d, (f d).process = d.process) :
    Preserves Uncounted (modS f) := by
  intro d
  simp only [modS_run, Uncounted, h d]
  exact ⟨rfl, trivial⟩

theorem uncounted_tell (n : Notice) (throws : Listener → Option Exn) :
    Preserves Uncounted (tell n throws) := by
  have hS := stable_uncounted
  unfold tell
  repeat' with_reducible first
    | exact preserves_pure hS _
    | exact preserves_raise hS _
    | exact preserves_getS hS
    | exact uncounted_modS _ (fun _ => rfl)
    | apply preserves_bind hS
    | intro _
    | split

theorem uncounted_waitForBuffer (env : TLEnv) (h : Helpers) (entryName : EnumEntry → String) :
    Preserves Uncounted (waitForBuffer env h entryName) := by
  have hS := stable_uncounted
  simp only [waitForBuffer, handleBuffer, processBuffer]
  repeat' with_reducible first
    | exact preserves_pure hS _
    | exact preserves_raise hS _
    | exact preserves_getS hS
    | exact uncounted_liftP _
    | exact uncounted_tell _ _
    | exact uncounted_tlCallD env _
    | apply preserves_bind hS
    | apply preserves_tryCatchIf hS
    | apply preserves_ite
    | intro _
    | split

theorem uncounted_deliveryLoop (env : TLEnv) (h : Helpers) (entryName : EnumEntry → String)
    (hasFeatureEvents : Bool) (iterations : Nat) (d : Delivery)
    (hd : d.process.session.featureEventHandle = 0) :
    Uncounted d (deliveryLoop env h entryName hasFeatureEvents iterations d).2 := by
  induction iterations generalizing d with
  | zero => exact stable_uncounted.refl d
  | succ n ih =>
    simp only [deliveryLoop, bind_run, getS_run]
    by_cases hstop : d.process.session.stopAcquisition = true
    · simp only [hstop, if_true]
      exact stable_uncounted.refl d
    · simp only [hstop, Bool.false_eq_true, if_false, deliveryIteration, bind_run,
        pollFeatureEvents_idle env hasFeatureEvents d hd]
      have hw := uncounted_waitForBuffer env h entryName d
      cases hrun : waitForBuffer env h entryName d with
      | mk r d1 =>
        rw [hrun] at hw
        cases r with
        | ok a =>
          exact stable_uncounted.trans _ _ _ hw (ih d1 (hw.1.trans hd))
        | error e => exact hw

/-- C17, where the code handles no event.  The only call of
`handleFeatureInvalidation` is in the poll of the delivery loop, behind
`m_featureEventHandle`, which is null in every session reached through the
public operations.  So, whatever the transport layer answers and however many
iterations the delivery thread runs, the count of handled invalidation events
stays where it was, and at the state the thread has reached the poll of the
next iteration does nothing again: no event is handled and none triggers a
refresh. -/
theorem pending_invalidations_never_handled (env : TLEnv) (h : Helpers)
    (entryName : EnumEntry → String) (iterations : Nat) (s : St) (hs : Reachable s)
    (α : Type) (m : PM α) (count : Nat) (notices : List Notice) (hasFeatureEvents : Bool) :
    (acquisitionThreadFunction env h entryName iterations
      ⟨⟨(liftP m s).2, count⟩, notices⟩).2.process.invalidationCount = count ∧
    pollFeatureEvents env hasFeatureEvents
        (acquisitionThreadFunction env h entryName iterations
          ⟨⟨(liftP m s).2, count⟩, notices⟩).2 =
      (.ok (), (acquisitionThreadFunction env h entryName iterations
        ⟨⟨(liftP m s).2, count⟩, notices⟩).2) := by
  have hz := featureEventHandle_of_reachable s hs
  have hd : (⟨⟨(liftP m s).2, count⟩, notices⟩ : Delivery).process.session.featureEventHandle
      = 0 := hz
  have hrun : acquisitionThreadFunction env h entryName iterations
      ⟨⟨(liftP m s).2, count⟩, notices⟩ =
      deliveryLoop env h entryName false iterations ⟨⟨(liftP m s).2, count⟩, notices⟩ := by
    simp only [acquisitionThreadFunction, bind_run, probeFeatureEvents_idle env _ hd]
  rw [hrun]
  have hu := uncounted_deliveryLoop env h entryName false iterations _ hd
  exact ⟨hu.2, pollFeatureEvents_idle env hasFeatureEvents _ (hu.1.trans hd)⟩

theorem reachable_laterSession : Reachable laterSession := by
  unfold laterSession
  exact .advanceClock 50 reachable_pollSession

/-- C17 on a streaming camera with a cached exposure time, 50 ms after the
last refresh, with an invalidation pending at every poll.  In eleven
iterations the delivery loop waits eleven times for a buffer and polls no
feature event: no event is handled, the count stays 0, the cache keeps its
entry and the last refresh is still the one at time 0.  The handler, had it
been called for eleven features, would have left the cache untouched for the
first ten and emptied it in a refresh at time 50 on the eleventh. -/
theorem pending_invalidations_never_handled_witness :
    ((acquisitionThreadFunction pendingEnv (sourceHelpers EnumEntry.symbolic)
        EnumEntry.symbolic 11
        ⟨⟨(liftP getExposureTime laterSession).2, 0⟩, []⟩).2.process.invalidationCount = 0 ∧
      pollFeatureEvents pendingEnv true
          (acquisitionThreadFunction pendingEnv (sourceHelpers EnumEntry.symbolic)
            EnumEntry.symbolic 11 ⟨⟨(liftP getExposureTime laterSession).2, 0⟩, []⟩).2 =
        (.ok (), (acquisitionThreadFunction pendingEnv (sourceHelpers EnumEntry.symbolic)
          EnumEntry.symbolic 11 ⟨⟨(liftP getExposureTime laterSession).2, 0⟩, []⟩).2)) ∧
    laterCached.state = .Acquiring ∧
    laterCached.p.now = 50 ∧ laterCached.p.lastNodeMapRefresh = 0 ∧
    laterCached.p.parameterCache = [{ key := "ExposureTime", value := "100.000000", stamp := 50 }] ∧
    (newEvents laterCached elevenPending.process.session).count (.tl (.EventGetData 27 100)) =
      11 ∧
    (newEvents laterCached elevenPending.process.session).any Ev.isFeaturePoll = false ∧
    elevenPending.process.invalidationCount = 0 ∧
    elevenPending.process.session.p.parameterCache =
      [{ key := "ExposureTime", value := "100.000000", stamp := 50 }] ∧
    elevenPending.process.session.p.lastNodeMapRefresh = 0 ∧
    (handleEvents (elevenFeatures.take 10) ⟨laterCached, 0⟩).2.session.p.parameterCache =
      [{ key := "ExposureTime", value := "100.000000", stamp := 50 }] ∧
    (handleEvents elevenFeatures ⟨laterCached, 0⟩).1 = .ok () ∧
    elevenHandled.session.p.parameterCache = [] ∧
    elevenHandled.session.p.lastNodeMapRefresh = 50 ∧
    elevenHandled.invalidationCount = 0 := by
  have h := pending_invalidations_never_handled pendingEnv (sourceHelpers EnumEntry.symbolic)
    EnumEntry.symbolic 11 laterSession reachable_laterSession ℚ getExposureTime 0 [] true
  exact ⟨h, by decide!, by decide!, by decide!, by decide!, by decide!, by decide!, by decide!,
    by decide!, by decide!, by decide!, by decide!, by decide!, by decide!, by decide!⟩

/-! ## C19: register URLs whose name has no `.zip` -/

theorem scheme_not_file (scheme rest : List Char)
    (hscheme : scheme = "local:///".data ∨ scheme = "Local:".data) :
    "file://".data.isPrefixOf (scheme ++ rest) = false ∧
      "http://".data.isPrefixOf (scheme ++ rest) = false := by
  have e1 : "local:///".data = ['l', 'o', 'c', 'a', 'l', ':', '/', '/', '/'] := rfl
  have e2 : "Local:".data = ['L', 'o', 'c', 'a', 'l', ':'] := rfl
  have e3 : "file://".data = ['f', 'i', 'l', 'e', ':', '/', '/'] := rfl
  have e4 : "http://".data = ['h', 't', 't', 'p', ':', '/', '/'] := rfl
  rcases hscheme with h | h
  · subst h
    rw [e1, e3, e4]
    simp [List.isPrefixOf]
  · subst h
    rw [e2, e3, e4]
    simp [List.isPrefixOf]

/-- The inner block of `connect` on a register URL without `.zip`: the URL
goes to the file loader. -/
theorem connectGenApi_path_run (env : TLEnv) (s : St)
    (scheme name address size query : List Char)
    (hscheme : scheme = "local:///".data ∨ scheme = "Local:".data)
    (hzip : containsSub ".zip".data (registerURL scheme name address size query) = false)
    (herr : env.err s.trace.length = 0)
    (hurl : (env.str s.trace.length).data = registerURL scheme name address size query) :
    connectGenApi env s =
      ((liftP newNodeMap >>= fun _ =>
          liftP (loadXML (env.xmlFile (env.str s.trace.length))) >>= fun _ =>
          liftP (connectPort env)) >>= fun _ =>
        liftP validateAtConnect >>= fun _ => registerFeatureInvalidationEvents env)
        { s with p := { s.p with hasCameraPort := true },
                 trace := s.trace ++ [.tl (.GCGetPortURL s.portHandle)] } := by
  have hpre := scheme_accepted scheme (name ++ ';' :: (address ++ ';' :: (size ++ query))) hscheme
  have hnot := scheme_not_file scheme (name ++ ';' :: (address ++ ';' :: (size ++ query))) hscheme
  have hlen : (env.str s.trace.length).length > 0 := by
    rw [String.length, hurl]
    unfold registerURL
    rcases hscheme with h | h <;> subst h <;> simp
  unfold registerURL at hzip hurl
  simp only [connectGenApi, bind_run, liftP_run, modS_run, getS_run, tlCall, herr, hlen, hurl,
    hpre, hzip, hnot.1, hnot.2, and_self, if_true, Bool.and_false, Bool.false_eq_true, if_false]

theorem avoids_registerFeatureInvalidationEvents (env : TLEnv) :
    Preserves (Avoids Ev.isReadPort) (registerFeatureInvalidationEvents env) := by
  have hS := stable_avoids Ev.isReadPort
  unfold registerFeatureInvalidationEvents
  repeat' with_reducible first
    | exact preserves_pure hS _
    | exact preserves_getS hS
    | exact avoids_modS _ _ (fun _ => rfl)
    | apply preserves_bind hS
    | apply preserves_ite
    | intro _
  all_goals exact avoids_tlCall _ env _ rfl

/-- C19, where the code falls short of the claim.  A port URL
`local:///<name>;<hexAddress>;<hexSize>[?...]` or
`Local:<name>;<hexAddress>;<hexSize>[?...]` in which `.zip` does not occur is
not read from the device port: after it has asked for the URL, `connect`
issues no port read at all, whatever the device would answer, and gives the
whole URL to the file loader as a path; when no such file can be loaded the
block ends with the loader's exception right after the URL query, and when
one can, the description is that file and not the register contents. -/
theorem register_url_without_zip_skips_port (env : TLEnv) (s : St)
    (scheme name address size query : List Char)
    (hscheme : scheme = "local:///".data ∨ scheme = "Local:".data)
    (hzip : containsSub ".zip".data (registerURL scheme name address size query) = false)
    (herr : env.err s.trace.length = 0)
    (hurl : (env.str s.trace.length).data = registerURL scheme name address size query) :
    Avoids Ev.isReadPort s (connectGenApi env s).2 ∧
    (∃ rest, (connectGenApi env s).2.trace =
      s.trace ++ .tl (.GCGetPortURL s.portHandle) :: rest) ∧
    (env.xmlFile (env.str s.trace.length) = none →
      (connectGenApi env s).1 = .error .generic ∧
      (connectGenApi env s).2.trace = s.trace ++ [.tl (.GCGetPortURL s.portHandle)]) ∧
    (∀ ns, env.xmlFile (env.str s.trace.length) = some ns →
      (connectGenApi env s).2.p.pNodeMap = some ⟨some ns⟩) := by
  have hrun := connectGenApi_path_run env s scheme name address size query hscheme hzip herr hurl
  have hS := stable_avoids Ev.isReadPort
  have hav : Preserves (Avoids Ev.isReadPort)
      ((liftP newNodeMap >>= fun _ =>
          liftP (loadXML (env.xmlFile (env.str s.trace.length))) >>= fun _ =>
          liftP (connectPort env)) >>= fun _ =>
        liftP validateAtConnect >>= fun _ => registerFeatureInvalidationEvents env) := by
    repeat' with_reducible first
      | exact avoids_liftP _ _
      | exact avoids_registerFeatureInvalidationEvents env
      | apply preserves_bind hS
      | intro _
  have hkept := treeKept_after env
    (liftP newNodeMap >>= fun _ =>
      liftP (loadXML (env.xmlFile (env.str s.trace.length))) >>= fun _ =>
      liftP (connectPort env))
    { s with p := { s.p with hasCameraPort := true },
             trace := s.trace ++ [.tl (.GCGetPortURL s.portHandle)] }
  rw [← hrun] at hkept
  refine ⟨?_, ?_, ?_, ?_⟩
  · rw [hrun]
    refine hS.trans _ _ _ ⟨[.tl (.GCGetPortURL s.portHandle)], rfl, ?_⟩ (hav _)
    intro e he
    rw [List.mem_singleton.mp he]
    rfl
  · rw [hrun]
    obtain ⟨l, hl, _⟩ := hav _
    exact ⟨l, by rw [hl]; simp⟩
  · intro hnone
    rw [hrun, hnone]
    simp [bind_run, liftP_run, newNodeMap, modS_run, loadXML]
  · intro ns hsome
    obtain ⟨ht, _⟩ := hkept
    rw [ht, hsome]
    cases hc : env.connectPortFails <;>
      simp [bind_run, liftP_run, newNodeMap, modS_run, loadXML, connectPort, hc]

/-- C19 on the port URL `local:///cam.xml;1000;200`, which asks for 0x200
bytes at register 0x1000: nothing is read from the port, and since no file of
that name exists the block ends with the file loader's exception right after
the URL query. -/
theorem register_url_without_zip_skips_port_witness :
    registerURL "local:///".data "cam.xml".data "1000".data "200".data [] =
      "local:///cam.xml;1000;200".data ∧
    isHexNumeral "1000".data = true ∧ isHexNumeral "200".data = true ∧
    hexValue "1000".data = 4096 ∧ hexValue "200".data = 512 ∧
    Avoids Ev.isReadPort initialSt
      (connectGenApi (urlOnlyEnv "local:///cam.xml;1000;200" zipBytes) initialSt).2 ∧
    (connectGenApi (urlOnlyEnv "local:///cam.xml;1000;200" zipBytes) initialSt).1 =
      .error .generic ∧
    (connectGenApi (urlOnlyEnv "local:///cam.xml;1000;200" zipBytes) initialSt).2.trace =
      initialSt.trace ++ [.tl (.GCGetPortURL initialSt.portHandle)] :=
  have h := register_url_without_zip_skips_port
    (urlOnlyEnv "local:///cam.xml;1000;200" zipBytes) initialSt
    "local:///".data "cam.xml".data "1000".data "200".data [] (Or.inl rfl) (by decide!)
    (by decide!) (by decide!)
  ⟨by decide!, by decide!, by decide!, by decide!, by decide!, h.1,
    (h.2.2.1 (by decide!)).1, (h.2.2.1 (by decide!)).2⟩
end GenICamWrapper
